import Mathlib

/-!
# Ouzel renderer back end (OpenGL): deferred deletion, frame execution, initialisation

A shallow embedding of `ouzel/graphics/opengl/RendererOGL.cpp`, of
`ouzel/graphics/BlendStateResource.hpp`, of `ouzel/graphics/opengl/OGLDepthStencilState.cpp`,
and of the object ids of `ouzel/audio/Mixer.hpp`.

* Backend handles (`GLuint`), enums and bit masks are natural numbers.
* The renderer, its process-wide state cache, the deletion queue and the
  texture objects that draw commands share are gathered in one explicit state
  record, `RendererOGL`, which every operation takes and returns.
* Every call that reaches the graphics driver is appended to `calls`, oldest
  first, so that statements about "which backend calls are issued, and in
  which order" become statements about that list.
* The driver is an oracle: `faults` lists the answers the driver will give to
  the fallible operations, in the order they are asked (`true`: the operation
  reports an error).  Theorems quantify over every such list.
* Preprocessor switches are fields of `Build`.
* `init()` and `createFrameBuffer()` work on a record of their own, `RendererInit`, with the
  members they touch, the resource cache of the engine and the switches of `InitBuild`.
* `GLsizei` values are integers between -2^31 and 2^31 - 1; an operation on them that
  overflows has no result.  The pixel buffer of a screenshot is a list of bytes, and an access
  outside it has no result.
* `uintptr_t` object ids are natural numbers below `2 ^ bits`; the increment wraps.
-/

namespace ouzel
namespace graphics

abbrev GLuint := Nat
abbrev GLenum := Nat
abbrev GLbitfield := Nat
/-- A `float` is only ever passed through, never computed on: it is carried as its bit pattern. -/
abbrev GLfloat := Nat

def GL_POINTS : GLenum := 0x0000
def GL_LINES : GLenum := 0x0001
def GL_LINE_STRIP : GLenum := 0x0003
def GL_TRIANGLES : GLenum := 0x0004
def GL_TRIANGLE_STRIP : GLenum := 0x0005
def GL_DEPTH_BUFFER_BIT : GLbitfield := 0x00000100
def GL_COLOR_BUFFER_BIT : GLbitfield := 0x00004000
def GL_BACK : GLenum := 0x0405
def GL_DEPTH_WRITEMASK : GLenum := 0x0B72
def GL_LINE : GLenum := 0x1B01
def GL_FILL : GLenum := 0x1B02
def GL_NEAREST : GLenum := 0x2600
def GL_ARRAY_BUFFER : GLenum := 0x8892
def GL_ELEMENT_ARRAY_BUFFER : GLenum := 0x8893
def GL_READ_FRAMEBUFFER : GLenum := 0x8CA8
def GL_DRAW_FRAMEBUFFER : GLenum := 0x8CA9
def GL_FRAMEBUFFER : GLenum := 0x8D40

/-- The kinds of backend object the deletion queue can hold (`RendererOGL::ResourceType`),
as enumerated by the `switch` of `deleteResources`. -/
inductive ResourceType where
  | Buffer
  | VertexArray
  | RenderBuffer
  | FrameBuffer
  | Program
  | Shader
  | Texture
deriving DecidableEq, Repr

/-- The value of `OUZEL_OPENGL_INTERFACE_EAGL` / `OUZEL_OPENGL_INTERFACE_EGL`. -/
inductive GLInterface where
  | EAGL
  | EGL
  | OTHER
deriving DecidableEq, Repr

/-- Compile-time configuration: the preprocessor switches the code branches on, and the
constant `Texture::LAYERS`, whose declaration is outside RendererOGL.cpp.  `supportsOpenGL` is
`OUZEL_SUPPORTS_OPENGL` (desktop OpenGL), which the file tests with `#if` and with `#ifdef`;
`platformAndroid` is `OUZEL_PLATFORM_ANDROID`. -/
structure Build where
  supportsOpenGL : Bool
  platformAndroid : Bool
  glInterface : GLInterface
  LAYERS : Nat
deriving DecidableEq, Repr

/-- An RGBA clear colour (`float[4]`). -/
structure ClearColor where
  r : GLfloat
  g : GLfloat
  b : GLfloat
  a : GLfloat
deriving DecidableEq, Repr, Inhabited

/-- Values of `Shader::DataType`; `OTHER` stands for every value the upload `switch`
sends to its `default` label. -/
inductive DataType where
  | FLOAT
  | FLOAT_VECTOR2
  | FLOAT_VECTOR3
  | FLOAT_VECTOR4
  | FLOAT_MATRIX3
  | FLOAT_MATRIX4
  | OTHER
deriving DecidableEq, Repr

/-- Values of `Renderer::DrawMode`; `OTHER` stands for every value the draw `switch`
sends to its `default` label. -/
inductive DrawMode where
  | POINT_LIST
  | LINE_LIST
  | LINE_STRIP
  | TRIANGLE_LIST
  | TRIANGLE_STRIP
  | OTHER
deriving DecidableEq, Repr

/-- A reference to a texture object shared between draw commands (a non-null
`std::shared_ptr<TextureOGL>`): its address in `RendererOGL.textures`. -/
abbrev TextureRef := Nat

/-- Every call that reaches the driver or the window system.  `glClear` carries, next to its
mask, the target `present()` was clearing (`none`: the default frame buffer); the other
constructors carry the arguments of the call.  `glDeleteVertexArrays` stands for the vertex-array
delete entry point of the interface (`glDeleteVertexArraysOES`, the extension pointer
`deleteVertexArraysOES`, or `glDeleteVertexArrays`); `glBindTexture` for the pair
`glActiveTexture`, `glBindTexture`; `glBlend`, `glDepthTest` and `glScissor` for the calls that
set the blend, depth-test and scissor state. -/
inductive GLCall where
  | glDeleteBuffers (id : GLuint)
  | glDeleteVertexArrays (id : GLuint)
  | glDeleteRenderbuffers (id : GLuint)
  | glDeleteFramebuffers (id : GLuint)
  | glDeleteProgram (id : GLuint)
  | glDeleteShader (id : GLuint)
  | glDeleteTextures (id : GLuint)
  | glBindVertexArray (id : GLuint)
  | glBindFramebuffer (target : GLenum) (id : GLuint)
  | glBindTexture (layer : Nat) (id : GLuint)
  | glUseProgram (id : GLuint)
  | glPolygonMode (mode : GLenum)
  | glBlend (enabled : Bool) (modeRGB modeAlpha srcRGB dstRGB srcAlpha dstAlpha : GLenum)
  | glViewport (x y width height : Int)
  | glUniform (dataType : DataType) (location : Int) (data : List GLfloat)
  | glClearColor (color : ClearColor)
  | glClear (target : Option TextureRef) (mask : GLbitfield)
  | glDepthMask (flag : Bool)
  | glDepthTest (enabled : Bool)
  | glGetIntegerv (pname : GLenum)
  | glScissor (enabled : Bool) (x y width height : Int)
  | bindBuffers (indexBufferId vertexBufferId : GLuint)
  | glDrawElements (mode : GLenum) (count : Int) (indexType : GLenum) (offset : Nat)
  | glDrawBuffer (mode : GLenum)
  | glBlitFramebuffer (width height : Int)
  | swapBuffers
deriving DecidableEq, Repr

/-- The process-wide mirror of the bindings of the context (`RendererOGL::StateCache`). -/
structure StateCache where
  bufferId : GLenum → GLuint
  vertexArrayId : GLuint
  frameBufferId : GLuint
  programId : GLuint
  textureId : Nat → GLuint
  polygonFillMode : GLenum
  depthMask : Bool
  depthTest : Bool
  scissorTest : Bool × Int × Int × Int × Int

structure BlendStateOGL where
  glBlendEnabled : Bool
  modeRGB : GLenum
  modeAlpha : GLenum
  sourceFactorRGB : GLenum
  destFactorRGB : GLenum
  sourceFactorAlpha : GLenum
  destFactorAlpha : GLenum
deriving DecidableEq, Repr

/-- The fields of a `TextureOGL` that `present()` reads or writes. -/
structure TextureOGL where
  textureId : GLuint
  frameBufferId : GLuint
  frameBufferClearedFrame : Nat
  clearMask : GLbitfield
  frameBufferClearColor : ClearColor
deriving DecidableEq, Repr

/-- One declared constant slot of a shader stage (`ShaderOGL::Location`). -/
structure Location where
  location : Int
  dataType : DataType
deriving DecidableEq, Repr

structure ShaderOGL where
  programId : GLuint
  pixelShaderConstantLocations : List Location
  vertexShaderConstantLocations : List Location
deriving DecidableEq, Repr

structure BufferOGL where
  bufferId : GLuint
deriving DecidableEq, Repr

structure MeshBufferOGL where
  indexBuffer : Option BufferOGL
  vertexBuffer : Option BufferOGL
  indexType : GLenum
  bytesPerIndex : Nat
deriving DecidableEq, Repr

/-- A rectangle whose coordinates are the values after the `static_cast` to `GLint`/`GLsizei`. -/
structure Rectangle where
  x : Int
  y : Int
  width : Int
  height : Int
deriving DecidableEq, Repr

/-- One entry of the draw queue.  Null `shared_ptr`s are `none`.  Blend state, shader and mesh
buffer are not modified while a frame is presented and are held by value; textures are held by
reference, because `present()` writes the cleared-frame stamp of a render target. -/
structure DrawCommand where
  drawMode : DrawMode
  indexCount : Nat
  startIndex : Nat
  wireframe : Bool
  blendState : Option BlendStateOGL
  textures : List (Option TextureRef)
  shader : Option ShaderOGL
  pixelShaderConstants : List (List GLfloat)
  vertexShaderConstants : List (List GLfloat)
  renderTarget : Option TextureRef
  viewport : Rectangle
  scissorTestEnabled : Bool
  scissorTest : Rectangle
  depthTest : Bool
  depthWrite : Bool
  meshBuffer : Option MeshBufferOGL
deriving DecidableEq, Repr

/-- The renderer together with the static members of the class, the texture objects and the
driver. -/
structure RendererOGL where
  stateCache : StateCache
  deleteQueue : List (GLuint × ResourceType)
  /-- Whether the extension pointer `deleteVertexArraysOES` is non-null (EGL interface). -/
  deleteVertexArraysOES : Bool
  frameBufferId : GLuint
  systemFrameBufferId : GLuint
  frameBufferWidth : Int
  frameBufferHeight : Int
  frameBufferClearColor : ClearColor
  clearMask : GLbitfield
  frameBufferClearedFrame : Nat
  currentFrame : Nat
  drawQueue : List DrawCommand
  textures : TextureRef → TextureOGL
  calls : List GLCall
  faults : List Bool

/-- Issue one backend call. -/
def RendererOGL.emit (r : RendererOGL) (c : GLCall) : RendererOGL :=
  { r with calls := r.calls ++ [c] }

/-- Ask the driver for the outcome of the next fallible operation (`true`: it failed).  An
exhausted list answers "no error". -/
def RendererOGL.nextFault (r : RendererOGL) : Bool × RendererOGL :=
  match r.faults with
  | [] => (false, r)
  | f :: rest => (f, { r with faults := rest })

/-- Modelled from the spec: `checkOpenGLError()` is declared outside RendererOGL.cpp; it
reports whether the driver flagged an error, which is the next answer of the oracle. -/
def checkOpenGLError (r : RendererOGL) : Bool × RendererOGL :=
  r.nextFault

/-- Modelled from the spec: the state-cache helper `bindVertexArray` is declared outside
RendererOGL.cpp.  Following the `bind(bindingPoint, handle)` contract, a handle equal to the
cached one is elided; otherwise the backend call is issued and the cache updated.  Its result
is not used by the caller. -/
def bindVertexArray (id : GLuint) (r : RendererOGL) : RendererOGL :=
  if r.stateCache.vertexArrayId = id then r
  else { r.emit (.glBindVertexArray id) with
         stateCache := { r.stateCache with vertexArrayId := id } }

/-- The loop over `layer` in the `Texture` case of `deleteResources`: `n` layers remain, starting
at `layer`. -/
def scrubTextureLayers (resource : GLuint) : Nat → Nat → (Nat → GLuint) → (Nat → GLuint)
  | 0, _, textureId => textureId
  | n + 1, layer, textureId =>
    scrubTextureLayers resource n (layer + 1)
      (if textureId layer = resource then Function.update textureId layer 0 else textureId)

/-- The first statement of the `VertexArray` case: on Android unbind the vertex array, elsewhere
scrub the cached vertex array when it is the one being deleted. -/
def releaseVertexArray (b : Build) (resource : GLuint) (r : RendererOGL) : RendererOGL :=
  if b.platformAndroid then bindVertexArray 0 r
  else if r.stateCache.vertexArrayId = resource
    then { r with stateCache := { r.stateCache with vertexArrayId := 0 } } else r

/-- The second statement of the `VertexArray` case: the delete entry point of the interface
(`glDeleteVertexArraysOES`, the extension pointer `deleteVertexArraysOES` when it is non-null,
or `glDeleteVertexArrays`). -/
def deleteVertexArray (b : Build) (resource : GLuint) (r : RendererOGL) : RendererOGL :=
  match b.glInterface with
  | .EAGL => r.emit (.glDeleteVertexArrays resource)
  | .EGL => if r.deleteVertexArraysOES then r.emit (.glDeleteVertexArrays resource) else r
  | .OTHER => r.emit (.glDeleteVertexArrays resource)

/-- The body of the `for (;;)` loop of `deleteResources` after the entry has been popped: the
`switch` on the resource type. -/
def deleteOne (b : Build) (deleteResource : GLuint × ResourceType) (r : RendererOGL) :
    RendererOGL :=
  match deleteResource.2 with
  | .Buffer =>
    let c1 := r.stateCache
    let c2 := if c1.bufferId GL_ELEMENT_ARRAY_BUFFER = deleteResource.1
      then { c1 with bufferId := Function.update c1.bufferId GL_ELEMENT_ARRAY_BUFFER 0 } else c1
    let c3 := if c2.bufferId GL_ARRAY_BUFFER = deleteResource.1
      then { c2 with bufferId := Function.update c2.bufferId GL_ARRAY_BUFFER 0 } else c2
    { r with stateCache := c3 }.emit (.glDeleteBuffers deleteResource.1)
  | .VertexArray =>
    deleteVertexArray b deleteResource.1 (releaseVertexArray b deleteResource.1 r)
  | .RenderBuffer => r.emit (.glDeleteRenderbuffers deleteResource.1)
  | .FrameBuffer =>
    let r1 := if r.stateCache.frameBufferId = deleteResource.1
      then { r with stateCache := { r.stateCache with frameBufferId := 0 } } else r
    r1.emit (.glDeleteFramebuffers deleteResource.1)
  | .Program =>
    let r1 := if r.stateCache.programId = deleteResource.1
      then { r with stateCache := { r.stateCache with programId := 0 } } else r
    r1.emit (.glDeleteProgram deleteResource.1)
  | .Shader => r.emit (.glDeleteShader deleteResource.1)
  | .Texture =>
    { r with stateCache := { r.stateCache with
        textureId := scrubTextureLayers deleteResource.1 b.LAYERS 0 r.stateCache.textureId }
    }.emit (.glDeleteTextures deleteResource.1)

/-- The `for (;;)` loop of `deleteResources`, run for at most `fuel` iterations: each iteration
leaves through `break` when the queue is empty, and otherwise pops the front entry and
dispatches on its type. -/
def deleteResourcesLoop (b : Build) : Nat → RendererOGL → RendererOGL
  | 0, r => r
  | fuel + 1, r =>
    match r.deleteQueue with
    | [] => r
    | deleteResource :: rest =>
      deleteResourcesLoop b fuel (deleteOne b deleteResource { r with deleteQueue := rest })

/-- `RendererOGL::deleteResources()`.  No other thread enqueues while it runs, so the loop needs
at most as many iterations as the queue has entries on entry. -/
def deleteResources (b : Build) (r : RendererOGL) : RendererOGL :=
  deleteResourcesLoop b r.deleteQueue.length r

/-! ## The state-cache helpers

The helpers below are declared in the header of the class, outside RendererOGL.cpp.  They
follow the `bind(bindingPoint, handle)` contract of the state cache: binding the value that is
already cached is elided, any other value issues the backend call and updates the cache in the
same step.  Binding points that the state cache does not record (blend function, viewport) reach
the driver every time.  `present()` reads the Boolean result of a helper as "the call
succeeded"; that result is the next answer of the driver oracle. -/

/-- Modelled from the spec: the Boolean result of a helper that is missing from
RendererOGL.cpp.  `present()` returns `false` when it is `false`; it is taken from the driver
oracle, whether or not the helper elided its backend call. -/
def helperResult (r : RendererOGL) : Bool × RendererOGL :=
  let (fault, r1) := r.nextFault
  (!fault, r1)

/-- Modelled from the spec: `bindFrameBuffer(frameBufferId)`, declared in the class header and
missing from RendererOGL.cpp; the frame buffer is a binding point of the state cache. -/
def bindFrameBuffer (frameBufferId : GLuint) (r : RendererOGL) : Bool × RendererOGL :=
  helperResult
    (if r.stateCache.frameBufferId = frameBufferId then r
     else { r.emit (.glBindFramebuffer GL_FRAMEBUFFER frameBufferId) with
            stateCache := { r.stateCache with frameBufferId := frameBufferId } })

/-- Modelled from the spec: `bindTexture(textureId, layer)`, declared in the class header and
missing from RendererOGL.cpp; each texture layer is a binding point of the state cache. -/
def bindTexture (textureId : GLuint) (layer : Nat) (r : RendererOGL) : Bool × RendererOGL :=
  helperResult
    (if r.stateCache.textureId layer = textureId then r
     else { r.emit (.glBindTexture layer textureId) with
            stateCache := { r.stateCache with
              textureId := Function.update r.stateCache.textureId layer textureId } })

/-- Modelled from the spec: `useProgram(programId)`, declared in the class header and missing
from RendererOGL.cpp; the program is a binding point of the state cache.  `present()` ignores
its result. -/
def useProgram (programId : GLuint) (r : RendererOGL) : RendererOGL :=
  if r.stateCache.programId = programId then r
  else { r.emit (.glUseProgram programId) with
         stateCache := { r.stateCache with programId := programId } }

/-- Modelled from the spec: `setPolygonFillMode(mode)`, declared in the class header and
missing from RendererOGL.cpp; the polygon mode is recorded in the state cache.  `present()`
ignores its result. -/
def setPolygonFillMode (mode : GLenum) (r : RendererOGL) : RendererOGL :=
  if r.stateCache.polygonFillMode = mode then r
  else { r.emit (.glPolygonMode mode) with
         stateCache := { r.stateCache with polygonFillMode := mode } }

/-- Modelled from the spec: `depthMask(flag)`, declared in the class header and missing from
RendererOGL.cpp; the depth mask is recorded in the state cache.  `present()` ignores its
result. -/
def depthMask (flag : Bool) (r : RendererOGL) : RendererOGL :=
  if r.stateCache.depthMask = flag then r
  else { r.emit (.glDepthMask flag) with
         stateCache := { r.stateCache with depthMask := flag } }

/-- Modelled from the spec: `enableDepthTest(enable)`, declared in the class header and missing
from RendererOGL.cpp; the depth state is recorded in the state cache.  `present()` ignores its
result. -/
def enableDepthTest (enable : Bool) (r : RendererOGL) : RendererOGL :=
  if r.stateCache.depthTest = enable then r
  else { r.emit (.glDepthTest enable) with
         stateCache := { r.stateCache with depthTest := enable } }

/-- Modelled from the spec: `setScissorTest(enabled, x, y, width, height)`, declared in the
class header and missing from RendererOGL.cpp; the scissor state is recorded in the state
cache.  `present()` ignores its result. -/
def setScissorTest (enabled : Bool) (x y width height : Int) (r : RendererOGL) : RendererOGL :=
  if r.stateCache.scissorTest = (enabled, x, y, width, height) then r
  else { r.emit (.glScissor enabled x y width height) with
         stateCache := { r.stateCache with scissorTest := (enabled, x, y, width, height) } }

/-- Modelled from the spec: `setBlendState(...)`, declared in the class header and missing from
RendererOGL.cpp; the blend function is not among the binding points of the state cache, so the
call always reaches the driver. -/
def setBlendState (blendState : BlendStateOGL) (r : RendererOGL) : Bool × RendererOGL :=
  helperResult
    (r.emit (.glBlend blendState.glBlendEnabled blendState.modeRGB blendState.modeAlpha
      blendState.sourceFactorRGB blendState.destFactorRGB
      blendState.sourceFactorAlpha blendState.destFactorAlpha))

/-- Modelled from the spec: `setViewport(x, y, width, height)`, declared in the class header
and missing from RendererOGL.cpp; the viewport is not among the binding points of the state
cache, so the call always reaches the driver. -/
def setViewport (x y width height : Int) (r : RendererOGL) : Bool × RendererOGL :=
  helperResult (r.emit (.glViewport x y width height))

/-- Modelled from the spec: `MeshBufferOGL::bindBuffers()` is defined outside
RendererOGL.cpp; it is recorded as one call naming the two buffers, and may fail. -/
def MeshBufferOGL.bindBuffers (indexBufferId vertexBufferId : GLuint) (r : RendererOGL) :
    Bool × RendererOGL :=
  helperResult (r.emit (.bindBuffers indexBufferId vertexBufferId))

/-- Modelled from the spec: the base-class `Renderer::present()` is defined outside
RendererOGL.cpp.  Its result is an answer of the oracle; the state given to `present` is the
one the base class leaves behind. -/
def Renderer.present (r : RendererOGL) : Bool × RendererOGL :=
  helperResult r

/-- `RendererOGL::lockContext()`. -/
def lockContext (r : RendererOGL) : Bool × RendererOGL :=
  (true, r)

/-- `RendererOGL::swapBuffers()`; the call is recorded. -/
def swapBuffers (r : RendererOGL) : Bool × RendererOGL :=
  (true, r.emit .swapBuffers)

/-! ## `RendererOGL::present()` -/

/-- How the body of the loop over the draw queue is left: `next` is `continue` or the end of
the body, `abort` is `return false`. -/
inductive Flow where
  | next
  | abort
deriving DecidableEq, Repr

/-- How the loop over the texture layers is left: all layers bound, `break` with
`texturesValid = false`, or `return false`. -/
inductive TextureFlow where
  | valid
  | invalid
  | failed
deriving DecidableEq, Repr

/-- How an upload loop over the constants of one stage is left: all uploaded, `return false`
from the `default` label, or an index outside one of the two vectors. -/
inductive UploadFlow where
  | done
  | unsupported
  | outOfBounds
deriving DecidableEq, Repr

/-- The texture a draw command binds to a layer: `textures[layer]` when the vector is long
enough, and null otherwise. -/
def DrawCommand.textureAt (drawCommand : DrawCommand) (layer : Nat) : Option TextureRef :=
  if drawCommand.textures.length > layer then (drawCommand.textures.get? layer).join else none

/-- The loop `for (layer = 0; layer < Texture::LAYERS; ++layer)` of `present()`: `n` layers
remain, starting at `layer`. -/
def bindTextures (drawCommand : DrawCommand) : Nat → Nat → RendererOGL → TextureFlow × RendererOGL
  | 0, _, r => (.valid, r)
  | n + 1, layer, r =>
    match drawCommand.textureAt layer with
    | some texture =>
      if (r.textures texture).textureId = 0 then (.invalid, r)
      else
        let (ok, r1) := bindTexture (r.textures texture).textureId layer r
        if !ok then (.failed, r1) else bindTextures drawCommand n (layer + 1) r1
    | none =>
      let (ok, r1) := bindTexture 0 layer r
      if !ok then (.failed, r1) else bindTextures drawCommand n (layer + 1) r1

/-- The `switch` on the data type of a location: the upload call, or `none` for `default`. -/
def uniformCall (location : Location) (constant : List GLfloat) : Option GLCall :=
  match location.dataType with
  | .FLOAT => some (.glUniform .FLOAT location.location constant)
  | .FLOAT_VECTOR2 => some (.glUniform .FLOAT_VECTOR2 location.location constant)
  | .FLOAT_VECTOR3 => some (.glUniform .FLOAT_VECTOR3 location.location constant)
  | .FLOAT_VECTOR4 => some (.glUniform .FLOAT_VECTOR4 location.location constant)
  | .FLOAT_MATRIX3 => some (.glUniform .FLOAT_MATRIX3 location.location constant)
  | .FLOAT_MATRIX4 => some (.glUniform .FLOAT_MATRIX4 location.location constant)
  | .OTHER => none

/-- The loop `for (i = 0; i < constants.size(); ++i)` that uploads the constants of one stage
(the pixel and the vertex stage run the same code): `n` iterations remain, starting at `i`. -/
def uploadConstants (locations : List Location) (constants : List (List GLfloat)) :
    Nat → Nat → RendererOGL → UploadFlow × RendererOGL
  | 0, _, r => (.done, r)
  | n + 1, i, r =>
    match locations.get? i, constants.get? i with
    | some location, some constant =>
      match uniformCall location constant with
      | some call => uploadConstants locations constants n (i + 1) (r.emit call)
      | none => (.unsupported, r)
    | _, _ => (.outOfBounds, r)

/-- The `switch` on the draw mode: the backend primitive, or `none` for `default`. -/
def glDrawMode : DrawMode → Option GLenum
  | .POINT_LIST => some GL_POINTS
  | .LINE_LIST => some GL_LINES
  | .LINE_STRIP => some GL_LINE_STRIP
  | .TRIANGLE_LIST => some GL_TRIANGLES
  | .TRIANGLE_STRIP => some GL_TRIANGLE_STRIP
  | .OTHER => none

/-- The conversion `static_cast<GLsizei>` of a `uint32_t`. -/
def toGLsizei (n : Nat) : Int :=
  if n % 2 ^ 32 < 2 ^ 31 then (n % 2 ^ 32 : Nat) else ((n % 2 ^ 32 : Nat) : Int) - 2 ^ 32

/-- The `glDrawElements` call of a draw command with the given primitive and mesh buffer; the
offset is the product of two `uint32_t`. -/
def drawElementsCall (drawCommand : DrawCommand) (mode : GLenum) (meshBuffer : MeshBufferOGL) :
    GLCall :=
  .glDrawElements mode (toGLsizei drawCommand.indexCount) meshBuffer.indexType
    ((drawCommand.startIndex * meshBuffer.bytesPerIndex) % 2 ^ 32)

/-- The part of the loop body from `// mesh buffer` to its end. -/
def drawMesh (drawCommand : DrawCommand) (r : RendererOGL) : Flow × RendererOGL :=
  match drawCommand.meshBuffer with
  | none => (.next, r)
  | some meshBufferOGL =>
    match meshBufferOGL.indexBuffer, meshBufferOGL.vertexBuffer with
    | some indexBufferOGL, some vertexBufferOGL =>
      if indexBufferOGL.bufferId = 0 ∨ vertexBufferOGL.bufferId = 0 then (.next, r)
      else
        match glDrawMode drawCommand.drawMode with
        | none => (.abort, r)
        | some mode =>
          let (ok, r1) :=
            MeshBufferOGL.bindBuffers indexBufferOGL.bufferId vertexBufferOGL.bufferId r
          if !ok then (.abort, r1)
          else
            let r2 := r1.emit (drawElementsCall drawCommand mode meshBufferOGL)
            let (error, r3) := checkOpenGLError r2
            if error then (.abort, r3) else (.next, r3)
    | _, _ => (.next, r)

/-- The block `if (newClearMask) { ... }` of the loop body: allow depth writes when the depth
buffer is cleared, set the clear colour, clear, and check for an error (`true`: the clear
failed and `present()` returns `false`). -/
def clearTarget (target : Option TextureRef) (newClearMask : GLbitfield)
    (newClearColor : ClearColor) (r : RendererOGL) : Bool × RendererOGL :=
  if newClearMask ≠ 0 then
    let r1 := if newClearMask &&& GL_DEPTH_BUFFER_BIT ≠ 0 then depthMask true r else r
    checkOpenGLError ((r1.emit (.glClearColor newClearColor)).emit (.glClear target newClearMask))
  else (false, r)

/-- The statements of the loop body between the clear and the mesh buffer: depth test, the
query of the depth write mask, depth mask and scissor test. -/
def setDepthAndScissor (drawCommand : DrawCommand) (r : RendererOGL) : RendererOGL :=
  let r1 := enableDepthTest drawCommand.depthTest r
  let r2 := r1.emit (.glGetIntegerv GL_DEPTH_WRITEMASK)
  let r3 := depthMask drawCommand.depthWrite r2
  setScissorTest drawCommand.scissorTestEnabled drawCommand.scissorTest.x
    drawCommand.scissorTest.y drawCommand.scissorTest.width drawCommand.scissorTest.height r3

/-- The part of the loop body from `bindFrameBuffer(newFrameBufferId)` on: the target has been
resolved to `newFrameBufferId`, `newClearMask`, `newClearColor`; `target` names the target those
came from. -/
def drawToTarget (drawCommand : DrawCommand) (target : Option TextureRef)
    (newFrameBufferId : GLuint) (newClearMask : GLbitfield) (newClearColor : ClearColor)
    (r : RendererOGL) : Flow × RendererOGL :=
  let (ok, r1) := bindFrameBuffer newFrameBufferId r
  if !ok then (.abort, r1)
  else
    let r2 := (setViewport drawCommand.viewport.x drawCommand.viewport.y
      drawCommand.viewport.width drawCommand.viewport.height r1).2
    let (error, r3) := clearTarget target newClearMask newClearColor r2
    if error then (.abort, r3)
    else drawMesh drawCommand (setDepthAndScissor drawCommand r3)

/-- The call `renderTargetOGL->setFrameBufferClearedFrame(frame)` on the texture object that
`target` refers to. -/
def RendererOGL.setFrameBufferClearedFrame (r : RendererOGL) (target : TextureRef)
    (frame : Nat) : RendererOGL :=
  { r with
    textures := Function.update r.textures target
      { r.textures target with frameBufferClearedFrame := frame } }

/-- The part of the loop body from `// render target` on: resolve the target and decide, with
the cleared-frame stamp, whether it is cleared by this command.  `newClearColor` starts
uninitialised in the source and is read only when `newClearMask` is non-zero, that is after it
has been assigned. -/
def renderTarget (drawCommand : DrawCommand) (r : RendererOGL) : Flow × RendererOGL :=
  match drawCommand.renderTarget with
  | some target =>
    let renderTargetOGL := r.textures target
    if renderTargetOGL.frameBufferId = 0 then (.next, r)
    else if renderTargetOGL.frameBufferClearedFrame ≠ r.currentFrame then
      drawToTarget drawCommand (some target) renderTargetOGL.frameBufferId
        renderTargetOGL.clearMask renderTargetOGL.frameBufferClearColor
        (r.setFrameBufferClearedFrame target r.currentFrame)
    else
      drawToTarget drawCommand (some target) renderTargetOGL.frameBufferId 0 default r
  | none =>
    if r.frameBufferClearedFrame ≠ r.currentFrame then
      drawToTarget drawCommand none r.frameBufferId r.clearMask r.frameBufferClearColor
        { r with frameBufferClearedFrame := r.currentFrame }
    else
      drawToTarget drawCommand none r.frameBufferId 0 default r

/-- The part of the loop body from `// shader` to the render target: validate the shader, use
its program, check the constant counts and upload the constants of both stages. -/
def useShader (drawCommand : DrawCommand) (r : RendererOGL) : Flow × RendererOGL :=
  match drawCommand.shader with
  | none => (.next, r)
  | some shaderOGL =>
    if shaderOGL.programId = 0 then (.next, r)
    else
      let r1 := useProgram shaderOGL.programId r
      if drawCommand.pixelShaderConstants.length > shaderOGL.pixelShaderConstantLocations.length
      then (.abort, r1)
      else
        match uploadConstants shaderOGL.pixelShaderConstantLocations
            drawCommand.pixelShaderConstants drawCommand.pixelShaderConstants.length 0 r1 with
        | (.done, r2) =>
          if drawCommand.vertexShaderConstants.length >
              shaderOGL.vertexShaderConstantLocations.length
          then (.abort, r2)
          else
            match uploadConstants shaderOGL.vertexShaderConstantLocations
                drawCommand.vertexShaderConstants drawCommand.vertexShaderConstants.length 0
                r2 with
            | (.done, r3) => renderTarget drawCommand r3
            | (_, r3) => (.abort, r3)
        | (_, r2) => (.abort, r2)

/-- The body of the loop over the draw queue, for one draw command. -/
def drawOne (b : Build) (drawCommand : DrawCommand) (r : RendererOGL) : Flow × RendererOGL :=
  if !b.supportsOpenGL && drawCommand.wireframe then (.next, r)
  else
    let r1 := if b.supportsOpenGL
      then setPolygonFillMode (if drawCommand.wireframe then GL_LINE else GL_FILL) r else r
    match drawCommand.blendState with
    | none => (.next, r1)
    | some blendStateOGL =>
      let (ok, r2) := setBlendState blendStateOGL r1
      if !ok then (.abort, r2)
      else
        match bindTextures drawCommand b.LAYERS 0 r2 with
        | (.failed, r3) => (.abort, r3)
        | (.invalid, r3) => (.next, r3)
        | (.valid, r3) => useShader drawCommand r3

/-- The loop `for (const DrawCommand& drawCommand : drawQueue)`: `false` when the body left
through `return false`. -/
def drawLoop (b : Build) : List DrawCommand → RendererOGL → Bool × RendererOGL
  | [], r => (true, r)
  | drawCommand :: rest, r =>
    match drawOne b drawCommand r with
    | (.abort, r1) => (false, r1)
    | (.next, r1) => drawLoop b rest r1

/-- The branch of `present()` taken when the draw queue is empty. -/
def presentEmpty (r : RendererOGL) : Bool × RendererOGL :=
  let r1 := { r with frameBufferClearedFrame := r.currentFrame }
  if r1.clearMask ≠ 0 then
    let (ok, r2) := bindFrameBuffer r1.frameBufferId r1
    if !ok then (false, r2)
    else
      let (ok, r3) := setViewport 0 0 r2.frameBufferWidth r2.frameBufferHeight r2
      if !ok then (false, r3)
      else
        let r4 := (r3.emit (.glClearColor r3.frameBufferClearColor)).emit
          (.glClear none r3.clearMask)
        let (error, r5) := checkOpenGLError r4
        if error then (false, r5) else swapBuffers r5
  else swapBuffers r1

/-- The end of `present()`, after the branch on the draw queue: on desktop OpenGL resolve the
frame buffer into the system frame buffer, then swap. -/
def presentFinish (b : Build) (r : RendererOGL) : Bool × RendererOGL :=
  if b.supportsOpenGL then
    let r1 := ((r.emit (.glBindFramebuffer GL_DRAW_FRAMEBUFFER r.systemFrameBufferId)).emit
      (.glBindFramebuffer GL_READ_FRAMEBUFFER r.frameBufferId)).emit (.glDrawBuffer GL_BACK)
    let (error, r2) := checkOpenGLError r1
    if error then (false, r2)
    else
      let r3 := r2.emit (.glBlitFramebuffer r2.frameBufferWidth r2.frameBufferHeight)
      let (error, r4) := checkOpenGLError r3
      if error then (false, r4)
      else
        let r5 := r4.emit (.glBindFramebuffer GL_READ_FRAMEBUFFER r4.systemFrameBufferId)
        swapBuffers
          { r5 with stateCache := { r5.stateCache with frameBufferId := r5.systemFrameBufferId } }
  else swapBuffers r

/-- The statement `if (drawQueue.empty()) { ... } else for (...) { ... }` of `present()`. -/
def presentFrame (b : Build) (r : RendererOGL) : Bool × RendererOGL :=
  if r.drawQueue.isEmpty then presentEmpty r else drawLoop b r.drawQueue r

/-- `RendererOGL::present()`. -/
def present (b : Build) (r : RendererOGL) : Bool × RendererOGL :=
  let (ok, r1) := Renderer.present r
  if !ok then (false, r1)
  else
    let (ok, r2) := lockContext r1
    if !ok then (false, r2)
    else
      let r3 := deleteResources b r2
      let (ok, r4) := presentFrame b r3
      if !ok then (false, r4) else presentFinish b r4

/-! ## Vocabulary of the statements -/

/-- The calls that free a backend object. -/
def GLCall.isDelete : GLCall → Bool
  | .glDeleteBuffers _ => true
  | .glDeleteVertexArrays _ => true
  | .glDeleteRenderbuffers _ => true
  | .glDeleteFramebuffers _ => true
  | .glDeleteProgram _ => true
  | .glDeleteShader _ => true
  | .glDeleteTextures _ => true
  | _ => false

/-- The indexed-draw call. -/
def GLCall.isDraw : GLCall → Bool
  | .glDrawElements _ _ _ _ => true
  | _ => false

/-- The clear call. -/
def GLCall.isClear : GLCall → Bool
  | .glClear _ _ => true
  | _ => false

/-- A clear of the given target (`none`: the default frame buffer). -/
def GLCall.isClearOf (target : Option TextureRef) : GLCall → Bool
  | .glClear t _ => t == target
  | _ => false

/-- The buffer swap. -/
def GLCall.isSwap : GLCall → Bool
  | .swapBuffers => true
  | _ => false

/-- The calls issued between an earlier state and a later one. -/
def issued (before after : RendererOGL) : List GLCall :=
  after.calls.drop before.calls.length

/-- The driver reports no error from this state on. -/
def RendererOGL.healthy (r : RendererOGL) : Prop :=
  ∀ f ∈ r.faults, f = false

instance (r : RendererOGL) : Decidable r.healthy := by
  unfold RendererOGL.healthy; infer_instance

/-- The delete entry point that matches the kind of a queue entry, applied to its handle. -/
def deleteCall (entry : GLuint × ResourceType) : GLCall :=
  match entry.2 with
  | .Buffer => .glDeleteBuffers entry.1
  | .VertexArray => .glDeleteVertexArrays entry.1
  | .RenderBuffer => .glDeleteRenderbuffers entry.1
  | .FrameBuffer => .glDeleteFramebuffers entry.1
  | .Program => .glDeleteProgram entry.1
  | .Shader => .glDeleteShader entry.1
  | .Texture => .glDeleteTextures entry.1

/-- Whether the drain has a delete entry point for the entry: always, except for a vertex array
on the EGL interface when the extension pointer `deleteVertexArraysOES` is null. -/
def hasDeleteEntryPoint (b : Build) (r : RendererOGL) (entry : GLuint × ResourceType) : Bool :=
  !(entry.2 = .VertexArray && b.glInterface = .EGL && !r.deleteVertexArraysOES)

/-- A state-cache slot of the given kind holds the handle: one of the two cached buffer
bindings, the cached vertex array, frame buffer or program, or one of the cached texture
layers.  Render buffers and shader objects have no slot. -/
def StateCache.holds (b : Build) (c : StateCache) (kind : ResourceType) (h : GLuint) : Prop :=
  match kind with
  | .Buffer => c.bufferId GL_ELEMENT_ARRAY_BUFFER = h ∨ c.bufferId GL_ARRAY_BUFFER = h
  | .VertexArray => c.vertexArrayId = h
  | .RenderBuffer => False
  | .FrameBuffer => c.frameBufferId = h
  | .Program => c.programId = h
  | .Shader => False
  | .Texture => ∃ layer, layer < b.LAYERS ∧ c.textureId layer = h

/-- The calls that only set driver state: neither a delete, a clear, a draw nor a swap. -/
def GLCall.isState (c : GLCall) : Bool :=
  !c.isDelete && !c.isDraw && !c.isClear && !c.isSwap

/-- The fields of the renderer that neither the drain nor the frame loop writes. -/
def RendererOGL.fixed (r : RendererOGL) :
    Bool × GLuint × GLuint × Int × Int × ClearColor × GLbitfield × Nat × List DrawCommand :=
  (r.deleteVertexArraysOES, r.frameBufferId, r.systemFrameBufferId, r.frameBufferWidth,
    r.frameBufferHeight, r.frameBufferClearColor, r.clearMask, r.currentFrame, r.drawQueue)

/-- The fields of a texture that `present()` only reads. -/
def TextureOGL.static (t : TextureOGL) : GLuint × GLuint × GLbitfield × ClearColor :=
  (t.textureId, t.frameBufferId, t.clearMask, t.frameBufferClearColor)

/-- The cleared-frame stamp of a target (`none`: the default frame buffer). -/
def RendererOGL.stamp (r : RendererOGL) : Option TextureRef → Nat
  | some t => (r.textures t).frameBufferClearedFrame
  | none => r.frameBufferClearedFrame

/-- The renderer went from `r` to `q` issuing exactly the calls `evs`: the oracle and the
deletion queue were only consumed from the front, the configuration was not written, textures
kept their identity, and a stamp changed only by being set to the current frame. -/
structure Run (r q : RendererOGL) (evs : List GLCall) : Prop where
  calls : q.calls = r.calls ++ evs
  faults : ∃ k, q.faults = r.faults.drop k
  deleteQueue : ∃ k, q.deleteQueue = r.deleteQueue.drop k
  fixed : q.fixed = r.fixed
  static : ∀ t, (q.textures t).static = (r.textures t).static
  stamp : ∀ t, q.stamp t = r.stamp t ∨ q.stamp t = r.currentFrame

/-- A run that issued only state-setting calls. -/
def Quiet (r q : RendererOGL) : Prop :=
  ∃ evs, Run r q evs ∧ ∀ e ∈ evs, e.isState = true

/-! ### The validation steps of a draw command

Each predicate below is one of the checks the loop body makes on a draw command before it
draws; they only read the command and the fields of textures that a frame does not write. -/

/-- The command is not skipped for being wireframe on a build without desktop OpenGL. -/
def passesWireframe (b : Build) (c : DrawCommand) : Bool :=
  !(!b.supportsOpenGL && c.wireframe)

/-- The texture the command binds to the layer, if any, has a backend texture id. -/
def textureValidAt (r : RendererOGL) (c : DrawCommand) (layer : Nat) : Bool :=
  match c.textureAt layer with
  | some t => (r.textures t).textureId ≠ 0
  | none => true

/-- Every texture the command binds to a layer below `LAYERS` has a backend texture id. -/
def texturesValid (b : Build) (r : RendererOGL) (c : DrawCommand) : Bool :=
  (List.range b.LAYERS).all fun layer => textureValidAt r c layer

/-- The shader is non-null and has a backend program. -/
def shaderValid (c : DrawCommand) : Bool :=
  match c.shader with
  | some sh => sh.programId ≠ 0
  | none => false

/-- The command gets as far as the constant-count checks: it is not skipped by the wireframe,
blend-state, texture or shader step. -/
def reachesConstants (b : Build) (r : RendererOGL) (c : DrawCommand) : Bool :=
  passesWireframe b c && c.blendState.isSome && texturesValid b r c && shaderValid c

/-- One stage submits more constants than the shader declares locations for that stage. -/
def constantsExceed (c : DrawCommand) : Bool :=
  match c.shader with
  | some sh =>
    decide (c.pixelShaderConstants.length > sh.pixelShaderConstantLocations.length) ||
      decide (c.vertexShaderConstants.length > sh.vertexShaderConstantLocations.length)
  | none => false

/-- The first `count` declared locations all have a data type the upload `switch` supports. -/
def uniformsSupported (locations : List Location) (count : Nat) : Bool :=
  (locations.take count).all fun l => l.dataType ≠ .OTHER

/-- Both stages pass the constant-count check and submit only supported data types. -/
def constantsValid (c : DrawCommand) : Bool :=
  match c.shader with
  | some sh =>
    decide (c.pixelShaderConstants.length ≤ sh.pixelShaderConstantLocations.length) &&
      uniformsSupported sh.pixelShaderConstantLocations c.pixelShaderConstants.length &&
      decide (c.vertexShaderConstants.length ≤ sh.vertexShaderConstantLocations.length) &&
      uniformsSupported sh.vertexShaderConstantLocations c.vertexShaderConstants.length
  | none => false

/-- The render target is the default frame buffer or has a backend frame buffer. -/
def targetValid (r : RendererOGL) (c : DrawCommand) : Bool :=
  match c.renderTarget with
  | some t => (r.textures t).frameBufferId ≠ 0
  | none => true

/-- The mesh buffer and its index and vertex buffers are non-null with backend buffers. -/
def meshValid (c : DrawCommand) : Bool :=
  match c.meshBuffer with
  | some mb =>
    match mb.indexBuffer, mb.vertexBuffer with
    | some i, some v => decide (i.bufferId ≠ 0) && decide (v.bufferId ≠ 0)
    | _, _ => false
  | none => false

/-- The draw mode is one of the five supported ones. -/
def modeValid (c : DrawCommand) : Bool :=
  (glDrawMode c.drawMode).isSome

/-- The command passes every validation step of the loop body. -/
def passesValidation (b : Build) (r : RendererOGL) (c : DrawCommand) : Bool :=
  reachesConstants b r c && constantsValid c && targetValid r c && meshValid c && modeValid c

/-- The indexed-draw call of a draw command: its primitive, index count, index type and the
byte offset of its start index. -/
def drawCallOf (c : DrawCommand) : Option GLCall :=
  match c.meshBuffer, glDrawMode c.drawMode with
  | some mb, some mode => some (drawElementsCall c mode mb)
  | _, _ => none

/-! ### Summaries of the calls of a run -/

/-- No call of the list frees an object or swaps the buffers. -/
def Calm (evs : List GLCall) : Prop :=
  ∀ e ∈ evs, e.isDelete = false ∧ e.isSwap = false

/-- The draw calls among `evs`, the calls of (a part of) the loop body for command `c` left with
flow `f`, when `ok` says that `c` passes the validation steps of that part: a draw call is
issued only for a command that passes, it is the command's own draw call, and a passing command
whose body runs to its end is drawn. -/
def Drawn (c : DrawCommand) (ok : Prop) (f : Flow) (evs : List GLCall) : Prop :=
  (evs.filter GLCall.isDraw = [] ∨
      (ok ∧ evs.filter GLCall.isDraw = (drawCallOf c).toList)) ∧
    (f = .next → ok → evs.filter GLCall.isDraw = (drawCallOf c).toList)

/-- The clear calls among `evs`, the calls of (a part of) the loop body that took the renderer
from `r` to `q` with target `target`: at most one, of that target, and only when the stamp of
the target was not the current frame before and is the current frame afterwards. -/
def Cleared (r q : RendererOGL) (target : Option TextureRef) (evs : List GLCall) : Prop :=
  evs.filter GLCall.isClear = [] ∨
    ∃ mask, evs.filter GLCall.isClear = [.glClear target mask] ∧
      r.stamp target ≠ r.currentFrame ∧ q.stamp target = r.currentFrame

/-- The draw calls of the commands of a queue that pass every validation step, in submission
order. -/
def validatedDraws (b : Build) (r : RendererOGL) (queue : List DrawCommand) : List GLCall :=
  (queue.filter (passesValidation b r)).filterMap drawCallOf

/-- No call of the list frees an object. -/
def NoDelete (evs : List GLCall) : Prop :=
  ∀ e ∈ evs, e.isDelete = false

/-- The calls of the empty-queue branch of `present()` when a clear was requested and the
driver reports no error: bind the frame buffer unless it is the cached one, set the viewport
and the clear colour, clear, swap. -/
def emptyFrameCalls (r : RendererOGL) : List GLCall :=
  (if r.stateCache.frameBufferId = r.frameBufferId then []
    else [.glBindFramebuffer GL_FRAMEBUFFER r.frameBufferId]) ++
  [.glViewport 0 0 r.frameBufferWidth r.frameBufferHeight,
    .glClearColor r.frameBufferClearColor, .glClear none r.clearMask, .swapBuffers]

/-- The calls of the end of `present()` when the driver reports no error: on desktop OpenGL the
resolve of the frame buffer into the system frame buffer, then the swap. -/
def finishCalls (b : Build) (r : RendererOGL) : List GLCall :=
  (if b.supportsOpenGL then
    [.glBindFramebuffer GL_DRAW_FRAMEBUFFER r.systemFrameBufferId,
      .glBindFramebuffer GL_READ_FRAMEBUFFER r.frameBufferId, .glDrawBuffer GL_BACK,
      .glBlitFramebuffer r.frameBufferWidth r.frameBufferHeight,
      .glBindFramebuffer GL_READ_FRAMEBUFFER r.systemFrameBufferId]
   else []) ++ [.swapBuffers]

/-! ## Sample configurations and states -/

/-- A desktop OpenGL build. -/
def desktopBuild : Build :=
  { supportsOpenGL := true, platformAndroid := false, glInterface := .OTHER, LAYERS := 4 }

/-- An OpenGL ES build on the EGL interface. -/
def eglBuild : Build :=
  { supportsOpenGL := false, platformAndroid := false, glInterface := .EGL, LAYERS := 4 }

/-- A state cache in which buffer 3 is the bound array buffer and texture 4 is bound to
layer 1. -/
def sampleCache : StateCache :=
  { bufferId := fun target => if target = GL_ARRAY_BUFFER then 3 else 0
    vertexArrayId := 0
    frameBufferId := 0
    programId := 0
    textureId := fun layer => if layer = 1 then 4 else 0
    polygonFillMode := GL_FILL
    depthMask := true
    depthTest := false
    scissorTest := (false, 0, 0, 0, 0) }

/-- A texture that is also a render target, not yet cleared in frame 1. -/
def sampleTexture : TextureOGL :=
  { textureId := 7
    frameBufferId := 9
    frameBufferClearedFrame := 0
    clearMask := GL_COLOR_BUFFER_BIT
    frameBufferClearColor := default }

/-- A renderer at the start of frame 1 with an empty draw queue, a requested colour clear, two
pending deletions and a driver that reports no error. -/
def sampleRenderer : RendererOGL :=
  { stateCache := sampleCache
    deleteQueue := [(3, .Buffer), (4, .Texture)]
    deleteVertexArraysOES := true
    frameBufferId := 1
    systemFrameBufferId := 0
    frameBufferWidth := 640
    frameBufferHeight := 480
    frameBufferClearColor := default
    clearMask := GL_COLOR_BUFFER_BIT
    frameBufferClearedFrame := 0
    currentFrame := 1
    drawQueue := []
    textures := fun _ => sampleTexture
    calls := []
    faults := [] }

/-- A renderer on which the extension pointer `deleteVertexArraysOES` is null and one vertex
array awaits deletion. -/
def rendererWithoutVertexArrayExtension : RendererOGL :=
  { sampleRenderer with deleteQueue := [(5, .VertexArray)], deleteVertexArraysOES := false }

/-- A shader with one declared pixel constant ("color") and one declared vertex constant
("modelViewProj"). -/
def sampleShader : ShaderOGL :=
  { programId := 5
    pixelShaderConstantLocations := [⟨0, .FLOAT_VECTOR4⟩]
    vertexShaderConstantLocations := [⟨1, .FLOAT_MATRIX4⟩] }

/-- A mesh buffer with allocated index and vertex buffers and 16-bit indices. -/
def sampleMesh : MeshBufferOGL :=
  { indexBuffer := some ⟨11⟩, vertexBuffer := some ⟨12⟩, indexType := 0x1403, bytesPerIndex := 2 }

/-- A draw command that passes every validation step: six indices from index 3 as a triangle
list, one texture, drawn to the default frame buffer. -/
def sampleCommand : DrawCommand :=
  { drawMode := .TRIANGLE_LIST
    indexCount := 6
    startIndex := 3
    wireframe := false
    blendState := some ⟨true, 0x8006, 0x8006, 0x0302, 0x0303, 1, 1⟩
    textures := [some 0]
    shader := some sampleShader
    pixelShaderConstants := [[1, 1, 1, 1]]
    vertexShaderConstants := [[1, 0, 0, 0, 0, 1, 0, 0, 0, 0, 1, 0, 0, 0, 0, 1]]
    renderTarget := none
    viewport := ⟨0, 0, 640, 480⟩
    scissorTestEnabled := false
    scissorTest := ⟨0, 0, 0, 0⟩
    depthTest := false
    depthWrite := false
    meshBuffer := some sampleMesh }

/-- The sample command submitting two vertex constants to a shader that declares one. -/
def overfullCommand : DrawCommand :=
  { sampleCommand with vertexShaderConstants := [[1], [2]] }

/-- The sample command without a blend state. -/
def unblendedCommand : DrawCommand :=
  { sampleCommand with blendState := none }

/-- The overfull command without a blend state. -/
def overfullUnblendedCommand : DrawCommand :=
  { overfullCommand with blendState := none }

/-- The sample command without a shader. -/
def shaderlessCommand : DrawCommand :=
  { sampleCommand with shader := none }

/-- The sample renderer with the given draw queue and driver answers. -/
def rendererWith (queue : List DrawCommand) (faults : List Bool) : RendererOGL :=
  { sampleRenderer with drawQueue := queue, faults := faults }

/-! ## Enqueueing a deletion -/

/-- `RendererOGL::deleteResource(resource, resourceType)`.  `active` is the value of
`sharedEngine->isActive()`; the lock on `deleteMutex` has no effect on a single thread. -/
def deleteResource (active : Bool) (resource : GLuint) (resourceType : ResourceType)
    (r : RendererOGL) : RendererOGL :=
  if active then { r with deleteQueue := r.deleteQueue ++ [(resource, resourceType)] } else r

/-! ## Blend states (`BlendStateResource.hpp`) -/

/-- Modelled from the spec: the enum `BlendState::Factor` (`BlendFactor` in the older sources) is
declared in BlendState.hpp, which is missing; the enumerators are those the sources name, and
`OTHER` stands for every other value. -/
inductive BlendState.Factor where
  | ZERO
  | ONE
  | SRC_ALPHA
  | INV_SRC_ALPHA
  | DEST_COLOR
  | OTHER (value : Nat)
deriving DecidableEq, Repr

/-- Modelled from the spec: the enum `BlendState::Operation` (`BlendOperation` in the older
sources) is declared in BlendState.hpp, which is missing; `ADD` is the enumerator the sources
name, and `OTHER` stands for every other value. -/
inductive BlendState.Operation where
  | ADD
  | OTHER (value : Nat)
deriving DecidableEq, Repr

/-- Modelled from the spec: the constant `BlendState::COLOR_MASK_ALL` is declared in
BlendState.hpp, which is missing: all four colour channels. -/
def BlendState.COLOR_MASK_ALL : Nat := 0x0F

/-- The data members of `BlendStateResource`, with their default member initializers; the
reference to the render device is left out. -/
structure BlendStateResource where
  colorBlendSource : BlendState.Factor := .ONE
  colorBlendDest : BlendState.Factor := .ZERO
  colorOperation : BlendState.Operation := .ADD
  alphaBlendSource : BlendState.Factor := .ONE
  alphaBlendDest : BlendState.Factor := .ZERO
  alphaOperation : BlendState.Operation := .ADD
  colorMask : Nat := BlendState.COLOR_MASK_ALL
  enableBlending : Bool := false
deriving DecidableEq, Repr

/-- The constructor `BlendStateResource(RenderDevice&)`: every member keeps its default
initializer. -/
def BlendStateResource.new : BlendStateResource := {}

def BlendStateResource.isBlendingEnabled (s : BlendStateResource) : Bool := s.enableBlending
def BlendStateResource.getColorBlendSource (s : BlendStateResource) : BlendState.Factor :=
  s.colorBlendSource
def BlendStateResource.getColorBlendDest (s : BlendStateResource) : BlendState.Factor :=
  s.colorBlendDest
def BlendStateResource.getColorOperation (s : BlendStateResource) : BlendState.Operation :=
  s.colorOperation
def BlendStateResource.getAlphaBlendSource (s : BlendStateResource) : BlendState.Factor :=
  s.alphaBlendSource
def BlendStateResource.getAlphaBlendDest (s : BlendStateResource) : BlendState.Factor :=
  s.alphaBlendDest
def BlendStateResource.getAlphaOperation (s : BlendStateResource) : BlendState.Operation :=
  s.alphaOperation
def BlendStateResource.getColorMask (s : BlendStateResource) : Nat := s.colorMask

/-- The seven arguments of a call `blendState->init(...)`. -/
structure BlendArguments where
  enableBlending : Bool
  colorBlendSource : BlendState.Factor
  colorBlendDest : BlendState.Factor
  colorOperation : BlendState.Operation
  alphaBlendSource : BlendState.Factor
  alphaBlendDest : BlendState.Factor
  alphaOperation : BlendState.Operation
deriving DecidableEq, Repr

/-- Modelled from the spec: `BlendStateResource::init(enabled, srcColor, dstColor, opColor,
srcAlpha, dstAlpha, opAlpha)` is called by `RendererOGL::init()` but neither declared nor
defined in the sources at hand.  A blend state is an "immutable-after-init configuration" of
the enable flag and of the factors and operation of the colour and of the alpha channel: `init`
stores its seven arguments in the members of those names and leaves the colour mask alone. -/
def BlendStateResource.init (s : BlendStateResource) (a : BlendArguments) : BlendStateResource :=
  { s with
    enableBlending := a.enableBlending
    colorBlendSource := a.colorBlendSource
    colorBlendDest := a.colorBlendDest
    colorOperation := a.colorOperation
    alphaBlendSource := a.alphaBlendSource
    alphaBlendDest := a.alphaBlendDest
    alphaOperation := a.alphaOperation }

/-- What the seven accessors of a blend state report. -/
def BlendStateResource.reported (s : BlendStateResource) : BlendArguments :=
  { enableBlending := s.isBlendingEnabled
    colorBlendSource := s.getColorBlendSource
    colorBlendDest := s.getColorBlendDest
    colorOperation := s.getColorOperation
    alphaBlendSource := s.getAlphaBlendSource
    alphaBlendDest := s.getAlphaBlendDest
    alphaOperation := s.getAlphaOperation }

/-- The arguments of `noBlendState->init(...)` in `RendererOGL::init()`. -/
def noBlendArguments : BlendArguments := ⟨false, .ONE, .ZERO, .ADD, .ONE, .ZERO, .ADD⟩

/-- The arguments of `addBlendState->init(...)` in `RendererOGL::init()`. -/
def addBlendArguments : BlendArguments := ⟨true, .ONE, .ONE, .ADD, .ONE, .ONE, .ADD⟩

/-- The arguments of `multiplyBlendState->init(...)` in `RendererOGL::init()`. -/
def multiplyBlendArguments : BlendArguments :=
  ⟨true, .DEST_COLOR, .ZERO, .ADD, .ONE, .ONE, .ADD⟩

/-- The arguments of `alphaBlendState->init(...)` in `RendererOGL::init()`. -/
def alphaBlendArguments : BlendArguments :=
  ⟨true, .SRC_ALPHA, .INV_SRC_ALPHA, .ADD, .ONE, .ONE, .ADD⟩

/-! ## `RendererOGL::init()`

Only the effects of `init()` on the renderer and on the resource cache are kept: the backend
calls whose result it does not use (`glDepthFunc`, `glClearDepthf`, the render buffer set-up) and
the log lines leave no mark. -/

/-- The preprocessor switches `init()` and `createFrameBuffer()` branch on; the last four say
whether the extension macro of that name is defined by the GL headers. -/
structure InitBuild where
  supportsOpenGL : Bool
  supportsOpenGL3 : Bool
  supportsOpenGLES : Bool
  supportsOpenGLES3 : Bool
  glInterface : GLInterface
  GL_OES_vertex_array_object : Bool
  GL_OES_mapbuffer : Bool
  GL_EXT_map_buffer_range : Bool
  GL_IMG_multisampled_render_to_texture : Bool
deriving DecidableEq, Repr

/-- The names under which `init()` registers resources; the constants are declared outside
RendererOGL.cpp. -/
inductive ResourceName where
  | SHADER_TEXTURE
  | SHADER_COLOR
  | BLEND_NO_BLEND
  | BLEND_ADD
  | BLEND_MULTIPLY
  | BLEND_ALPHA
  | TEXTURE_WHITE_PIXEL
deriving DecidableEq, Repr

/-- A resource as `init()` hands it to the cache: a shader with the names of the pixel and
vertex shader arrays it was initialised from (`none`: `initFromBuffers` was compiled out), a
blend state, or a texture with its pixel bytes. -/
inductive CachedResource where
  | shader (sources : Option (String × String))
  | blendState (state : BlendStateResource)
  | texture (pixels : List Nat)
deriving DecidableEq, Repr

/-- The members of the renderer that `init()` and `createFrameBuffer()` read or write, the
resource cache of the engine, and the driver: `faults` answers the error and completeness
checks (`true`: error, or incomplete frame buffer), `names` the `glGen*` calls. -/
structure RendererInit where
  apiMajorVersion : Nat
  sampleCount : Nat
  depth : Bool
  npotTexturesSupported : Bool
  multisamplingSupported : Bool
  frameBufferWidth : Int
  frameBufferHeight : Int
  frameBufferId : GLuint
  colorRenderBufferId : GLuint
  depthRenderBufferId : GLuint
  stateCacheFrameBufferId : GLuint
  /-- The extension entry points looked up with `eglGetProcAddress`. -/
  resolved : List String
  /-- The content of `sharedEngine->getCache()`, latest registration last. -/
  registry : List (ResourceName × CachedResource)
  /-- Whether `glEnable(GL_MULTISAMPLE)` was called. -/
  multisampleEnabled : Bool
  faults : List Bool
  names : List GLuint
deriving DecidableEq, Repr

/-- The next answer of the driver to an error or completeness check. -/
def RendererInit.nextFault (s : RendererInit) : Bool × RendererInit :=
  match s.faults with
  | [] => (false, s)
  | f :: rest => (f, { s with faults := rest })

/-- The next object name a `glGen*` call hands out. -/
def RendererInit.genName (s : RendererInit) : GLuint × RendererInit :=
  match s.names with
  | [] => (1, s)
  | n :: rest => (n, { s with names := rest })

/-- Look up extension entry points with `eglGetProcAddress`. -/
def RendererInit.resolve (s : RendererInit) (procs : List String) : RendererInit :=
  { s with resolved := s.resolved ++ procs }

/-- The entry points `init()` looks up on the EGL interface when the API major version is at
least 3, each group under the `#ifdef` of its extension macro. -/
def resolveAll (b : InitBuild) (s : RendererInit) : RendererInit :=
  let s1 := if b.GL_OES_vertex_array_object
    then s.resolve ["glGenVertexArraysOES", "glBindVertexArrayOES", "glDeleteVertexArraysOES"]
    else s
  let s2 := if b.GL_OES_mapbuffer
    then s1.resolve ["glMapBufferOES", "glUnmapBufferOES"] else s1
  let s3 := if b.GL_EXT_map_buffer_range then s2.resolve ["glMapBufferRangeEXT"] else s2
  if b.GL_IMG_multisampled_render_to_texture
  then s3.resolve ["glRenderbufferStorageMultisampleIMG", "glFramebufferTexture2DMultisampleIMG"]
  else s3

/-- The body of the loop over the tokens of the extension string, for one token. -/
def probeExtension (b : InitBuild) (s : RendererInit) (extension : String) : RendererInit :=
  let s1 := if extension = "GL_OES_texture_npot"
    then { s with npotTexturesSupported := true } else s
  match b.glInterface with
  | .EAGL =>
    if extension = "GL_APPLE_framebuffer_multisample"
    then { s1 with multisamplingSupported := true } else s1
  | .EGL =>
    if extension = "GL_OES_texture_npot" then s1
    else if b.GL_OES_vertex_array_object ∧ extension = "GL_OES_vertex_array_object" then
      s1.resolve ["glGenVertexArraysOES", "glBindVertexArrayOES", "glDeleteVertexArraysOES"]
    else if b.GL_OES_mapbuffer ∧ extension = "GL_OES_mapbuffer" then
      s1.resolve ["glMapBufferOES", "glUnmapBufferOES"]
    else if b.GL_EXT_map_buffer_range ∧ extension = "GL_EXT_map_buffer_range" then
      s1.resolve ["glMapBufferRangeEXT"]
    else if b.GL_IMG_multisampled_render_to_texture ∧
        extension = "GL_IMG_multisampled_render_to_texture" then
      { s1 with multisamplingSupported := true }.resolve
        ["glRenderbufferStorageMultisampleIMG", "glFramebufferTexture2DMultisampleIMG"]
    else s1
  | .OTHER => s1

/-- The block `#if OUZEL_SUPPORTS_OPENGLES ... #endif` of `init()`, the capability probe.
`extensions` is what `glGetString(GL_EXTENSIONS)` returns: `none` for a null pointer, otherwise
the whitespace-separated tokens of the string. -/
def probeCapabilities (b : InitBuild) (extensions : Option (List String)) (s : RendererInit) :
    RendererInit :=
  if s.apiMajorVersion ≥ 3 then
    if b.glInterface = .EGL then resolveAll b s else s
  else
    let s1 := { s with npotTexturesSupported := false, multisamplingSupported := false }
    let (error, s2) := s1.nextFault
    match error, extensions with
    | false, some tokens =>
      let s3 := tokens.foldl (probeExtension b) s2
      if !s3.multisamplingSupported then { s3 with sampleCount := 1 } else s3
    | _, _ => s2

/-- Modelled from the spec: `bindFrameBuffer(id)` as `createFrameBuffer()` uses it, where its
result is dropped; the state cache records the bound frame buffer. -/
def RendererInit.bindFrameBuffer (s : RendererInit) (bufferId : GLuint) : RendererInit :=
  { s with stateCacheFrameBufferId := bufferId }

/-- The part of `createFrameBuffer()` shared by its two branches: create the colour render
buffer and, with a depth buffer, the depth render buffer (the depth format is a non-zero
constant), bind the frame buffer through the state cache, attach, and check completeness. -/
def attachRenderBuffers (s : RendererInit) : Bool × RendererInit :=
  let s1 := if s.colorRenderBufferId = 0
    then { s.genName.2 with colorRenderBufferId := s.genName.1 } else s
  let s2 := if s1.depth ∧ s1.depthRenderBufferId = 0
    then { s1.genName.2 with depthRenderBufferId := s1.genName.1 } else s1
  let s3 := s2.bindFrameBuffer s2.frameBufferId
  let (incomplete, s4) := s3.nextFault
  (!incomplete, s4)

/-- `RendererOGL::createFrameBuffer()`.  Outside the EGL interface the frame buffer is created
when multisampling is on and, on desktop OpenGL, also when it is off; on the EGL interface
nothing is created. -/
def createFrameBuffer (b : InitBuild) (s : RendererInit) : Bool × RendererInit :=
  if b.glInterface = .EGL then (true, s)
  else
    let s1 := if s.frameBufferId = 0
      then { s.genName.2 with frameBufferId := s.genName.1 } else s
    if s1.sampleCount > 1 then attachRenderBuffers s1
    else if b.supportsOpenGL then attachRenderBuffers s1
    else (true, s1)

/-- The shader arrays selected by `switch (apiMajorVersion)` for the shader named `base`
(`"Texture"` or `"Color"`): `none` stands for `default: return false`, `some none` for a case
whose `initFromBuffers` call is compiled out. -/
def shaderSources (b : InitBuild) (base : String) (apiMajorVersion : Nat) :
    Option (Option (String × String)) :=
  match apiMajorVersion with
  | 2 =>
    if b.supportsOpenGL then some (some (base ++ "PSGL2_glsl", base ++ "VSGL2_glsl"))
    else if b.supportsOpenGLES then some (some (base ++ "PSGLES2_glsl", base ++ "VSGLES2_glsl"))
    else some none
  | 3 =>
    if b.supportsOpenGL3 then some (some (base ++ "PSGL3_glsl", base ++ "VSGL3_glsl"))
    else if b.supportsOpenGLES3
      then some (some (base ++ "PSGLES3_glsl", base ++ "VSGLES3_glsl"))
    else some none
  | _ => none

/-- A call `sharedEngine->getCache()->set...(name, resource)`. -/
def RendererInit.register (s : RendererInit) (name : ResourceName) (resource : CachedResource) :
    RendererInit :=
  { s with registry := s.registry ++ [(name, resource)] }

/-- The end of `init()`, from the registration of the colour shader's successor on: the four
blend states, the white pixel texture and the multisample switch. -/
def registerDefaults (b : InitBuild) (s : RendererInit) : RendererInit :=
  let s1 := s.register .BLEND_NO_BLEND
    (.blendState (BlendStateResource.new.init noBlendArguments))
  let s2 := s1.register .BLEND_ADD
    (.blendState (BlendStateResource.new.init addBlendArguments))
  let s3 := s2.register .BLEND_MULTIPLY
    (.blendState (BlendStateResource.new.init multiplyBlendArguments))
  let s4 := s3.register .BLEND_ALPHA
    (.blendState (BlendStateResource.new.init alphaBlendArguments))
  let s5 := s4.register .TEXTURE_WHITE_PIXEL (.texture [255, 255, 255, 255])
  if b.supportsOpenGL ∧ s5.sampleCount > 1 then { s5 with multisampleEnabled := true } else s5

/-- The assignments `frameBufferWidth = ...; frameBufferHeight = ...;` of `init()`. -/
def RendererInit.setFrameBufferSize (s : RendererInit) (newSize : Int × Int) : RendererInit :=
  { s with frameBufferWidth := newSize.1, frameBufferHeight := newSize.2 }

/-- `RendererOGL::init()`.  `baseInit` is the result of the base-class `Renderer::init(...)`,
which is defined outside RendererOGL.cpp, and `s` the renderer as the base class leaves it
(with the requested sample count); `newSize` is the size after the cast to `GLsizei`. -/
def init (b : InitBuild) (baseInit : Bool) (extensions : Option (List String))
    (newSize : Int × Int) (s : RendererInit) : Bool × RendererInit :=
  if !baseInit then (false, s)
  else
    let s1 := s.nextFault.2
    let s2 := if b.supportsOpenGLES then probeCapabilities b extensions s1 else s1
    let s3 := s2.setFrameBufferSize newSize
    let (ok, s4) := createFrameBuffer b s3
    if !ok then (false, s4)
    else
      match shaderSources b "Texture" s4.apiMajorVersion with
      | none => (false, s4)
      | some textureShader =>
        let s5 := s4.register .SHADER_TEXTURE (.shader textureShader)
        match shaderSources b "Color" s5.apiMajorVersion with
        | none => (false, s5)
        | some colorShader =>
          let s6 := s5.register .SHADER_COLOR (.shader colorShader)
          (true, registerDefaults b s6)

/-- An OpenGL ES 2 build on the EAGL interface. -/
def eaglInitBuild : InitBuild :=
  { supportsOpenGL := false, supportsOpenGL3 := false, supportsOpenGLES := true,
    supportsOpenGLES3 := false, glInterface := .EAGL, GL_OES_vertex_array_object := true,
    GL_OES_mapbuffer := true, GL_EXT_map_buffer_range := true,
    GL_IMG_multisampled_render_to_texture := false }

/-- A renderer as the base class leaves it on an OpenGL ES 2 device when four samples were
requested. -/
def sampleInit : RendererInit :=
  { apiMajorVersion := 2, sampleCount := 4, depth := false, npotTexturesSupported := true,
    multisamplingSupported := true, frameBufferWidth := 0, frameBufferHeight := 0,
    frameBufferId := 0, colorRenderBufferId := 0, depthRenderBufferId := 0,
    stateCacheFrameBufferId := 0, resolved := [], registry := [], multisampleEnabled := false,
    faults := [], names := [] }

/-- The renderer of `sampleInit` on a device that reports API major version 4. -/
def unsupportedInit : RendererInit := { sampleInit with apiMajorVersion := 4 }

/-- What the capability probe and the frame buffer creation leave alone: the API version and
the resource cache. -/
def SameCache (s t : RendererInit) : Prop :=
  t.apiMajorVersion = s.apiMajorVersion ∧ t.registry = s.registry

/-! ## The fatal checks of a draw command -/

/-- The command runs into one of the two fatal checks of the loop body, whatever the driver
answers: it reaches the constant checks and either fails them or goes on, with a valid target
and mesh buffer, to a draw mode the `switch` does not support. -/
def failsValidation (b : Build) (r : RendererOGL) (c : DrawCommand) : Bool :=
  reachesConstants b r c &&
    (!constantsValid c || (targetValid r c && meshValid c && !modeValid c))

/-- The sample command without a mesh buffer. -/
def meshlessCommand : DrawCommand :=
  { sampleCommand with meshBuffer := none }

/-- The overfull command without a mesh buffer. -/
def overfullMeshlessCommand : DrawCommand :=
  { overfullCommand with meshBuffer := none }

/-- The sample command with a draw mode outside the five supported ones. -/
def modelessCommand : DrawCommand :=
  { sampleCommand with drawMode := .OTHER }

/-- The command with an unsupported draw mode and without a blend state. -/
def modelessUnblendedCommand : DrawCommand :=
  { modelessCommand with blendState := none }

/-! ## Texture bindings -/

/-- The calls the loop body issues up to and including the loop over the texture layers:
polygon mode, blend state and texture binds. -/
def GLCall.isTextureStage : GLCall → Bool
  | .glPolygonMode _ => true
  | .glBlend _ _ _ _ _ _ _ => true
  | .glBindTexture _ _ => true
  | _ => false

/-- The program-use call. -/
def GLCall.isUseProgram : GLCall → Bool
  | .glUseProgram _ => true
  | _ => false

/-- The constant-upload calls. -/
def GLCall.isUniform : GLCall → Bool
  | .glUniform _ _ _ => true
  | _ => false

/-- The effect of one call on the textures bound in the backend, per layer. -/
def bindCall (bound : Nat → GLuint) : GLCall → (Nat → GLuint)
  | .glBindTexture layer id => Function.update bound layer id
  | _ => bound

/-- The textures bound in the backend after the given calls, starting from `bound`. -/
def boundTextures (bound : Nat → GLuint) (calls : List GLCall) : Nat → GLuint :=
  calls.foldl bindCall bound

/-- The backend texture id a draw command asks for at a layer: that of `textures[layer]`, and
0 where the command has no texture. -/
def textureIdAt (r : RendererOGL) (c : DrawCommand) (layer : Nat) : GLuint :=
  match c.textureAt layer with
  | some t => (r.textures t).textureId
  | none => 0

/-- The renderer went from `r` to `q` issuing only calls of the texture stage, and the texture
ids of the state cache followed the texture binds that reached the backend. -/
def TextureStage (r q : RendererOGL) : Prop :=
  ∃ evs, q.calls = r.calls ++ evs ∧ (∀ e ∈ evs, e.isTextureStage = true) ∧
    boundTextures r.stateCache.textureId evs = q.stateCache.textureId

/-- A texture object without a backend texture. -/
def unallocatedTexture : TextureOGL :=
  { sampleTexture with textureId := 0 }

/-- The sample renderer in which texture 1 has no backend texture yet. -/
def rendererWithUnallocated (queue : List DrawCommand) (faults : List Bool) : RendererOGL :=
  { rendererWith queue faults with
    textures := fun t => if t = 1 then unallocatedTexture else sampleTexture }

/-- The sample command with an allocated texture at layer 0 and texture 1 at layer 1. -/
def partlyTexturedCommand : DrawCommand :=
  { sampleCommand with textures := [some 0, some 1] }

/-! ## Cleared-frame stamps -/

/-- The clear mask a target asks for (`none`: the default frame buffer). -/
def RendererOGL.clearMaskOf (r : RendererOGL) : Option TextureRef → GLbitfield
  | some t => (r.textures t).clearMask
  | none => r.clearMask

/-- The texture objects and the cleared-frame stamp of the default frame buffer: the part of
the renderer in which the cleared-frame stamps live. -/
def RendererOGL.stamps (r : RendererOGL) : (TextureRef → TextureOGL) × Nat :=
  (r.textures, r.frameBufferClearedFrame)

/-- The sample command drawn to the render target held by texture 0. -/
def offscreenCommand : DrawCommand :=
  { sampleCommand with renderTarget := some 0 }

/-! ## Depth-stencil states (`OGLDepthStencilState.cpp`) -/

def GL_FALSE : Nat := 0
def GL_TRUE : Nat := 1
def GL_NEVER : GLenum := 0x0200
def GL_LESS : GLenum := 0x0201
def GL_EQUAL : GLenum := 0x0202
def GL_LEQUAL : GLenum := 0x0203
def GL_GREATER : GLenum := 0x0204
def GL_NOTEQUAL : GLenum := 0x0205
def GL_GEQUAL : GLenum := 0x0206
def GL_ALWAYS : GLenum := 0x0207

/-- Modelled from the spec: the enum `DepthStencilState::CompareFunction` is declared in
DepthStencilState.hpp, which is missing; the eight enumerators are the case labels of
`getFunction`, and `OTHER` stands for every other value of the underlying type. -/
inductive DepthStencilState.CompareFunction where
  | NEVER
  | LESS
  | EQUAL
  | LESS_EQUAL
  | GREATER
  | NOT_EQUAL
  | GREATER_EQUAL
  | ALWAYS
  | OTHER (value : Nat)
deriving DecidableEq, Repr

/-- The value is one of the eight enumerators. -/
def DepthStencilState.CompareFunction.isEnumerator : DepthStencilState.CompareFunction → Bool
  | .OTHER _ => false
  | _ => true

/-- The `switch` of `getFunction`: the token a case label returns, or `none` when no label
matches and control leaves the `switch`. -/
def getFunctionSwitch : DepthStencilState.CompareFunction → Option GLenum
  | .NEVER => some GL_NEVER
  | .LESS => some GL_LESS
  | .EQUAL => some GL_EQUAL
  | .LESS_EQUAL => some GL_LEQUAL
  | .GREATER => some GL_GREATER
  | .NOT_EQUAL => some GL_NOTEQUAL
  | .GREATER_EQUAL => some GL_GEQUAL
  | .ALWAYS => some GL_ALWAYS
  | .OTHER _ => none

/-- The function `getFunction(compareFunction)`: the `switch`, followed by `return GL_NEVER;`. -/
def getFunction (compareFunction : DepthStencilState.CompareFunction) : GLenum :=
  match getFunctionSwitch compareFunction with
  | some token => token
  | none => GL_NEVER

/-- The data members of `OGLDepthStencilState` that its constructor initialises; the reference
to the render device is left out. -/
structure OGLDepthStencilState where
  depthTest : Bool
  depthMask : Nat
  compareFunction : GLenum
  stencilReadMask : Nat
  stencilWriteMask : Nat
deriving DecidableEq, Repr

/-- The constructor `OGLDepthStencilState(renderDevice, initDepthTest, initDepthWrite,
initCompareFunction, initStencilReadMask, initStencilWriteMask)`. -/
def OGLDepthStencilState.new (initDepthTest initDepthWrite : Bool)
    (initCompareFunction : DepthStencilState.CompareFunction)
    (initStencilReadMask initStencilWriteMask : Nat) : OGLDepthStencilState :=
  { depthTest := initDepthTest
    depthMask := if initDepthWrite then GL_TRUE else GL_FALSE
    compareFunction := getFunction initCompareFunction
    stencilReadMask := initStencilReadMask
    stencilWriteMask := initStencilWriteMask }


/-! ## Constant uploads -/

/-- The upload call for a constant at a declared location whose data type the `switch`
supports. -/
def uploadCall (p : Location × List GLfloat) : GLCall :=
  .glUniform p.1.dataType p.1.location p.2

/-- The uploads of one stage: the i-th submitted constant goes to the i-th declared location,
up to the first location whose data type the `switch` sends to `default`. -/
def expectedUploads (locations : List Location) (constants : List (List GLfloat)) :
    List GLCall :=
  ((locations.zip constants).takeWhile fun p => p.1.dataType ≠ .OTHER).map uploadCall

/-- A shader whose only pixel constant location has a data type outside the six float types. -/
def untypedShader : ShaderOGL :=
  { sampleShader with pixelShaderConstantLocations := [⟨0, .OTHER⟩] }

/-- The sample command with the untyped shader. -/
def untypedCommand : DrawCommand :=
  { sampleCommand with shader := some untypedShader }

/-! ## Frame buffer bindings in the backend -/

/-- The effect of one call on the frame buffers bound in the backend, as the pair of the draw
and the read binding: `GL_FRAMEBUFFER` binds both, and deleting a bound frame buffer resets its
binding to 0. -/
def bindFrameBufferCall (bound : GLuint × GLuint) : GLCall → GLuint × GLuint
  | .glBindFramebuffer target id =>
    if target = GL_FRAMEBUFFER then (id, id)
    else if target = GL_DRAW_FRAMEBUFFER then (id, bound.2)
    else if target = GL_READ_FRAMEBUFFER then (bound.1, id)
    else bound
  | .glDeleteFramebuffers id =>
    (if bound.1 = id then 0 else bound.1, if bound.2 = id then 0 else bound.2)
  | _ => bound

/-- The frame buffers bound in the backend after the given calls, starting from `bound`. -/
def boundFrameBuffers (bound : GLuint × GLuint) (calls : List GLCall) : GLuint × GLuint :=
  calls.foldl bindFrameBufferCall bound

/-- The frame buffer named by the latest bind call among `calls`, if there is one. -/
def lastFrameBufferBound (calls : List GLCall) : Option GLuint :=
  calls.foldl (fun last call =>
    match call with
    | .glBindFramebuffer _ id => some id
    | _ => last) none

/-- A renderer at the start of frame 1 with an empty draw queue, no clear requested, and a
driver that reports an error at its second check. -/
def rendererWithFailingResolve : RendererOGL :=
  { sampleRenderer with clearMask := 0, deleteQueue := [], faults := [false, true] }

/-- The sample renderer with two pending deletions whose handles are cached in slots of another
kind: buffer 4 (texture 4 is bound to layer 1) and texture 3 (buffer 3 is the bound array
buffer). -/
def rendererWithCrossedHandles : RendererOGL :=
  { sampleRenderer with deleteQueue := [(4, .Buffer), (3, .Texture)] }

/-! ## The row swap of `generateScreenshot` -/

/-- The result of an arithmetic operation on `GLsizei` operands, with `v` its exact value:
`GLsizei` is a 32-bit signed integer, and an operation whose exact value is not a value of the
type overflows and has no defined result. -/
def GLsizei.checked (v : Int) : Option Int :=
  if -2147483648 ≤ v ∧ v ≤ 2147483647 then some v else none

/-- The loop `for (GLsizei i = 0; i < n; ++i) body` over a state that the body can leave
undefined: the counter runs through 0, ..., n - 1 in order, the loop has no iteration when
`n ≤ 0`, and the increment `++i` that ends an iteration is an operation on `GLsizei`. -/
def forLoop {σ : Type} (n : Int) (body : Int → σ → Option σ) (s : σ) : Option σ :=
  (List.range n.toNat).foldlM
    (fun s (i : Nat) => (body (i : Int) s).bind fun s1 =>
      (GLsizei.checked ((i : Int) + 1)).bind fun _ => some s1) s

/-- The constant `depth` of `generateScreenshot`: four bytes for each pixel. -/
def screenshotDepth : Int := 4

/-- The index expression `(row * width + col) * depth + z` of `generateScreenshot`, evaluated
in `GLsizei` operation by operation. -/
def byteIndex (width row col z : Int) : Option Int :=
  (GLsizei.checked (row * width)).bind fun a =>
    (GLsizei.checked (a + col)).bind fun b =>
      (GLsizei.checked (b * screenshotDepth)).bind fun c =>
        GLsizei.checked (c + z)

/-- The row expression `height - row - 1` of `generateScreenshot`, evaluated in `GLsizei`
operation by operation. -/
def mirrorRow (height row : Int) : Option Int :=
  (GLsizei.checked (height - row)).bind fun a => GLsizei.checked (a - 1)

/-- The three statements of the innermost loop body of `generateScreenshot`, with `high` and
`low` the values of the two `GLsizei` index expressions: `temp = data[high]; data[high] =
data[low]; data[low] = temp`. `static_cast<size_t>` keeps a non-negative index and takes a
negative one beyond the end of every buffer; an access outside the buffer has no defined
result. -/
def swapBytes (data : List Nat) (high low : Int) : Option (List Nat) :=
  if 0 ≤ high ∧ 0 ≤ low then
    match data[high.toNat]?, data[low.toNat]? with
    | some temp, some below => some ((data.set high.toNat below).set low.toNat temp)
    | _, _ => none
  else none

/-- The row-swap loop of `RendererOGL::generateScreenshot` on the pixel buffer `data`: `row`
runs below `height / 2`, `col` below `width` and `z` below `depth`; the body evaluates the two
index expressions and swaps the two bytes. -/
def generateScreenshotRowSwap (width height : Int) (data : List Nat) : Option (List Nat) :=
  forLoop (height.tdiv 2) (fun row data =>
    forLoop width (fun col data =>
      forLoop screenshotDepth (fun z data =>
        (mirrorRow height row).bind fun above =>
          (byteIndex width above col z).bind fun high =>
            (byteIndex width row col z).bind fun low =>
              swapBytes data high low)
        data) data) data

/-- The state of the buffer after the row swap has handled the first `t` bytes of the lower
half: with `H` rows of `R` bytes, the byte at offset `off` of row `row` is the original byte
of row `H - 1 - row` once it or its mirror image has been handled, and the original byte of
`row` before. -/
def RowsSwapped (data : List Nat) (H R t : Nat) (out : List Nat) : Prop :=
  out.length = data.length ∧
    ∀ row off, row < H → off < R →
      out[row * R + off]? =
        data[(if row * R + off < t ∨ (H - 1 - row) * R + off < t then H - 1 - row
          else row) * R + off]?

/-- A picture of two columns and three rows, 24 bytes numbered from 0. -/
def sampleImage : List Nat := List.range 24

/-- A picture of 32768 columns and 16385 rows, 2147614720 bytes, more than the largest value
of `GLsizei`. -/
def wideImage : List Nat := List.replicate 2147614720 0

/-- The sample command with index count 2^31 + 1 and start index 2^31 + 1, both values of a
`uint32_t`. -/
def wideCommand : DrawCommand :=
  { sampleCommand with indexCount := 2147483649, startIndex := 2147483649 }

/-- The constant-upload calls among the calls issued so far. -/
def RendererOGL.uniforms (r : RendererOGL) : List GLCall :=
  r.calls.filter GLCall.isUniform

/-- The constant uploads of a draw command with the given shader: when the constant-count check
of the pixel stage passes, the uploads of the pixel stage, followed by those of the vertex
stage when the pixel stage ran to its end and the constant-count check of the vertex stage
passes. -/
def commandUploads (c : DrawCommand) (shader : ShaderOGL) : List GLCall :=
  if c.pixelShaderConstants.length ≤ shader.pixelShaderConstantLocations.length then
    expectedUploads shader.pixelShaderConstantLocations c.pixelShaderConstants ++
      (if uniformsSupported shader.pixelShaderConstantLocations
            c.pixelShaderConstants.length = true ∧
          c.vertexShaderConstants.length ≤ shader.vertexShaderConstantLocations.length
        then expectedUploads shader.vertexShaderConstantLocations c.vertexShaderConstants
        else [])
  else []

/-- The calls `uploads` send the constants to the locations position by position and stop
before the first location whose data type the upload `switch` does not support: there are no
more uploads than constants, the i-th upload sends the i-th constant to the i-th location with
that location's data type, which is a supported one, both lookups being within bounds, and
when fewer constants were uploaded than submitted, the location at which the uploads stop
exists and has an unsupported data type. -/
def UploadsPositionally (locations : List Location) (constants : List (List GLfloat))
    (uploads : List GLCall) : Prop :=
  uploads.length ≤ constants.length ∧
    (∀ i, i < uploads.length →
      ∃ location constant, locations[i]? = some location ∧ constants[i]? = some constant ∧
        location.dataType ≠ .OTHER ∧
        uploads[i]? = some (.glUniform location.dataType location.location constant)) ∧
    (uploads.length < constants.length →
      ∃ location, locations[uploads.length]? = some location ∧ location.dataType = .OTHER)

end graphics

namespace audio

/-! ## Object ids of the audio mixer (`Mixer.hpp`) -/

/-- The call `std::set<uintptr_t>::insert(x)` on a set held as the ascending list of its
elements. -/
def setInsert (x : Nat) : List Nat → List Nat
  | [] => [x]
  | y :: ys =>
    if x < y then x :: y :: ys
    else if x = y then y :: ys
    else y :: setInsert x ys

/-- The data members of `Mixer` that the object id functions use; `deletedObjectIds` is the
ascending list of the elements of the `std::set`. -/
structure Mixer where
  lastObjectId : Nat := 0
  deletedObjectIds : List Nat := []
deriving DecidableEq, Repr

/-- The constructor `Mixer()`: the default member initializers. -/
def Mixer.new : Mixer := {}

/-- `Mixer::getObjectId()`, returning the id and the mixer it leaves; `bits` is the width of
`uintptr_t`, in which `++lastObjectId` is computed. -/
def Mixer.getObjectId (bits : Nat) (m : Mixer) : Nat × Mixer :=
  match m.deletedObjectIds with
  | [] =>
    ((m.lastObjectId + 1) % 2 ^ bits, { m with lastObjectId := (m.lastObjectId + 1) % 2 ^ bits })
  | objectId :: rest => (objectId, { m with deletedObjectIds := rest })

/-- `Mixer::deleteObjectId(objectId)`. -/
def Mixer.deleteObjectId (m : Mixer) (objectId : Nat) : Mixer :=
  { m with deletedObjectIds := setInsert objectId m.deletedObjectIds }

/-- A call of one of the two object id functions. -/
inductive Mixer.Call where
  | getObjectId
  | deleteObjectId (objectId : Nat)
deriving DecidableEq, Repr

/-- A mixer together with the history of the calls made on it: the ids `getObjectId` returned,
oldest first, and the ids that are live, that is returned and not deleted since. -/
structure Mixer.Session where
  mixer : Mixer
  returned : List Nat
  live : List Nat
deriving DecidableEq, Repr

/-- A fresh mixer, before any call. -/
def Mixer.Session.fresh : Mixer.Session :=
  { mixer := Mixer.new, returned := [], live := [] }

/-- One call on the mixer of a session. -/
def Mixer.Session.step (bits : Nat) (s : Mixer.Session) : Mixer.Call → Mixer.Session
  | .getObjectId =>
    { mixer := (s.mixer.getObjectId bits).2
      returned := s.returned ++ [(s.mixer.getObjectId bits).1]
      live := (s.mixer.getObjectId bits).1 :: s.live }
  | .deleteObjectId objectId =>
    { s with mixer := s.mixer.deleteObjectId objectId, live := s.live.erase objectId }

/-- A sequence of calls on the mixer of a session. -/
def Mixer.Session.run (bits : Nat) (s : Mixer.Session) (calls : List Mixer.Call) :
    Mixer.Session :=
  calls.foldl (Mixer.Session.step bits) s

/-- The counter does not overflow during the calls: whenever `getObjectId` increments
`lastObjectId`, the incremented value fits `uintptr_t`. -/
def Mixer.Session.noOverflow (bits : Nat) : Mixer.Session → List Mixer.Call → Bool
  | _, [] => true
  | s, .getObjectId :: rest =>
    (decide (s.mixer.deletedObjectIds = []) → decide (s.mixer.lastObjectId + 1 < 2 ^ bits)) &&
      Mixer.Session.noOverflow bits (s.step bits .getObjectId) rest
  | s, .deleteObjectId objectId :: rest =>
    Mixer.Session.noOverflow bits (s.step bits (.deleteObjectId objectId)) rest

end audio

namespace graphics

/-! ## Deferred deletion: lemmas -/

section DeleteLemmas

@[simp] theorem emit_calls (r : RendererOGL) (c : GLCall) : (r.emit c).calls = r.calls ++ [c] :=
  rfl

@[simp] theorem emit_stateCache (r : RendererOGL) (c : GLCall) :
    (r.emit c).stateCache = r.stateCache := rfl

@[simp] theorem emit_deleteQueue (r : RendererOGL) (c : GLCall) :
    (r.emit c).deleteQueue = r.deleteQueue := rfl

@[simp] theorem emit_deleteVertexArraysOES (r : RendererOGL) (c : GLCall) :
    (r.emit c).deleteVertexArraysOES = r.deleteVertexArraysOES := rfl

theorem scrubTextureLayers_apply (h : GLuint) (n : Nat) :
    ∀ (layer : Nat) (t : Nat → GLuint) (k : Nat),
      scrubTextureLayers h n layer t k =
        if layer ≤ k ∧ k < layer + n ∧ t k = h then 0 else t k := by
  induction n with
  | zero =>
    intro layer t k
    have : ¬ (layer ≤ k ∧ k < layer + 0 ∧ t k = h) := by rintro ⟨a, b, _⟩; omega
    simp only [scrubTextureLayers, this, if_false]
  | succ n ih =>
    intro layer t k
    rw [scrubTextureLayers, ih]
    by_cases hk : k = layer
    · subst hk
      have h1 : ¬ (k + 1 ≤ k) := by omega
      by_cases ht : t k = h
      · have h2 : k ≤ k ∧ k < k + (n + 1) ∧ t k = h := ⟨le_refl _, by omega, ht⟩
        simp [ht, h1, h2]
      · simp [ht, h1]
    · have hiff : ∀ (u : Nat → GLuint), (layer + 1 ≤ k ∧ k < layer + 1 + n ∧ u k = h) ↔
          (layer ≤ k ∧ k < layer + (n + 1) ∧ u k = h) := by
        intro u
        constructor <;> rintro ⟨a, b, c⟩ <;> refine ⟨by omega, by omega, c⟩
      by_cases ht : t layer = h
      · simp only [ht, if_true, hiff, Function.update_noteq hk]
      · simp only [ht, if_false, hiff]

end DeleteLemmas

/-! ## Runs: lemmas -/

section RunLemmas

theorem Run.currentFrame {r q : RendererOGL} {evs : List GLCall} (h : Run r q evs) :
    q.currentFrame = r.currentFrame := by
  have := h.fixed
  simp only [RendererOGL.fixed, Prod.mk.injEq] at this
  exact this.2.2.2.2.2.2.2.1

theorem Run.refl_run (r : RendererOGL) : Run r r [] :=
  ⟨by simp, ⟨0, by simp⟩, ⟨0, by simp⟩, rfl, fun _ => rfl, fun _ => Or.inl rfl⟩

theorem Run.trans_run {r q s : RendererOGL} {e1 e2 : List GLCall} (h1 : Run r q e1)
    (h2 : Run q s e2) : Run r s (e1 ++ e2) := by
  refine ⟨?_, ?_, ?_, ?_, ?_, ?_⟩
  · rw [h2.calls, h1.calls, List.append_assoc]
  · obtain ⟨k1, hk1⟩ := h1.faults
    obtain ⟨k2, hk2⟩ := h2.faults
    exact ⟨k1 + k2, by rw [hk2, hk1, List.drop_drop]⟩
  · obtain ⟨k1, hk1⟩ := h1.deleteQueue
    obtain ⟨k2, hk2⟩ := h2.deleteQueue
    exact ⟨k1 + k2, by rw [hk2, hk1, List.drop_drop]⟩
  · rw [h2.fixed, h1.fixed]
  · intro t; rw [h2.static, h1.static]
  · intro t
    rcases h2.stamp t with a | a
    · rcases h1.stamp t with c | c
      · exact Or.inl (a.trans c)
      · exact Or.inr (a.trans c)
    · exact Or.inr (a.trans h1.currentFrame)

theorem Run.emit_run (r : RendererOGL) (c : GLCall) : Run r (r.emit c) [c] :=
  ⟨rfl, ⟨0, by simp [RendererOGL.emit]⟩, ⟨0, by simp [RendererOGL.emit]⟩, rfl, fun _ => rfl,
    fun t => Or.inl (by cases t <;> rfl)⟩

theorem Run.cache_run (r : RendererOGL) (c : StateCache) : Run r { r with stateCache := c } [] :=
  ⟨by simp, ⟨0, by simp⟩, ⟨0, by simp⟩, rfl, fun _ => rfl,
    fun t => Or.inl (by cases t <;> rfl)⟩

theorem Run.nextFault_run (r : RendererOGL) : Run r r.nextFault.2 [] := by
  unfold RendererOGL.nextFault
  cases hf : r.faults with
  | nil => exact Run.refl_run r
  | cons f rest =>
    exact ⟨by simp, ⟨1, by simp [hf]⟩, ⟨0, by simp⟩, rfl, fun _ => rfl,
      fun t => Or.inl (by cases t <;> rfl)⟩

theorem Run.issued {r q : RendererOGL} {evs : List GLCall} (h : Run r q evs) :
    issued r q = evs := by
  simp [graphics.issued, h.calls]

theorem Quiet.refl_quiet (r : RendererOGL) : Quiet r r :=
  ⟨[], Run.refl_run r, by simp⟩

theorem Quiet.trans_quiet {r q s : RendererOGL} (h1 : Quiet r q) (h2 : Quiet q s) : Quiet r s := by
  obtain ⟨e1, r1, p1⟩ := h1
  obtain ⟨e2, r2, p2⟩ := h2
  refine ⟨e1 ++ e2, r1.trans_run r2, ?_⟩
  intro e he
  rcases List.mem_append.1 he with h | h
  · exact p1 e h
  · exact p2 e h

theorem Quiet.emit_quiet (r : RendererOGL) (c : GLCall) (hc : c.isState = true) : Quiet r (r.emit c) :=
  ⟨[c], Run.emit_run r c, by simpa using hc⟩

theorem Quiet.cache_quiet (r : RendererOGL) (c : StateCache) : Quiet r { r with stateCache := c } :=
  ⟨[], Run.cache_run r c, by simp⟩

theorem Quiet.emitCache_quiet (r : RendererOGL) (call : GLCall) (c : StateCache)
    (hc : call.isState = true) : Quiet r { r.emit call with stateCache := c } :=
  (Quiet.emit_quiet r call hc).trans_quiet (Quiet.cache_quiet (r.emit call) c)

theorem Quiet.nextFault_quiet (r : RendererOGL) : Quiet r r.nextFault.2 :=
  ⟨[], Run.nextFault_run r, by simp⟩

theorem Quiet.helperResult_quiet (r : RendererOGL) : Quiet r (helperResult r).2 :=
  Quiet.nextFault_quiet r

theorem Quiet.checkOpenGLError_quiet (r : RendererOGL) : Quiet r (checkOpenGLError r).2 :=
  Quiet.nextFault_quiet r

theorem Quiet.bindFrameBuffer_quiet (id : GLuint) (r : RendererOGL) :
    Quiet r (bindFrameBuffer id r).2 := by
  unfold graphics.bindFrameBuffer
  split
  · exact Quiet.helperResult_quiet r
  · exact (Quiet.emitCache_quiet r _ _ (by rfl)).trans_quiet (Quiet.helperResult_quiet _)

theorem Quiet.bindTexture_quiet (id : GLuint) (layer : Nat) (r : RendererOGL) :
    Quiet r (bindTexture id layer r).2 := by
  unfold graphics.bindTexture
  split
  · exact Quiet.helperResult_quiet r
  · exact (Quiet.emitCache_quiet r _ _ (by rfl)).trans_quiet (Quiet.helperResult_quiet _)

theorem Quiet.useProgram_quiet (id : GLuint) (r : RendererOGL) : Quiet r (useProgram id r) := by
  unfold graphics.useProgram
  split
  · exact Quiet.refl_quiet r
  · exact Quiet.emitCache_quiet r _ _ rfl

theorem Quiet.bindVertexArray_quiet (id : GLuint) (r : RendererOGL) :
    Quiet r (bindVertexArray id r) := by
  unfold graphics.bindVertexArray
  split
  · exact Quiet.refl_quiet r
  · exact Quiet.emitCache_quiet r _ _ rfl

theorem Quiet.setPolygonFillMode_quiet (mode : GLenum) (r : RendererOGL) :
    Quiet r (setPolygonFillMode mode r) := by
  unfold graphics.setPolygonFillMode
  split
  · exact Quiet.refl_quiet r
  · exact Quiet.emitCache_quiet r _ _ rfl

theorem Quiet.depthMask_quiet (flag : Bool) (r : RendererOGL) : Quiet r (depthMask flag r) := by
  unfold graphics.depthMask
  split
  · exact Quiet.refl_quiet r
  · exact Quiet.emitCache_quiet r _ _ rfl

theorem Quiet.enableDepthTest_quiet (flag : Bool) (r : RendererOGL) :
    Quiet r (enableDepthTest flag r) := by
  unfold graphics.enableDepthTest
  split
  · exact Quiet.refl_quiet r
  · exact Quiet.emitCache_quiet r _ _ rfl

theorem Quiet.setScissorTest_quiet (enabled : Bool) (x y w h : Int) (r : RendererOGL) :
    Quiet r (setScissorTest enabled x y w h r) := by
  unfold graphics.setScissorTest
  split
  · exact Quiet.refl_quiet r
  · exact Quiet.emitCache_quiet r _ _ rfl

theorem Quiet.setBlendState_quiet (bs : BlendStateOGL) (r : RendererOGL) :
    Quiet r (setBlendState bs r).2 :=
  (Quiet.emit_quiet r _ (by rfl)).trans_quiet (Quiet.helperResult_quiet _)

theorem Quiet.setViewport_quiet (x y w h : Int) (r : RendererOGL) :
    Quiet r (setViewport x y w h r).2 :=
  (Quiet.emit_quiet r _ (by rfl)).trans_quiet (Quiet.helperResult_quiet _)

theorem Quiet.bindBuffers_quiet (i v : GLuint) (r : RendererOGL) :
    Quiet r (MeshBufferOGL.bindBuffers i v r).2 :=
  (Quiet.emit_quiet r _ (by rfl)).trans_quiet (Quiet.helperResult_quiet _)

end RunLemmas

/-! ## Deferred deletion: the drain -/

section DrainLemmas

theorem releaseVertexArray_run (b : Build) (h : GLuint) (r : RendererOGL) :
    ∃ evs, Run r (releaseVertexArray b h r) evs ∧
      (releaseVertexArray b h r).deleteQueue = r.deleteQueue ∧
      evs.filter GLCall.isDelete = [] ∧ ∀ c ∈ evs, c = .glBindVertexArray 0 := by
  unfold releaseVertexArray
  split
  · unfold bindVertexArray
    split
    · exact ⟨_, Run.refl_run r, rfl, by simp, by simp⟩
    · exact ⟨_, (Run.emit_run r _).trans_run (Run.cache_run _ _), rfl, by simp [GLCall.isDelete], by simp⟩
  · split
    · exact ⟨_, Run.cache_run r _, rfl, by simp, by simp⟩
    · exact ⟨_, Run.refl_run r, rfl, by simp, by simp⟩

theorem deleteVertexArray_run (b : Build) (h : GLuint) (r : RendererOGL) :
    ∃ evs, Run r (deleteVertexArray b h r) evs ∧
      (deleteVertexArray b h r).deleteQueue = r.deleteQueue ∧
      evs = (if hasDeleteEntryPoint b r (h, .VertexArray)
        then [deleteCall (h, .VertexArray)] else []) := by
  unfold deleteVertexArray
  cases hi : b.glInterface
  · exact ⟨_, Run.emit_run r _, rfl, by simp [hasDeleteEntryPoint, deleteCall, hi]⟩
  · simp only []
    split
    · rename_i hp
      exact ⟨_, Run.emit_run r _, rfl, by simp [hasDeleteEntryPoint, deleteCall, hi, hp]⟩
    · rename_i hp
      exact ⟨_, Run.refl_run r, rfl, by simp [hasDeleteEntryPoint, hi, hp]⟩
  · exact ⟨_, Run.emit_run r _, rfl, by simp [hasDeleteEntryPoint, deleteCall, hi]⟩

theorem Run.deleteVertexArraysOES {r q : RendererOGL} {evs : List GLCall} (h : Run r q evs) :
    q.deleteVertexArraysOES = r.deleteVertexArraysOES := by
  have := h.fixed
  simp only [RendererOGL.fixed, Prod.mk.injEq] at this
  exact this.1

theorem deleteOne_deleteQueue (b : Build) (e : GLuint × ResourceType) (r : RendererOGL) :
    (deleteOne b e r).deleteQueue = r.deleteQueue := by
  obtain ⟨h, kind⟩ := e
  cases kind <;> simp only [deleteOne, emit_deleteQueue]
  · rw [(deleteVertexArray_run b h _).choose_spec.2.1,
      (releaseVertexArray_run b h r).choose_spec.2.1]
  · split <;> rfl
  · split <;> rfl

theorem deleteOne_run (b : Build) (e : GLuint × ResourceType) (r : RendererOGL) :
    ∃ evs, Run r (deleteOne b e r) evs ∧
      evs.filter GLCall.isDelete = (if hasDeleteEntryPoint b r e then [deleteCall e] else []) ∧
      ∀ c ∈ evs, c.isDelete = true ∨ c = .glBindVertexArray 0 := by
  obtain ⟨h, kind⟩ := e
  cases kind
  · exact ⟨_, (Run.cache_run r _).trans_run (Run.emit_run _ _),
      by simp [hasDeleteEntryPoint, deleteCall, GLCall.isDelete],
      by simp [GLCall.isDelete]⟩
  · obtain ⟨e1, hrun1, _, hdel1, hall1⟩ := releaseVertexArray_run b h r
    obtain ⟨e2, hrun2, _, he2⟩ := deleteVertexArray_run b h (releaseVertexArray b h r)
    have hsame : hasDeleteEntryPoint b (releaseVertexArray b h r) (h, .VertexArray) =
        hasDeleteEntryPoint b r (h, .VertexArray) := by
      simp only [hasDeleteEntryPoint, hrun1.deleteVertexArraysOES]
    rw [hsame] at he2
    refine ⟨e1 ++ e2, hrun1.trans_run hrun2, ?_, ?_⟩
    · rw [List.filter_append, hdel1, he2]
      split <;> simp [deleteCall, GLCall.isDelete]
    · intro c hc
      rcases List.mem_append.1 hc with a | a
      · exact Or.inr (hall1 c a)
      · rw [he2] at a
        split at a
        · simp at a; subst a; exact Or.inl rfl
        · simp at a
  · exact ⟨_, Run.emit_run _ _,
      by simp [hasDeleteEntryPoint, deleteCall, GLCall.isDelete],
      by simp [GLCall.isDelete]⟩
  · refine ⟨[.glDeleteFramebuffers h], ?_,
      by simp [hasDeleteEntryPoint, deleteCall, GLCall.isDelete],
      by simp [GLCall.isDelete]⟩
    simp only [deleteOne]
    split
    · exact (Run.cache_run r _).trans_run (Run.emit_run _ _)
    · exact Run.emit_run _ _
  · refine ⟨[.glDeleteProgram h], ?_,
      by simp [hasDeleteEntryPoint, deleteCall, GLCall.isDelete],
      by simp [GLCall.isDelete]⟩
    simp only [deleteOne]
    split
    · exact (Run.cache_run r _).trans_run (Run.emit_run _ _)
    · exact Run.emit_run _ _
  · exact ⟨_, Run.emit_run _ _,
      by simp [hasDeleteEntryPoint, deleteCall, GLCall.isDelete],
      by simp [GLCall.isDelete]⟩
  · exact ⟨_, (Run.cache_run r _).trans_run (Run.emit_run _ _),
      by simp [hasDeleteEntryPoint, deleteCall, GLCall.isDelete],
      by simp [GLCall.isDelete]⟩

theorem Run.pop (r : RendererOGL) (e : GLuint × ResourceType) (rest : List (GLuint × ResourceType))
    (h : r.deleteQueue = e :: rest) : Run r { r with deleteQueue := rest } [] :=
  ⟨by simp, ⟨0, by simp⟩, ⟨1, by simp [h]⟩, rfl, fun _ => rfl,
    fun t => Or.inl (by cases t <;> rfl)⟩

theorem deleteResourcesLoop_run (b : Build) :
    ∀ (fuel : Nat) (r : RendererOGL), r.deleteQueue.length ≤ fuel →
      ∃ evs, Run r (deleteResourcesLoop b fuel r) evs ∧
        (deleteResourcesLoop b fuel r).deleteQueue = [] ∧
        evs.filter GLCall.isDelete =
          (r.deleteQueue.filter (hasDeleteEntryPoint b r)).map deleteCall ∧
        ∀ c ∈ evs, c.isDelete = true ∨ c = .glBindVertexArray 0 := by
  intro fuel
  induction fuel with
  | zero =>
    intro r hlen
    have hq : r.deleteQueue = [] := List.length_eq_zero.1 (Nat.le_zero.1 hlen)
    exact ⟨[], Run.refl_run r, hq, by simp [hq], by simp⟩
  | succ fuel ih =>
    intro r hlen
    cases hq : r.deleteQueue with
    | nil =>
      refine ⟨[], ?_, ?_, by simp, by simp⟩
      · simp only [deleteResourcesLoop, hq]; exact Run.refl_run r
      · simp only [deleteResourcesLoop, hq]
    | cons e rest =>
      have hpop := Run.pop r e rest hq
      obtain ⟨e1, hrun1, hdel1, hall1⟩ := deleteOne_run b e { r with deleteQueue := rest }
      have hq1 : (deleteOne b e { r with deleteQueue := rest }).deleteQueue = rest := by
        rw [deleteOne_deleteQueue]
      have hlen1 : (deleteOne b e { r with deleteQueue := rest }).deleteQueue.length ≤ fuel := by
        rw [hq1]; rw [hq] at hlen; simpa using hlen
      obtain ⟨e2, hrun2, hempty, hdel2, hall2⟩ := ih _ hlen1
      have hstep : deleteResourcesLoop b (fuel + 1) r =
          deleteResourcesLoop b fuel (deleteOne b e { r with deleteQueue := rest }) := by
        simp only [deleteResourcesLoop, hq]
      rw [hstep]
      refine ⟨[] ++ e1 ++ e2, (hpop.trans_run hrun1).trans_run hrun2, hempty, ?_, ?_⟩
      · have hsame : hasDeleteEntryPoint b (deleteOne b e { r with deleteQueue := rest }) =
            hasDeleteEntryPoint b r := by
          funext x
          simp only [hasDeleteEntryPoint, hrun1.deleteVertexArraysOES]
        have hsame0 : hasDeleteEntryPoint b { r with deleteQueue := rest } =
            hasDeleteEntryPoint b r := rfl
        rw [List.nil_append, List.filter_append, hdel1, hdel2, hq1, hsame, hsame0,
          List.filter_cons]
        split <;> simp
      · intro c hc
        rw [List.nil_append] at hc
        rcases List.mem_append.1 hc with a | a
        · exact hall1 c a
        · exact hall2 c a

theorem deleteResources_run (b : Build) (r : RendererOGL) :
    ∃ evs, Run r (deleteResources b r) evs ∧ (deleteResources b r).deleteQueue = [] ∧
      evs.filter GLCall.isDelete =
        (r.deleteQueue.filter (hasDeleteEntryPoint b r)).map deleteCall ∧
      ∀ c ∈ evs, c.isDelete = true ∨ c = .glBindVertexArray 0 :=
  deleteResourcesLoop_run b r.deleteQueue.length r (le_refl _)

theorem deleteVertexArray_stateCache (b : Build) (h : GLuint) (r : RendererOGL) :
    (deleteVertexArray b h r).stateCache = r.stateCache := by
  unfold deleteVertexArray
  cases b.glInterface <;> simp only [emit_stateCache]
  split <;> rfl

theorem releaseVertexArray_stateCache (b : Build) (h : GLuint) (r : RendererOGL) :
    (releaseVertexArray b h r).stateCache =
      if b.platformAndroid = true ∨ r.stateCache.vertexArrayId = h
      then { r.stateCache with vertexArrayId := 0 } else r.stateCache := by
  unfold releaseVertexArray bindVertexArray
  by_cases ha : b.platformAndroid = true
  · by_cases h0 : r.stateCache.vertexArrayId = 0
    · simp only [ha, h0, if_true, true_or]
      cases hc : r.stateCache
      simp only [hc] at h0
      simp [h0]
    · simp [ha, h0]
  · by_cases hv : r.stateCache.vertexArrayId = h <;> simp [ha, hv]

theorem deleteOne_bufferId (b : Build) (e : GLuint × ResourceType) (r : RendererOGL)
    (g : GLenum) :
    (deleteOne b e r).stateCache.bufferId g =
      if e.2 = .Buffer ∧ (g = GL_ELEMENT_ARRAY_BUFFER ∨ g = GL_ARRAY_BUFFER) ∧
          r.stateCache.bufferId g = e.1
      then 0 else r.stateCache.bufferId g := by
  obtain ⟨x, kind⟩ := e
  cases kind <;>
    simp only [deleteOne, emit_stateCache, deleteVertexArray_stateCache,
      releaseVertexArray_stateCache, reduceCtorEq, false_and, if_false, true_and]
  · have hne : GL_ARRAY_BUFFER ≠ GL_ELEMENT_ARRAY_BUFFER := by decide
    by_cases h1 : r.stateCache.bufferId GL_ELEMENT_ARRAY_BUFFER = x <;>
      by_cases h2 : r.stateCache.bufferId GL_ARRAY_BUFFER = x <;>
      by_cases g1 : g = GL_ELEMENT_ARRAY_BUFFER <;>
      by_cases g2 : g = GL_ARRAY_BUFFER <;>
      simp [h1, h2, g1, g2, Function.update, hne, hne.symm]
  · split <;> rfl
  · split <;> rfl
  · split <;> rfl

theorem deleteOne_vertexArrayId (b : Build) (e : GLuint × ResourceType) (r : RendererOGL) :
    (deleteOne b e r).stateCache.vertexArrayId =
      if e.2 = .VertexArray ∧ (b.platformAndroid = true ∨ r.stateCache.vertexArrayId = e.1)
      then 0 else r.stateCache.vertexArrayId := by
  obtain ⟨x, kind⟩ := e
  cases kind <;>
    simp only [deleteOne, emit_stateCache, deleteVertexArray_stateCache,
      releaseVertexArray_stateCache, reduceCtorEq, false_and, if_false, true_and]
  · split <;> split <;> rfl
  · split <;> rfl
  · split <;> rfl
  · split <;> rfl

theorem deleteOne_frameBufferId (b : Build) (e : GLuint × ResourceType) (r : RendererOGL) :
    (deleteOne b e r).stateCache.frameBufferId =
      if e.2 = .FrameBuffer ∧ r.stateCache.frameBufferId = e.1
      then 0 else r.stateCache.frameBufferId := by
  obtain ⟨x, kind⟩ := e
  cases kind <;>
    simp only [deleteOne, emit_stateCache, deleteVertexArray_stateCache,
      releaseVertexArray_stateCache, reduceCtorEq, false_and, if_false, true_and]
  · split <;> split <;> rfl
  · split <;> rfl
  · split <;> rfl
  · split <;> rfl

theorem deleteOne_programId (b : Build) (e : GLuint × ResourceType) (r : RendererOGL) :
    (deleteOne b e r).stateCache.programId =
      if e.2 = .Program ∧ r.stateCache.programId = e.1
      then 0 else r.stateCache.programId := by
  obtain ⟨x, kind⟩ := e
  cases kind <;>
    simp only [deleteOne, emit_stateCache, deleteVertexArray_stateCache,
      releaseVertexArray_stateCache, reduceCtorEq, false_and, if_false, true_and]
  · split <;> split <;> rfl
  · split <;> rfl
  · split <;> rfl
  · split <;> rfl

theorem deleteOne_textureId (b : Build) (e : GLuint × ResourceType) (r : RendererOGL)
    (k : Nat) :
    (deleteOne b e r).stateCache.textureId k =
      if e.2 = .Texture ∧ k < b.LAYERS ∧ r.stateCache.textureId k = e.1
      then 0 else r.stateCache.textureId k := by
  obtain ⟨x, kind⟩ := e
  cases kind <;>
    simp only [deleteOne, emit_stateCache, deleteVertexArray_stateCache,
      releaseVertexArray_stateCache, reduceCtorEq, false_and, if_false, true_and]
  · split <;> split <;> rfl
  · split <;> rfl
  · split <;> rfl
  · split <;> rfl
  · rw [scrubTextureLayers_apply]
    simp

theorem deleteOne_holds (b : Build) (e : GLuint × ResourceType) (r : RendererOGL)
    (k : ResourceType) (h : GLuint) (h0 : h ≠ 0)
    (hh : StateCache.holds b (deleteOne b e r).stateCache k h) :
    StateCache.holds b r.stateCache k h ∧ e ≠ (h, k) := by
  have h0s : ¬ (0 = h) := fun a => h0 a.symm
  cases k <;> simp only [StateCache.holds] at hh ⊢
  · rw [deleteOne_bufferId, deleteOne_bufferId] at hh
    rcases hh with hh | hh
    · split at hh
      · exact absurd hh h0s
      · rename_i hn
        refine ⟨Or.inl hh, ?_⟩
        rintro rfl
        exact hn ⟨rfl, Or.inl rfl, hh⟩
    · split at hh
      · exact absurd hh h0s
      · rename_i hn
        refine ⟨Or.inr hh, ?_⟩
        rintro rfl
        exact hn ⟨rfl, Or.inr rfl, hh⟩
  · rw [deleteOne_vertexArrayId] at hh
    split at hh
    · exact absurd hh h0s
    · rename_i hn
      refine ⟨hh, ?_⟩
      rintro rfl
      exact hn ⟨rfl, Or.inr hh⟩
  · rw [deleteOne_frameBufferId] at hh
    split at hh
    · exact absurd hh h0s
    · rename_i hn
      refine ⟨hh, ?_⟩
      rintro rfl
      exact hn ⟨rfl, hh⟩
  · rw [deleteOne_programId] at hh
    split at hh
    · exact absurd hh h0s
    · rename_i hn
      refine ⟨hh, ?_⟩
      rintro rfl
      exact hn ⟨rfl, hh⟩
  · obtain ⟨layer, hl, hh⟩ := hh
    rw [deleteOne_textureId] at hh
    split at hh
    · exact absurd hh h0s
    · rename_i hn
      refine ⟨⟨layer, hl, hh⟩, ?_⟩
      rintro rfl
      exact hn ⟨rfl, hl, hh⟩

theorem deleteResourcesLoop_holds (b : Build) (k : ResourceType) (h : GLuint) (h0 : h ≠ 0) :
    ∀ (fuel : Nat) (r : RendererOGL), r.deleteQueue.length ≤ fuel →
      StateCache.holds b (deleteResourcesLoop b fuel r).stateCache k h →
      StateCache.holds b r.stateCache k h ∧ (h, k) ∉ r.deleteQueue := by
  intro fuel
  induction fuel with
  | zero =>
    intro r hlen hh
    have hq : r.deleteQueue = [] := List.length_eq_zero.1 (Nat.le_zero.1 hlen)
    exact ⟨hh, by simp [hq]⟩
  | succ fuel ih =>
    intro r hlen hh
    cases hq : r.deleteQueue with
    | nil =>
      simp only [deleteResourcesLoop, hq] at hh
      exact ⟨hh, by simp⟩
    | cons e rest =>
      simp only [deleteResourcesLoop, hq] at hh
      have hq1 : (deleteOne b e { r with deleteQueue := rest }).deleteQueue = rest := by
        rw [deleteOne_deleteQueue]
      have hlen1 : (deleteOne b e { r with deleteQueue := rest }).deleteQueue.length ≤ fuel := by
        rw [hq1]; rw [hq] at hlen; simpa using hlen
      obtain ⟨h1, h2⟩ := ih _ hlen1 hh
      obtain ⟨h3, h4⟩ := deleteOne_holds b e _ k h h0 h1
      rw [hq1] at h2
      refine ⟨h3, ?_⟩
      intro hmem
      rcases List.mem_cons.1 hmem with a | a
      · exact h4 a.symm
      · exact h2 a

end DrainLemmas

/-! ## The loop body: lemmas -/

section BodyLemmas

theorem state_calls {evs : List GLCall} (h : ∀ e ∈ evs, e.isState = true) :
    evs.filter GLCall.isDraw = [] ∧ evs.filter GLCall.isClear = [] ∧ Calm evs := by
  refine ⟨?_, ?_, ?_⟩
  · rw [List.filter_eq_nil_iff]
    intro e he
    have := h e he
    simp only [GLCall.isState, Bool.and_eq_true, Bool.not_eq_true'] at this
    simp [this.1.1.2]
  · rw [List.filter_eq_nil_iff]
    intro e he
    have := h e he
    simp only [GLCall.isState, Bool.and_eq_true, Bool.not_eq_true'] at this
    simp [this.1.2]
  · intro e he
    have := h e he
    simp only [GLCall.isState, Bool.and_eq_true, Bool.not_eq_true'] at this
    exact ⟨this.1.1.1, this.2⟩

theorem calm_append {e1 e2 : List GLCall} (h1 : Calm e1) (h2 : Calm e2) : Calm (e1 ++ e2) := by
  intro e he
  rcases List.mem_append.1 he with a | a
  · exact h1 e a
  · exact h2 e a

theorem drawCallOf_of_valid {c : DrawCommand} (hm : meshValid c = true)
    (hd : modeValid c = true) : ∃ call, drawCallOf c = some call := by
  unfold meshValid at hm
  unfold modeValid at hd
  unfold drawCallOf
  cases hmb : c.meshBuffer with
  | none => simp [hmb] at hm
  | some mb =>
    cases hmode : glDrawMode c.drawMode with
    | none => simp [hmode] at hd
    | some mode => exact ⟨_, rfl⟩

theorem drawMesh_summary (c : DrawCommand) (r : RendererOGL) :
    ∃ evs, Run r (drawMesh c r).2 evs ∧ Calm evs ∧ evs.filter GLCall.isClear = [] ∧
      Drawn c (meshValid c = true ∧ modeValid c = true) (drawMesh c r).1 evs := by
  unfold drawMesh
  cases hmb : c.meshBuffer with
  | none =>
    refine ⟨[], Run.refl_run r, by simp [Calm], rfl, Or.inl rfl, ?_⟩
    intro _ hok
    simp [meshValid, hmb] at hok
  | some mb =>
    simp only []
    cases hi : mb.indexBuffer with
    | none =>
      refine ⟨[], Run.refl_run r, by simp [Calm], rfl, Or.inl rfl, ?_⟩
      intro _ hok
      simp [meshValid, hmb, hi] at hok
    | some ib =>
      cases hv : mb.vertexBuffer with
      | none =>
        refine ⟨[], Run.refl_run r, by simp [Calm], rfl, Or.inl rfl, ?_⟩
        intro _ hok
        simp [meshValid, hmb, hi, hv] at hok
      | some vb =>
        simp only []
        split
        · rename_i hz
          refine ⟨[], Run.refl_run r, by simp [Calm], rfl, Or.inl rfl, ?_⟩
          intro _ hok
          simp only [meshValid, hmb, hi, hv, ne_eq, Bool.and_eq_true, decide_eq_true_eq] at hok
          rcases hz with hz | hz
          · exact absurd hz hok.1.1
          · exact absurd hz hok.1.2
        · rename_i hz
          have hmv : meshValid c = true := by
            simp only [meshValid, hmb, hi, hv, ne_eq, Bool.and_eq_true, decide_eq_true_eq]
            exact ⟨fun a => hz (Or.inl a), fun a => hz (Or.inr a)⟩
          cases hmode : glDrawMode c.drawMode with
          | none =>
            exact ⟨[], Run.refl_run r, by simp [Calm], rfl, Or.inl rfl, by simp⟩
          | some mode =>
            have hdv : modeValid c = true := by simp [modeValid, hmode]
            have hcall : drawCallOf c = some (drawElementsCall c mode mb) := by
              simp [drawCallOf, hmb, hmode]
            simp only []
            obtain ⟨e1, hrun1, hs1⟩ := Quiet.bindBuffers_quiet ib.bufferId vb.bufferId r
            obtain ⟨hd1, hc1, hcalm1⟩ := state_calls hs1
            split
            · exact ⟨e1, hrun1, hcalm1, hc1, Or.inl hd1, by simp⟩
            · obtain ⟨e3, hrun3, hs3⟩ := Quiet.checkOpenGLError_quiet
                ((MeshBufferOGL.bindBuffers ib.bufferId vb.bufferId r).2.emit
                  (drawElementsCall c mode mb))
              obtain ⟨hd3, hc3, hcalm3⟩ := state_calls hs3
              have hrun := (hrun1.trans_run (Run.emit_run _ (drawElementsCall c mode mb))).trans_run
                hrun3
              have hdraws : (e1 ++ [drawElementsCall c mode mb] ++ e3).filter GLCall.isDraw =
                  (drawCallOf c).toList := by
                simp [List.filter_append, hd1, hd3, hcall, drawElementsCall, GLCall.isDraw]
              have hclears : (e1 ++ [drawElementsCall c mode mb] ++ e3).filter GLCall.isClear =
                  [] := by
                simp [List.filter_append, hc1, hc3, drawElementsCall, GLCall.isClear]
              have hcalm : Calm (e1 ++ [drawElementsCall c mode mb] ++ e3) :=
                calm_append (calm_append hcalm1 (by
                  intro e he
                  simp only [List.mem_singleton] at he
                  subst he
                  exact ⟨rfl, rfl⟩)) hcalm3
              split
              · exact ⟨_, hrun, hcalm, hclears, Or.inr ⟨⟨hmv, hdv⟩, hdraws⟩, by simp⟩
              · exact ⟨_, hrun, hcalm, hclears, Or.inr ⟨⟨hmv, hdv⟩, hdraws⟩, fun _ _ => hdraws⟩

theorem clearTarget_summary (target : Option TextureRef) (mask : GLbitfield)
    (color : ClearColor) (r : RendererOGL) :
    ∃ evs, Run r (clearTarget target mask color r).2 evs ∧ Calm evs ∧
      evs.filter GLCall.isDraw = [] ∧
      (evs.filter GLCall.isClear = [] ∨
        (mask ≠ 0 ∧ evs.filter GLCall.isClear = [.glClear target mask])) := by
  unfold clearTarget
  split
  · rename_i hm
    have h1 : Quiet r (if mask &&& GL_DEPTH_BUFFER_BIT ≠ 0 then depthMask true r else r) := by
      split
      · exact Quiet.depthMask_quiet true r
      · exact Quiet.refl_quiet r
    obtain ⟨e1, hrun1, hs1⟩ := h1
    obtain ⟨hd1, hc1, hcalm1⟩ := state_calls hs1
    obtain ⟨e3, hrun3, hs3⟩ := Quiet.checkOpenGLError_quiet
      (((if mask &&& GL_DEPTH_BUFFER_BIT ≠ 0 then depthMask true r else r).emit
        (.glClearColor color)).emit (.glClear target mask))
    obtain ⟨hd3, hc3, hcalm3⟩ := state_calls hs3
    refine ⟨e1 ++ [.glClearColor color] ++ [.glClear target mask] ++ e3,
      ((hrun1.trans_run (Run.emit_run _ _)).trans_run (Run.emit_run _ _)).trans_run hrun3,
      ?_, ?_, Or.inr ⟨hm, ?_⟩⟩
    · refine calm_append (calm_append (calm_append hcalm1 ?_) ?_) hcalm3
      · intro e he
        simp only [List.mem_singleton] at he
        subst he
        exact ⟨rfl, rfl⟩
      · intro e he
        simp only [List.mem_singleton] at he
        subst he
        exact ⟨rfl, rfl⟩
    · simp [List.filter_append, hd1, hd3, GLCall.isDraw]
    · simp [List.filter_append, hc1, hc3, GLCall.isClear]
  · exact ⟨[], Run.refl_run r, by simp [Calm], rfl, Or.inl rfl⟩

theorem Quiet.setDepthAndScissor_quiet (c : DrawCommand) (r : RendererOGL) :
    Quiet r (setDepthAndScissor c r) := by
  unfold setDepthAndScissor
  exact (((Quiet.enableDepthTest_quiet _ r).trans_quiet (Quiet.emit_quiet _ _ (by rfl))).trans_quiet
    (Quiet.depthMask_quiet _ _)).trans_quiet (Quiet.setScissorTest_quiet _ _ _ _ _ _)

theorem drawToTarget_summary (c : DrawCommand) (target : Option TextureRef) (fb : GLuint)
    (mask : GLbitfield) (color : ClearColor) (r : RendererOGL) :
    ∃ evs, Run r (drawToTarget c target fb mask color r).2 evs ∧ Calm evs ∧
      (evs.filter GLCall.isClear = [] ∨
        (mask ≠ 0 ∧ evs.filter GLCall.isClear = [.glClear target mask])) ∧
      Drawn c (meshValid c = true ∧ modeValid c = true)
        (drawToTarget c target fb mask color r).1 evs := by
  unfold drawToTarget
  obtain ⟨e1, hrun1, hs1⟩ := Quiet.bindFrameBuffer_quiet fb r
  obtain ⟨hd1, hc1, hcalm1⟩ := state_calls hs1
  simp only []
  split
  · exact ⟨e1, hrun1, hcalm1, Or.inl hc1, Or.inl hd1, by simp⟩
  · obtain ⟨e2, hrun2, hs2⟩ := Quiet.setViewport_quiet c.viewport.x c.viewport.y
      c.viewport.width c.viewport.height (bindFrameBuffer fb r).2
    obtain ⟨hd2, hc2, hcalm2⟩ := state_calls hs2
    obtain ⟨e3, hrun3, hcalm3, hd3, hc3⟩ := clearTarget_summary target mask color
      (setViewport c.viewport.x c.viewport.y c.viewport.width c.viewport.height
        (bindFrameBuffer fb r).2).2
    have hclear3 : (e1 ++ e2 ++ e3).filter GLCall.isClear = [] ∨
        (mask ≠ 0 ∧ (e1 ++ e2 ++ e3).filter GLCall.isClear = [.glClear target mask]) := by
      rcases hc3 with a | ⟨hm, a⟩
      · exact Or.inl (by simp [List.filter_append, hc1, hc2, a])
      · exact Or.inr ⟨hm, by simp [List.filter_append, hc1, hc2, a]⟩
    have hdraw3 : (e1 ++ e2 ++ e3).filter GLCall.isDraw = [] := by
      simp [List.filter_append, hd1, hd2, hd3]
    split
    · exact ⟨e1 ++ e2 ++ e3, (hrun1.trans_run hrun2).trans_run hrun3,
        calm_append (calm_append hcalm1 hcalm2) hcalm3, hclear3, Or.inl hdraw3, by simp⟩
    · obtain ⟨e4, hrun4, hs4⟩ := Quiet.setDepthAndScissor_quiet c
        (clearTarget target mask color
          (setViewport c.viewport.x c.viewport.y c.viewport.width c.viewport.height
            (bindFrameBuffer fb r).2).2).2
      obtain ⟨hd4, hc4, hcalm4⟩ := state_calls hs4
      obtain ⟨e5, hrun5, hcalm5, hc5, hdrawn⟩ := drawMesh_summary c
        (setDepthAndScissor c
          (clearTarget target mask color
            (setViewport c.viewport.x c.viewport.y c.viewport.width c.viewport.height
              (bindFrameBuffer fb r).2).2).2)
      refine ⟨e1 ++ e2 ++ e3 ++ e4 ++ e5,
        (((hrun1.trans_run hrun2).trans_run hrun3).trans_run hrun4).trans_run hrun5,
        calm_append (calm_append (calm_append (calm_append hcalm1 hcalm2) hcalm3) hcalm4) hcalm5,
        ?_, ?_⟩
      · rcases hclear3 with a | ⟨hm, a⟩
        · refine Or.inl ?_
          rw [List.filter_append, List.filter_append, a, hc4, hc5]
          rfl
        · refine Or.inr ⟨hm, ?_⟩
          rw [List.filter_append, List.filter_append, a, hc4, hc5]
          rfl
      · have hfil : (e1 ++ e2 ++ e3 ++ e4 ++ e5).filter GLCall.isDraw =
            e5.filter GLCall.isDraw := by
          rw [List.filter_append, List.filter_append, hdraw3, hd4]
          rfl
        unfold Drawn
        rw [hfil]
        exact hdrawn

theorem Run.stampTexture (r : RendererOGL) (t : TextureRef) :
    Run r (r.setFrameBufferClearedFrame t r.currentFrame) [] := by
  unfold RendererOGL.setFrameBufferClearedFrame
  refine ⟨by simp, ⟨0, by simp⟩, ⟨0, by simp⟩, rfl, ?_, ?_⟩
  · intro u
    by_cases hu : u = t
    · subst hu; simp [TextureOGL.static]
    · simp [Function.update_noteq hu]
  · intro u
    cases u with
    | none => exact Or.inl rfl
    | some u =>
      by_cases hu : u = t
      · subst hu; exact Or.inr (by simp [RendererOGL.stamp])
      · exact Or.inl (by simp [RendererOGL.stamp, Function.update_noteq hu])

theorem Run.stampDefault (r : RendererOGL) :
    Run r { r with frameBufferClearedFrame := r.currentFrame } [] := by
  refine ⟨by simp, ⟨0, by simp⟩, ⟨0, by simp⟩, rfl, fun _ => rfl, ?_⟩
  intro u
  cases u with
  | none => exact Or.inr rfl
  | some u => exact Or.inl rfl

theorem Run.stamp_current {r q : RendererOGL} {evs : List GLCall} (h : Run r q evs)
    (t : Option TextureRef) (hs : r.stamp t = r.currentFrame) : q.stamp t = r.currentFrame := by
  rcases h.stamp t with a | a
  · exact a.trans hs
  · exact a

theorem renderTarget_summary (c : DrawCommand) (r : RendererOGL) :
    ∃ evs, Run r (renderTarget c r).2 evs ∧ Calm evs ∧
      Cleared r (renderTarget c r).2 c.renderTarget evs ∧
      Drawn c (targetValid r c = true ∧ meshValid c = true ∧ modeValid c = true)
        (renderTarget c r).1 evs := by
  unfold renderTarget
  cases ht : c.renderTarget with
  | some target =>
    simp only []
    split
    · rename_i hz
      refine ⟨[], Run.refl_run r, by simp [Calm], Or.inl rfl, Or.inl rfl, ?_⟩
      intro _ hok
      simp [targetValid, ht, hz] at hok
    · rename_i hz
      have htv : targetValid r c = true := by simp [targetValid, ht, hz]
      split
      · rename_i hstamp
        have hrun0 := Run.stampTexture r target
        obtain ⟨evs, hrun, hcalm, hclear, hdrawn⟩ := drawToTarget_summary c (some target)
          (r.textures target).frameBufferId (r.textures target).clearMask
          (r.textures target).frameBufferClearColor
          (r.setFrameBufferClearedFrame target r.currentFrame)
        refine ⟨[] ++ evs, hrun0.trans_run hrun, by simpa using hcalm, ?_, ?_⟩
        · rcases hclear with a | ⟨_, a⟩
          · exact Or.inl (by simpa using a)
          · refine Or.inr ⟨_, by simpa using a, ?_, ?_⟩
            · simpa [RendererOGL.stamp] using hstamp
            · have := hrun.stamp_current (some target)
                (by simp [RendererOGL.stamp, RendererOGL.setFrameBufferClearedFrame])
              simpa [RendererOGL.setFrameBufferClearedFrame] using this
        · simp only [List.nil_append]
          refine ⟨?_, ?_⟩
          · rcases hdrawn.1 with a | ⟨b, a⟩
            · exact Or.inl a
            · exact Or.inr ⟨⟨htv, b⟩, a⟩
          · intro hf hok
            exact hdrawn.2 hf hok.2
      · obtain ⟨evs, hrun, hcalm, hclear, hdrawn⟩ := drawToTarget_summary c (some target)
          (r.textures target).frameBufferId 0 default r
        refine ⟨evs, hrun, hcalm, ?_, ?_⟩
        · rcases hclear with a | ⟨hm, _⟩
          · exact Or.inl a
          · exact absurd rfl hm
        · refine ⟨?_, ?_⟩
          · rcases hdrawn.1 with a | ⟨b, a⟩
            · exact Or.inl a
            · exact Or.inr ⟨⟨htv, b⟩, a⟩
          · intro hf hok
            exact hdrawn.2 hf hok.2
  | none =>
    have htv : targetValid r c = true := by simp [targetValid, ht]
    simp only []
    split
    · rename_i hstamp
      have hrun0 := Run.stampDefault r
      obtain ⟨evs, hrun, hcalm, hclear, hdrawn⟩ := drawToTarget_summary c none
        r.frameBufferId r.clearMask r.frameBufferClearColor
        { r with frameBufferClearedFrame := r.currentFrame }
      refine ⟨[] ++ evs, hrun0.trans_run hrun, by simpa using hcalm, ?_, ?_⟩
      · rcases hclear with a | ⟨_, a⟩
        · exact Or.inl (by simpa using a)
        · refine Or.inr ⟨_, by simpa using a, ?_, ?_⟩
          · simpa [RendererOGL.stamp] using hstamp
          · have := hrun.stamp_current none (by simp [RendererOGL.stamp])
            simpa using this
      · simp only [List.nil_append]
        refine ⟨?_, ?_⟩
        · rcases hdrawn.1 with a | ⟨b, a⟩
          · exact Or.inl a
          · exact Or.inr ⟨⟨htv, b⟩, a⟩
        · intro hf hok
          exact hdrawn.2 hf hok.2
    · obtain ⟨evs, hrun, hcalm, hclear, hdrawn⟩ := drawToTarget_summary c none
        r.frameBufferId 0 default r
      refine ⟨evs, hrun, hcalm, ?_, ?_⟩
      · rcases hclear with a | ⟨hm, _⟩
        · exact Or.inl a
        · exact absurd rfl hm
      · refine ⟨?_, ?_⟩
        · rcases hdrawn.1 with a | ⟨b, a⟩
          · exact Or.inl a
          · exact Or.inr ⟨⟨htv, b⟩, a⟩
        · intro hf hok
          exact hdrawn.2 hf hok.2

theorem Run.textureId {r q : RendererOGL} {evs : List GLCall} (h : Run r q evs)
    (t : TextureRef) : (q.textures t).textureId = (r.textures t).textureId := by
  have := h.static t
  simp only [TextureOGL.static, Prod.mk.injEq] at this
  exact this.1

theorem Run.textureFrameBufferId {r q : RendererOGL} {evs : List GLCall} (h : Run r q evs)
    (t : TextureRef) : (q.textures t).frameBufferId = (r.textures t).frameBufferId := by
  have := h.static t
  simp only [TextureOGL.static, Prod.mk.injEq] at this
  exact this.2.1

theorem Run.textureValidAt {r q : RendererOGL} {evs : List GLCall} (h : Run r q evs)
    (c : DrawCommand) (layer : Nat) : textureValidAt q c layer = textureValidAt r c layer := by
  unfold graphics.textureValidAt
  cases c.textureAt layer with
  | none => rfl
  | some t => simp only [h.textureId]

theorem Run.texturesValid {r q : RendererOGL} {evs : List GLCall} (h : Run r q evs)
    (b : Build) (c : DrawCommand) : texturesValid b q c = texturesValid b r c := by
  unfold graphics.texturesValid
  congr 1
  funext layer
  exact h.textureValidAt c layer

theorem Run.targetValid {r q : RendererOGL} {evs : List GLCall} (h : Run r q evs)
    (c : DrawCommand) : targetValid q c = targetValid r c := by
  unfold graphics.targetValid
  cases c.renderTarget with
  | none => rfl
  | some t => simp only [h.textureFrameBufferId]

theorem Run.passesValidation {r q : RendererOGL} {evs : List GLCall} (h : Run r q evs)
    (b : Build) (c : DrawCommand) : passesValidation b q c = passesValidation b r c := by
  unfold graphics.passesValidation reachesConstants
  rw [h.texturesValid, h.targetValid]

theorem Cleared.after_run {r q s : RendererOGL} {e0 e : List GLCall} {t : Option TextureRef}
    (h0 : Run r q e0) (hc0 : e0.filter GLCall.isClear = []) (h : Cleared q s t e) :
    Cleared r s t (e0 ++ e) := by
  rcases h with a | ⟨mask, a, hne, heq⟩
  · exact Or.inl (by rw [List.filter_append, hc0, a]; rfl)
  · refine Or.inr ⟨mask, by rw [List.filter_append, hc0, a]; rfl, ?_, ?_⟩
    · rw [h0.currentFrame] at hne
      rcases h0.stamp t with c | c
      · rw [← c]; exact hne
      · exact absurd c hne
    · rw [heq, h0.currentFrame]

theorem Drawn.after_quiet {c : DrawCommand} {ok : Prop} {f : Flow} {e0 e : List GLCall}
    (hd0 : e0.filter GLCall.isDraw = []) (h : Drawn c ok f e) : Drawn c ok f (e0 ++ e) := by
  unfold Drawn
  have : (e0 ++ e).filter GLCall.isDraw = e.filter GLCall.isDraw := by
    rw [List.filter_append, hd0]; rfl
  rw [this]
  exact h

theorem Drawn.mono {c : DrawCommand} {ok ok2 : Prop} {f : Flow} {e : List GLCall}
    (h : Drawn c ok f e) (h1 : ok → ok2) (h2 : ok2 → ok) : Drawn c ok2 f e := by
  refine ⟨?_, ?_⟩
  · rcases h.1 with a | ⟨b, a⟩
    · exact Or.inl a
    · exact Or.inr ⟨h1 b, a⟩
  · intro hf hok
    exact h.2 hf (h2 hok)

theorem Drawn.none {c : DrawCommand} {ok : Prop} {f : Flow} {e : List GLCall}
    (hd : e.filter GLCall.isDraw = []) (h : f = .next → ¬ ok) : Drawn c ok f e :=
  ⟨Or.inl hd, fun hf hok => absurd hok (h hf)⟩

theorem uploadConstants_summary (locs : List Location) (consts : List (List GLfloat)) :
    ∀ (n i : Nat) (r : RendererOGL),
      Quiet r (uploadConstants locs consts n i r).2 ∧
        ((uploadConstants locs consts n i r).1 = .done →
          ((locs.drop i).take n).all (fun l => decide (l.dataType ≠ .OTHER)) = true) := by
  intro n
  induction n with
  | zero =>
    intro i r
    exact ⟨Quiet.refl_quiet r, fun _ => by simp⟩
  | succ n ih =>
    intro i r
    unfold uploadConstants
    cases hl : locs.get? i with
    | none => exact ⟨Quiet.refl_quiet r, fun h => by simp at h⟩
    | some loc =>
      cases hk : consts.get? i with
      | none => exact ⟨Quiet.refl_quiet r, fun h => by simp at h⟩
      | some k =>
        simp only []
        cases hu : uniformCall loc k with
        | none => exact ⟨Quiet.refl_quiet r, fun h => by simp at h⟩
        | some call =>
          simp only []
          have hstate : call.isState = true := by
            unfold uniformCall at hu
            cases hdt : loc.dataType <;> simp only [hdt, reduceCtorEq] at hu <;>
              (cases hu; rfl)
          have hsup : loc.dataType ≠ .OTHER := by
            intro hdt
            simp [uniformCall, hdt] at hu
          obtain ⟨hq, hdone⟩ := ih (i + 1) (r.emit call)
          refine ⟨(Quiet.emit_quiet r call hstate).trans_quiet hq, ?_⟩
          intro h
          have hdrop : locs.drop i = loc :: locs.drop (i + 1) := by
            rw [List.get?_eq_some] at hl
            obtain ⟨hi, hx⟩ := hl
            rw [List.drop_eq_getElem_cons hi]
            simp at hx
            rw [hx]
          rw [hdrop, List.take_succ_cons, List.all_cons, hdone h]
          simp [hsup]

theorem bindTextures_summary (c : DrawCommand) :
    ∀ (n layer : Nat) (r : RendererOGL),
      Quiet r (bindTextures c n layer r).2 ∧
        ((bindTextures c n layer r).1 = .valid →
          ∀ l, layer ≤ l → l < layer + n → textureValidAt r c l = true) ∧
        ((∀ l, layer ≤ l → l < layer + n → textureValidAt r c l = true) →
          (bindTextures c n layer r).1 ≠ .invalid) := by
  intro n
  induction n with
  | zero =>
    intro layer r
    refine ⟨Quiet.refl_quiet r, ?_, ?_⟩
    · intro _ l h1 h2; omega
    · intro _ h; simp [bindTextures] at h
  | succ n ih =>
    intro layer r
    unfold bindTextures
    cases ht : c.textureAt layer with
    | some texture =>
      simp only []
      split
      · rename_i hz
        refine ⟨Quiet.refl_quiet r, fun h => by simp at h, ?_⟩
        intro hall
        have := hall layer (le_refl _) (by omega)
        simp [textureValidAt, ht, hz] at this
      · rename_i hz
        obtain ⟨e1, hrun1, hs1⟩ := Quiet.bindTexture_quiet (r.textures texture).textureId layer r
        split
        · exact ⟨⟨e1, hrun1, hs1⟩, fun h => by simp at h, fun _ h => by simp at h⟩
        · obtain ⟨hq, hvalid, hinv⟩ := ih (layer + 1)
            (bindTexture (r.textures texture).textureId layer r).2
          refine ⟨Quiet.trans_quiet ⟨e1, hrun1, hs1⟩ hq, ?_, ?_⟩
          · intro h l h1 h2
            by_cases hl : l = layer
            · subst hl; simp [textureValidAt, ht, hz]
            · rw [← hrun1.textureValidAt c l]
              exact hvalid h l (by omega) (by omega)
          · intro hall
            apply hinv
            intro l h1 h2
            rw [hrun1.textureValidAt c l]
            exact hall l (by omega) (by omega)
    | none =>
      simp only []
      obtain ⟨e1, hrun1, hs1⟩ := Quiet.bindTexture_quiet 0 layer r
      split
      · exact ⟨⟨e1, hrun1, hs1⟩, fun h => by simp at h, fun _ h => by simp at h⟩
      · obtain ⟨hq, hvalid, hinv⟩ := ih (layer + 1) (bindTexture 0 layer r).2
        refine ⟨Quiet.trans_quiet ⟨e1, hrun1, hs1⟩ hq, ?_, ?_⟩
        · intro h l h1 h2
          by_cases hl : l = layer
          · subst hl; simp [textureValidAt, ht]
          · rw [← hrun1.textureValidAt c l]
            exact hvalid h l (by omega) (by omega)
        · intro hall
          apply hinv
          intro l h1 h2
          rw [hrun1.textureValidAt c l]
          exact hall l (by omega) (by omega)

theorem texturesValid_iff (b : Build) (r : RendererOGL) (c : DrawCommand) :
    texturesValid b r c = true ↔ ∀ l, 0 ≤ l → l < 0 + b.LAYERS → textureValidAt r c l = true := by
  unfold texturesValid
  rw [List.all_eq_true]
  constructor
  · intro h l _ hl
    exact h l (List.mem_range.2 (by omega))
  · intro h l hl
    exact h l (Nat.zero_le _) (by have := List.mem_range.1 hl; omega)

theorem useShader_summary (c : DrawCommand) (r : RendererOGL) :
    ∃ evs, Run r (useShader c r).2 evs ∧ Calm evs ∧
      Cleared r (useShader c r).2 c.renderTarget evs ∧
      Drawn c (shaderValid c = true ∧ constantsValid c = true ∧ targetValid r c = true ∧
          meshValid c = true ∧ modeValid c = true) (useShader c r).1 evs := by
  unfold useShader
  cases hsh : c.shader with
  | none =>
    refine ⟨[], Run.refl_run r, by simp [Calm], Or.inl rfl, Drawn.none rfl ?_⟩
    intro _ hok
    simp [shaderValid, hsh] at hok
  | some sh =>
    simp only []
    split
    · rename_i hz
      refine ⟨[], Run.refl_run r, by simp [Calm], Or.inl rfl, Drawn.none rfl ?_⟩
      intro _ hok
      simp [shaderValid, hsh, hz] at hok
    · rename_i hz
      have hsv : shaderValid c = true := by simp [shaderValid, hsh, hz]
      obtain ⟨e1, hrun1, hs1⟩ := Quiet.useProgram_quiet sh.programId r
      obtain ⟨hd1, hc1, hcalm1⟩ := state_calls hs1
      split
      · exact ⟨e1, hrun1, hcalm1, Or.inl hc1, Drawn.none hd1 (by simp)⟩
      · rename_i hpfit
        obtain ⟨⟨e2, hrun2, hs2⟩, hdone2⟩ := uploadConstants_summary
          sh.pixelShaderConstantLocations c.pixelShaderConstants
          c.pixelShaderConstants.length 0 (useProgram sh.programId r)
        obtain ⟨hd2, hc2, hcalm2⟩ := state_calls hs2
        generalize uploadConstants sh.pixelShaderConstantLocations c.pixelShaderConstants
          c.pixelShaderConstants.length 0 (useProgram sh.programId r) = res2 at hrun2 hdone2 ⊢
        obtain ⟨f2, r2⟩ := res2
        have hstop2 : ∃ evs, Run r r2 evs ∧ Calm evs ∧ Cleared r r2 c.renderTarget evs ∧
            Drawn c (shaderValid c = true ∧ constantsValid c = true ∧ targetValid r c = true ∧
              meshValid c = true ∧ modeValid c = true) Flow.abort evs :=
          ⟨e1 ++ e2, hrun1.trans_run hrun2, calm_append hcalm1 hcalm2,
            Or.inl (by simp [List.filter_append, hc1, hc2]),
            Drawn.none (by simp [List.filter_append, hd1, hd2]) (by simp)⟩
        cases f2 with
        | unsupported => exact hstop2
        | outOfBounds => exact hstop2
        | done =>
          simp only []
          split
          · exact hstop2
          · rename_i hvfit
            obtain ⟨⟨e3, hrun3, hs3⟩, hdone3⟩ := uploadConstants_summary
              sh.vertexShaderConstantLocations c.vertexShaderConstants
              c.vertexShaderConstants.length 0 r2
            obtain ⟨hd3, hc3, hcalm3⟩ := state_calls hs3
            generalize uploadConstants sh.vertexShaderConstantLocations c.vertexShaderConstants
              c.vertexShaderConstants.length 0 r2 = res3 at hrun3 hdone3 ⊢
            obtain ⟨f3, r3⟩ := res3
            have hrun123 := (hrun1.trans_run hrun2).trans_run hrun3
            have hc123 : (e1 ++ e2 ++ e3).filter GLCall.isClear = [] := by
              simp [List.filter_append, hc1, hc2, hc3]
            have hd123 : (e1 ++ e2 ++ e3).filter GLCall.isDraw = [] := by
              simp [List.filter_append, hd1, hd2, hd3]
            have hstop3 : ∃ evs, Run r r3 evs ∧ Calm evs ∧ Cleared r r3 c.renderTarget evs ∧
                Drawn c (shaderValid c = true ∧ constantsValid c = true ∧
                  targetValid r c = true ∧ meshValid c = true ∧ modeValid c = true)
                  Flow.abort evs :=
              ⟨e1 ++ e2 ++ e3, hrun123, calm_append (calm_append hcalm1 hcalm2) hcalm3,
                Or.inl hc123, Drawn.none hd123 (by simp)⟩
            cases f3 with
            | unsupported => exact hstop3
            | outOfBounds => exact hstop3
            | done =>
              simp only []
              have hcv : constantsValid c = true := by
                have a := hdone2 rfl
                have b := hdone3 rfl
                simp only [List.drop_zero] at a b
                simp only [constantsValid, hsh, uniformsSupported, Bool.and_eq_true,
                  decide_eq_true_eq]
                exact ⟨⟨⟨by omega, a⟩, by omega⟩, b⟩
              obtain ⟨e4, hrun4, hcalm4, hclear4, hdrawn4⟩ := renderTarget_summary c r3
              refine ⟨(e1 ++ e2 ++ e3) ++ e4, hrun123.trans_run hrun4,
                calm_append (calm_append (calm_append hcalm1 hcalm2) hcalm3) hcalm4,
                Cleared.after_run hrun123 hc123 hclear4, Drawn.after_quiet hd123 ?_⟩
              rw [hrun123.targetValid] at hdrawn4
              exact hdrawn4.mono (fun h => ⟨hsv, hcv, h⟩) (fun h => h.2.2)

theorem passesValidation_iff (b : Build) (r : RendererOGL) (c : DrawCommand) :
    passesValidation b r c = true ↔
      passesWireframe b c = true ∧ c.blendState.isSome = true ∧ texturesValid b r c = true ∧
        (shaderValid c = true ∧ constantsValid c = true ∧ targetValid r c = true ∧
          meshValid c = true ∧ modeValid c = true) := by
  simp only [passesValidation, reachesConstants, Bool.and_eq_true]
  tauto

theorem drawOne_summary (b : Build) (c : DrawCommand) (r : RendererOGL) :
    ∃ evs, Run r (drawOne b c r).2 evs ∧ Calm evs ∧
      Cleared r (drawOne b c r).2 c.renderTarget evs ∧
      Drawn c (passesValidation b r c = true) (drawOne b c r).1 evs := by
  unfold drawOne
  split
  · rename_i hw
    refine ⟨[], Run.refl_run r, by simp [Calm], Or.inl rfl, Drawn.none rfl ?_⟩
    intro _ hok
    rw [passesValidation_iff] at hok
    simp [passesWireframe, hw] at hok
  · rename_i hw
    have hpw : passesWireframe b c = true := by
      simp only [passesWireframe]
      cases hx : (!b.supportsOpenGL && c.wireframe)
      · rfl
      · exact absurd hx hw
    have h1 : Quiet r (if b.supportsOpenGL = true
        then setPolygonFillMode (if c.wireframe = true then GL_LINE else GL_FILL) r else r) := by
      split
      · exact Quiet.setPolygonFillMode_quiet _ r
      · exact Quiet.refl_quiet r
    simp only []
    generalize (if b.supportsOpenGL = true
        then setPolygonFillMode (if c.wireframe = true then GL_LINE else GL_FILL) r else r) = r1
      at h1 ⊢
    obtain ⟨e1, hrun1, hs1⟩ := h1
    obtain ⟨hd1, hc1, hcalm1⟩ := state_calls hs1
    cases hbs : c.blendState with
    | none =>
      refine ⟨e1, hrun1, hcalm1, Or.inl hc1, Drawn.none hd1 ?_⟩
      intro _ hok
      rw [passesValidation_iff] at hok
      simp [hbs] at hok
    | some bs =>
      simp only []
      obtain ⟨e2, hrun2, hs2⟩ := Quiet.setBlendState_quiet bs r1
      obtain ⟨hd2, hc2, hcalm2⟩ := state_calls hs2
      generalize setBlendState bs r1 = res2 at hrun2 ⊢
      obtain ⟨ok2, r2⟩ := res2
      have hrun12 := hrun1.trans_run hrun2
      cases ok2 with
      | false =>
        exact ⟨e1 ++ e2, hrun12, calm_append hcalm1 hcalm2,
          Or.inl (by simp [List.filter_append, hc1, hc2]),
          Drawn.none (by simp [List.filter_append, hd1, hd2]) (by simp)⟩
      | true =>
        simp only [Bool.not_true, Bool.false_eq_true, if_false]
        obtain ⟨⟨e3, hrun3, hs3⟩, hvalid, hinv⟩ := bindTextures_summary c b.LAYERS 0 r2
        obtain ⟨hd3, hc3, hcalm3⟩ := state_calls hs3
        generalize bindTextures c b.LAYERS 0 r2 = res3 at hrun3 hvalid hinv ⊢
        obtain ⟨f3, r3⟩ := res3
        have hrun123 := hrun12.trans_run hrun3
        have hc123 : (e1 ++ e2 ++ e3).filter GLCall.isClear = [] := by
          simp [List.filter_append, hc1, hc2, hc3]
        have hd123 : (e1 ++ e2 ++ e3).filter GLCall.isDraw = [] := by
          simp [List.filter_append, hd1, hd2, hd3]
        have hcalm123 := calm_append (calm_append hcalm1 hcalm2) hcalm3
        cases f3 with
        | failed =>
          exact ⟨_, hrun123, hcalm123, Or.inl hc123, Drawn.none hd123 (by simp)⟩
        | invalid =>
          refine ⟨_, hrun123, hcalm123, Or.inl hc123, Drawn.none hd123 ?_⟩
          intro _ hok
          rw [passesValidation_iff] at hok
          have htv := hok.2.2.1
          rw [← hrun12.texturesValid, texturesValid_iff] at htv
          exact hinv htv rfl
        | valid =>
          simp only []
          have htv : texturesValid b r c = true := by
            rw [← hrun12.texturesValid, texturesValid_iff]
            exact hvalid rfl
          obtain ⟨e4, hrun4, hcalm4, hclear4, hdrawn4⟩ := useShader_summary c r3
          refine ⟨(e1 ++ e2 ++ e3) ++ e4, hrun123.trans_run hrun4,
            calm_append hcalm123 hcalm4, Cleared.after_run hrun123 hc123 hclear4,
            Drawn.after_quiet hd123 ?_⟩
          rw [hrun123.targetValid] at hdrawn4
          refine hdrawn4.mono ?_ ?_
          · intro h
            rw [passesValidation_iff]
            exact ⟨hpw, by simp [hbs], htv, h⟩
          · intro h
            rw [passesValidation_iff] at h
            exact h.2.2.2

end BodyLemmas

/-! ## The loop over the draw queue: lemmas -/

section LoopLemmas

theorem drawLoop_append (b : Build) (pre rest : List DrawCommand) :
    ∀ r : RendererOGL, drawLoop b (pre ++ rest) r =
      if (drawLoop b pre r).1 = true then drawLoop b rest (drawLoop b pre r).2
      else drawLoop b pre r := by
  induction pre with
  | nil => intro r; simp [drawLoop]
  | cons c pre ih =>
    intro r
    simp only [List.cons_append, drawLoop]
    generalize drawOne b c r = res
    obtain ⟨f, r1⟩ := res
    cases f with
    | abort => simp
    | next => simp only []; exact ih r1

theorem validatedDraws_cons (b : Build) (r : RendererOGL) (c : DrawCommand)
    (queue : List DrawCommand) :
    validatedDraws b r (c :: queue) =
      (if passesValidation b r c = true then (drawCallOf c).toList else []) ++
        validatedDraws b r queue := by
  unfold validatedDraws
  rw [List.filter_cons]
  split
  · rw [List.filterMap_cons]
    cases drawCallOf c <;> simp
  · simp

theorem validatedDraws_append (b : Build) (r : RendererOGL) (pre rest : List DrawCommand) :
    validatedDraws b r (pre ++ rest) = validatedDraws b r pre ++ validatedDraws b r rest := by
  unfold validatedDraws
  rw [List.filter_append, List.filterMap_append]

theorem Run.validatedDraws {r q : RendererOGL} {evs : List GLCall} (h : Run r q evs)
    (b : Build) (queue : List DrawCommand) :
    validatedDraws b q queue = validatedDraws b r queue := by
  unfold graphics.validatedDraws
  have : graphics.passesValidation b q = graphics.passesValidation b r :=
    funext (h.passesValidation b)
  rw [this]

theorem filter_isClearOf (target : Option TextureRef) (evs : List GLCall) :
    evs.filter (GLCall.isClearOf target) =
      (evs.filter GLCall.isClear).filter (GLCall.isClearOf target) := by
  rw [List.filter_filter]
  congr 1
  funext e
  cases e <;> simp [GLCall.isClearOf, GLCall.isClear]

theorem Cleared.clearOf {r q : RendererOGL} {t : Option TextureRef} {evs : List GLCall}
    (h : Cleared r q t evs) (target : Option TextureRef) :
    (evs.filter (GLCall.isClearOf target)).length ≤ 1 ∧
      (evs.filter (GLCall.isClearOf target) ≠ [] →
        r.stamp target ≠ r.currentFrame ∧ q.stamp target = r.currentFrame) := by
  rw [filter_isClearOf]
  rcases h with a | ⟨mask, a, hne, heq⟩
  · rw [a]; simp
  · rw [a]
    by_cases ht : t = target
    · subst ht
      refine ⟨by simp [List.filter_cons]; split <;> simp, fun _ => ⟨hne, heq⟩⟩
    · have : [GLCall.glClear t mask].filter (GLCall.isClearOf target) = [] := by
        simp [GLCall.isClearOf, ht]
      rw [this]
      simp

theorem drawLoop_summary (b : Build) (queue : List DrawCommand) :
    ∀ r : RendererOGL, ∃ evs, Run r (drawLoop b queue r).2 evs ∧ Calm evs ∧
      (∃ rest, evs.filter GLCall.isDraw ++ rest = validatedDraws b r queue ∧
        ((drawLoop b queue r).1 = true → rest = [])) ∧
      (∀ target, r.stamp target = r.currentFrame →
        evs.filter (GLCall.isClearOf target) = []) ∧
      (∀ target, (evs.filter (GLCall.isClearOf target)).length ≤ 1) := by
  induction queue with
  | nil =>
    intro r
    exact ⟨[], Run.refl_run r, by simp [Calm], ⟨[], by simp [validatedDraws], fun _ => rfl⟩,
      fun _ _ => rfl, fun _ => by simp⟩
  | cons c queue ih =>
    intro r
    obtain ⟨e1, hrun1, hcalm1, hclear1, hdrawn1⟩ := drawOne_summary b c r
    simp only [drawLoop]
    generalize drawOne b c r = res at hrun1 hclear1 hdrawn1 ⊢
    obtain ⟨f, r1⟩ := res
    simp only [] at hrun1 hclear1 hdrawn1
    have hstamp1 : ∀ target, r.stamp target = r.currentFrame →
        e1.filter (GLCall.isClearOf target) = [] := by
      intro target hs
      by_contra hne
      exact ((hclear1.clearOf target).2 hne).1 hs
    cases f with
    | abort =>
      simp only []
      refine ⟨e1, hrun1, hcalm1, ?_, hstamp1, fun t => (hclear1.clearOf t).1⟩
      rw [validatedDraws_cons]
      rcases hdrawn1.1 with a | ⟨hp, a⟩
      · exact ⟨_, by rw [a, List.nil_append], by simp⟩
      · exact ⟨validatedDraws b r queue, by rw [a, if_pos hp], by simp⟩
    | next =>
      simp only []
      obtain ⟨e2, hrun2, hcalm2, ⟨rest, hrest, hok⟩, hstamp2, hcount2⟩ := ih r1
      refine ⟨e1 ++ e2, hrun1.trans_run hrun2, calm_append hcalm1 hcalm2,
        ⟨rest, ?_, hok⟩, ?_, ?_⟩
      · rw [validatedDraws_cons, List.filter_append, List.append_assoc, hrest,
          hrun1.validatedDraws]
        congr 1
        by_cases hp : passesValidation b r c = true
        · rw [if_pos hp]; exact hdrawn1.2 rfl hp
        · rw [if_neg hp]
          rcases hdrawn1.1 with a | ⟨hp2, _⟩
          · exact a
          · exact absurd hp2 hp
      · intro target hs
        rw [List.filter_append, hstamp1 target hs,
          hstamp2 target (by rw [hrun1.currentFrame]; exact hrun1.stamp_current target hs)]
        rfl
      · intro target
        rw [List.filter_append, List.length_append]
        by_cases hne : e1.filter (GLCall.isClearOf target) = []
        · rw [hne]; simpa using hcount2 target
        · have h1 := (hclear1.clearOf target).1
          have h2 := ((hclear1.clearOf target).2 hne).2
          rw [hstamp2 target (by rw [hrun1.currentFrame]; exact h2)]
          simpa using h1

theorem constantsValid_of_exceed {c : DrawCommand} (h : constantsExceed c = true) :
    constantsValid c = false := by
  unfold constantsExceed at h
  unfold constantsValid
  cases hsh : c.shader with
  | none => rfl
  | some sh =>
    simp only [hsh, Bool.or_eq_true, decide_eq_true_eq] at h
    simp only [Bool.and_eq_false_iff, decide_eq_false_iff_not]
    rcases h with h | h
    · exact Or.inl (Or.inl (Or.inl (by omega)))
    · exact Or.inl (Or.inr (by omega))

theorem Run.reachesConstants {r q : RendererOGL} {evs : List GLCall} (h : Run r q evs)
    (b : Build) (c : DrawCommand) : reachesConstants b q c = reachesConstants b r c := by
  unfold graphics.reachesConstants
  rw [h.texturesValid]

theorem useShader_excess (c : DrawCommand) (r : RendererOGL) (hsv : shaderValid c = true)
    (hex : constantsExceed c = true) : (useShader c r).1 = .abort := by
  unfold useShader
  unfold shaderValid at hsv
  unfold constantsExceed at hex
  cases hsh : c.shader with
  | none => simp [hsh] at hsv
  | some sh =>
    simp only [hsh, ne_eq, decide_eq_true_eq] at hsv
    simp only [hsh, Bool.or_eq_true, decide_eq_true_eq] at hex
    simp only [if_neg hsv]
    split
    · rfl
    · rename_i hp
      generalize uploadConstants sh.pixelShaderConstantLocations c.pixelShaderConstants
        c.pixelShaderConstants.length 0 (useProgram sh.programId r) = res2
      obtain ⟨f2, r2⟩ := res2
      cases f2 with
      | unsupported => rfl
      | outOfBounds => rfl
      | done =>
        simp only []
        have hv : c.vertexShaderConstants.length > sh.vertexShaderConstantLocations.length := by
          rcases hex with h | h
          · exact absurd h hp
          · exact h
        rw [if_pos hv]

theorem drawOne_excess (b : Build) (c : DrawCommand) (r : RendererOGL)
    (hreach : reachesConstants b r c = true) (hex : constantsExceed c = true) :
    (drawOne b c r).1 = .abort := by
  simp only [reachesConstants, Bool.and_eq_true] at hreach
  obtain ⟨⟨⟨hw, hbs⟩, htv⟩, hsv⟩ := hreach
  unfold drawOne
  have hw2 : ¬ ((!b.supportsOpenGL && c.wireframe) = true) := by
    unfold passesWireframe at hw
    cases hx : (!b.supportsOpenGL && c.wireframe)
    · simp
    · rw [hx] at hw; simp at hw
  rw [if_neg hw2]
  have h1 : Quiet r (if b.supportsOpenGL = true
      then setPolygonFillMode (if c.wireframe = true then GL_LINE else GL_FILL) r else r) := by
    split
    · exact Quiet.setPolygonFillMode_quiet _ r
    · exact Quiet.refl_quiet r
  simp only []
  generalize (if b.supportsOpenGL = true
      then setPolygonFillMode (if c.wireframe = true then GL_LINE else GL_FILL) r else r) = r1
    at h1 ⊢
  obtain ⟨e1, hrun1, _⟩ := h1
  cases hb : c.blendState with
  | none => simp [hb] at hbs
  | some bs =>
    simp only []
    obtain ⟨e2, hrun2, _⟩ := Quiet.setBlendState_quiet bs r1
    generalize setBlendState bs r1 = res2 at hrun2 ⊢
    obtain ⟨ok2, r2⟩ := res2
    cases ok2 with
    | false => rfl
    | true =>
      simp only [Bool.not_true, Bool.false_eq_true, if_false]
      obtain ⟨_, _, hinv⟩ := bindTextures_summary c b.LAYERS 0 r2
      generalize bindTextures c b.LAYERS 0 r2 = res3 at hinv ⊢
      obtain ⟨f3, r3⟩ := res3
      cases f3 with
      | failed => rfl
      | invalid =>
        rw [← (hrun1.trans_run hrun2).texturesValid, texturesValid_iff] at htv
        exact absurd rfl (hinv htv)
      | valid => exact useShader_excess c r3 hsv hex

theorem drawLoop_excess (b : Build) (pre : List DrawCommand) (c : DrawCommand)
    (post : List DrawCommand) (r : RendererOGL) (hreach : reachesConstants b r c = true)
    (hex : constantsExceed c = true) :
    (drawLoop b (pre ++ c :: post) r).1 = false ∧
      ∃ evs, Run r (drawLoop b (pre ++ c :: post) r).2 evs ∧
        ∃ rest, evs.filter GLCall.isDraw ++ rest = validatedDraws b r pre := by
  rw [drawLoop_append]
  obtain ⟨e1, hrun1, _, ⟨rest1, hrest1, _⟩, _, _⟩ := drawLoop_summary b pre r
  by_cases hok : (drawLoop b pre r).1 = true
  · rw [if_pos hok]
    have hab := drawOne_excess b c (drawLoop b pre r).2
      (by rw [hrun1.reachesConstants]; exact hreach) hex
    obtain ⟨e2, hrun2, _, _, hdrawn⟩ := drawOne_summary b c (drawLoop b pre r).2
    have hnp : ¬ (passesValidation b (drawLoop b pre r).2 c = true) := by
      intro hp
      rw [passesValidation_iff] at hp
      rw [constantsValid_of_exceed hex] at hp
      simp at hp
    have hd2 : e2.filter GLCall.isDraw = [] := by
      rcases hdrawn.1 with a | ⟨hp, _⟩
      · exact a
      · exact absurd hp hnp
    simp only [drawLoop]
    generalize drawOne b c (drawLoop b pre r).2 = res at hab hrun2 ⊢
    obtain ⟨f, r2⟩ := res
    simp only [] at hab
    subst hab
    exact ⟨rfl, e1 ++ e2, hrun1.trans_run hrun2, rest1, by
      rw [List.filter_append, hd2, List.append_nil]; exact hrest1⟩
  · rw [if_neg hok]
    refine ⟨?_, e1, hrun1, rest1, hrest1⟩
    cases hx : (drawLoop b pre r).1
    · rfl
    · exact absurd hx hok

theorem drawOne_unblended (b : Build) (c : DrawCommand) (r : RendererOGL)
    (h : c.blendState = none) : (drawOne b c r).1 = .next := by
  unfold drawOne
  split
  · rfl
  · simp only [h]

theorem drawLoop_unblended (b : Build) (queue : List DrawCommand)
    (h : ∀ c ∈ queue, c.blendState = none) :
    ∀ r : RendererOGL, (drawLoop b queue r).1 = true := by
  induction queue with
  | nil => intro r; rfl
  | cons c queue ih =>
    intro r
    have hc := drawOne_unblended b c r (h c (List.mem_cons_self _ _))
    simp only [drawLoop]
    generalize drawOne b c r = res at hc ⊢
    obtain ⟨f, r1⟩ := res
    simp only [] at hc
    subst hc
    exact ih (fun d hd => h d (List.mem_cons_of_mem _ hd)) r1

theorem validatedDraws_unblended (b : Build) (r : RendererOGL) (queue : List DrawCommand)
    (h : ∀ c ∈ queue, c.blendState = none) : validatedDraws b r queue = [] := by
  unfold validatedDraws
  have : queue.filter (passesValidation b r) = [] := by
    rw [List.filter_eq_nil_iff]
    intro c hc hp
    rw [passesValidation_iff] at hp
    simp [h c hc] at hp
  rw [this]
  rfl

end LoopLemmas

/-! ## The driver without errors: lemmas -/

section HealthyLemmas

theorem healthy_nextFault {r : RendererOGL} (h : r.healthy) :
    r.nextFault.1 = false ∧ r.nextFault.2 = { r with faults := r.faults.drop 1 } := by
  unfold RendererOGL.nextFault
  cases hf : r.faults with
  | nil => exact ⟨rfl, by cases r; simp_all⟩
  | cons f rest =>
    refine ⟨?_, by simp⟩
    exact h f (by simp [hf])

theorem Run.healthy_run {r q : RendererOGL} {evs : List GLCall} (h : Run r q evs)
    (hr : r.healthy) : q.healthy := by
  obtain ⟨k, hk⟩ := h.faults
  intro f hf
  rw [hk] at hf
  exact hr f (List.mem_of_mem_drop hf)

theorem Quiet.healthy_quiet {r q : RendererOGL} (h : Quiet r q) (hr : r.healthy) : q.healthy := by
  obtain ⟨_, hrun, _⟩ := h
  exact hrun.healthy_run hr

theorem helperResult_healthy {r : RendererOGL} (h : r.healthy) : (helperResult r).1 = true := by
  unfold helperResult
  simp [(healthy_nextFault h).1]

theorem checkOpenGLError_healthy {r : RendererOGL} (h : r.healthy) :
    (checkOpenGLError r).1 = false :=
  (healthy_nextFault h).1

theorem bindFrameBuffer_healthy (id : GLuint) {r : RendererOGL} (h : r.healthy) :
    (bindFrameBuffer id r).1 = true := by
  unfold bindFrameBuffer
  split
  · exact helperResult_healthy h
  · exact helperResult_healthy ((Quiet.emitCache_quiet r _ _ (by rfl)).healthy_quiet h)

theorem bindTexture_healthy (id : GLuint) (layer : Nat) {r : RendererOGL} (h : r.healthy) :
    (bindTexture id layer r).1 = true := by
  unfold bindTexture
  split
  · exact helperResult_healthy h
  · exact helperResult_healthy ((Quiet.emitCache_quiet r _ _ (by rfl)).healthy_quiet h)

theorem setBlendState_healthy (bs : BlendStateOGL) {r : RendererOGL} (h : r.healthy) :
    (setBlendState bs r).1 = true :=
  helperResult_healthy ((Quiet.emit_quiet r _ (by rfl)).healthy_quiet h)

theorem setViewport_healthy (x y w ht : Int) {r : RendererOGL} (h : r.healthy) :
    (setViewport x y w ht r).1 = true :=
  helperResult_healthy ((Quiet.emit_quiet r _ (by rfl)).healthy_quiet h)

theorem bindTextures_healthy (c : DrawCommand) :
    ∀ (n layer : Nat) (r : RendererOGL), r.healthy → (bindTextures c n layer r).1 ≠ .failed := by
  intro n
  induction n with
  | zero => intro layer r _ h; simp [bindTextures] at h
  | succ n ih =>
    intro layer r hr
    unfold bindTextures
    cases c.textureAt layer with
    | some texture =>
      simp only []
      split
      · simp
      · have hok := bindTexture_healthy (r.textures texture).textureId layer hr
        have hq := (Quiet.bindTexture_quiet (r.textures texture).textureId layer r).healthy_quiet hr
        rw [hok]
        simp only [Bool.not_true, Bool.false_eq_true, if_false]
        exact ih _ _ hq
    | none =>
      simp only []
      have hok := bindTexture_healthy 0 layer hr
      have hq := (Quiet.bindTexture_quiet 0 layer r).healthy_quiet hr
      rw [hok]
      simp only [Bool.not_true, Bool.false_eq_true, if_false]
      exact ih _ _ hq

end HealthyLemmas

/-! ## The frame: lemmas -/

section FrameLemmas

theorem noDelete_append {e1 e2 : List GLCall} (h1 : NoDelete e1) (h2 : NoDelete e2) :
    NoDelete (e1 ++ e2) := by
  intro e he
  rcases List.mem_append.1 he with a | a
  · exact h1 e a
  · exact h2 e a

theorem noDelete_of_calm {evs : List GLCall} (h : Calm evs) : NoDelete evs :=
  fun e he => (h e he).1

theorem noDelete_of_state {evs : List GLCall} (h : ∀ e ∈ evs, e.isState = true) :
    NoDelete evs :=
  noDelete_of_calm (state_calls h).2.2

theorem Run.fields {r q : RendererOGL} {evs : List GLCall} (h : Run r q evs) :
    q.deleteVertexArraysOES = r.deleteVertexArraysOES ∧ q.frameBufferId = r.frameBufferId ∧
      q.systemFrameBufferId = r.systemFrameBufferId ∧
      q.frameBufferWidth = r.frameBufferWidth ∧ q.frameBufferHeight = r.frameBufferHeight ∧
      q.frameBufferClearColor = r.frameBufferClearColor ∧ q.clearMask = r.clearMask ∧
      q.currentFrame = r.currentFrame ∧ q.drawQueue = r.drawQueue := by
  have := h.fixed
  simp only [RendererOGL.fixed, Prod.mk.injEq] at this
  exact this

theorem Run.evs_eq {r q : RendererOGL} {e1 e2 : List GLCall} (h : Run r q e1)
    (hc : q.calls = r.calls ++ e2) : e1 = e2 := by
  have := h.calls
  rw [hc] at this
  exact (List.append_cancel_left this).symm

theorem nextFault_calls (r : RendererOGL) : r.nextFault.2.calls = r.calls := by
  unfold RendererOGL.nextFault
  cases r.faults <;> rfl

theorem helperResult_calls (r : RendererOGL) : (helperResult r).2.calls = r.calls :=
  nextFault_calls r

theorem bindFrameBuffer_calls (id : GLuint) (r : RendererOGL) :
    (bindFrameBuffer id r).2.calls = r.calls ++
      (if r.stateCache.frameBufferId = id then []
       else [.glBindFramebuffer GL_FRAMEBUFFER id]) := by
  unfold bindFrameBuffer
  rw [helperResult_calls]
  split <;> simp

theorem setViewport_calls (x y w h : Int) (r : RendererOGL) :
    (setViewport x y w h r).2.calls = r.calls ++ [.glViewport x y w h] := by
  unfold setViewport
  rw [helperResult_calls]
  simp

theorem Run.swapBuffers_run (r : RendererOGL) : Run r (swapBuffers r).2 [.swapBuffers] :=
  Run.emit_run r .swapBuffers

theorem presentEmpty_summary (r : RendererOGL) :
    ∃ evs, Run r (presentEmpty r).2 evs ∧ NoDelete evs ∧ evs.filter GLCall.isDraw = [] ∧
      (∀ target, (evs.filter (GLCall.isClearOf target)).length ≤ 1) ∧
      (r.healthy → r.clearMask ≠ 0 →
        (presentEmpty r).1 = true ∧ evs = emptyFrameCalls r) ∧
      (r.clearMask = 0 → (presentEmpty r).1 = true ∧ evs = [.swapBuffers]) := by
  unfold presentEmpty
  have hrun0 := Run.stampDefault r
  have hcache : ({ r with frameBufferClearedFrame := r.currentFrame } : RendererOGL).stateCache =
      r.stateCache := rfl
  generalize ({ r with frameBufferClearedFrame := r.currentFrame } : RendererOGL) = r1
    at hrun0 hcache ⊢
  have hh0 : r.healthy → r1.healthy := hrun0.healthy_run
  obtain ⟨_, hfb, _, hw, hht, hcol, hmask, _, _⟩ := hrun0.fields
  simp only []
  split
  · rename_i hm
    have hm0 : r.clearMask ≠ 0 := by rw [← hmask]; exact hm
    obtain ⟨e1, hrun1, hs1⟩ := Quiet.bindFrameBuffer_quiet r1.frameBufferId r1
    have hb := @bindFrameBuffer_healthy r1.frameBufferId r1
    have hcalls1 := bindFrameBuffer_calls r1.frameBufferId r1
    generalize bindFrameBuffer r1.frameBufferId r1 = res1 at hrun1 hb hcalls1 ⊢
    obtain ⟨ok1, r2⟩ := res1
    simp only [] at hrun1 hb hcalls1
    have he1 := hrun1.evs_eq hcalls1
    obtain ⟨hd1, hc1, _⟩ := state_calls hs1
    have hclearOf : ∀ (e : List GLCall) (target : Option TextureRef),
        e.filter GLCall.isClear = [] → e.filter (GLCall.isClearOf target) = [] := by
      intro e target h
      rw [filter_isClearOf, h]
      rfl
    cases ok1 with
    | false =>
      refine ⟨[] ++ e1, hrun0.trans_run hrun1, by simpa using noDelete_of_state hs1,
        by simpa using hd1, ?_, ?_, fun h => absurd h hm0⟩
      · intro target
        simp [hclearOf e1 target hc1]
      · intro hh _
        exact absurd (hb (hh0 hh)) (by simp)
    | true =>
      simp only [Bool.not_true, Bool.false_eq_true, if_false]
      obtain ⟨_, _, _, hw2, hht2, hcol2, hmask2, _, _⟩ := hrun1.fields
      obtain ⟨e2, hrun2, hs2⟩ := Quiet.setViewport_quiet 0 0 r2.frameBufferWidth
        r2.frameBufferHeight r2
      have hv := @setViewport_healthy 0 0 r2.frameBufferWidth r2.frameBufferHeight r2
      have hcalls2 := setViewport_calls 0 0 r2.frameBufferWidth r2.frameBufferHeight r2
      generalize setViewport 0 0 r2.frameBufferWidth r2.frameBufferHeight r2 = res2
        at hrun2 hv hcalls2 ⊢
      obtain ⟨ok2, r3⟩ := res2
      simp only [] at hrun2 hv hcalls2
      have he2 := hrun2.evs_eq hcalls2
      obtain ⟨hd2, hc2, _⟩ := state_calls hs2
      have hrun12 := (hrun0.trans_run hrun1).trans_run hrun2
      have hh2 : r.healthy → r3.healthy := hrun12.healthy_run
      cases ok2 with
      | false =>
        refine ⟨[] ++ e1 ++ e2, hrun12,
          by simpa using noDelete_append (noDelete_of_state hs1) (noDelete_of_state hs2),
          by simp [List.filter_append, hd1, hd2], ?_, ?_, fun h => absurd h hm0⟩
        · intro target
          simp [List.filter_append, hclearOf e1 target hc1, hclearOf e2 target hc2]
        · intro hh _
          exact absurd (hv ((hrun0.trans_run hrun1).healthy_run hh)) (by simp)
      | true =>
        simp only [Bool.not_true, Bool.false_eq_true, if_false]
        obtain ⟨_, _, _, _, _, hcol3, hmask3, _, _⟩ := hrun2.fields
        obtain ⟨e4, hrun4, hs4⟩ := Quiet.checkOpenGLError_quiet
          ((r3.emit (.glClearColor r3.frameBufferClearColor)).emit (.glClear none r3.clearMask))
        have hchk := @checkOpenGLError_healthy
          ((r3.emit (.glClearColor r3.frameBufferClearColor)).emit (.glClear none r3.clearMask))
        have hcalls4 : (checkOpenGLError ((r3.emit (.glClearColor r3.frameBufferClearColor)).emit
            (.glClear none r3.clearMask))).2.calls = ((r3.emit
              (.glClearColor r3.frameBufferClearColor)).emit
                (.glClear none r3.clearMask)).calls ++ [] := by
          simp [checkOpenGLError, nextFault_calls]
        generalize checkOpenGLError ((r3.emit (.glClearColor r3.frameBufferClearColor)).emit
          (.glClear none r3.clearMask)) = res4 at hrun4 hchk hcalls4 ⊢
        obtain ⟨err, r5⟩ := res4
        simp only [] at hrun4 hchk hcalls4
        have he4 := hrun4.evs_eq hcalls4
        subst he4
        have hrun14 := ((hrun12.trans_run (Run.emit_run r3 _)).trans_run
          (Run.emit_run _ (.glClear none r3.clearMask))).trans_run hrun4
        have hmm : r3.clearMask = r.clearMask := by rw [hmask3, hmask2, hmask]
        have hcc : r3.frameBufferClearColor = r.frameBufferClearColor := by
          rw [hcol3, hcol2, hcol]
        have hnd : NoDelete ([] ++ e1 ++ e2 ++ [GLCall.glClearColor r3.frameBufferClearColor]
            ++ [GLCall.glClear none r3.clearMask] ++ []) := by
          refine noDelete_append (noDelete_append (noDelete_append (by
            simpa using noDelete_append (noDelete_of_state hs1) (noDelete_of_state hs2)) ?_) ?_)
            (by simp [NoDelete])
          · intro e he; simp at he; subst he; rfl
          · intro e he; simp at he; subst he; rfl
        have hclr : ∀ target, (([] ++ e1 ++ e2 ++
            [GLCall.glClearColor r3.frameBufferClearColor] ++
            [GLCall.glClear none r3.clearMask] ++ []).filter
              (GLCall.isClearOf target)).length ≤ 1 := by
          intro target
          have hcol0 : [GLCall.glClearColor r3.frameBufferClearColor].filter
              (GLCall.isClearOf target) = [] := by
            simp [GLCall.isClearOf]
          have hle := List.length_filter_le (GLCall.isClearOf target)
            [GLCall.glClear none r3.clearMask]
          simp only [List.nil_append, List.append_nil, List.filter_append,
            hclearOf e1 target hc1, hclearOf e2 target hc2, hcol0]
          simpa using hle
        cases err with
        | true =>
          refine ⟨_, hrun14, hnd, by simp [List.filter_append, hd1, hd2, GLCall.isDraw],
            hclr, ?_, fun h => absurd h hm0⟩
          intro hh _
          exact absurd (hchk (((Run.emit_run r3 _).trans_run
            (Run.emit_run _ _)).healthy_run (hh2 hh))) (by simp)
        | false =>
          simp only [Bool.false_eq_true, if_false]
          refine ⟨_, hrun14.trans_run (Run.swapBuffers_run r5),
            noDelete_append hnd (by intro e he; simp at he; subst he; rfl),
            by simp [List.filter_append, hd1, hd2, GLCall.isDraw], ?_, ?_,
            fun h => absurd h hm0⟩
          · intro target
            have := hclr target
            rw [List.filter_append, List.length_append]
            simpa [GLCall.isClearOf] using this
          · intro _ _
            refine ⟨rfl, ?_⟩
            rw [he1, he2, hcache, hfb, hw2, hht2, hw, hht, hmm, hcc]
            simp [emptyFrameCalls]
  · rename_i hm
    refine ⟨[] ++ [.swapBuffers], hrun0.trans_run (Run.swapBuffers_run _), ?_,
      by simp [GLCall.isDraw], ?_, ?_, ?_⟩
    · intro e he
      simp at he
      subst he
      rfl
    · intro target
      simp [GLCall.isClearOf]
    · intro _ hne
      rw [hmask] at hm
      exact absurd hne hm
    · intro _
      exact ⟨rfl, rfl⟩

theorem checkOpenGLError_calls (r : RendererOGL) : (checkOpenGLError r).2.calls = r.calls :=
  nextFault_calls r

theorem presentFinish_summary (b : Build) (r : RendererOGL) :
    ∃ evs, Run r (presentFinish b r).2 evs ∧ NoDelete evs ∧ evs.filter GLCall.isDraw = [] ∧
      evs.filter GLCall.isClear = [] ∧
      (r.healthy → (presentFinish b r).1 = true ∧ evs = finishCalls b r) := by
  unfold presentFinish
  split
  · rename_i hb
    try dsimp only
    have hq1 : Quiet r (((r.emit (.glBindFramebuffer GL_DRAW_FRAMEBUFFER r.systemFrameBufferId)).emit
        (.glBindFramebuffer GL_READ_FRAMEBUFFER r.frameBufferId)).emit (.glDrawBuffer GL_BACK)) :=
      ((Quiet.emit_quiet r _ (by rfl)).trans_quiet (Quiet.emit_quiet _ _ (by rfl))).trans_quiet
        (Quiet.emit_quiet _ _ (by rfl))
    have hcalls1 : (((r.emit (.glBindFramebuffer GL_DRAW_FRAMEBUFFER r.systemFrameBufferId)).emit
        (.glBindFramebuffer GL_READ_FRAMEBUFFER r.frameBufferId)).emit
          (.glDrawBuffer GL_BACK)).calls = r.calls ++
        [.glBindFramebuffer GL_DRAW_FRAMEBUFFER r.systemFrameBufferId,
          .glBindFramebuffer GL_READ_FRAMEBUFFER r.frameBufferId, .glDrawBuffer GL_BACK] := by
      simp
    generalize (((r.emit (.glBindFramebuffer GL_DRAW_FRAMEBUFFER r.systemFrameBufferId)).emit
        (.glBindFramebuffer GL_READ_FRAMEBUFFER r.frameBufferId)).emit (.glDrawBuffer GL_BACK))
      = r1 at hq1 hcalls1 ⊢
    obtain ⟨e1, hrun1, hs1⟩ := hq1
    have he1 := hrun1.evs_eq hcalls1
    obtain ⟨hd1, hc1, _⟩ := state_calls hs1
    obtain ⟨e2, hrun2, hs2⟩ := Quiet.checkOpenGLError_quiet r1
    have hchk2 := @checkOpenGLError_healthy r1
    have hcalls2 : (checkOpenGLError r1).2.calls = r1.calls ++ [] := by
      simp [checkOpenGLError_calls]
    generalize checkOpenGLError r1 = res2 at hrun2 hchk2 hcalls2 ⊢
    obtain ⟨err2, r2⟩ := res2
    simp only [] at hrun2 hchk2 hcalls2
    have he2 := hrun2.evs_eq hcalls2
    subst he2
    have hrun12 := hrun1.trans_run hrun2
    cases err2 with
    | true =>
      refine ⟨_, hrun12, by simpa using noDelete_of_state hs1, by simpa using hd1,
        by simpa using hc1, ?_⟩
      intro hh
      exact absurd (hchk2 (hrun1.healthy_run hh)).symm (by simp)
    | false =>
      try dsimp only
      simp only [Bool.false_eq_true, if_false]
      obtain ⟨_, hfb2, hsys2, hw2, hht2, _, _, _, _⟩ := hrun12.fields
      have hq3 : Quiet r2 (r2.emit (.glBlitFramebuffer r2.frameBufferWidth r2.frameBufferHeight)) :=
        Quiet.emit_quiet r2 _ (by rfl)
      have hcalls3 : (r2.emit (.glBlitFramebuffer r2.frameBufferWidth
          r2.frameBufferHeight)).calls = r2.calls ++
            [.glBlitFramebuffer r.frameBufferWidth r.frameBufferHeight] := by
        simp [hw2, hht2]
      generalize (r2.emit (.glBlitFramebuffer r2.frameBufferWidth r2.frameBufferHeight)) = r3
        at hq3 hcalls3 ⊢
      obtain ⟨e3, hrun3, hs3⟩ := hq3
      have he3 := hrun3.evs_eq hcalls3
      obtain ⟨hd3, hc3, _⟩ := state_calls hs3
      try dsimp only
      obtain ⟨e4, hrun4, hs4⟩ := Quiet.checkOpenGLError_quiet r3
      have hchk4 := @checkOpenGLError_healthy r3
      have hcalls4 : (checkOpenGLError r3).2.calls = r3.calls ++ [] := by
        simp [checkOpenGLError_calls]
      generalize checkOpenGLError r3 = res4 at hrun4 hchk4 hcalls4 ⊢
      obtain ⟨err4, r4⟩ := res4
      simp only [] at hrun4 hchk4 hcalls4
      have he4 := hrun4.evs_eq hcalls4
      subst he4
      have hrun14 := (hrun12.trans_run hrun3).trans_run hrun4
      have hnd14 : NoDelete (e1 ++ [] ++ e3 ++ []) := by
        simpa using noDelete_append (noDelete_of_state hs1) (noDelete_of_state hs3)
      cases err4 with
      | true =>
        refine ⟨_, hrun14, hnd14, by simp [List.filter_append, hd1, hd3],
          by simp [List.filter_append, hc1, hc3], ?_⟩
        intro hh
        exact absurd (hchk4 ((hrun12.trans_run hrun3).healthy_run hh)).symm (by simp)
      | false =>
        try dsimp only
        simp only [Bool.false_eq_true, if_false]
        obtain ⟨_, _, hsys4, _, _, _, _, _, _⟩ := hrun14.fields
        have hrun5 : Run r4 (swapBuffers
            { r4.emit (.glBindFramebuffer GL_READ_FRAMEBUFFER r4.systemFrameBufferId) with
              stateCache := { (r4.emit (.glBindFramebuffer GL_READ_FRAMEBUFFER
                r4.systemFrameBufferId)).stateCache with
                  frameBufferId := (r4.emit (.glBindFramebuffer GL_READ_FRAMEBUFFER
                    r4.systemFrameBufferId)).systemFrameBufferId } }).2
            ([.glBindFramebuffer GL_READ_FRAMEBUFFER r4.systemFrameBufferId] ++ [] ++
              [.swapBuffers]) :=
          ((Run.emit_run r4 _).trans_run (Run.cache_run _ _)).trans_run (Run.swapBuffers_run _)
        refine ⟨_, hrun14.trans_run hrun5, ?_, ?_, ?_, ?_⟩
        · refine noDelete_append hnd14 ?_
          intro e he
          simp at he
          rcases he with rfl | rfl <;> rfl
        · simp [List.filter_append, hd1, hd3, GLCall.isDraw]
        · simp [List.filter_append, hc1, hc3, GLCall.isClear]
        · intro _
          refine ⟨rfl, ?_⟩
          rw [he1, he3, hsys4]
          simp [finishCalls, hb]
  · rename_i hb
    refine ⟨[.swapBuffers], Run.swapBuffers_run r, ?_, by simp [GLCall.isDraw],
      by simp [GLCall.isClear], ?_⟩
    · intro e he
      simp at he
      subst he
      rfl
    · intro _
      exact ⟨rfl, by simp [finishCalls, hb]⟩

theorem presentFrame_summary (b : Build) (r : RendererOGL) :
    ∃ evs, Run r (presentFrame b r).2 evs ∧ NoDelete evs ∧
      (∃ rest, evs.filter GLCall.isDraw ++ rest = validatedDraws b r r.drawQueue ∧
        ((presentFrame b r).1 = true → rest = [])) ∧
      (∀ target, (evs.filter (GLCall.isClearOf target)).length ≤ 1) ∧
      (r.healthy → r.drawQueue = [] → r.clearMask ≠ 0 →
        (presentFrame b r).1 = true ∧ evs = emptyFrameCalls r) ∧
      (r.drawQueue = [] → r.clearMask = 0 →
        (presentFrame b r).1 = true ∧ evs = [.swapBuffers]) := by
  unfold presentFrame
  cases hq : r.drawQueue with
  | nil =>
    simp only [List.isEmpty_nil, if_true]
    obtain ⟨evs, hrun, hnd, hdraw, hclr, hhealthy, hzero⟩ := presentEmpty_summary r
    exact ⟨evs, hrun, hnd, ⟨[], by simp [hdraw, validatedDraws], fun _ => rfl⟩, hclr,
      fun hh _ hm => hhealthy hh hm, fun _ hm => hzero hm⟩
  | cons c queue =>
    simp only [List.isEmpty_cons, Bool.false_eq_true, if_false]
    obtain ⟨evs, hrun, hcalm, hdraw, _, hclr⟩ := drawLoop_summary b (c :: queue) r
    exact ⟨evs, hrun, noDelete_of_calm hcalm, hdraw, hclr,
      fun _ h => by simp at h, fun h => by simp at h⟩

theorem present_eq (b : Build) (r : RendererOGL) :
    present b r =
      if (Renderer.present r).1 = true then
        if (presentFrame b (deleteResources b (Renderer.present r).2)).1 = true then
          presentFinish b (presentFrame b (deleteResources b (Renderer.present r).2)).2
        else (false, (presentFrame b (deleteResources b (Renderer.present r).2)).2)
      else (false, (Renderer.present r).2) := by
  unfold present lockContext
  generalize Renderer.present r = res1
  obtain ⟨ok1, r1⟩ := res1
  cases ok1 with
  | false => simp
  | true =>
    simp only [Bool.not_true, Bool.false_eq_true, if_false, if_true]
    generalize presentFrame b (deleteResources b r1) = res4
    obtain ⟨ok4, r4⟩ := res4
    cases ok4 <;> simp

theorem Renderer.present_base (r : RendererOGL) :
    Run r (Renderer.present r).2 [] ∧ (Renderer.present r).2.deleteQueue = r.deleteQueue ∧
      (Renderer.present r).2.stateCache = r.stateCache ∧
      (r.healthy → (Renderer.present r).1 = true) := by
  refine ⟨Run.nextFault_run r, ?_, ?_, fun h => helperResult_healthy h⟩
  · show r.nextFault.2.deleteQueue = r.deleteQueue
    unfold RendererOGL.nextFault
    cases r.faults <;> rfl
  · show r.nextFault.2.stateCache = r.stateCache
    unfold RendererOGL.nextFault
    cases r.faults <;> rfl

theorem present_base_failed (b : Build) (r : RendererOGL)
    (h : (Renderer.present r).1 = false) :
    (present b r).1 = false ∧ issued r (present b r).2 = [] ∧
      (present b r).2.deleteQueue = r.deleteQueue := by
  rw [present_eq, if_neg (by simp [h])]
  obtain ⟨hrun, hq, _⟩ := Renderer.present_base r
  exact ⟨rfl, hrun.issued, hq⟩

theorem present_run (b : Build) (r : RendererOGL) (hbase : (Renderer.present r).1 = true) :
    ∃ e0 e1 e2, Run r (present b r).2 (e0 ++ e1 ++ e2) ∧ (present b r).2.deleteQueue = [] ∧
      e0.filter GLCall.isDelete =
        (r.deleteQueue.filter (hasDeleteEntryPoint b r)).map deleteCall ∧
      (∀ c ∈ e0, c.isDelete = true ∨ c = .glBindVertexArray 0) ∧
      NoDelete e1 ∧
      (∃ rest, e1.filter GLCall.isDraw ++ rest = validatedDraws b r r.drawQueue ∧
        ((present b r).1 = true → rest = [])) ∧
      (∀ target, (e1.filter (GLCall.isClearOf target)).length ≤ 1) ∧
      NoDelete e2 ∧ e2.filter GLCall.isDraw = [] ∧ e2.filter GLCall.isClear = [] ∧
      (r.healthy →
        (present b r).1 = (presentFrame b (deleteResources b (Renderer.present r).2)).1 ∧
        ((present b r).1 = true → e2 = finishCalls b r) ∧
        (r.drawQueue = [] → r.clearMask ≠ 0 → (present b r).1 = true ∧
          e1 = emptyFrameCalls (deleteResources b (Renderer.present r).2))) := by
  obtain ⟨hrun0, hq0, _, _⟩ := Renderer.present_base r
  obtain ⟨e0, hrun1, hempty, hdel, hall⟩ := deleteResources_run b (Renderer.present r).2
  have hrun01 := hrun0.trans_run hrun1
  obtain ⟨hoes, _, _, _, _, _, hmask, _, hdq⟩ := hrun01.fields
  obtain ⟨e1, hrun2, hnd1, ⟨rest, hrest, hok⟩, hclr, hhealthy, _⟩ :=
    presentFrame_summary b (deleteResources b (Renderer.present r).2)
  rw [hrun01.validatedDraws, hdq] at hrest
  have hdel0 : e0.filter GLCall.isDelete =
      (r.deleteQueue.filter (hasDeleteEntryPoint b r)).map deleteCall := by
    rw [hdel, hq0]
    have : hasDeleteEntryPoint b (Renderer.present r).2 = hasDeleteEntryPoint b r := by
      funext x
      simp only [hasDeleteEntryPoint, hrun0.deleteVertexArraysOES]
    rw [this]
  have hrun012 := hrun01.trans_run hrun2
  obtain ⟨k, hk⟩ := hrun2.deleteQueue
  have hq2 : (presentFrame b (deleteResources b (Renderer.present r).2)).2.deleteQueue = [] := by
    rw [hk, hempty]; simp
  rw [present_eq, if_pos hbase]
  by_cases hf : (presentFrame b (deleteResources b (Renderer.present r).2)).1 = true
  · rw [if_pos hf]
    obtain ⟨e2, hrun3, hnd2, hd2, hc2, hfin⟩ := presentFinish_summary b
      (presentFrame b (deleteResources b (Renderer.present r).2)).2
    obtain ⟨k3, hk3⟩ := hrun3.deleteQueue
    refine ⟨e0, e1, e2, by simpa using hrun012.trans_run hrun3, by rw [hk3, hq2]; simp, hdel0,
      hall, hnd1, ⟨rest, hrest, fun _ => hok hf⟩, hclr, hnd2, hd2, hc2, ?_⟩
    intro hh
    obtain ⟨hres, he2⟩ := hfin (hrun012.healthy_run hh)
    obtain ⟨_, hfb, hsys, hw, hht, _, _, _, _⟩ := hrun012.fields
    refine ⟨hres.trans hf.symm, fun _ => ?_, fun hqe hm => ⟨hres, ?_⟩⟩
    · rw [he2]
      simp only [finishCalls, hfb, hsys, hw, hht]
    · exact (hhealthy (hrun01.healthy_run hh) (by rw [hdq]; exact hqe) (by rw [hmask]; exact hm)).2
  · rw [if_neg hf]
    have hff : (presentFrame b (deleteResources b (Renderer.present r).2)).1 = false := by
      cases hx : (presentFrame b (deleteResources b (Renderer.present r).2)).1
      · rfl
      · exact absurd hx hf
    refine ⟨e0, e1, [], by simpa using hrun012, hq2, hdel0, hall, hnd1,
      ⟨rest, hrest, fun h => by simp at h⟩, hclr, by simp [NoDelete], rfl, rfl, ?_⟩
    intro hh
    refine ⟨hff.symm, fun h => by simp at h, fun hqe hm => ?_⟩
    have := (hhealthy (hrun01.healthy_run hh) (by rw [hdq]; exact hqe) (by rw [hmask]; exact hm)).1
    exact absurd this hf

theorem drawOne_invalid_shader (b : Build) (c : DrawCommand) (r : RendererOGL)
    (hsh : shaderValid c = false) :
    (issued r (drawOne b c r).2).filter GLCall.isDraw = [] ∧
      (r.healthy → (drawOne b c r).1 = .next) := by
  obtain ⟨evs, hrun, _, _, hdrawn⟩ := drawOne_summary b c r
  have hnp : ¬ (passesValidation b r c = true) := by
    intro hp
    rw [passesValidation_iff] at hp
    rw [hsh] at hp
    simp at hp
  refine ⟨?_, ?_⟩
  · rw [hrun.issued]
    rcases hdrawn.1 with a | ⟨hp, _⟩
    · exact a
    · exact absurd hp hnp
  · intro hh
    unfold drawOne
    split
    · rfl
    · have h1 : Quiet r (if b.supportsOpenGL = true
          then setPolygonFillMode (if c.wireframe = true then GL_LINE else GL_FILL) r
          else r) := by
        split
        · exact Quiet.setPolygonFillMode_quiet _ r
        · exact Quiet.refl_quiet r
      simp only []
      generalize (if b.supportsOpenGL = true
          then setPolygonFillMode (if c.wireframe = true then GL_LINE else GL_FILL) r else r) = r1
        at h1 ⊢
      have hh1 := h1.healthy_quiet hh
      cases c.blendState with
      | none => rfl
      | some bs =>
        simp only []
        have hok := setBlendState_healthy bs hh1
        have hh2 := (Quiet.setBlendState_quiet bs r1).healthy_quiet hh1
        generalize setBlendState bs r1 = res2 at hok hh2 ⊢
        obtain ⟨ok2, r2⟩ := res2
        simp only [] at hok hh2
        subst hok
        simp only [Bool.not_true, Bool.false_eq_true, if_false]
        have hnf := bindTextures_healthy c b.LAYERS 0 r2 hh2
        generalize bindTextures c b.LAYERS 0 r2 = res3 at hnf ⊢
        obtain ⟨f3, r3⟩ := res3
        cases f3 with
        | failed => exact absurd rfl hnf
        | invalid => rfl
        | valid =>
          simp only []
          unfold useShader
          unfold shaderValid at hsh
          cases hs : c.shader with
          | none => rfl
          | some sh =>
            simp only [hs, ne_eq, decide_eq_false_iff_not, not_not] at hsh
            simp only [hsh, if_true]

end FrameLemmas

/-! ## Deferred deletion: results -/

theorem deleteResourcesLoop_extra (b : Build) (extra : Nat) :
    ∀ (fuel : Nat) (r : RendererOGL), r.deleteQueue.length ≤ fuel →
      deleteResourcesLoop b (fuel + extra) r = deleteResourcesLoop b fuel r := by
  intro fuel
  induction fuel with
  | zero =>
    intro r hlen
    have hq : r.deleteQueue = [] := List.length_eq_zero.1 (Nat.le_zero.1 hlen)
    cases extra with
    | zero => rfl
    | succ n => simp only [Nat.zero_add, deleteResourcesLoop, hq]
  | succ fuel ih =>
    intro r hlen
    have hstep : fuel + 1 + extra = (fuel + extra) + 1 := by omega
    rw [hstep]
    cases hq : r.deleteQueue with
    | nil => simp only [deleteResourcesLoop, hq]
    | cons e rest =>
      simp only [deleteResourcesLoop, hq]
      apply ih
      rw [deleteOne_deleteQueue]
      rw [hq] at hlen
      simpa using hlen

/-- C2 (as stated, refuted): on the EGL interface with a null `deleteVertexArraysOES` pointer, a
queued vertex array is removed from the queue without any backend delete call, so the delete
calls of the drain are not one per queued entry. -/
theorem deleteResources_skips_vertex_array_without_entry_point :
    (issued rendererWithoutVertexArrayExtension
        (deleteResources eglBuild rendererWithoutVertexArrayExtension)).filter GLCall.isDelete
      ≠ rendererWithoutVertexArrayExtension.deleteQueue.map deleteCall := by
  decide

/-- C2 (amended): for every build and every content of the deletion queue, the delete calls
that `deleteResources()` issues are, in the queue's FIFO order, exactly one call per queued
entry for which the build has a delete entry point (every entry, except a vertex array on the
EGL interface while `deleteVertexArraysOES` is null), each of the entry point matching the
entry's kind and carrying the entry's handle; so no entry is freed twice, and every call the
drain issues besides these is the Android unbind `glBindVertexArray(0)`. -/
theorem deleteResources_frees_each_entry_once (b : Build) (r : RendererOGL) :
    (issued r (deleteResources b r)).filter GLCall.isDelete =
        (r.deleteQueue.filter (hasDeleteEntryPoint b r)).map deleteCall ∧
      ∀ c ∈ issued r (deleteResources b r), c.isDelete = true ∨ c = .glBindVertexArray 0 := by
  obtain ⟨evs, hrun, _, hdel, hall⟩ := deleteResources_run b r
  rw [hrun.issued]
  exact ⟨hdel, hall⟩

/-- C3: for every finite initial content of the deletion queue, `deleteResources()` terminates
(the loop leaves through `break` after as many iterations as the queue had entries, and further
iterations would change nothing) and leaves the deletion queue empty. -/
theorem deleteResources_empties_queue (b : Build) (r : RendererOGL) :
    (deleteResources b r).deleteQueue = [] ∧
      ∀ extra, deleteResourcesLoop b (r.deleteQueue.length + extra) r = deleteResources b r := by
  obtain ⟨_, _, hempty, _, _⟩ := deleteResources_run b r
  exact ⟨hempty, fun extra => deleteResourcesLoop_extra b extra _ r (le_refl _)⟩

/-- C4: after `deleteResources()` returns, for every queued entry `(h, kind)` with `h ≠ 0`, no
state-cache slot of that kind holds `h`: neither cached buffer binding for `Buffer`, the cached
vertex array, frame buffer or program for those kinds, and no cached texture layer below
`LAYERS` for `Texture`. -/
theorem deleteResources_scrubs_cache (b : Build) (r : RendererOGL) (h : GLuint)
    (kind : ResourceType) (hq : (h, kind) ∈ r.deleteQueue) (h0 : h ≠ 0) :
    ¬ (deleteResources b r).stateCache.holds b kind h := by
  intro hh
  exact (deleteResourcesLoop_holds b kind h h0 _ r (le_refl _) hh).2 hq

/-- C4, witness: buffer 3 is queued while it is the cached array buffer, and texture 4 while it
is cached on layer 1. -/
theorem deleteResources_scrubs_cache_witness :
    ((3, ResourceType.Buffer) ∈ sampleRenderer.deleteQueue ∧ (3 : GLuint) ≠ 0 ∧
        sampleRenderer.stateCache.holds desktopBuild .Buffer 3) ∧
      ¬ (deleteResources desktopBuild sampleRenderer).stateCache.holds desktopBuild .Buffer 3 :=
  ⟨⟨by decide, by decide, Or.inr rfl⟩,
    deleteResources_scrubs_cache desktopBuild sampleRenderer 3 .Buffer (by decide) (by decide)⟩

/-! ## Frame execution: results -/

theorem drain_calls_not_frame_calls {e0 : List GLCall}
    (h : ∀ c ∈ e0, c.isDelete = true ∨ c = .glBindVertexArray 0) :
    e0.filter GLCall.isDraw = [] ∧ e0.filter GLCall.isClear = [] ∧
      ∀ target, e0.filter (GLCall.isClearOf target) = [] := by
  have hd : e0.filter GLCall.isDraw = [] := by
    rw [List.filter_eq_nil_iff]
    intro c hc
    rcases h c hc with a | a
    · cases c <;> simp_all [GLCall.isDelete, GLCall.isDraw]
    · subst a; simp [GLCall.isDraw]
  have hc : e0.filter GLCall.isClear = [] := by
    rw [List.filter_eq_nil_iff]
    intro c hc
    rcases h c hc with a | a
    · cases c <;> simp_all [GLCall.isDelete, GLCall.isClear]
    · subst a; simp [GLCall.isClear]
  refine ⟨hd, hc, fun target => ?_⟩
  rw [filter_isClearOf, hc]
  rfl

/-- C1 (as stated, refuted): a draw command that submits two vertex constants to a shader
declaring one vertex location, but has no blend state, is skipped before the constant counts
are compared, and `present()` returns success. -/
theorem present_succeeds_with_skipped_overfull_command :
    overfullUnblendedCommand ∈ (rendererWith [overfullUnblendedCommand] []).drawQueue ∧
      constantsExceed overfullUnblendedCommand = true ∧
      (present desktopBuild (rendererWith [overfullUnblendedCommand] [])).1 = true := by
  decide

/-- C1 (amended): for any draw command of the draw queue that is not skipped before the
constant upload (not wireframe on a build without desktop OpenGL, blend state non-null, every
bound texture allocated, shader non-null with a non-zero program) and whose pixel-shader or
vertex-shader constant array has more entries than the shader declares locations for that
stage, `present()` returns failure, and every draw call it issues belongs to a command that
precedes that command in the queue: the draw calls are an initial segment of the draw calls of
the validated commands before it. -/
theorem present_fails_on_excess_constants (b : Build) (r : RendererOGL)
    (pre : List DrawCommand) (c : DrawCommand) (post : List DrawCommand)
    (hq : r.drawQueue = pre ++ c :: post) (hreach : reachesConstants b r c = true)
    (hex : constantsExceed c = true) :
    (present b r).1 = false ∧
      ∃ rest, (issued r (present b r).2).filter GLCall.isDraw ++ rest =
        validatedDraws b r pre := by
  by_cases hbase : (Renderer.present r).1 = true
  · obtain ⟨hrun0, _, _, _⟩ := Renderer.present_base r
    obtain ⟨e0, hrun1, _, _, hall⟩ := deleteResources_run b (Renderer.present r).2
    have hrun01 := hrun0.trans_run hrun1
    obtain ⟨_, _, _, _, _, _, _, _, hdq⟩ := hrun01.fields
    obtain ⟨hfalse, evs, hrun2, rest, hrest⟩ := drawLoop_excess b pre c post
      (deleteResources b (Renderer.present r).2)
      (by rw [hrun01.reachesConstants]; exact hreach) hex
    have hframe : presentFrame b (deleteResources b (Renderer.present r).2) =
        drawLoop b (pre ++ c :: post) (deleteResources b (Renderer.present r).2) := by
      unfold presentFrame
      rw [hdq, hq]
      cases pre <;> simp
    rw [present_eq, if_pos hbase, hframe, if_neg (by simp [hfalse])]
    refine ⟨rfl, rest, ?_⟩
    rw [(hrun01.trans_run hrun2).issued, List.filter_append, List.nil_append,
      (drain_calls_not_frame_calls hall).1, List.nil_append, hrest, hrun01.validatedDraws]
  · have hb : (Renderer.present r).1 = false := by
      cases hx : (Renderer.present r).1
      · rfl
      · exact absurd hx hbase
    obtain ⟨h1, h2, _⟩ := present_base_failed b r hb
    exact ⟨h1, validatedDraws b r pre, by rw [h2]; rfl⟩

/-- C1, witness: the overfull command between two valid commands. -/
theorem present_fails_on_excess_constants_witness :
    (reachesConstants desktopBuild
        (rendererWith [sampleCommand, overfullCommand, sampleCommand] []) overfullCommand = true ∧
      constantsExceed overfullCommand = true) ∧
    ((present desktopBuild
        (rendererWith [sampleCommand, overfullCommand, sampleCommand] [])).1 = false ∧
      ∃ rest, (issued (rendererWith [sampleCommand, overfullCommand, sampleCommand] [])
          (present desktopBuild
            (rendererWith [sampleCommand, overfullCommand, sampleCommand] [])).2).filter
            GLCall.isDraw ++ rest =
        validatedDraws desktopBuild
          (rendererWith [sampleCommand, overfullCommand, sampleCommand] []) [sampleCommand]) :=
  ⟨by decide,
    present_fails_on_excess_constants desktopBuild
      (rendererWith [sampleCommand, overfullCommand, sampleCommand] [])
      [sampleCommand] overfullCommand [sampleCommand] rfl (by decide) (by decide)⟩

/-- C5: within one `present()` call each render target, and the default frame buffer, is
cleared at most once, for every draw queue, every state of the driver and however many draw
commands reference the target. -/
theorem present_clears_each_target_at_most_once (b : Build) (r : RendererOGL)
    (target : Option TextureRef) :
    ((issued r (present b r).2).filter (GLCall.isClearOf target)).length ≤ 1 := by
  by_cases hbase : (Renderer.present r).1 = true
  · obtain ⟨e0, e1, e2, hrun, _, _, hall, _, _, hclr, _, _, hc2, _⟩ := present_run b r hbase
    rw [hrun.issued, List.filter_append, List.filter_append,
      (drain_calls_not_frame_calls hall).2.2 target]
    have h2 : e2.filter (GLCall.isClearOf target) = [] := by
      rw [filter_isClearOf, hc2]; rfl
    rw [h2]
    simpa using hclr target
  · have hb : (Renderer.present r).1 = false := by
      cases hx : (Renderer.present r).1
      · rfl
      · exact absurd hx hbase
    rw [(present_base_failed b r hb).2.1]
    simp

theorem bool_false_of_not_true {x : Bool} (h : ¬ x = true) : x = false := by
  cases x
  · rfl
  · exact absurd rfl h

theorem present_draws (b : Build) (r : RendererOGL) :
    ∃ rest, (issued r (present b r).2).filter GLCall.isDraw ++ rest =
        validatedDraws b r r.drawQueue ∧
      ((present b r).1 = true → rest = []) := by
  by_cases hbase : (Renderer.present r).1 = true
  · obtain ⟨e0, e1, e2, hrun, _, _, hall, _, ⟨rest, hrest, hok⟩, _, _, hd2, _, _⟩ :=
      present_run b r hbase
    refine ⟨rest, ?_, hok⟩
    rw [hrun.issued, List.filter_append, List.filter_append,
      (drain_calls_not_frame_calls hall).1, hd2, List.nil_append, List.append_nil, hrest]
  · obtain ⟨h1, h2, _⟩ := present_base_failed b r (bool_false_of_not_true hbase)
    exact ⟨validatedDraws b r r.drawQueue, by rw [h2]; rfl, fun h => by rw [h1] at h; cases h⟩

theorem shaderValid_false {c : DrawCommand} (h : ∀ sh, c.shader = some sh → sh.programId = 0) :
    shaderValid c = false := by
  unfold shaderValid
  cases hs : c.shader with
  | none => rfl
  | some sh => simp [h sh hs]

/-- C6: for any draw command whose shader reference is null or whose backend program id is
zero, `present()` issues no draw call for that command (at whatever state the loop reaches it,
and so the draw calls of the frame are draw calls of the validated commands of the rest of the
queue), goes on to process the subsequent commands (the loop continues with the commands after
it from the state it left), and does not return failure because of it (with a driver that
reports no error the body of the loop for that command ends in `continue`). -/
theorem present_skips_command_without_program (b : Build) (r : RendererOGL)
    (pre : List DrawCommand) (c : DrawCommand) (post : List DrawCommand)
    (hq : r.drawQueue = pre ++ c :: post)
    (hsh : ∀ sh, c.shader = some sh → sh.programId = 0) :
    (∀ q : RendererOGL, (issued q (drawOne b c q).2).filter GLCall.isDraw = [] ∧
        (q.healthy → (drawOne b c q).1 = .next)) ∧
      (∃ rest, (issued r (present b r).2).filter GLCall.isDraw ++ rest =
          validatedDraws b r (pre ++ post) ∧ ((present b r).1 = true → rest = [])) ∧
      (∀ q : RendererOGL, q.healthy → (drawLoop b pre q).1 = true →
        drawLoop b (pre ++ c :: post) q =
          drawLoop b post (drawOne b c (drawLoop b pre q).2).2) := by
  have hsv := shaderValid_false hsh
  refine ⟨fun q => drawOne_invalid_shader b c q hsv, ?_, ?_⟩
  · obtain ⟨rest, hrest, hok⟩ := present_draws b r
    refine ⟨rest, ?_, hok⟩
    rw [hrest, hq, validatedDraws_append, validatedDraws_cons, validatedDraws_append]
    have hnp : ¬ (passesValidation b r c = true) := by
      intro hp
      rw [passesValidation_iff, hsv] at hp
      simp at hp
    rw [if_neg hnp, List.nil_append]
  · intro q hh hpre
    rw [drawLoop_append, if_pos hpre]
    obtain ⟨_, hrun, _⟩ := drawLoop_summary b pre q
    have hnext := (drawOne_invalid_shader b c (drawLoop b pre q).2 hsv).2 (hrun.healthy_run hh)
    simp only [drawLoop]
    generalize drawOne b c (drawLoop b pre q).2 = res at hnext ⊢
    obtain ⟨f, r2⟩ := res
    simp only [] at hnext
    subst hnext
    rfl

/-- C6, witness: a command without a shader between two valid commands. -/
theorem present_skips_command_without_program_witness :
    ((rendererWith [sampleCommand, shaderlessCommand, sampleCommand] []).drawQueue =
        [sampleCommand] ++ shaderlessCommand :: [sampleCommand] ∧
      ∀ sh, shaderlessCommand.shader = some sh → sh.programId = 0) ∧
    ((∀ q : RendererOGL,
        (issued q (drawOne desktopBuild shaderlessCommand q).2).filter GLCall.isDraw = [] ∧
        (q.healthy → (drawOne desktopBuild shaderlessCommand q).1 = .next)) ∧
      (∃ rest, (issued (rendererWith [sampleCommand, shaderlessCommand, sampleCommand] [])
          (present desktopBuild
            (rendererWith [sampleCommand, shaderlessCommand, sampleCommand] [])).2).filter
            GLCall.isDraw ++ rest =
          validatedDraws desktopBuild
            (rendererWith [sampleCommand, shaderlessCommand, sampleCommand] [])
            ([sampleCommand] ++ [sampleCommand]) ∧
        ((present desktopBuild
          (rendererWith [sampleCommand, shaderlessCommand, sampleCommand] [])).1 = true →
            rest = [])) ∧
      (∀ q : RendererOGL, q.healthy → (drawLoop desktopBuild [sampleCommand] q).1 = true →
        drawLoop desktopBuild ([sampleCommand] ++ shaderlessCommand :: [sampleCommand]) q =
          drawLoop desktopBuild [sampleCommand]
            (drawOne desktopBuild shaderlessCommand
              (drawLoop desktopBuild [sampleCommand] q).2).2)) :=
  ⟨⟨rfl, by decide⟩,
    present_skips_command_without_program desktopBuild
      (rendererWith [sampleCommand, shaderlessCommand, sampleCommand] [])
      [sampleCommand] shaderlessCommand [sampleCommand] rfl (by decide)⟩

/-- C7 (as stated, refuted): on a desktop build, with a single command that has no blend state,
`present()` returns failure when the driver reports an error for the frame buffer binds that
follow the loop. -/
theorem present_fails_after_skipping_unblended_command :
    (∀ c ∈ (rendererWith [unblendedCommand] [false, true]).drawQueue, c.blendState = none) ∧
      (present desktopBuild (rendererWith [unblendedCommand] [false, true])).1 = false := by
  decide

/-- C7 (amended): for every draw queue in which every command has a null blend state,
`present()` treats each command as a skip (the body of the loop ends in `continue` for it
without a draw call, whatever the driver answers) and issues zero draw calls; it returns
success provided the base-class `present()` succeeds and the driver reports no error. -/
theorem present_skips_unblended_commands (b : Build) (r : RendererOGL)
    (hall : ∀ c ∈ r.drawQueue, c.blendState = none) :
    (∀ c ∈ r.drawQueue, ∀ q : RendererOGL, (drawOne b c q).1 = .next ∧
        (issued q (drawOne b c q).2).filter GLCall.isDraw = []) ∧
      (issued r (present b r).2).filter GLCall.isDraw = [] ∧
      (r.healthy → (present b r).1 = true) := by
  refine ⟨?_, ?_, ?_⟩
  · intro c hc q
    refine ⟨drawOne_unblended b c q (hall c hc), ?_⟩
    obtain ⟨evs, hrun, _, _, hdrawn⟩ := drawOne_summary b c q
    rw [hrun.issued]
    rcases hdrawn.1 with a | ⟨hp, _⟩
    · exact a
    · rw [passesValidation_iff] at hp
      simp [hall c hc] at hp
  · obtain ⟨rest, hrest, _⟩ := present_draws b r
    rw [validatedDraws_unblended b r r.drawQueue hall] at hrest
    exact (List.append_eq_nil.1 hrest).1
  · intro hh
    obtain ⟨hrun0, _, _, hbase⟩ := Renderer.present_base r
    obtain ⟨_, _, _, _, _, _, _, _, _, _, _, _, _, hhealthy⟩ := present_run b r (hbase hh)
    obtain ⟨hres, _, hempty⟩ := hhealthy hh
    obtain ⟨e0, hrun1, _⟩ := deleteResources_run b (Renderer.present r).2
    have hrun01 := hrun0.trans_run hrun1
    obtain ⟨_, _, _, _, _, _, hmask, _, hdq⟩ := hrun01.fields
    rw [hres]
    cases hq : r.drawQueue with
    | nil =>
      by_cases hm : r.clearMask = 0
      · obtain ⟨_, _, _, _, _, _, hzero⟩ :=
          presentFrame_summary b (deleteResources b (Renderer.present r).2)
        exact (hzero (by rw [hdq]; exact hq) (by rw [hmask]; exact hm)).1
      · rw [← hres]
        exact (hempty hq hm).1
    | cons c queue =>
      have : presentFrame b (deleteResources b (Renderer.present r).2) =
          drawLoop b (c :: queue) (deleteResources b (Renderer.present r).2) := by
        unfold presentFrame
        rw [hdq, hq]
        simp
      rw [this]
      exact drawLoop_unblended b (c :: queue) (by rw [← hq]; exact hall) _

/-- C7, witness: a single command with a valid mesh buffer and shader but no blend state. -/
theorem present_skips_unblended_commands_witness :
    (∀ c ∈ (rendererWith [unblendedCommand] []).drawQueue, c.blendState = none) ∧
      ((∀ c ∈ (rendererWith [unblendedCommand] []).drawQueue, ∀ q : RendererOGL,
          (drawOne desktopBuild c q).1 = .next ∧
          (issued q (drawOne desktopBuild c q).2).filter GLCall.isDraw = []) ∧
        (issued (rendererWith [unblendedCommand] [])
          (present desktopBuild (rendererWith [unblendedCommand] [])).2).filter
            GLCall.isDraw = [] ∧
        ((rendererWith [unblendedCommand] []).healthy →
          (present desktopBuild (rendererWith [unblendedCommand] [])).1 = true)) :=
  ⟨by decide,
    present_skips_unblended_commands desktopBuild (rendererWith [unblendedCommand] [])
      (by decide)⟩

/-- C8: when the draw queue is empty, a clear was requested (`clearMask` non-zero) and the
base-class `present()` and the backend calls succeed, `present()` returns success, performs
exactly one clear, of the default frame buffer with the configured mask, right after setting
the configured clear colour, swaps buffers, and issues zero draw calls. -/
theorem present_empty_queue_clears_once (b : Build) (r : RendererOGL)
    (hq : r.drawQueue = []) (hm : r.clearMask ≠ 0) (hh : r.healthy) :
    (present b r).1 = true ∧
      (issued r (present b r).2).filter GLCall.isClear = [.glClear none r.clearMask] ∧
      (∃ before after, issued r (present b r).2 =
        before ++ [.glClearColor r.frameBufferClearColor, .glClear none r.clearMask] ++ after) ∧
      GLCall.swapBuffers ∈ issued r (present b r).2 ∧
      (issued r (present b r).2).filter GLCall.isDraw = [] := by
  obtain ⟨hrun0, _, _, hbase⟩ := Renderer.present_base r
  obtain ⟨e0, e1, e2, hrun, _, _, hall, _, _, _, _, hd2, hc2, hhealthy⟩ :=
    present_run b r (hbase hh)
  obtain ⟨_, _, hempty⟩ := hhealthy hh
  obtain ⟨hres, he1⟩ := hempty hq hm
  obtain ⟨_, hrun1, _⟩ := deleteResources_run b (Renderer.present r).2
  obtain ⟨_, _, _, _, _, hcol, hmask, _, _⟩ := (hrun0.trans_run hrun1).fields
  obtain ⟨hd0, hc0, _⟩ := drain_calls_not_frame_calls hall
  rw [hrun.issued, he1]
  refine ⟨hres, ?_, ?_, ?_, ?_⟩
  · rw [List.filter_append, List.filter_append, hc0, hc2]
    unfold emptyFrameCalls
    rw [hmask]
    split <;> simp [GLCall.isClear]
  · unfold emptyFrameCalls
    rw [hmask, hcol]
    exact ⟨e0 ++ ((if (deleteResources b (Renderer.present r).2).stateCache.frameBufferId =
          (deleteResources b (Renderer.present r).2).frameBufferId then []
        else [.glBindFramebuffer GL_FRAMEBUFFER
          (deleteResources b (Renderer.present r).2).frameBufferId]) ++
        [.glViewport 0 0 (deleteResources b (Renderer.present r).2).frameBufferWidth
          (deleteResources b (Renderer.present r).2).frameBufferHeight]),
      [.swapBuffers] ++ e2, by simp⟩
  · unfold emptyFrameCalls
    simp
  · rw [List.filter_append, List.filter_append, hd0, hd2]
    unfold emptyFrameCalls
    split <;> simp [GLCall.isDraw]

/-- C8, witness: the sample renderer, with an empty queue and a requested colour clear. -/
theorem present_empty_queue_clears_once_witness :
    (sampleRenderer.drawQueue = [] ∧ sampleRenderer.clearMask ≠ 0 ∧ sampleRenderer.healthy) ∧
      ((present desktopBuild sampleRenderer).1 = true ∧
        (issued sampleRenderer (present desktopBuild sampleRenderer).2).filter GLCall.isClear =
          [.glClear none sampleRenderer.clearMask] ∧
        (∃ before after, issued sampleRenderer (present desktopBuild sampleRenderer).2 =
          before ++ [.glClearColor sampleRenderer.frameBufferClearColor,
            .glClear none sampleRenderer.clearMask] ++ after) ∧
        GLCall.swapBuffers ∈ issued sampleRenderer (present desktopBuild sampleRenderer).2 ∧
        (issued sampleRenderer (present desktopBuild sampleRenderer).2).filter
          GLCall.isDraw = []) :=
  ⟨⟨rfl, by decide, by decide⟩,
    present_empty_queue_clears_once desktopBuild sampleRenderer rfl (by decide) (by decide)⟩

/-- C9 (as stated, refuted): when the base-class `present()` fails, `present()` returns before
the drain: the deletion queue keeps its entries and no delete call is issued. -/
theorem present_does_not_drain_when_base_fails :
    (present desktopBuild (rendererWith [] [true])).2.deleteQueue =
        [(3, .Buffer), (4, .Texture)] ∧
      (issued (rendererWith [] [true])
        (present desktopBuild (rendererWith [] [true])).2).filter GLCall.isDelete = [] := by
  decide

/-- C9 (amended): in every `present()` call in which the base-class `present()` succeeds, the
deletion queue is drained exactly once (it is empty afterwards and each entry with a delete
entry point got exactly one delete call, in queue order), and the calls of `present()` split
into the calls of the drain followed by the calls of the frame: every delete call belongs to
the first part, which besides delete calls only holds the Android unbind
`glBindVertexArray(0)`, and every bind, clear and draw call issued for the frame's draw
commands belongs to the second part, which holds no delete call. -/
theorem present_drains_before_frame (b : Build) (r : RendererOGL)
    (hbase : (Renderer.present r).1 = true) :
    (present b r).2.deleteQueue = [] ∧
      ∃ drain frame, issued r (present b r).2 = drain ++ frame ∧
        drain.filter GLCall.isDelete =
          (r.deleteQueue.filter (hasDeleteEntryPoint b r)).map deleteCall ∧
        (∀ c ∈ drain, c.isDelete = true ∨ c = .glBindVertexArray 0) ∧
        (∀ c ∈ frame, c.isDelete = false) ∧
        frame.filter GLCall.isDraw = (issued r (present b r).2).filter GLCall.isDraw ∧
        frame.filter GLCall.isClear = (issued r (present b r).2).filter GLCall.isClear := by
  obtain ⟨e0, e1, e2, hrun, hempty, hdel, hall, hnd1, _, _, hnd2, _, _, _⟩ :=
    present_run b r hbase
  obtain ⟨hd0, hc0, _⟩ := drain_calls_not_frame_calls hall
  refine ⟨hempty, e0, e1 ++ e2, ?_, hdel, hall, noDelete_append hnd1 hnd2, ?_, ?_⟩
  · rw [hrun.issued, List.append_assoc]
  · rw [hrun.issued, List.append_assoc, List.filter_append e0, hd0, List.nil_append]
  · rw [hrun.issued, List.append_assoc, List.filter_append e0, hc0, List.nil_append]

/-- C9, witness: the sample renderer, with two pending deletions and a healthy driver. -/
theorem present_drains_before_frame_witness :
    (Renderer.present sampleRenderer).1 = true ∧
      ((present desktopBuild sampleRenderer).2.deleteQueue = [] ∧
        ∃ drain frame, issued sampleRenderer (present desktopBuild sampleRenderer).2 =
            drain ++ frame ∧
          drain.filter GLCall.isDelete =
            (sampleRenderer.deleteQueue.filter
              (hasDeleteEntryPoint desktopBuild sampleRenderer)).map deleteCall ∧
          (∀ c ∈ drain, c.isDelete = true ∨ c = .glBindVertexArray 0) ∧
          (∀ c ∈ frame, c.isDelete = false) ∧
          frame.filter GLCall.isDraw =
            (issued sampleRenderer (present desktopBuild sampleRenderer).2).filter
              GLCall.isDraw ∧
          frame.filter GLCall.isClear =
            (issued sampleRenderer (present desktopBuild sampleRenderer).2).filter
              GLCall.isClear) :=
  ⟨by decide, present_drains_before_frame desktopBuild sampleRenderer (by decide)⟩

/-- C10 (as stated, refuted): when a command aborts the frame (here by submitting more vertex
constants than its shader declares), a later command that passes every validation step is not
drawn, so the draw calls are not those of all validated commands of the queue. -/
theorem present_stops_drawing_after_abort :
    (issued (rendererWith [overfullCommand, sampleCommand] [])
        (present desktopBuild (rendererWith [overfullCommand, sampleCommand] [])).2).filter
          GLCall.isDraw = [] ∧
      validatedDraws desktopBuild (rendererWith [overfullCommand, sampleCommand] [])
        [overfullCommand, sampleCommand] = [.glDrawElements GL_TRIANGLES 6 0x1403 6] := by
  decide

/-- C10 (amended): the sequence of indexed-draw calls issued by one `present()` is, in
submission order, an initial segment of the draw calls of the commands of the draw queue that
pass every validation step (the k-th draw call is the draw call of the k-th such command, with
its primitive, index count, index type and start offset), and it is the whole of that sequence
when `present()` returns success. -/
theorem present_draws_in_submission_order (b : Build) (r : RendererOGL) :
    ∃ rest, (issued r (present b r).2).filter GLCall.isDraw ++ rest =
        (r.drawQueue.filter (passesValidation b r)).filterMap drawCallOf ∧
      ((present b r).1 = true → rest = []) ∧
      ∀ c ∈ r.drawQueue.filter (passesValidation b r), (drawCallOf c).isSome = true := by
  obtain ⟨rest, hrest, hok⟩ := present_draws b r
  refine ⟨rest, hrest, hok, ?_⟩
  intro c hc
  have hp := (List.mem_filter.1 hc).2
  rw [passesValidation_iff] at hp
  obtain ⟨call, hcall⟩ := drawCallOf_of_valid hp.2.2.2.2.2.2.1 hp.2.2.2.2.2.2.2
  rw [hcall]
  rfl


/-! ## Enqueueing, blend states and initialisation: lemmas -/

section InitLemmas

theorem SameCache.refl_cache (s : RendererInit) : SameCache s s := ⟨rfl, rfl⟩

theorem SameCache.trans_cache {s t u : RendererInit} (h1 : SameCache s t) (h2 : SameCache t u) :
    SameCache s u :=
  ⟨h2.1.trans h1.1, h2.2.trans h1.2⟩

theorem nextFault_sameCache (s : RendererInit) : SameCache s s.nextFault.2 := by
  unfold RendererInit.nextFault
  cases s.faults <;> exact ⟨rfl, rfl⟩

theorem genName_sameCache (s : RendererInit) : SameCache s s.genName.2 := by
  unfold RendererInit.genName
  cases s.names <;> exact ⟨rfl, rfl⟩

theorem resolve_sameCache (s : RendererInit) (procs : List String) :
    SameCache s (s.resolve procs) := ⟨rfl, rfl⟩

theorem resolveAll_sameCache (b : InitBuild) (s : RendererInit) :
    SameCache s (resolveAll b s) := by
  unfold resolveAll
  dsimp only
  split_ifs <;> exact ⟨rfl, rfl⟩

theorem probeExtension_sameCache (b : InitBuild) (s : RendererInit) (extension : String) :
    SameCache s (probeExtension b s extension) := by
  unfold probeExtension
  dsimp only
  cases b.glInterface <;> dsimp only <;> split_ifs <;> exact ⟨rfl, rfl⟩

theorem probeExtensions_sameCache (b : InitBuild) (tokens : List String) (s : RendererInit) :
    SameCache s (tokens.foldl (probeExtension b) s) := by
  induction tokens generalizing s with
  | nil => exact SameCache.refl_cache s
  | cons t rest ih =>
    exact (probeExtension_sameCache b s t).trans_cache (ih _)

theorem probeCapabilities_sameCache (b : InitBuild) (extensions : Option (List String))
    (s : RendererInit) : SameCache s (probeCapabilities b extensions s) := by
  unfold probeCapabilities
  split_ifs with h3 hegl
  · exact resolveAll_sameCache b s
  · exact SameCache.refl_cache s
  · dsimp only
    have h1 : SameCache s
        ({ s with npotTexturesSupported := false,
                  multisamplingSupported := false } : RendererInit).nextFault.2 :=
      SameCache.trans_cache ⟨rfl, rfl⟩ (nextFault_sameCache _)
    generalize ({ s with npotTexturesSupported := false,
                         multisamplingSupported := false } : RendererInit).nextFault = res at h1 ⊢
    obtain ⟨error, s2⟩ := res
    cases error <;> cases extensions <;> dsimp only at h1 ⊢ <;> try exact h1
    have h2 := probeExtensions_sameCache b ‹List String› s2
    split_ifs
    · exact h1.trans_cache (h2.trans_cache ⟨rfl, rfl⟩)
    · exact h1.trans_cache h2

theorem attachRenderBuffers_sameCache (s : RendererInit) :
    SameCache s (attachRenderBuffers s).2 := by
  have hg := fun x => (genName_sameCache x).1
  have hr := fun x => (genName_sameCache x).2
  unfold attachRenderBuffers
  refine SameCache.trans_cache ?_ (nextFault_sameCache _)
  unfold RendererInit.bindFrameBuffer SameCache
  split_ifs <;> simp [hg, hr]

theorem createFrameBuffer_sameCache (b : InitBuild) (s : RendererInit) :
    SameCache s (createFrameBuffer b s).2 := by
  have hg := (genName_sameCache s).1
  have hr := (genName_sameCache s).2
  have ha := fun x => (attachRenderBuffers_sameCache x).1
  have hb := fun x => (attachRenderBuffers_sameCache x).2
  unfold createFrameBuffer SameCache
  split_ifs <;> simp only [] <;> (try split_ifs) <;> simp [hg, hr, ha, hb]

theorem shaderSources_unsupported (b : InitBuild) (base : String) (version : Nat)
    (h2 : version ≠ 2) (h3 : version ≠ 3) : shaderSources b base version = none := by
  unfold shaderSources
  split
  · exact absurd rfl h2
  · exact absurd rfl h3
  · rfl

end InitLemmas


/-! ## Enqueueing, blend states and initialisation: results -/

/-- C11: `RendererOGL::deleteResource(h, kind)` appends exactly the pair `(h, kind)` to the back
of the deletion queue, keeping the existing entries and their order, if the engine is active,
and changes nothing else; if the engine is not active the renderer, and with it the queue, is
left unchanged. -/
theorem deleteResource_appends_when_active (h : GLuint) (kind : ResourceType)
    (r : RendererOGL) :
    (deleteResource true h kind r).deleteQueue = r.deleteQueue ++ [(h, kind)] ∧
    deleteResource true h kind r = { r with deleteQueue := r.deleteQueue ++ [(h, kind)] } ∧
    deleteResource false h kind r = r ∧
    (deleteResource false h kind r).deleteQueue = r.deleteQueue :=
  ⟨rfl, rfl, rfl, rfl⟩

/-- C17: `RendererOGL::init()` returns failure whenever the API major version is neither 2 nor
3, whatever the base-class init, the capability probe and the frame buffer creation did (so in
particular when they succeeded), and the resource cache then holds what it held before: no
shader, blend state or texture was registered. -/
theorem init_fails_on_unsupported_version (b : InitBuild) (baseInit : Bool)
    (extensions : Option (List String)) (newSize : Int × Int) (s : RendererInit)
    (h2 : s.apiMajorVersion ≠ 2) (h3 : s.apiMajorVersion ≠ 3) :
    (init b baseInit extensions newSize s).1 = false ∧
    (init b baseInit extensions newSize s).2.registry = s.registry := by
  unfold init
  cases baseInit
  · exact ⟨rfl, rfl⟩
  · have h1 : SameCache s (if b.supportsOpenGLES = true
        then probeCapabilities b extensions s.nextFault.2 else s.nextFault.2) := by
      split_ifs
      · exact (nextFault_sameCache s).trans_cache (probeCapabilities_sameCache b extensions _)
      · exact nextFault_sameCache s
    simp only [Bool.not_true, Bool.false_eq_true, if_false]
    generalize (if b.supportsOpenGLES = true
        then probeCapabilities b extensions s.nextFault.2 else s.nextFault.2) = s2 at h1 ⊢
    have h4 := SameCache.trans_cache (t := s2.setFrameBufferSize newSize) ⟨h1.1, h1.2⟩
      (createFrameBuffer_sameCache b _)
    generalize createFrameBuffer b (s2.setFrameBufferSize newSize) = res at h4 ⊢
    obtain ⟨ok, s4⟩ := res
    cases ok
    · exact ⟨rfl, h4.2⟩
    · have hv2 : s4.apiMajorVersion ≠ 2 := fun h => h2 (h4.1.symm.trans h)
      have hv3 : s4.apiMajorVersion ≠ 3 := fun h => h3 (h4.1.symm.trans h)
      simp only [Bool.not_true, Bool.false_eq_true, if_false,
        shaderSources_unsupported b "Texture" _ hv2 hv3]
      exact ⟨trivial, h4.2⟩

/-- Witness of C17: on a device reporting API major version 4, with the base-class init and the
frame buffer creation succeeding, `init()` fails and the cache stays empty. -/
theorem init_fails_on_unsupported_version_witness :
    (4 : Nat) ≠ 2 ∧ (4 : Nat) ≠ 3 ∧
    (init eaglInitBuild true none (640, 480) unsupportedInit).1 = false ∧
    (init eaglInitBuild true none (640, 480) unsupportedInit).2.registry = [] :=
  ⟨by decide, by decide,
    init_fails_on_unsupported_version eaglInitBuild true none (640, 480) unsupportedInit
      (by decide) (by decide)⟩

/-- When the extension string was obtained (no error flagged, no null pointer), the probe does
force the sample count to 1 if multisampling is not supported. -/
theorem probeCapabilities_clamps_after_query (b : InitBuild) (tokens : List String)
    (s : RendererInit) (hv : s.apiMajorVersion < 3) (hq : s.faults.head? ≠ some true)
    (hm : (probeCapabilities b (some tokens) s).multisamplingSupported = false) :
    (probeCapabilities b (some tokens) s).sampleCount = 1 := by
  unfold probeCapabilities at hm ⊢
  rw [if_neg (by omega)] at hm ⊢
  have hf : ({ s with npotTexturesSupported := false,
                      multisamplingSupported := false } : RendererInit).nextFault.1 = false := by
    unfold RendererInit.nextFault
    dsimp only
    cases hfs : s.faults with
    | nil => rfl
    | cons f rest =>
      cases f
      · rfl
      · rw [hfs] at hq
        exact absurd rfl hq
  simp only [] at hm ⊢
  generalize ({ s with npotTexturesSupported := false,
                       multisamplingSupported := false } : RendererInit).nextFault = res
    at hf hm ⊢
  obtain ⟨error, s2⟩ := res
  dsimp only at hf
  subst hf
  dsimp only at hm ⊢
  split_ifs at hm ⊢ with h
  · rfl
  · rw [hm] at h
    exact absurd rfl h

/-- C18 (failing input): on an OpenGL ES 2 device for which four samples were requested and
whose extension-string query returns a null pointer, the capability probe leaves
`multisamplingSupported` false and the sample count at 4, and `init()` then succeeds with that
sample count; the same happens when the query flags an error. -/
theorem probeCapabilities_keeps_sample_count_when_query_fails :
    (probeCapabilities eaglInitBuild none sampleInit).multisamplingSupported = false ∧
    (probeCapabilities eaglInitBuild none sampleInit).sampleCount = 4 ∧
    (init eaglInitBuild true none (640, 480) sampleInit).1 = true ∧
    (init eaglInitBuild true none (640, 480) sampleInit).2.multisamplingSupported = false ∧
    (init eaglInitBuild true none (640, 480) sampleInit).2.sampleCount = 4 ∧
    (probeCapabilities eaglInitBuild (some ["GL_APPLE_framebuffer_multisample"])
      { sampleInit with faults := [true] }).multisamplingSupported = false ∧
    (probeCapabilities eaglInitBuild (some ["GL_APPLE_framebuffer_multisample"])
      { sampleInit with faults := [true] }).sampleCount = 4 := by
  refine ⟨by decide, by decide, by decide, by decide, by decide, by decide, by decide⟩

/-- C19: a blend state initialised with `(enabled, srcColor, dstColor, opColor, srcAlpha,
dstAlpha, opAlpha)` reports exactly those values from its seven accessors, for every
combination of values and whatever the state held before; in particular for the arguments of
the alpha blend state that `init()` registers. -/
theorem blend_state_init_round_trip (s : BlendStateResource) (a : BlendArguments) :
    (s.init a).isBlendingEnabled = a.enableBlending ∧
    (s.init a).getColorBlendSource = a.colorBlendSource ∧
    (s.init a).getColorBlendDest = a.colorBlendDest ∧
    (s.init a).getColorOperation = a.colorOperation ∧
    (s.init a).getAlphaBlendSource = a.alphaBlendSource ∧
    (s.init a).getAlphaBlendDest = a.alphaBlendDest ∧
    (s.init a).getAlphaOperation = a.alphaOperation ∧
    (s.init a).reported = a ∧
    (BlendStateResource.new.init alphaBlendArguments).reported =
      ⟨true, .SRC_ALPHA, .INV_SRC_ALPHA, .ADD, .ONE, .ONE, .ADD⟩ :=
  ⟨rfl, rfl, rfl, rfl, rfl, rfl, rfl, rfl, rfl⟩

/-- C20: a freshly constructed `BlendStateResource` reports blending disabled, source factor
ONE, destination factor ZERO and operation ADD for both the colour and the alpha channel, and
colour mask COLOR_MASK_ALL; these are the values `init()` passes when it builds the no-blend
state. -/
theorem fresh_blend_state_carries_identity_factors :
    BlendStateResource.new.isBlendingEnabled = false ∧
    BlendStateResource.new.getColorBlendSource = .ONE ∧
    BlendStateResource.new.getColorBlendDest = .ZERO ∧
    BlendStateResource.new.getColorOperation = .ADD ∧
    BlendStateResource.new.getAlphaBlendSource = .ONE ∧
    BlendStateResource.new.getAlphaBlendDest = .ZERO ∧
    BlendStateResource.new.getAlphaOperation = .ADD ∧
    BlendStateResource.new.getColorMask = BlendState.COLOR_MASK_ALL ∧
    BlendStateResource.new.reported = noBlendArguments :=
  ⟨rfl, rfl, rfl, rfl, rfl, rfl, rfl, rfl, rfl⟩


/-! ## The outcome of the loop body: lemmas -/

section FlowLemmas

theorem drawMesh_skip (c : DrawCommand) (r : RendererOGL) (hm : meshValid c = false) :
    drawMesh c r = (.next, r) := by
  unfold drawMesh
  unfold meshValid at hm
  cases hmb : c.meshBuffer with
  | none => rfl
  | some mb =>
    rw [hmb] at hm
    simp only [] at hm ⊢
    cases hi : mb.indexBuffer with
    | none => rfl
    | some i =>
      cases hv : mb.vertexBuffer with
      | none => rfl
      | some v =>
        rw [hi, hv] at hm
        simp only [Bool.and_eq_false_iff, decide_eq_false_iff_not, ne_eq, not_not] at hm
        simp only []
        rw [if_pos hm]

theorem drawMesh_abort (c : DrawCommand) (r : RendererOGL) (hm : meshValid c = true)
    (hd : modeValid c = false) : (drawMesh c r).1 = .abort := by
  unfold drawMesh
  unfold meshValid at hm
  unfold modeValid at hd
  cases hmb : c.meshBuffer with
  | none => rw [hmb] at hm; cases hm
  | some mb =>
    rw [hmb] at hm
    simp only [] at hm ⊢
    cases hi : mb.indexBuffer with
    | none => rw [hi] at hm; cases hm
    | some i =>
      cases hv : mb.vertexBuffer with
      | none => rw [hi, hv] at hm; cases hm
      | some v =>
        rw [hi, hv] at hm
        simp only [Bool.and_eq_true, decide_eq_true_eq, ne_eq] at hm
        simp only []
        rw [if_neg (by tauto)]
        cases hg : glDrawMode c.drawMode with
        | none => rfl
        | some mode => rw [hg] at hd; cases hd

theorem drawMesh_next (c : DrawCommand) (r : RendererOGL) (hh : r.healthy)
    (h : meshValid c = true → modeValid c = true) : (drawMesh c r).1 = .next := by
  cases hm : meshValid c with
  | false => rw [drawMesh_skip c r hm]
  | true =>
    have hd := h hm
    unfold drawMesh
    unfold meshValid at hm
    unfold modeValid at hd
    cases hmb : c.meshBuffer with
    | none => rfl
    | some mb =>
      rw [hmb] at hm
      simp only [] at hm ⊢
      cases hi : mb.indexBuffer with
      | none => rfl
      | some i =>
        cases hv : mb.vertexBuffer with
        | none => rfl
        | some v =>
          rw [hi, hv] at hm
          simp only [Bool.and_eq_true, decide_eq_true_eq, ne_eq] at hm
          simp only []
          rw [if_neg (by tauto)]
          cases hg : glDrawMode c.drawMode with
          | none => rw [hg] at hd; cases hd
          | some mode =>
            simp only []
            have hq := Quiet.bindBuffers_quiet i.bufferId v.bufferId r
            have hok : (MeshBufferOGL.bindBuffers i.bufferId v.bufferId r).1 = true :=
              helperResult_healthy ((Quiet.emit_quiet r _ (by rfl)).healthy_quiet hh)
            have hh1 := hq.healthy_quiet hh
            generalize MeshBufferOGL.bindBuffers i.bufferId v.bufferId r = res at hok hh1 ⊢
            obtain ⟨ok, r1⟩ := res
            simp only [] at hok hh1
            subst hok
            simp only [Bool.not_true, Bool.false_eq_true, if_false]
            have he : (checkOpenGLError (r1.emit (drawElementsCall c mode mb))).1 = false :=
              checkOpenGLError_healthy hh1
            generalize checkOpenGLError (r1.emit (drawElementsCall c mode mb)) = res2 at he ⊢
            obtain ⟨error, r3⟩ := res2
            simp only [] at he
            subst he
            rfl

theorem clearTarget_healthy (target : Option TextureRef) (mask : GLbitfield) (color : ClearColor)
    {r : RendererOGL} (hh : r.healthy) : (clearTarget target mask color r).1 = false := by
  unfold clearTarget
  split
  · have h1 : Quiet r (if mask &&& GL_DEPTH_BUFFER_BIT ≠ 0 then depthMask true r else r) := by
      split
      · exact Quiet.depthMask_quiet true r
      · exact Quiet.refl_quiet r
    exact checkOpenGLError_healthy
      (((Run.emit_run _ (.glClearColor color)).trans_run
        (Run.emit_run _ (.glClear target mask))).healthy_run (h1.healthy_quiet hh))
  · rfl

theorem drawToTarget_abort (c : DrawCommand) (target : Option TextureRef) (fb : GLuint)
    (mask : GLbitfield) (color : ClearColor) (r : RendererOGL) (hm : meshValid c = true)
    (hd : modeValid c = false) : (drawToTarget c target fb mask color r).1 = .abort := by
  unfold drawToTarget
  simp only []
  generalize bindFrameBuffer fb r = res1
  obtain ⟨ok, r1⟩ := res1
  cases ok
  · rfl
  · simp only [Bool.not_true, Bool.false_eq_true, if_false]
    generalize clearTarget target mask color (setViewport c.viewport.x c.viewport.y
      c.viewport.width c.viewport.height r1).2 = res3
    obtain ⟨error, r3⟩ := res3
    cases error
    · exact drawMesh_abort c _ hm hd
    · rfl

theorem drawToTarget_next (c : DrawCommand) (target : Option TextureRef) (fb : GLuint)
    (mask : GLbitfield) (color : ClearColor) (r : RendererOGL) (hh : r.healthy)
    (h : meshValid c = true → modeValid c = true) :
    (drawToTarget c target fb mask color r).1 = .next := by
  unfold drawToTarget
  simp only []
  have hok := bindFrameBuffer_healthy fb hh
  have hh1 := (Quiet.bindFrameBuffer_quiet fb r).healthy_quiet hh
  generalize bindFrameBuffer fb r = res1 at hok hh1 ⊢
  obtain ⟨ok, r1⟩ := res1
  simp only [] at hok hh1
  subst hok
  simp only [Bool.not_true, Bool.false_eq_true, if_false]
  have hh2 := (Quiet.setViewport_quiet c.viewport.x c.viewport.y c.viewport.width
    c.viewport.height r1).healthy_quiet hh1
  have he := clearTarget_healthy target mask color hh2
  obtain ⟨_, hrun3, _⟩ := clearTarget_summary target mask color (setViewport c.viewport.x
    c.viewport.y c.viewport.width c.viewport.height r1).2
  have hh3 := hrun3.healthy_run hh2
  generalize clearTarget target mask color (setViewport c.viewport.x c.viewport.y
    c.viewport.width c.viewport.height r1).2 = res3 at he hh3 ⊢
  obtain ⟨error, r3⟩ := res3
  simp only [] at he hh3
  subst he
  simp only [Bool.false_eq_true, if_false]
  exact drawMesh_next c _ ((Quiet.setDepthAndScissor_quiet c r3).healthy_quiet hh3) h

theorem renderTarget_skip (c : DrawCommand) (r : RendererOGL) (ht : targetValid r c = false) :
    renderTarget c r = (.next, r) := by
  unfold renderTarget
  unfold targetValid at ht
  cases htg : c.renderTarget with
  | none => rw [htg] at ht; cases ht
  | some target =>
    rw [htg] at ht
    simp only [ne_eq, decide_eq_false_iff_not, not_not] at ht
    simp only []
    rw [if_pos ht]

theorem renderTarget_abort (c : DrawCommand) (r : RendererOGL) (ht : targetValid r c = true)
    (hm : meshValid c = true) (hd : modeValid c = false) : (renderTarget c r).1 = .abort := by
  unfold renderTarget
  unfold targetValid at ht
  cases htg : c.renderTarget with
  | none =>
    simp only []
    split <;> exact drawToTarget_abort c _ _ _ _ _ hm hd
  | some target =>
    rw [htg] at ht
    simp only [ne_eq, decide_eq_true_eq] at ht
    simp only []
    rw [if_neg ht]
    split <;> exact drawToTarget_abort c _ _ _ _ _ hm hd

theorem renderTarget_next (c : DrawCommand) (r : RendererOGL) (hh : r.healthy)
    (h : targetValid r c = true → meshValid c = true → modeValid c = true) :
    (renderTarget c r).1 = .next := by
  cases ht : targetValid r c with
  | false => rw [renderTarget_skip c r ht]
  | true =>
    have h2 := h ht
    unfold renderTarget
    cases htg : c.renderTarget with
    | none =>
      simp only []
      split
      · exact drawToTarget_next c _ _ _ _ _ ((Run.stampDefault r).healthy_run hh) h2
      · exact drawToTarget_next c _ _ _ _ _ hh h2
    | some target =>
      simp only []
      split
      · rfl
      · split
        · exact drawToTarget_next c _ _ _ _ _ ((Run.stampTexture r target).healthy_run hh) h2
        · exact drawToTarget_next c _ _ _ _ _ hh h2

theorem uploadConstants_done (locs : List Location) (consts : List (List GLfloat)) :
    ∀ (n i : Nat) (r : RendererOGL), i + n ≤ locs.length → i + n ≤ consts.length →
      ((locs.drop i).take n).all (fun l => decide (l.dataType ≠ .OTHER)) = true →
      (uploadConstants locs consts n i r).1 = .done := by
  intro n
  induction n with
  | zero => intro i r _ _ _; rfl
  | succ n ih =>
    intro i r hl hk hall
    unfold uploadConstants
    have hi : i < locs.length := by omega
    have hj : i < consts.length := by omega
    have hdrop : locs.drop i = locs[i] :: locs.drop (i + 1) := List.drop_eq_getElem_cons hi
    rw [hdrop, List.take_succ_cons, List.all_cons, Bool.and_eq_true] at hall
    obtain ⟨hsup, hrest⟩ := hall
    simp only [ne_eq, decide_eq_true_eq] at hsup
    rw [List.get?_eq_getElem?, List.get?_eq_getElem?, List.getElem?_eq_getElem hi,
      List.getElem?_eq_getElem hj]
    simp only []
    cases hu : uniformCall locs[i] consts[i] with
    | none =>
      exfalso
      unfold uniformCall at hu
      cases hdt : locs[i].dataType <;> simp only [hdt, reduceCtorEq] at hu
      exact hsup hdt
    | some call =>
      simp only []
      exact ih (i + 1) (r.emit call) (by omega) (by omega) hrest

theorem useShader_reach (c : DrawCommand) (r : RendererOGL) (hsv : shaderValid c = true) :
    (constantsValid c = false ∧ (useShader c r).1 = .abort) ∨
      (constantsValid c = true ∧ ∃ r3, Quiet r r3 ∧ useShader c r = renderTarget c r3) := by
  unfold useShader
  unfold shaderValid at hsv
  cases hsh : c.shader with
  | none => simp [hsh] at hsv
  | some sh =>
    simp only [hsh, ne_eq, decide_eq_true_eq] at hsv
    simp only [if_neg hsv]
    have hcv : constantsValid c =
        (decide (c.pixelShaderConstants.length ≤ sh.pixelShaderConstantLocations.length) &&
          uniformsSupported sh.pixelShaderConstantLocations c.pixelShaderConstants.length &&
          decide (c.vertexShaderConstants.length ≤ sh.vertexShaderConstantLocations.length) &&
          uniformsSupported sh.vertexShaderConstantLocations
            c.vertexShaderConstants.length) := by
      simp only [constantsValid, hsh]
    by_cases hp : c.pixelShaderConstants.length > sh.pixelShaderConstantLocations.length
    · rw [if_pos hp]
      refine Or.inl ⟨?_, rfl⟩
      rw [hcv]
      simp [Nat.not_le.2 hp]
    · rw [if_neg hp]
      obtain ⟨hq2, hdone2⟩ := uploadConstants_summary
        sh.pixelShaderConstantLocations c.pixelShaderConstants
        c.pixelShaderConstants.length 0 (useProgram sh.programId r)
      have hconv2 := uploadConstants_done sh.pixelShaderConstantLocations
        c.pixelShaderConstants c.pixelShaderConstants.length 0 (useProgram sh.programId r)
        (by omega) (by omega)
      simp only [List.drop_zero] at hdone2 hconv2
      generalize uploadConstants sh.pixelShaderConstantLocations c.pixelShaderConstants
        c.pixelShaderConstants.length 0 (useProgram sh.programId r) = res2
        at hq2 hdone2 hconv2 ⊢
      obtain ⟨f2, r2⟩ := res2
      have hbad2 : f2 ≠ .done → constantsValid c = false := by
        intro hne
        rw [hcv]
        cases hs : uniformsSupported sh.pixelShaderConstantLocations
            c.pixelShaderConstants.length with
        | false => simp
        | true => exact absurd (hconv2 hs) hne
      cases f2 with
      | unsupported => exact Or.inl ⟨hbad2 (by simp), rfl⟩
      | outOfBounds => exact Or.inl ⟨hbad2 (by simp), rfl⟩
      | done =>
        simp only []
        have hs2 : uniformsSupported sh.pixelShaderConstantLocations
            c.pixelShaderConstants.length = true := hdone2 rfl
        by_cases hv : c.vertexShaderConstants.length > sh.vertexShaderConstantLocations.length
        · rw [if_pos hv]
          refine Or.inl ⟨?_, rfl⟩
          rw [hcv]
          simp [Nat.not_le.2 hv]
        · rw [if_neg hv]
          obtain ⟨hq3, hdone3⟩ := uploadConstants_summary
            sh.vertexShaderConstantLocations c.vertexShaderConstants
            c.vertexShaderConstants.length 0 r2
          have hconv3 := uploadConstants_done sh.vertexShaderConstantLocations
            c.vertexShaderConstants c.vertexShaderConstants.length 0 r2
            (by omega) (by omega)
          simp only [List.drop_zero] at hdone3 hconv3
          generalize uploadConstants sh.vertexShaderConstantLocations c.vertexShaderConstants
            c.vertexShaderConstants.length 0 r2 = res3 at hq3 hdone3 hconv3 ⊢
          obtain ⟨f3, r3⟩ := res3
          have hbad3 : f3 ≠ .done → constantsValid c = false := by
            intro hne
            rw [hcv]
            cases hs : uniformsSupported sh.vertexShaderConstantLocations
                c.vertexShaderConstants.length with
            | false => simp
            | true => exact absurd (hconv3 hs) hne
          cases f3 with
          | unsupported => exact Or.inl ⟨hbad3 (by simp), rfl⟩
          | outOfBounds => exact Or.inl ⟨hbad3 (by simp), rfl⟩
          | done =>
            simp only []
            have hs3 : uniformsSupported sh.vertexShaderConstantLocations
                c.vertexShaderConstants.length = true := hdone3 rfl
            refine Or.inr ⟨?_, r3,
              ((Quiet.useProgram_quiet sh.programId r).trans_quiet hq2).trans_quiet hq3, rfl⟩
            rw [hcv, hs2, hs3]
            simp only [Bool.and_true, Bool.and_eq_true, decide_eq_true_eq]
            exact ⟨by omega, by omega⟩

theorem passesWireframe_iff (b : Build) (c : DrawCommand) :
    passesWireframe b c = true ↔ ¬ ((!b.supportsOpenGL && c.wireframe) = true) := by
  unfold passesWireframe
  cases (!b.supportsOpenGL && c.wireframe) <;> simp

theorem Quiet.polygon_quiet (b : Build) (c : DrawCommand) (r : RendererOGL) :
    Quiet r (if b.supportsOpenGL = true
      then setPolygonFillMode (if c.wireframe = true then GL_LINE else GL_FILL) r else r) := by
  split
  · exact Quiet.setPolygonFillMode_quiet _ r
  · exact Quiet.refl_quiet r

theorem drawOne_reach (b : Build) (c : DrawCommand) (r : RendererOGL)
    (hreach : reachesConstants b r c = true) :
    ((drawOne b c r).1 = .abort ∧ ¬ r.healthy) ∨
      ∃ r3, Quiet r r3 ∧ drawOne b c r = useShader c r3 := by
  simp only [reachesConstants, Bool.and_eq_true] at hreach
  obtain ⟨⟨⟨hw, hbs⟩, htv⟩, hsv⟩ := hreach
  unfold drawOne
  rw [if_neg ((passesWireframe_iff b c).1 hw)]
  have h1 := Quiet.polygon_quiet b c r
  simp only []
  generalize (if b.supportsOpenGL = true
      then setPolygonFillMode (if c.wireframe = true then GL_LINE else GL_FILL) r else r) = r1
    at h1 ⊢
  cases hb : c.blendState with
  | none => simp [hb] at hbs
  | some bs =>
    simp only []
    have h2 := Quiet.setBlendState_quiet bs r1
    have hok2 := fun hh : r1.healthy => setBlendState_healthy bs hh
    generalize setBlendState bs r1 = res2 at h2 hok2 ⊢
    obtain ⟨ok2, r2⟩ := res2
    cases ok2 with
    | false =>
      refine Or.inl ⟨rfl, fun hh => ?_⟩
      have := hok2 (h1.healthy_quiet hh)
      simp at this
    | true =>
      simp only [Bool.not_true, Bool.false_eq_true, if_false]
      obtain ⟨h3, _, hinv⟩ := bindTextures_summary c b.LAYERS 0 r2
      have hnf := bindTextures_healthy c b.LAYERS 0 r2
      generalize bindTextures c b.LAYERS 0 r2 = res3 at h3 hinv hnf ⊢
      obtain ⟨f3, r3⟩ := res3
      cases f3 with
      | failed =>
        refine Or.inl ⟨rfl, fun hh => ?_⟩
        exact hnf (h2.healthy_quiet (h1.healthy_quiet hh)) rfl
      | invalid =>
        obtain ⟨_, hrun12, _⟩ := h1.trans_quiet h2
        rw [← hrun12.texturesValid, texturesValid_iff] at htv
        exact absurd rfl (hinv htv)
      | valid => exact Or.inr ⟨r3, (h1.trans_quiet h2).trans_quiet h3, rfl⟩

theorem drawOne_skip (b : Build) (c : DrawCommand) (r : RendererOGL)
    (hreach : reachesConstants b r c = false) (hh : r.healthy) :
    (drawOne b c r).1 = .next := by
  cases hsv : shaderValid c with
  | false => exact (drawOne_invalid_shader b c r hsv).2 hh
  | true =>
    unfold drawOne
    split
    · rfl
    · rename_i hw
      have h1 := Quiet.polygon_quiet b c r
      simp only []
      generalize (if b.supportsOpenGL = true
          then setPolygonFillMode (if c.wireframe = true then GL_LINE else GL_FILL) r
          else r) = r1 at h1 ⊢
      have hh1 := h1.healthy_quiet hh
      cases hb : c.blendState with
      | none => rfl
      | some bs =>
        simp only []
        have hok := setBlendState_healthy bs hh1
        have h2 := Quiet.setBlendState_quiet bs r1
        generalize setBlendState bs r1 = res2 at hok h2 ⊢
        obtain ⟨ok2, r2⟩ := res2
        simp only [] at hok
        subst hok
        simp only [Bool.not_true, Bool.false_eq_true, if_false]
        have hnf := bindTextures_healthy c b.LAYERS 0 r2 (h2.healthy_quiet hh1)
        obtain ⟨_, hval, _⟩ := bindTextures_summary c b.LAYERS 0 r2
        generalize bindTextures c b.LAYERS 0 r2 = res3 at hnf hval ⊢
        obtain ⟨f3, r3⟩ := res3
        cases f3 with
        | failed => exact absurd rfl hnf
        | invalid => rfl
        | valid =>
          exfalso
          obtain ⟨_, hrun12, _⟩ := h1.trans_quiet h2
          have htv : texturesValid b r c = true := by
            rw [← hrun12.texturesValid, texturesValid_iff]
            exact hval rfl
          have : reachesConstants b r c = true := by
            simp only [reachesConstants, Bool.and_eq_true]
            exact ⟨⟨⟨(passesWireframe_iff b c).2 hw, by simp [hb]⟩, htv⟩, hsv⟩
          rw [hreach] at this
          cases this

theorem drawOne_fatal (b : Build) (c : DrawCommand) (r : RendererOGL)
    (hf : failsValidation b r c = true) : (drawOne b c r).1 = .abort := by
  simp only [failsValidation, Bool.and_eq_true, Bool.or_eq_true, Bool.not_eq_true'] at hf
  obtain ⟨hreach, hcause⟩ := hf
  have hsv : shaderValid c = true := by
    simp only [reachesConstants, Bool.and_eq_true] at hreach
    exact hreach.2
  rcases drawOne_reach b c r hreach with ⟨hab, _⟩ | ⟨r3, hq3, heq⟩
  · exact hab
  · rw [heq]
    rcases useShader_reach c r3 hsv with ⟨_, hab⟩ | ⟨hcv, r4, hq4, heq4⟩
    · exact hab
    · rw [heq4]
      rcases hcause with hncv | ⟨⟨ht, hm⟩, hd⟩
      · rw [hcv] at hncv
        cases hncv
      · obtain ⟨_, hrun, _⟩ := hq3.trans_quiet hq4
        exact renderTarget_abort c r4 (by rw [hrun.targetValid]; exact ht) hm hd

theorem drawOne_healthy_next (b : Build) (c : DrawCommand) (r : RendererOGL) (hh : r.healthy)
    (hf : failsValidation b r c = false) : (drawOne b c r).1 = .next := by
  cases hreach : reachesConstants b r c with
  | false => exact drawOne_skip b c r hreach hh
  | true =>
    have hsv : shaderValid c = true := by
      simp only [reachesConstants, Bool.and_eq_true] at hreach
      exact hreach.2
    simp only [failsValidation, hreach, Bool.true_and, Bool.or_eq_false_iff,
      Bool.not_eq_false', Bool.and_eq_false_iff] at hf
    obtain ⟨hcv, hrest⟩ := hf
    rcases drawOne_reach b c r hreach with ⟨_, hnh⟩ | ⟨r3, hq3, heq⟩
    · exact absurd hh hnh
    · rw [heq]
      rcases useShader_reach c r3 hsv with ⟨hncv, _⟩ | ⟨_, r4, hq4, heq4⟩
      · rw [hcv] at hncv
        cases hncv
      · rw [heq4]
        obtain ⟨_, hrun, _⟩ := hq3.trans_quiet hq4
        refine renderTarget_next c r4 (hrun.healthy_run hh) ?_
        intro ht hm
        rw [hrun.targetValid] at ht
        rcases hrest with (h | h) | h
        · rw [ht] at h; cases h
        · rw [hm] at h; cases h
        · simpa using h

theorem Run.failsValidation {r q : RendererOGL} {evs : List GLCall} (h : Run r q evs)
    (b : Build) (c : DrawCommand) : failsValidation b q c = failsValidation b r c := by
  unfold graphics.failsValidation
  rw [h.reachesConstants, h.targetValid]

theorem failsValidation_not_passes {b : Build} {r : RendererOGL} {c : DrawCommand}
    (h : failsValidation b r c = true) : passesValidation b r c = false := by
  simp only [failsValidation, Bool.and_eq_true, Bool.or_eq_true, Bool.not_eq_true'] at h
  unfold passesValidation
  rcases h.2 with h1 | ⟨_, h2⟩
  · simp [h1]
  · simp [h2]

theorem drawOne_no_draw (b : Build) (c : DrawCommand) (q : RendererOGL)
    (h : passesValidation b q c = false) :
    (issued q (drawOne b c q).2).filter GLCall.isDraw = [] := by
  obtain ⟨evs, hrun, _, _, hdrawn⟩ := drawOne_summary b c q
  rw [hrun.issued]
  rcases hdrawn.1 with a | ⟨hp, _⟩
  · exact a
  · rw [h] at hp
    cases hp

theorem drawLoop_continue (b : Build) (pre : List DrawCommand) (c : DrawCommand)
    (post : List DrawCommand) (q : RendererOGL) (hpre : (drawLoop b pre q).1 = true)
    (hnext : (drawOne b c (drawLoop b pre q).2).1 = .next) :
    drawLoop b (pre ++ c :: post) q =
      drawLoop b post (drawOne b c (drawLoop b pre q).2).2 := by
  rw [drawLoop_append, if_pos hpre]
  simp only [drawLoop]
  generalize drawOne b c (drawLoop b pre q).2 = res at hnext ⊢
  obtain ⟨f, r2⟩ := res
  simp only [] at hnext
  subst hnext
  rfl

theorem drawLoop_fatal (b : Build) (pre : List DrawCommand) (c : DrawCommand)
    (post : List DrawCommand) (r : RendererOGL) (hf : failsValidation b r c = true) :
    (drawLoop b (pre ++ c :: post) r).1 = false ∧
      ∃ evs, Run r (drawLoop b (pre ++ c :: post) r).2 evs ∧
        ∃ rest, evs.filter GLCall.isDraw ++ rest = validatedDraws b r pre := by
  rw [drawLoop_append]
  obtain ⟨e1, hrun1, _, ⟨rest1, hrest1, _⟩, _, _⟩ := drawLoop_summary b pre r
  by_cases hok : (drawLoop b pre r).1 = true
  · rw [if_pos hok]
    have hab := drawOne_fatal b c (drawLoop b pre r).2
      (by rw [hrun1.failsValidation]; exact hf)
    obtain ⟨e2, hrun2, _⟩ := drawOne_summary b c (drawLoop b pre r).2
    have hd2 := drawOne_no_draw b c (drawLoop b pre r).2
      (by rw [hrun1.passesValidation]; exact failsValidation_not_passes hf)
    rw [hrun2.issued] at hd2
    simp only [drawLoop]
    generalize drawOne b c (drawLoop b pre r).2 = res at hab hrun2 ⊢
    obtain ⟨f, r2⟩ := res
    simp only [] at hab
    subst hab
    exact ⟨rfl, e1 ++ e2, hrun1.trans_run hrun2, rest1, by
      rw [List.filter_append, hd2, List.append_nil]; exact hrest1⟩
  · rw [if_neg hok]
    exact ⟨bool_false_of_not_true hok, e1, hrun1, rest1, hrest1⟩

theorem drawLoop_healthy (b : Build) (queue : List DrawCommand) :
    ∀ r : RendererOGL, r.healthy → (∀ c ∈ queue, failsValidation b r c = false) →
      (drawLoop b queue r).1 = true := by
  induction queue with
  | nil => intro r _ _; rfl
  | cons c queue ih =>
    intro r hh hall
    have hnext := drawOne_healthy_next b c r hh (hall c (List.mem_cons_self _ _))
    obtain ⟨_, hrun, _⟩ := drawOne_summary b c r
    simp only [drawLoop]
    generalize drawOne b c r = res at hnext hrun ⊢
    obtain ⟨f, r1⟩ := res
    simp only [] at hnext hrun
    subst hnext
    refine ih r1 (hrun.healthy_run hh) ?_
    intro d hd
    rw [hrun.failsValidation]
    exact hall d (List.mem_cons_of_mem _ hd)

theorem presentFrame_loop (b : Build) (r : RendererOGL) (h : r.drawQueue ≠ []) :
    presentFrame b (deleteResources b (Renderer.present r).2) =
      drawLoop b r.drawQueue (deleteResources b (Renderer.present r).2) := by
  obtain ⟨hrun0, _⟩ := Renderer.present_base r
  obtain ⟨e0, hrun1, _⟩ := deleteResources_run b (Renderer.present r).2
  obtain ⟨_, _, _, _, _, _, _, _, hdq⟩ := (hrun0.trans_run hrun1).fields
  unfold presentFrame
  rw [hdq]
  cases hq : r.drawQueue with
  | nil => exact absurd hq h
  | cons c queue => simp

theorem present_fatal (b : Build) (r : RendererOGL) (pre : List DrawCommand) (c : DrawCommand)
    (post : List DrawCommand) (hq : r.drawQueue = pre ++ c :: post)
    (hf : failsValidation b r c = true) :
    (present b r).1 = false ∧
      ∃ rest, (issued r (present b r).2).filter GLCall.isDraw ++ rest =
        validatedDraws b r pre := by
  by_cases hbase : (Renderer.present r).1 = true
  · obtain ⟨hrun0, _⟩ := Renderer.present_base r
    obtain ⟨e0, hrun1, _, _, hall⟩ := deleteResources_run b (Renderer.present r).2
    have hrun01 := hrun0.trans_run hrun1
    obtain ⟨hfalse, evs, hrun2, rest, hrest⟩ := drawLoop_fatal b pre c post
      (deleteResources b (Renderer.present r).2)
      (by rw [hrun01.failsValidation]; exact hf)
    rw [present_eq, if_pos hbase, presentFrame_loop b r (by rw [hq]; simp), hq,
      if_neg (by simp [hfalse])]
    refine ⟨rfl, rest, ?_⟩
    rw [(hrun01.trans_run hrun2).issued, List.filter_append, List.nil_append,
      (drain_calls_not_frame_calls hall).1, List.nil_append, hrest, hrun01.validatedDraws]
  · obtain ⟨h1, h2, _⟩ := present_base_failed b r (bool_false_of_not_true hbase)
    exact ⟨h1, validatedDraws b r pre, by rw [h2]; rfl⟩

theorem present_draws_without (b : Build) (r : RendererOGL) (pre : List DrawCommand)
    (c : DrawCommand) (post : List DrawCommand) (hq : r.drawQueue = pre ++ c :: post)
    (h : passesValidation b r c = false) :
    ∃ rest, (issued r (present b r).2).filter GLCall.isDraw ++ rest =
        validatedDraws b r (pre ++ post) ∧ ((present b r).1 = true → rest = []) := by
  obtain ⟨rest, hrest, hok⟩ := present_draws b r
  refine ⟨rest, ?_, hok⟩
  rw [hrest, hq, validatedDraws_append, validatedDraws_cons, validatedDraws_append, h]
  simp

end FlowLemmas


/-! ## The outcome of the loop body: results -/

/-- C15 (as stated, refuted): a draw command without a mesh buffer that submits two vertex
constants to a shader declaring one vertex location makes `present()` return failure, with a
driver that reports no error: the constant-count check precedes the mesh-buffer step. -/
theorem present_fails_on_overfull_meshless_command :
    overfullMeshlessCommand.meshBuffer = none ∧
      (rendererWith [overfullMeshlessCommand] []).healthy ∧
      (present desktopBuild (rendererWith [overfullMeshlessCommand] [])).1 = false := by
  decide

/-- C15 (amended): for any draw command whose mesh buffer is null, or whose index buffer or
vertex buffer is null or has backend buffer id zero, the mesh-buffer step of the loop body
issues no call and continues with the next command; `present()` issues no draw call for the
command (the draw calls of the frame are draw calls of the validated commands of the rest of
the queue); and the body of the loop for that command ends in `continue`, so that the loop
goes on with the commands after it, provided the driver reports no error and the command does
not fail the constant checks that precede the mesh-buffer step. -/
theorem present_skips_command_without_mesh (b : Build) (r : RendererOGL)
    (pre : List DrawCommand) (c : DrawCommand) (post : List DrawCommand)
    (hq : r.drawQueue = pre ++ c :: post) (hm : meshValid c = false) :
    (∀ q : RendererOGL, drawMesh c q = (.next, q)) ∧
      (∀ q : RendererOGL, (issued q (drawOne b c q).2).filter GLCall.isDraw = []) ∧
      (∀ q : RendererOGL, q.healthy →
        (reachesConstants b q c = true → constantsValid c = true) →
          (drawOne b c q).1 = .next) ∧
      (∃ rest, (issued r (present b r).2).filter GLCall.isDraw ++ rest =
          validatedDraws b r (pre ++ post) ∧ ((present b r).1 = true → rest = [])) ∧
      (∀ q : RendererOGL, q.healthy → (drawLoop b pre q).1 = true →
        (reachesConstants b q c = true → constantsValid c = true) →
          drawLoop b (pre ++ c :: post) q =
            drawLoop b post (drawOne b c (drawLoop b pre q).2).2) := by
  have hnp : ∀ q : RendererOGL, passesValidation b q c = false := by
    intro q
    simp [passesValidation, hm]
  have hnext : ∀ q : RendererOGL, q.healthy →
      (reachesConstants b q c = true → constantsValid c = true) →
        (drawOne b c q).1 = .next := by
    intro q hh hcv
    refine drawOne_healthy_next b c q hh ?_
    unfold failsValidation
    rw [hm]
    cases hr : reachesConstants b q c with
    | false => rfl
    | true => simp [hcv hr]
  refine ⟨fun q => drawMesh_skip c q hm, fun q => drawOne_no_draw b c q (hnp q), hnext,
    present_draws_without b r pre c post hq (hnp r), ?_⟩
  intro q hh hpre hcv
  obtain ⟨_, hrun, _⟩ := drawLoop_summary b pre q
  exact drawLoop_continue b pre c post q hpre
    (hnext _ (hrun.healthy_run hh) (by rw [hrun.reachesConstants]; exact hcv))

/-- C15, witness: a command without a mesh buffer between two valid commands. -/
theorem present_skips_command_without_mesh_witness :
    ((rendererWith [sampleCommand, meshlessCommand, sampleCommand] []).drawQueue =
        [sampleCommand] ++ meshlessCommand :: [sampleCommand] ∧
      meshValid meshlessCommand = false) ∧
    (∀ q : RendererOGL,
      (issued q (drawOne desktopBuild meshlessCommand q).2).filter GLCall.isDraw = []) ∧
    (∀ q : RendererOGL, q.healthy →
      (reachesConstants desktopBuild q meshlessCommand = true →
        constantsValid meshlessCommand = true) →
        (drawOne desktopBuild meshlessCommand q).1 = .next) :=
  ⟨⟨rfl, by decide⟩,
    (present_skips_command_without_mesh desktopBuild
      (rendererWith [sampleCommand, meshlessCommand, sampleCommand] [])
      [sampleCommand] meshlessCommand [sampleCommand] rfl (by decide)).2.1,
    (present_skips_command_without_mesh desktopBuild
      (rendererWith [sampleCommand, meshlessCommand, sampleCommand] [])
      [sampleCommand] meshlessCommand [sampleCommand] rfl (by decide)).2.2.1⟩

/-- C16 (as stated, refuted): a draw command with a draw mode outside the five supported ones
and without a blend state is skipped before the `switch` on the draw mode, and `present()`
returns success. -/
theorem present_succeeds_with_unsupported_mode_skipped :
    modelessUnblendedCommand.drawMode = .OTHER ∧
      modeValid modelessUnblendedCommand = false ∧
      (present desktopBuild (rendererWith [modelessUnblendedCommand] [])).1 = true := by
  decide

/-- C16 (amended): for any draw command of the draw queue that gets as far as the `switch` on
the draw mode (it is not skipped by the wireframe, blend-state, texture or shader step, its
render target is the default frame buffer or has a backend frame buffer, and its mesh buffer
with its index and vertex buffers is allocated) and whose draw mode is not one of the five
supported modes, `present()` returns failure for the whole call, whatever the driver answers,
and issues draw calls only for commands that precede it in the queue. -/
theorem present_fails_on_unsupported_draw_mode (b : Build) (r : RendererOGL)
    (pre : List DrawCommand) (c : DrawCommand) (post : List DrawCommand)
    (hq : r.drawQueue = pre ++ c :: post) (hreach : reachesConstants b r c = true)
    (ht : targetValid r c = true) (hm : meshValid c = true) (hd : modeValid c = false) :
    (present b r).1 = false ∧
      ∃ rest, (issued r (present b r).2).filter GLCall.isDraw ++ rest =
        validatedDraws b r pre :=
  present_fatal b r pre c post hq (by simp [failsValidation, hreach, ht, hm, hd])

/-- C16, witness: a command with an unsupported draw mode between two valid commands. -/
theorem present_fails_on_unsupported_draw_mode_witness :
    (reachesConstants desktopBuild
        (rendererWith [sampleCommand, modelessCommand, sampleCommand] []) modelessCommand = true ∧
      targetValid (rendererWith [sampleCommand, modelessCommand, sampleCommand] [])
        modelessCommand = true ∧
      meshValid modelessCommand = true ∧ modeValid modelessCommand = false) ∧
    (present desktopBuild
      (rendererWith [sampleCommand, modelessCommand, sampleCommand] [])).1 = false :=
  ⟨by decide,
    (present_fails_on_unsupported_draw_mode desktopBuild
      (rendererWith [sampleCommand, modelessCommand, sampleCommand] [])
      [sampleCommand] modelessCommand [sampleCommand] rfl (by decide) (by decide) (by decide)
      (by decide)).1⟩


/-! ## Texture bindings: lemmas -/

section TextureLemmas

theorem TextureStage.refl_stage (r : RendererOGL) : TextureStage r r :=
  ⟨[], by simp, by simp, rfl⟩

theorem TextureStage.trans_stage {r q s : RendererOGL} (h1 : TextureStage r q)
    (h2 : TextureStage q s) : TextureStage r s := by
  obtain ⟨e1, hc1, hs1, hb1⟩ := h1
  obtain ⟨e2, hc2, hs2, hb2⟩ := h2
  refine ⟨e1 ++ e2, by rw [hc2, hc1, List.append_assoc], ?_, ?_⟩
  · intro e he
    rcases List.mem_append.1 he with h | h
    · exact hs1 e h
    · exact hs2 e h
  · unfold boundTextures at hb1 hb2 ⊢
    rw [List.foldl_append, hb1, hb2]

theorem nextFault_stateCache (r : RendererOGL) : r.nextFault.2.stateCache = r.stateCache := by
  unfold RendererOGL.nextFault
  cases r.faults <;> rfl

theorem helperResult_stateCache (r : RendererOGL) :
    (helperResult r).2.stateCache = r.stateCache :=
  nextFault_stateCache r

theorem TextureStage.helperResult_stage (r : RendererOGL) : TextureStage r (helperResult r).2 :=
  ⟨[], by simp [helperResult_calls], by simp, by rw [helperResult_stateCache]; rfl⟩

theorem TextureStage.setPolygonFillMode_stage (mode : GLenum) (r : RendererOGL) :
    TextureStage r (setPolygonFillMode mode r) ∧
      (setPolygonFillMode mode r).stateCache.textureId = r.stateCache.textureId := by
  unfold setPolygonFillMode
  split
  · exact ⟨TextureStage.refl_stage r, rfl⟩
  · exact ⟨⟨[_], rfl, by simp [GLCall.isTextureStage], rfl⟩, rfl⟩

theorem TextureStage.polygon_stage (b : Build) (c : DrawCommand) (r : RendererOGL) :
    TextureStage r (if b.supportsOpenGL = true
      then setPolygonFillMode (if c.wireframe = true then GL_LINE else GL_FILL) r else r) ∧
    (if b.supportsOpenGL = true
      then setPolygonFillMode (if c.wireframe = true then GL_LINE else GL_FILL) r
      else r).stateCache.textureId = r.stateCache.textureId := by
  by_cases hb : b.supportsOpenGL = true
  · rw [if_pos hb]
    exact TextureStage.setPolygonFillMode_stage _ r
  · rw [if_neg hb]
    exact ⟨TextureStage.refl_stage r, rfl⟩

theorem TextureStage.setBlendState_stage (bs : BlendStateOGL) (r : RendererOGL) :
    TextureStage r (setBlendState bs r).2 ∧
      (setBlendState bs r).2.stateCache.textureId = r.stateCache.textureId := by
  unfold setBlendState
  refine ⟨TextureStage.trans_stage ⟨[_], rfl, by simp [GLCall.isTextureStage], rfl⟩
    (TextureStage.helperResult_stage _), ?_⟩
  rw [helperResult_stateCache]
  rfl

theorem bindTexture_textureId (id : GLuint) (layer : Nat) (r : RendererOGL) :
    (bindTexture id layer r).2.stateCache.textureId =
      Function.update r.stateCache.textureId layer id := by
  unfold bindTexture
  rw [helperResult_stateCache]
  split
  · rename_i h
    rw [← h, Function.update_eq_self]
  · rfl

theorem TextureStage.bindTexture_stage (id : GLuint) (layer : Nat) (r : RendererOGL) :
    TextureStage r (bindTexture id layer r).2 := by
  unfold bindTexture
  split
  · exact TextureStage.helperResult_stage r
  · exact TextureStage.trans_stage ⟨[_], rfl, by simp [GLCall.isTextureStage], rfl⟩
      (TextureStage.helperResult_stage _)

theorem TextureStage.bindTextures_stage (c : DrawCommand) :
    ∀ (n layer : Nat) (r : RendererOGL), TextureStage r (bindTextures c n layer r).2 := by
  intro n
  induction n with
  | zero => intro layer r; exact TextureStage.refl_stage r
  | succ n ih =>
    intro layer r
    unfold bindTextures
    cases c.textureAt layer with
    | some texture =>
      simp only []
      split
      · exact TextureStage.refl_stage r
      · have h1 := TextureStage.bindTexture_stage (r.textures texture).textureId layer r
        generalize bindTexture (r.textures texture).textureId layer r = res at h1 ⊢
        obtain ⟨ok, r1⟩ := res
        cases ok
        · exact h1
        · exact h1.trans_stage (ih (layer + 1) r1)
    | none =>
      simp only []
      have h1 := TextureStage.bindTexture_stage 0 layer r
      generalize bindTexture 0 layer r = res at h1 ⊢
      obtain ⟨ok, r1⟩ := res
      cases ok
      · exact h1
      · exact h1.trans_stage (ih (layer + 1) r1)

theorem bindTextures_succ (c : DrawCommand) (n layer : Nat) (r : RendererOGL) :
    bindTextures c (n + 1) layer r =
      if textureValidAt r c layer = true then
        if (bindTexture (textureIdAt r c layer) layer r).1 = true
        then bindTextures c n (layer + 1) (bindTexture (textureIdAt r c layer) layer r).2
        else (.failed, (bindTexture (textureIdAt r c layer) layer r).2)
      else (.invalid, r) := by
  rw [bindTextures]
  unfold textureValidAt textureIdAt
  cases c.textureAt layer with
  | some t =>
    simp only []
    by_cases hz : (r.textures t).textureId = 0
    · simp [hz]
    · simp only [hz, if_false, ne_eq, not_false_eq_true, decide_True, if_true]
      generalize bindTexture (r.textures t).textureId layer r = res
      obtain ⟨ok, r1⟩ := res
      cases ok <;> simp
  | none =>
    simp only [if_true]
    generalize bindTexture 0 layer r = res
    obtain ⟨ok, r1⟩ := res
    cases ok <;> simp

theorem Run.textureIdAt {r q : RendererOGL} {evs : List GLCall} (h : Run r q evs)
    (c : DrawCommand) (layer : Nat) : textureIdAt q c layer = textureIdAt r c layer := by
  unfold graphics.textureIdAt
  cases c.textureAt layer with
  | none => rfl
  | some t => simp only [h.textureId]

theorem bindTextures_layers (c : DrawCommand) :
    ∀ (n layer : Nat) (r : RendererOGL),
      (∀ j, j < layer →
        (bindTextures c n layer r).2.stateCache.textureId j = r.stateCache.textureId j) ∧
      (∀ k, layer ≤ k → textureValidAt r c k = false → ∀ j, k ≤ j →
        (bindTextures c n layer r).2.stateCache.textureId j = r.stateCache.textureId j) ∧
      ((bindTextures c n layer r).1 = .valid → ∀ j, layer ≤ j → j < layer + n →
        (bindTextures c n layer r).2.stateCache.textureId j = textureIdAt r c j) ∧
      ((bindTextures c n layer r).1 = .invalid →
        ∃ k, layer ≤ k ∧ k < layer + n ∧ textureValidAt r c k = false ∧
          ∀ j, layer ≤ j → j < k → textureValidAt r c j = true ∧
            (bindTextures c n layer r).2.stateCache.textureId j = textureIdAt r c j) := by
  intro n
  induction n with
  | zero =>
    intro layer r
    refine ⟨fun _ _ => rfl, fun _ _ _ _ _ => rfl, fun _ j h1 h2 => by omega, fun h => ?_⟩
    simp [bindTextures] at h
  | succ n ih =>
    intro layer r
    rw [bindTextures_succ]
    by_cases hv : textureValidAt r c layer = true
    · rw [if_pos hv]
      obtain ⟨_, hrun1, _⟩ := Quiet.bindTexture_quiet (textureIdAt r c layer) layer r
      have hid := bindTexture_textureId (textureIdAt r c layer) layer r
      by_cases hok : (bindTexture (textureIdAt r c layer) layer r).1 = true
      · rw [if_pos hok]
        obtain ⟨h1, h2, h3, h4⟩ := ih (layer + 1) (bindTexture (textureIdAt r c layer) layer r).2
        refine ⟨?_, ?_, ?_, ?_⟩
        · intro j hj
          rw [h1 j (by omega), hid, Function.update_noteq (by omega)]
        · intro k hk hkv j hj
          have hne : k ≠ layer := by
            intro h
            rw [h, hv] at hkv
            cases hkv
          rw [h2 k (by omega) (by rw [hrun1.textureValidAt]; exact hkv) j hj, hid,
            Function.update_noteq (by omega)]
        · intro hval j hj1 hj2
          by_cases hjl : j = layer
          · rw [hjl, h1 layer (by omega), hid, Function.update_same]
          · rw [h3 hval j (by omega) (by omega), hrun1.textureIdAt]
        · intro hinv
          obtain ⟨k, hk1, hk2, hkv, hbelow⟩ := h4 hinv
          refine ⟨k, by omega, by omega, by rw [← hrun1.textureValidAt]; exact hkv, ?_⟩
          intro j hj1 hj2
          by_cases hjl : j = layer
          · rw [hjl, h1 layer (by omega), hid, Function.update_same]
            exact ⟨hv, rfl⟩
          · obtain ⟨a, b⟩ := hbelow j (by omega) hj2
            exact ⟨by rw [← hrun1.textureValidAt]; exact a, by rw [b, hrun1.textureIdAt]⟩
      · rw [if_neg hok]
        refine ⟨?_, ?_, fun h => by simp at h, fun h => by simp at h⟩
        · intro j hj
          simp only []
          rw [hid, Function.update_noteq (by omega)]
        · intro k hk hkv j hj
          have hne : k ≠ layer := by
            intro h
            rw [h, hv] at hkv
            cases hkv
          simp only []
          rw [hid, Function.update_noteq (by omega)]
    · rw [if_neg hv]
      refine ⟨fun _ _ => rfl, fun _ _ _ _ _ => rfl, fun h => by simp at h, fun _ => ?_⟩
      exact ⟨layer, le_refl _, by omega, bool_false_of_not_true hv, fun j h1 h2 => by omega⟩

theorem drawOne_texture_stage (b : Build) (c : DrawCommand) (q : RendererOGL)
    (hw : passesWireframe b c = true) (bs : BlendStateOGL) (hb : c.blendState = some bs) :
    ∃ r2, TextureStage q r2 ∧ Quiet q r2 ∧
      r2.stateCache.textureId = q.stateCache.textureId ∧
      ((drawOne b c q = (.abort, r2) ∧ ¬ q.healthy) ∨
        (((bindTextures c b.LAYERS 0 r2).1 = .failed →
            drawOne b c q = (.abort, (bindTextures c b.LAYERS 0 r2).2)) ∧
          ((bindTextures c b.LAYERS 0 r2).1 = .invalid →
            drawOne b c q = (.next, (bindTextures c b.LAYERS 0 r2).2)) ∧
          ((bindTextures c b.LAYERS 0 r2).1 = .valid →
            drawOne b c q = useShader c (bindTextures c b.LAYERS 0 r2).2))) := by
  unfold drawOne
  rw [if_neg ((passesWireframe_iff b c).1 hw)]
  have h1 := Quiet.polygon_quiet b c q
  obtain ⟨hs1, hid1⟩ := TextureStage.polygon_stage b c q
  simp only [hb]
  generalize (if b.supportsOpenGL = true
      then setPolygonFillMode (if c.wireframe = true then GL_LINE else GL_FILL) q else q) = r1
    at h1 hs1 hid1 ⊢
  have h2 := Quiet.setBlendState_quiet bs r1
  obtain ⟨hs2, hid2⟩ := TextureStage.setBlendState_stage bs r1
  have hok2 := fun hh : r1.healthy => setBlendState_healthy bs hh
  generalize setBlendState bs r1 = res2 at h2 hs2 hid2 hok2 ⊢
  obtain ⟨ok2, r2⟩ := res2
  refine ⟨r2, hs1.trans_stage hs2, h1.trans_quiet h2, hid2.trans hid1, ?_⟩
  cases ok2 with
  | false =>
    refine Or.inl ⟨rfl, fun hh => ?_⟩
    have := hok2 (h1.healthy_quiet hh)
    simp at this
  | true =>
    refine Or.inr ?_
    simp only [Bool.not_true, Bool.false_eq_true, if_false]
    generalize bindTextures c b.LAYERS 0 r2 = res3
    obtain ⟨f3, r3⟩ := res3
    cases f3 <;> simp

theorem drawOne_unallocated (b : Build) (c : DrawCommand) (q : RendererOGL)
    (hinv : texturesValid b q c = false) : TextureStage q (drawOne b c q).2 := by
  cases hw : passesWireframe b c with
  | false =>
    have : drawOne b c q = (.next, q) := by
      unfold drawOne
      rw [if_pos]
      by_contra h
      rw [(passesWireframe_iff b c).2 h] at hw
      cases hw
    rw [this]
    exact TextureStage.refl_stage q
  | true =>
    cases hb : c.blendState with
    | none =>
      have : drawOne b c q = (.next, (if b.supportsOpenGL = true
          then setPolygonFillMode (if c.wireframe = true then GL_LINE else GL_FILL) q
          else q)) := by
        unfold drawOne
        rw [if_neg ((passesWireframe_iff b c).1 hw)]
        simp only [hb]
      rw [this]
      exact (TextureStage.polygon_stage b c q).1
    | some bs =>
      obtain ⟨r2, hs2, hq2, _, hcases⟩ := drawOne_texture_stage b c q hw bs hb
      rcases hcases with ⟨heq, _⟩ | ⟨hfailed, hinvalid, hvalid⟩
      · rw [heq]
        exact hs2
      · have hs3 := TextureStage.bindTextures_stage c b.LAYERS 0 r2
        obtain ⟨_, hval, _⟩ := bindTextures_summary c b.LAYERS 0 r2
        cases hf : (bindTextures c b.LAYERS 0 r2).1 with
        | failed => rw [hfailed hf]; exact hs2.trans_stage hs3
        | invalid => rw [hinvalid hf]; exact hs2.trans_stage hs3
        | valid =>
          exfalso
          obtain ⟨_, hrun, _⟩ := hq2
          have htv : texturesValid b q c = true := by
            rw [← hrun.texturesValid, texturesValid_iff]
            exact hval hf
          rw [hinv] at htv
          cases htv

theorem drawOne_partial_binds (b : Build) (c : DrawCommand) (q : RendererOGL)
    (hw : passesWireframe b c = true) (hbs : c.blendState.isSome = true)
    (hinv : texturesValid b q c = false) (hnext : (drawOne b c q).1 = .next) :
    ∃ k, k < b.LAYERS ∧ textureValidAt q c k = false ∧
      (∀ j, j < k → textureValidAt q c j = true ∧
        (drawOne b c q).2.stateCache.textureId j = textureIdAt q c j) ∧
      (∀ j, k ≤ j →
        (drawOne b c q).2.stateCache.textureId j = q.stateCache.textureId j) := by
  cases hb : c.blendState with
  | none => simp [hb] at hbs
  | some bs =>
    obtain ⟨r2, _, hq2, hid2, hcases⟩ := drawOne_texture_stage b c q hw bs hb
    obtain ⟨_, hrun, _⟩ := hq2
    rcases hcases with ⟨heq, _⟩ | ⟨hfailed, hinvalid, hvalid⟩
    · rw [heq] at hnext
      cases hnext
    · obtain ⟨_, hval, _⟩ := bindTextures_summary c b.LAYERS 0 r2
      obtain ⟨_, habove, _, hbelow⟩ := bindTextures_layers c b.LAYERS 0 r2
      cases hf : (bindTextures c b.LAYERS 0 r2).1 with
      | failed =>
        rw [hfailed hf] at hnext
        cases hnext
      | valid =>
        exfalso
        have htv : texturesValid b q c = true := by
          rw [← hrun.texturesValid, texturesValid_iff]
          exact hval hf
        rw [hinv] at htv
        cases htv
      | invalid =>
        rw [hinvalid hf]
        obtain ⟨k, _, hk, hkv, hb2⟩ := hbelow hf
        refine ⟨k, by omega, by rw [← hrun.textureValidAt]; exact hkv, ?_, ?_⟩
        · intro j hj
          obtain ⟨a, e⟩ := hb2 j (Nat.zero_le _) hj
          exact ⟨by rw [← hrun.textureValidAt]; exact a, by rw [← hrun.textureIdAt]; exact e⟩
        · intro j hj
          simp only []
          rw [habove k (Nat.zero_le _) hkv j hj, hid2]

theorem texturesValid_false {b : Build} {q : RendererOGL} {c : DrawCommand} {layer : Nat}
    {t : TextureRef} (hl : layer < b.LAYERS) (ht : c.textureAt layer = some t)
    (hz : (q.textures t).textureId = 0) : texturesValid b q c = false := by
  cases h : texturesValid b q c with
  | false => rfl
  | true =>
    rw [texturesValid_iff] at h
    have := h layer (Nat.zero_le _) (by omega)
    simp [textureValidAt, ht, hz] at this

theorem TextureStage.issued_stage {r q : RendererOGL} (h : TextureStage r q) :
    (∀ e ∈ issued r q, e.isTextureStage = true) ∧
      boundTextures r.stateCache.textureId (issued r q) = q.stateCache.textureId := by
  obtain ⟨evs, hc, hs, hb⟩ := h
  have : issued r q = evs := by
    unfold issued
    rw [hc, List.drop_left]
  rw [this]
  exact ⟨hs, hb⟩

end TextureLemmas

/-! ## Texture bindings: results -/

/-- C13 (as stated, refuted): a draw command whose texture at layer 1 has no backend texture
makes `present()` return failure when the driver reports an error for its blend state, which
is set before the textures are looked at. -/
theorem present_fails_before_unallocated_texture_is_seen :
    partlyTexturedCommand.textureAt 1 = some 1 ∧
      ((rendererWithUnallocated [partlyTexturedCommand] [false, true]).textures 1).textureId
        = 0 ∧
      (present desktopBuild
        (rendererWithUnallocated [partlyTexturedCommand] [false, true])).1 = false := by
  decide

/-- C13 (amended): for any draw command that references, at some layer below
`Texture::LAYERS`, a texture whose backend texture id is zero, `present()` issues no program
use, no constant upload, no clear and no draw call for it (at whatever state the loop reaches
it, and the draw calls of the frame are those of the validated commands of the rest of the
queue); provided the driver reports no error for the blend state and the texture binds of the
command, the body of the loop ends in `continue` and the loop goes on with the commands after
it. -/
theorem present_skips_command_with_unallocated_texture (b : Build) (r : RendererOGL)
    (pre : List DrawCommand) (c : DrawCommand) (post : List DrawCommand)
    (hq : r.drawQueue = pre ++ c :: post) (layer : Nat) (t : TextureRef)
    (hl : layer < b.LAYERS) (ht : c.textureAt layer = some t)
    (hz : (r.textures t).textureId = 0) :
    (∀ q : RendererOGL, (q.textures t).textureId = 0 →
        ∀ e ∈ issued q (drawOne b c q).2,
          e.isUseProgram = false ∧ e.isUniform = false ∧ e.isClear = false ∧
            e.isDraw = false) ∧
      (∀ q : RendererOGL, (q.textures t).textureId = 0 → q.healthy →
        (drawOne b c q).1 = .next) ∧
      (∃ rest, (issued r (present b r).2).filter GLCall.isDraw ++ rest =
          validatedDraws b r (pre ++ post) ∧ ((present b r).1 = true → rest = [])) ∧
      (∀ q : RendererOGL, (q.textures t).textureId = 0 → q.healthy →
        (drawLoop b pre q).1 = true →
          drawLoop b (pre ++ c :: post) q =
            drawLoop b post (drawOne b c (drawLoop b pre q).2).2) := by
  have hnr : ∀ q : RendererOGL, (q.textures t).textureId = 0 →
      reachesConstants b q c = false := by
    intro q hzq
    simp [reachesConstants, texturesValid_false hl ht hzq]
  refine ⟨?_, fun q hzq hh => drawOne_skip b c q (hnr q hzq) hh, ?_, ?_⟩
  · intro q hzq e he
    have hs := ((drawOne_unallocated b c q (texturesValid_false hl ht hzq)).issued_stage).1 e he
    cases e <;> simp_all [GLCall.isTextureStage, GLCall.isUseProgram, GLCall.isUniform,
      GLCall.isClear, GLCall.isDraw]
  · refine present_draws_without b r pre c post hq ?_
    simp [passesValidation, hnr r hz]
  · intro q hzq hh hpre
    obtain ⟨_, hrun, _⟩ := drawLoop_summary b pre q
    refine drawLoop_continue b pre c post q hpre
      (drawOne_skip b c _ (hnr _ ?_) (hrun.healthy_run hh))
    rw [hrun.textureId]
    exact hzq

/-- C13, witness: a command whose second texture is unallocated, between two valid commands. -/
theorem present_skips_command_with_unallocated_texture_witness :
    ((rendererWithUnallocated [sampleCommand, partlyTexturedCommand, sampleCommand] []).drawQueue
        = [sampleCommand] ++ partlyTexturedCommand :: [sampleCommand] ∧
      1 < desktopBuild.LAYERS ∧ partlyTexturedCommand.textureAt 1 = some 1 ∧
      ((rendererWithUnallocated [sampleCommand, partlyTexturedCommand, sampleCommand]
        []).textures 1).textureId = 0) ∧
    (∀ q : RendererOGL, (q.textures 1).textureId = 0 →
      ∀ e ∈ issued q (drawOne desktopBuild partlyTexturedCommand q).2,
        e.isUseProgram = false ∧ e.isUniform = false ∧ e.isClear = false ∧
          e.isDraw = false) ∧
    (∀ q : RendererOGL, (q.textures 1).textureId = 0 → q.healthy →
      (drawOne desktopBuild partlyTexturedCommand q).1 = .next) :=
  ⟨⟨rfl, by decide, by decide, by decide⟩,
    (present_skips_command_with_unallocated_texture desktopBuild
      (rendererWithUnallocated [sampleCommand, partlyTexturedCommand, sampleCommand] [])
      [sampleCommand] partlyTexturedCommand [sampleCommand] rfl 1 1 (by decide) (by decide)
      (by decide)).1,
    (present_skips_command_with_unallocated_texture desktopBuild
      (rendererWithUnallocated [sampleCommand, partlyTexturedCommand, sampleCommand] [])
      [sampleCommand] partlyTexturedCommand [sampleCommand] rfl 1 1 (by decide) (by decide)
      (by decide)).2.1⟩

/-- C14 (as stated, refuted): a command with an allocated texture (backend id 7) at layer 0 and
an unallocated texture at layer 1 is skipped, `present()` returns success, and layer 0, which
had no texture bound before, is left bound to texture 7 in the state cache and in the
backend. -/
theorem present_leaves_partial_texture_bind :
    texturesValid desktopBuild (rendererWithUnallocated [partlyTexturedCommand] [])
        partlyTexturedCommand = false ∧
      (present desktopBuild (rendererWithUnallocated [partlyTexturedCommand] [])).1 = true ∧
      (rendererWithUnallocated [partlyTexturedCommand] []).stateCache.textureId 0 = 0 ∧
      (present desktopBuild
        (rendererWithUnallocated [partlyTexturedCommand] [])).2.stateCache.textureId 0 = 7 ∧
      GLCall.glBindTexture 0 7 ∈ issued (rendererWithUnallocated [partlyTexturedCommand] [])
        (present desktopBuild (rendererWithUnallocated [partlyTexturedCommand] [])).2 := by
  decide

/-- C14 (amended): when the body of the loop skips a draw command because one of its textures
has no backend texture, the texture ids of the state cache still agree with the textures bound
in the backend (every bind went through the cache); the layers from the first unallocated
texture upward keep the bindings they had before the command, while the layers below it are
left bound to the textures of the skipped command.  A later command that gets past its own
texture loop has bound every layer below `Texture::LAYERS` to its own textures, in the cache
and in the backend, whatever was bound before. -/
theorem present_keeps_partial_texture_binds_in_cache (b : Build) (c : DrawCommand)
    (q : RendererOGL) (hw : passesWireframe b c = true) (hbs : c.blendState.isSome = true)
    (hinv : texturesValid b q c = false) (hnext : (drawOne b c q).1 = .next) :
    boundTextures q.stateCache.textureId (issued q (drawOne b c q).2) =
        (drawOne b c q).2.stateCache.textureId ∧
      (∃ k, k < b.LAYERS ∧ textureValidAt q c k = false ∧
        (∀ j, j < k → textureValidAt q c j = true ∧
          (drawOne b c q).2.stateCache.textureId j = textureIdAt q c j) ∧
        (∀ j, k ≤ j →
          (drawOne b c q).2.stateCache.textureId j = q.stateCache.textureId j)) ∧
      (∀ (d : DrawCommand) (s : RendererOGL), (bindTextures d b.LAYERS 0 s).1 = .valid →
        ∀ j, j < b.LAYERS →
          (bindTextures d b.LAYERS 0 s).2.stateCache.textureId j = textureIdAt s d j ∧
          boundTextures s.stateCache.textureId
            (issued s (bindTextures d b.LAYERS 0 s).2) j = textureIdAt s d j) := by
  refine ⟨((drawOne_unallocated b c q hinv).issued_stage).2,
    drawOne_partial_binds b c q hw hbs hinv hnext, ?_⟩
  intro d s hval j hj
  have h1 := (bindTextures_layers d b.LAYERS 0 s).2.2.1 hval j (Nat.zero_le _) (by omega)
  refine ⟨h1, ?_⟩
  rw [((TextureStage.bindTextures_stage d b.LAYERS 0 s).issued_stage).2]
  exact h1

/-- C14, witness: the command with an unallocated texture at layer 1, on the sample renderer. -/
theorem present_keeps_partial_texture_binds_in_cache_witness :
    (passesWireframe desktopBuild partlyTexturedCommand = true ∧
      partlyTexturedCommand.blendState.isSome = true ∧
      texturesValid desktopBuild (rendererWithUnallocated [partlyTexturedCommand] [])
        partlyTexturedCommand = false ∧
      (drawOne desktopBuild partlyTexturedCommand
        (rendererWithUnallocated [partlyTexturedCommand] [])).1 = .next) ∧
    boundTextures (rendererWithUnallocated [partlyTexturedCommand] []).stateCache.textureId
        (issued (rendererWithUnallocated [partlyTexturedCommand] [])
          (drawOne desktopBuild partlyTexturedCommand
            (rendererWithUnallocated [partlyTexturedCommand] [])).2) =
      (drawOne desktopBuild partlyTexturedCommand
        (rendererWithUnallocated [partlyTexturedCommand] [])).2.stateCache.textureId :=
  ⟨by decide,
    (present_keeps_partial_texture_binds_in_cache desktopBuild partlyTexturedCommand
      (rendererWithUnallocated [partlyTexturedCommand] []) (by decide) (by decide) (by decide)
      (by decide)).1⟩


/-! ## Cleared-frame stamps: lemmas -/

section StampLemmas

theorem stamp_of_stamps {r q : RendererOGL} (h : q.stamps = r.stamps)
    (target : Option TextureRef) : q.stamp target = r.stamp target := by
  simp only [RendererOGL.stamps, Prod.mk.injEq] at h
  cases target with
  | none => exact h.2
  | some t => simp only [RendererOGL.stamp, h.1]

theorem nextFault_stamps (r : RendererOGL) : r.nextFault.2.stamps = r.stamps := by
  unfold RendererOGL.nextFault
  cases r.faults <;> rfl

theorem helperResult_stamps (r : RendererOGL) : (helperResult r).2.stamps = r.stamps :=
  nextFault_stamps r

theorem checkOpenGLError_stamps (r : RendererOGL) : (checkOpenGLError r).2.stamps = r.stamps :=
  nextFault_stamps r

theorem bindFrameBuffer_stamps (id : GLuint) (r : RendererOGL) :
    (bindFrameBuffer id r).2.stamps = r.stamps := by
  unfold bindFrameBuffer
  rw [helperResult_stamps]
  split <;> rfl

theorem bindTexture_stamps (id : GLuint) (layer : Nat) (r : RendererOGL) :
    (bindTexture id layer r).2.stamps = r.stamps := by
  unfold bindTexture
  rw [helperResult_stamps]
  split <;> rfl

theorem useProgram_stamps (id : GLuint) (r : RendererOGL) :
    (useProgram id r).stamps = r.stamps := by
  unfold useProgram
  split <;> rfl

theorem bindVertexArray_stamps (id : GLuint) (r : RendererOGL) :
    (bindVertexArray id r).stamps = r.stamps := by
  unfold bindVertexArray
  split <;> rfl

theorem setPolygonFillMode_stamps (mode : GLenum) (r : RendererOGL) :
    (setPolygonFillMode mode r).stamps = r.stamps := by
  unfold setPolygonFillMode
  split <;> rfl

theorem depthMask_stamps (flag : Bool) (r : RendererOGL) :
    (depthMask flag r).stamps = r.stamps := by
  unfold depthMask
  split <;> rfl

theorem enableDepthTest_stamps (flag : Bool) (r : RendererOGL) :
    (enableDepthTest flag r).stamps = r.stamps := by
  unfold enableDepthTest
  split <;> rfl

theorem setScissorTest_stamps (enabled : Bool) (x y w h : Int) (r : RendererOGL) :
    (setScissorTest enabled x y w h r).stamps = r.stamps := by
  unfold setScissorTest
  split <;> rfl

theorem setBlendState_stamps (bs : BlendStateOGL) (r : RendererOGL) :
    (setBlendState bs r).2.stamps = r.stamps := by
  unfold setBlendState
  rw [helperResult_stamps]
  rfl

theorem setViewport_stamps (x y w h : Int) (r : RendererOGL) :
    (setViewport x y w h r).2.stamps = r.stamps := by
  unfold setViewport
  rw [helperResult_stamps]
  rfl

theorem bindBuffers_stamps (i v : GLuint) (r : RendererOGL) :
    (MeshBufferOGL.bindBuffers i v r).2.stamps = r.stamps := by
  unfold MeshBufferOGL.bindBuffers
  rw [helperResult_stamps]
  rfl

theorem polygon_stamps (b : Build) (c : DrawCommand) (r : RendererOGL) :
    (if b.supportsOpenGL = true
      then setPolygonFillMode (if c.wireframe = true then GL_LINE else GL_FILL) r
      else r).stamps = r.stamps := by
  by_cases hb : b.supportsOpenGL = true
  · rw [if_pos hb]
    exact setPolygonFillMode_stamps _ r
  · rw [if_neg hb]

theorem bindTextures_stamps (c : DrawCommand) :
    ∀ (n layer : Nat) (r : RendererOGL), (bindTextures c n layer r).2.stamps = r.stamps := by
  intro n
  induction n with
  | zero => intro layer r; rfl
  | succ n ih =>
    intro layer r
    rw [bindTextures_succ]
    split
    · split
      · rw [ih, bindTexture_stamps]
      · exact bindTexture_stamps _ _ r
    · rfl

theorem uploadConstants_stamps (locs : List Location) (consts : List (List GLfloat)) :
    ∀ (n i : Nat) (r : RendererOGL), (uploadConstants locs consts n i r).2.stamps = r.stamps := by
  intro n
  induction n with
  | zero => intro i r; rfl
  | succ n ih =>
    intro i r
    unfold uploadConstants
    cases locs.get? i with
    | none => rfl
    | some loc =>
      cases consts.get? i with
      | none => rfl
      | some k =>
        simp only []
        cases uniformCall loc k with
        | none => rfl
        | some call =>
          simp only []
          rw [ih]
          rfl

theorem setDepthAndScissor_stamps (c : DrawCommand) (r : RendererOGL) :
    (setDepthAndScissor c r).stamps = r.stamps := by
  unfold setDepthAndScissor
  simp only []
  rw [setScissorTest_stamps, depthMask_stamps]
  exact enableDepthTest_stamps _ r

theorem clearTarget_stamps (target : Option TextureRef) (mask : GLbitfield) (color : ClearColor)
    (r : RendererOGL) : (clearTarget target mask color r).2.stamps = r.stamps := by
  unfold clearTarget
  split
  · simp only []
    rw [checkOpenGLError_stamps]
    split
    · exact depthMask_stamps true r
    · rfl
  · rfl

theorem drawMesh_stamps (c : DrawCommand) (r : RendererOGL) :
    (drawMesh c r).2.stamps = r.stamps := by
  unfold drawMesh
  cases c.meshBuffer with
  | none => rfl
  | some mb =>
    simp only []
    cases mb.indexBuffer with
    | none => rfl
    | some i =>
      cases mb.vertexBuffer with
      | none => rfl
      | some v =>
        simp only []
        split
        · rfl
        · cases glDrawMode c.drawMode with
          | none => rfl
          | some mode =>
            simp only []
            have h1 := bindBuffers_stamps i.bufferId v.bufferId r
            generalize MeshBufferOGL.bindBuffers i.bufferId v.bufferId r = res at h1 ⊢
            obtain ⟨ok, r1⟩ := res
            cases ok
            · exact h1
            · simp only [Bool.not_true, Bool.false_eq_true, if_false]
              have h2 := checkOpenGLError_stamps (r1.emit (drawElementsCall c mode mb))
              generalize checkOpenGLError (r1.emit (drawElementsCall c mode mb)) = res2 at h2 ⊢
              obtain ⟨error, r3⟩ := res2
              cases error <;> exact h2.trans h1

theorem drawToTarget_stamps (c : DrawCommand) (target : Option TextureRef) (fb : GLuint)
    (mask : GLbitfield) (color : ClearColor) (r : RendererOGL) :
    (drawToTarget c target fb mask color r).2.stamps = r.stamps := by
  unfold drawToTarget
  simp only []
  have h1 := bindFrameBuffer_stamps fb r
  generalize bindFrameBuffer fb r = res1 at h1 ⊢
  obtain ⟨ok, r1⟩ := res1
  cases ok
  · exact h1
  · simp only [Bool.not_true, Bool.false_eq_true, if_false]
    have h2 := setViewport_stamps c.viewport.x c.viewport.y c.viewport.width
      c.viewport.height r1
    have h3 := clearTarget_stamps target mask color (setViewport c.viewport.x c.viewport.y
      c.viewport.width c.viewport.height r1).2
    generalize clearTarget target mask color (setViewport c.viewport.x c.viewport.y
      c.viewport.width c.viewport.height r1).2 = res3 at h3 ⊢
    obtain ⟨error, r3⟩ := res3
    cases error
    · simp only [Bool.false_eq_true, if_false]
      rw [drawMesh_stamps, setDepthAndScissor_stamps]
      exact (h3.trans h2).trans h1
    · exact (h3.trans h2).trans h1

theorem deleteOne_stamps (b : Build) (e : GLuint × ResourceType) (r : RendererOGL) :
    (deleteOne b e r).stamps = r.stamps := by
  unfold deleteOne
  cases e.2 with
  | Buffer => rfl
  | VertexArray =>
    simp only []
    have h1 : (releaseVertexArray b e.1 r).stamps = r.stamps := by
      unfold releaseVertexArray
      split
      · exact bindVertexArray_stamps 0 r
      · split <;> rfl
    have h2 : ∀ s : RendererOGL, (deleteVertexArray b e.1 s).stamps = s.stamps := by
      intro s
      unfold deleteVertexArray
      cases b.glInterface with
      | EAGL => rfl
      | EGL => simp only []; split <;> rfl
      | OTHER => rfl
    rw [h2, h1]
  | RenderBuffer => rfl
  | FrameBuffer => simp only []; split <;> rfl
  | Program => simp only []; split <;> rfl
  | Shader => rfl
  | Texture => rfl

theorem deleteResourcesLoop_stamps (b : Build) :
    ∀ (fuel : Nat) (r : RendererOGL), (deleteResourcesLoop b fuel r).stamps = r.stamps := by
  intro fuel
  induction fuel with
  | zero => intro r; rfl
  | succ fuel ih =>
    intro r
    unfold deleteResourcesLoop
    cases r.deleteQueue with
    | nil => rfl
    | cons e rest =>
      simp only []
      rw [ih, deleteOne_stamps]
      rfl

theorem deleteResources_stamps (b : Build) (r : RendererOGL) :
    (deleteResources b (Renderer.present r).2).stamps = r.stamps := by
  unfold deleteResources
  rw [deleteResourcesLoop_stamps]
  exact helperResult_stamps r

theorem clearTarget_clears (target : Option TextureRef) (mask : GLbitfield) (color : ClearColor)
    (r : RendererOGL) (hm : mask ≠ 0) :
    ∃ evs, Run r (clearTarget target mask color r).2 evs ∧ GLCall.glClear target mask ∈ evs := by
  unfold clearTarget
  rw [if_pos hm]
  have h1 : Quiet r (if mask &&& GL_DEPTH_BUFFER_BIT ≠ 0 then depthMask true r else r) := by
    split
    · exact Quiet.depthMask_quiet true r
    · exact Quiet.refl_quiet r
  obtain ⟨e1, hrun1, _⟩ := h1
  obtain ⟨e3, hrun3, _⟩ := Quiet.checkOpenGLError_quiet
    (((if mask &&& GL_DEPTH_BUFFER_BIT ≠ 0 then depthMask true r else r).emit
      (.glClearColor color)).emit (.glClear target mask))
  exact ⟨e1 ++ [.glClearColor color] ++ [.glClear target mask] ++ e3,
    ((hrun1.trans_run (Run.emit_run _ _)).trans_run (Run.emit_run _ _)).trans_run hrun3,
    by simp⟩

theorem drawToTarget_clears (c : DrawCommand) (target : Option TextureRef) (fb : GLuint)
    (mask : GLbitfield) (color : ClearColor) (r : RendererOGL)
    (hnext : (drawToTarget c target fb mask color r).1 = .next) (hm : mask ≠ 0) :
    ∃ evs, Run r (drawToTarget c target fb mask color r).2 evs ∧
      GLCall.glClear target mask ∈ evs := by
  unfold drawToTarget at hnext ⊢
  simp only [] at hnext ⊢
  obtain ⟨e1, hrun1, _⟩ := Quiet.bindFrameBuffer_quiet fb r
  generalize bindFrameBuffer fb r = res1 at hnext hrun1 ⊢
  obtain ⟨ok, r1⟩ := res1
  cases ok
  · cases hnext
  · simp only [Bool.not_true, Bool.false_eq_true, if_false] at hnext ⊢
    obtain ⟨e2, hrun2, _⟩ := Quiet.setViewport_quiet c.viewport.x c.viewport.y
      c.viewport.width c.viewport.height r1
    obtain ⟨e3, hrun3, hmem⟩ := clearTarget_clears target mask color (setViewport c.viewport.x
      c.viewport.y c.viewport.width c.viewport.height r1).2 hm
    generalize clearTarget target mask color (setViewport c.viewport.x c.viewport.y
      c.viewport.width c.viewport.height r1).2 = res3 at hnext hrun3 ⊢
    obtain ⟨error, r3⟩ := res3
    cases error
    · simp only [Bool.false_eq_true, if_false] at hnext ⊢
      obtain ⟨e4, hrun4, _⟩ := Quiet.setDepthAndScissor_quiet c r3
      obtain ⟨e5, hrun5, _⟩ := drawMesh_summary c (setDepthAndScissor c r3)
      exact ⟨e1 ++ e2 ++ e3 ++ e4 ++ e5,
        (((hrun1.trans_run hrun2).trans_run hrun3).trans_run hrun4).trans_run hrun5,
        by simp [hmem]⟩
    · cases hnext

theorem renderTarget_stamps (c : DrawCommand) (r : RendererOGL) :
    (∀ target, target ≠ c.renderTarget →
        (renderTarget c r).2.stamp target = r.stamp target) ∧
      (targetValid r c = true → (renderTarget c r).2.stamp c.renderTarget = r.currentFrame) ∧
      ((renderTarget c r).1 = .next → targetValid r c = true →
        r.stamp c.renderTarget ≠ r.currentFrame → r.clearMaskOf c.renderTarget ≠ 0 →
          ∃ evs mask, Run r (renderTarget c r).2 evs ∧
            GLCall.glClear c.renderTarget mask ∈ evs) := by
  cases htv : targetValid r c with
  | false =>
    rw [renderTarget_skip c r htv]
    exact ⟨fun _ _ => rfl, fun h => (by cases h), fun _ h => (by cases h)⟩
  | true =>
    unfold renderTarget
    unfold targetValid at htv
    cases htg : c.renderTarget with
    | none =>
      simp only []
      by_cases hs : r.frameBufferClearedFrame ≠ r.currentFrame
      · rw [if_pos hs]
        have hst := drawToTarget_stamps c none r.frameBufferId r.clearMask
          r.frameBufferClearColor { r with frameBufferClearedFrame := r.currentFrame }
        refine ⟨?_, ?_, ?_⟩
        · intro target hne
          rw [stamp_of_stamps hst]
          cases target with
          | none => exact absurd rfl hne
          | some t => rfl
        · intro _
          rw [stamp_of_stamps hst]
          rfl
        · intro hnext _ _ hm
          obtain ⟨evs, hrun, hmem⟩ := drawToTarget_clears c none r.frameBufferId r.clearMask
            r.frameBufferClearColor { r with frameBufferClearedFrame := r.currentFrame }
            hnext hm
          exact ⟨evs, r.clearMask, by simpa using (Run.stampDefault r).trans_run hrun, hmem⟩
      · rw [if_neg hs]
        have hst := drawToTarget_stamps c none r.frameBufferId 0 default r
        refine ⟨fun target _ => stamp_of_stamps hst target, ?_, ?_⟩
        · intro _
          rw [stamp_of_stamps hst]
          exact not_not.1 hs
        · intro _ _ hne _
          exact absurd hne hs
    | some t =>
      rw [htg] at htv
      simp only [ne_eq, decide_eq_true_eq] at htv
      simp only []
      rw [if_neg htv]
      by_cases hs : (r.textures t).frameBufferClearedFrame ≠ r.currentFrame
      · rw [if_pos hs]
        have hst := drawToTarget_stamps c (some t) (r.textures t).frameBufferId
          (r.textures t).clearMask (r.textures t).frameBufferClearColor
          (r.setFrameBufferClearedFrame t r.currentFrame)
        refine ⟨?_, ?_, ?_⟩
        · intro target hne
          rw [stamp_of_stamps hst]
          cases target with
          | none => rfl
          | some u =>
            have hu : u ≠ t := fun h => hne (by rw [h])
            simp [RendererOGL.stamp, RendererOGL.setFrameBufferClearedFrame,
              Function.update_noteq hu]
        · intro _
          rw [stamp_of_stamps hst]
          simp [RendererOGL.stamp, RendererOGL.setFrameBufferClearedFrame]
        · intro hnext _ _ hm
          obtain ⟨evs, hrun, hmem⟩ := drawToTarget_clears c (some t)
            (r.textures t).frameBufferId (r.textures t).clearMask
            (r.textures t).frameBufferClearColor
            (r.setFrameBufferClearedFrame t r.currentFrame) hnext hm
          exact ⟨evs, (r.textures t).clearMask,
            by simpa using (Run.stampTexture r t).trans_run hrun, hmem⟩
      · rw [if_neg hs]
        have hst := drawToTarget_stamps c (some t) (r.textures t).frameBufferId 0 default r
        refine ⟨fun target _ => stamp_of_stamps hst target, ?_, ?_⟩
        · intro _
          rw [stamp_of_stamps hst]
          exact not_not.1 hs
        · intro _ _ hne _
          exact absurd hne hs

theorem useShader_to_target (c : DrawCommand) (r : RendererOGL) :
    (useShader c r).2.stamps = r.stamps ∨
      ∃ r4, Quiet r r4 ∧ r4.stamps = r.stamps ∧ useShader c r = renderTarget c r4 := by
  unfold useShader
  cases c.shader with
  | none => exact Or.inl rfl
  | some sh =>
    simp only []
    split
    · exact Or.inl rfl
    · have hq1 := Quiet.useProgram_quiet sh.programId r
      have hs1 := useProgram_stamps sh.programId r
      split
      · exact Or.inl hs1
      · have hq2 := (uploadConstants_summary sh.pixelShaderConstantLocations
          c.pixelShaderConstants c.pixelShaderConstants.length 0
          (useProgram sh.programId r)).1
        have hs2 := uploadConstants_stamps sh.pixelShaderConstantLocations
          c.pixelShaderConstants c.pixelShaderConstants.length 0 (useProgram sh.programId r)
        generalize uploadConstants sh.pixelShaderConstantLocations c.pixelShaderConstants
          c.pixelShaderConstants.length 0 (useProgram sh.programId r) = res2 at hq2 hs2 ⊢
        obtain ⟨f2, r2⟩ := res2
        simp only [] at hq2 hs2
        cases f2 with
        | unsupported => exact Or.inl (hs2.trans hs1)
        | outOfBounds => exact Or.inl (hs2.trans hs1)
        | done =>
          simp only []
          split
          · exact Or.inl (hs2.trans hs1)
          · have hq3 := (uploadConstants_summary sh.vertexShaderConstantLocations
              c.vertexShaderConstants c.vertexShaderConstants.length 0 r2).1
            have hs3 := uploadConstants_stamps sh.vertexShaderConstantLocations
              c.vertexShaderConstants c.vertexShaderConstants.length 0 r2
            generalize uploadConstants sh.vertexShaderConstantLocations
              c.vertexShaderConstants c.vertexShaderConstants.length 0 r2 = res3
              at hq3 hs3 ⊢
            obtain ⟨f3, r3⟩ := res3
            simp only [] at hq3 hs3
            cases f3 with
            | unsupported => exact Or.inl ((hs3.trans hs2).trans hs1)
            | outOfBounds => exact Or.inl ((hs3.trans hs2).trans hs1)
            | done =>
              exact Or.inr ⟨r3, (hq1.trans_quiet hq2).trans_quiet hq3,
                (hs3.trans hs2).trans hs1, rfl⟩

theorem drawOne_to_target (b : Build) (c : DrawCommand) (r : RendererOGL) :
    (drawOne b c r).2.stamps = r.stamps ∨
      ∃ r4, Quiet r r4 ∧ r4.stamps = r.stamps ∧ drawOne b c r = renderTarget c r4 := by
  unfold drawOne
  split
  · exact Or.inl rfl
  · have hq1 := Quiet.polygon_quiet b c r
    have hs1 := polygon_stamps b c r
    simp only []
    generalize (if b.supportsOpenGL = true
        then setPolygonFillMode (if c.wireframe = true then GL_LINE else GL_FILL) r else r) = r1
      at hq1 hs1 ⊢
    cases c.blendState with
    | none => exact Or.inl hs1
    | some bs =>
      simp only []
      have hq2 := Quiet.setBlendState_quiet bs r1
      have hs2 := setBlendState_stamps bs r1
      generalize setBlendState bs r1 = res2 at hq2 hs2 ⊢
      obtain ⟨ok2, r2⟩ := res2
      simp only [] at hq2 hs2
      cases ok2 with
      | false => exact Or.inl (hs2.trans hs1)
      | true =>
        simp only [Bool.not_true, Bool.false_eq_true, if_false]
        have hq3 := (bindTextures_summary c b.LAYERS 0 r2).1
        have hs3 := bindTextures_stamps c b.LAYERS 0 r2
        generalize bindTextures c b.LAYERS 0 r2 = res3 at hq3 hs3 ⊢
        obtain ⟨f3, r3⟩ := res3
        simp only [] at hq3 hs3
        cases f3 with
        | failed => exact Or.inl ((hs3.trans hs2).trans hs1)
        | invalid => exact Or.inl ((hs3.trans hs2).trans hs1)
        | valid =>
          simp only []
          rcases useShader_to_target c r3 with h | ⟨r4, hq4, hs4, heq⟩
          · exact Or.inl (((h.trans hs3).trans hs2).trans hs1)
          · exact Or.inr ⟨r4, ((hq1.trans_quiet hq2).trans_quiet hq3).trans_quiet hq4,
              ((hs4.trans hs3).trans hs2).trans hs1, heq⟩

theorem Run.clearMaskOf {r q : RendererOGL} {evs : List GLCall} (h : Run r q evs)
    (target : Option TextureRef) : q.clearMaskOf target = r.clearMaskOf target := by
  cases target with
  | none => exact h.fields.2.2.2.2.2.2.1
  | some t =>
    have := h.static t
    simp only [TextureOGL.static, Prod.mk.injEq] at this
    exact this.2.2.1

theorem mem_clearOf {target : Option TextureRef} {mask : GLbitfield} {evs : List GLCall}
    (h : GLCall.glClear target mask ∈ evs) : evs.filter (GLCall.isClearOf target) ≠ [] := by
  intro hnil
  rw [List.filter_eq_nil_iff] at hnil
  exact hnil _ h (by simp [GLCall.isClearOf])

theorem drawOne_clears (b : Build) (c : DrawCommand) (r : RendererOGL)
    (hnext : (drawOne b c r).1 = .next) :
    (∀ target, r.clearMaskOf target ≠ 0 → r.stamp target ≠ r.currentFrame →
        (drawOne b c r).2.stamp target = r.currentFrame →
          (issued r (drawOne b c r).2).filter (GLCall.isClearOf target) ≠ []) ∧
      (reachesConstants b r c = true → targetValid r c = true →
        (drawOne b c r).2.stamp c.renderTarget = r.currentFrame) := by
  refine ⟨?_, ?_⟩
  · intro target hm hne hcur
    rcases drawOne_to_target b c r with h | ⟨r4, ⟨e0, hrun0, _⟩, hs4, heq⟩
    · rw [stamp_of_stamps h] at hcur
      exact absurd hcur hne
    · rw [heq] at hnext hcur ⊢
      obtain ⟨hother, _, hclear⟩ := renderTarget_stamps c r4
      have hcf := hrun0.currentFrame
      by_cases ht : target = c.renderTarget
      · subst ht
        have htv : targetValid r4 c = true := by
          cases hx : targetValid r4 c with
          | true => rfl
          | false =>
            rw [renderTarget_skip c r4 hx, stamp_of_stamps hs4] at hcur
            exact absurd hcur hne
        obtain ⟨evs, mask, hrun, hmem⟩ := hclear hnext htv
          (by rw [stamp_of_stamps hs4, hcf]; exact hne)
          (by rw [hrun0.clearMaskOf]; exact hm)
        rw [(hrun0.trans_run hrun).issued, List.filter_append]
        intro hnil
        exact mem_clearOf hmem (List.append_eq_nil.1 hnil).2
      · rw [hother target ht, stamp_of_stamps hs4] at hcur
        exact absurd hcur hne
  · intro hreach htv
    have hsv : shaderValid c = true := by
      simp only [reachesConstants, Bool.and_eq_true] at hreach
      exact hreach.2
    rcases drawOne_reach b c r hreach with ⟨hab, _⟩ | ⟨r3, hq3, heq⟩
    · rw [hab] at hnext
      cases hnext
    · rw [heq] at hnext ⊢
      rcases useShader_reach c r3 hsv with ⟨_, hab⟩ | ⟨_, r4, hq4, heq4⟩
      · rw [hab] at hnext
        cases hnext
      · rw [heq4]
        obtain ⟨_, hrun, _⟩ := hq3.trans_quiet hq4
        rw [(renderTarget_stamps c r4).2.1 (by rw [hrun.targetValid]; exact htv)]
        exact hrun.currentFrame

theorem drawLoop_clears (b : Build) (queue : List DrawCommand) :
    ∀ r : RendererOGL, (drawLoop b queue r).1 = true → ∀ c ∈ queue,
      reachesConstants b r c = true → targetValid r c = true →
      r.clearMaskOf c.renderTarget ≠ 0 → r.stamp c.renderTarget ≠ r.currentFrame →
        (issued r (drawLoop b queue r).2).filter (GLCall.isClearOf c.renderTarget) ≠ [] := by
  induction queue with
  | nil => intro r _ c hc; cases hc
  | cons d rest ih =>
    intro r hok c hc hreach htv hm hne
    obtain ⟨e1, hrun1, _⟩ := drawOne_summary b d r
    have hstep := drawOne_clears b d r
    have hih := ih (drawOne b d r).2
    obtain ⟨e2, hrun2, _⟩ := drawLoop_summary b rest (drawOne b d r).2
    simp only [drawLoop] at hok ⊢
    generalize drawOne b d r = res at hrun1 hstep hih hrun2 hok ⊢
    obtain ⟨f, r1⟩ := res
    cases f with
    | abort => cases hok
    | next =>
      simp only [] at hrun1 hstep hih hrun2 hok ⊢
      obtain ⟨hchanged, hset⟩ := hstep trivial
      rw [(hrun1.trans_run hrun2).issued, List.filter_append]
      by_cases hcur : r1.stamp c.renderTarget = r.currentFrame
      · have := hchanged c.renderTarget hm hne hcur
        rw [hrun1.issued] at this
        intro hnil
        exact this (List.append_eq_nil.1 hnil).1
      · have hcd : c ≠ d := by
          intro h
          subst h
          exact hcur (hset hreach htv)
        have hmem : c ∈ rest := by
          rcases List.mem_cons.1 hc with h | h
          · exact absurd h hcd
          · exact h
        have := hih hok c hmem (by rw [hrun1.reachesConstants]; exact hreach)
          (by rw [hrun1.targetValid]; exact htv) (by rw [hrun1.clearMaskOf]; exact hm)
          (by rw [hrun1.currentFrame]; exact hcur)
        rw [hrun2.issued] at this
        intro hnil
        exact this (List.append_eq_nil.1 hnil).2

theorem present_clears (b : Build) (r : RendererOGL) (c : DrawCommand)
    (hc : c ∈ r.drawQueue) (hreach : reachesConstants b r c = true)
    (htv : targetValid r c = true) (hm : r.clearMaskOf c.renderTarget ≠ 0)
    (hne : r.stamp c.renderTarget ≠ r.currentFrame) (hok : (present b r).1 = true) :
    ((issued r (present b r).2).filter (GLCall.isClearOf c.renderTarget)).length = 1 := by
  have hbase : (Renderer.present r).1 = true := by
    by_contra h
    rw [(present_base_failed b r (bool_false_of_not_true h)).1] at hok
    cases hok
  have hle : ((issued r (present b r).2).filter (GLCall.isClearOf c.renderTarget)).length
      ≤ 1 := by
    obtain ⟨e0, e1, e2, hrun, _, _, hall, _, _, hclr, _, _, hc2, _⟩ := present_run b r hbase
    rw [hrun.issued, List.filter_append, List.filter_append,
      (drain_calls_not_frame_calls hall).2.2 c.renderTarget, filter_isClearOf c.renderTarget e2,
      hc2]
    simpa using hclr c.renderTarget
  have hge : (issued r (present b r).2).filter (GLCall.isClearOf c.renderTarget) ≠ [] := by
    obtain ⟨hrun0, _⟩ := Renderer.present_base r
    obtain ⟨e0, hrun1, _⟩ := deleteResources_run b (Renderer.present r).2
    have hrun01 := hrun0.trans_run hrun1
    have hst := deleteResources_stamps b r
    have hne0 : r.drawQueue ≠ [] := by
      intro h
      rw [h] at hc
      cases hc
    have hframe := presentFrame_loop b r hne0
    rw [present_eq, if_pos hbase] at hok ⊢
    by_cases hf : (presentFrame b (deleteResources b (Renderer.present r).2)).1 = true
    · rw [if_pos hf] at hok ⊢
      rw [hframe] at hf ⊢
      have hloop := drawLoop_clears b r.drawQueue (deleteResources b (Renderer.present r).2)
        hf c hc (by rw [hrun01.reachesConstants]; exact hreach)
        (by rw [hrun01.targetValid]; exact htv) (by rw [hrun01.clearMaskOf]; exact hm)
        (by rw [stamp_of_stamps hst, hrun01.currentFrame]; exact hne)
      obtain ⟨e1, hrun2, _⟩ := drawLoop_summary b r.drawQueue
        (deleteResources b (Renderer.present r).2)
      obtain ⟨e2, hrun3, _⟩ := presentFinish_summary b
        (drawLoop b r.drawQueue (deleteResources b (Renderer.present r).2)).2
      rw [hrun2.issued] at hloop
      rw [((hrun01.trans_run hrun2).trans_run hrun3).issued, List.filter_append,
        List.filter_append]
      intro hnil
      exact hloop (List.append_eq_nil.1 (List.append_eq_nil.1 hnil).1).2
    · rw [if_neg hf] at hok
      cases hok
  have : 0 < ((issued r (present b r).2).filter (GLCall.isClearOf c.renderTarget)).length :=
    List.length_pos.2 hge
  omega

end StampLemmas

/-! ## Cleared-frame stamps: results -/

/-- C12 (as stated, refuted): the default frame buffer requests a colour clear, was not cleared
in the current frame yet, and is the target of the only draw command of the queue; the command
has no blend state and is skipped, `present()` returns success, and the default frame buffer
is not cleared. -/
theorem present_succeeds_without_clearing_requested_target :
    unblendedCommand ∈ (rendererWith [unblendedCommand] []).drawQueue ∧
      unblendedCommand.renderTarget = none ∧
      (rendererWith [unblendedCommand] []).clearMask ≠ 0 ∧
      (rendererWith [unblendedCommand] []).frameBufferClearedFrame ≠
        (rendererWith [unblendedCommand] []).currentFrame ∧
      (present desktopBuild (rendererWith [unblendedCommand] [])).1 = true ∧
      (issued (rendererWith [unblendedCommand] [])
        (present desktopBuild (rendererWith [unblendedCommand] [])).2).filter
          (GLCall.isClearOf none) = [] := by
  decide

/-- C12 (amended): in a `present()` call that returns success, every target (a render-target
texture or the default frame buffer) that requested clearing (non-zero clear mask), was not
already cleared in the current frame (its cleared-frame stamp differs from the current frame)
and is the target of at least one draw command of the queue that gets as far as binding its
target (the command is not skipped by the wireframe, blend-state, texture or shader step and
the target has a backend frame buffer) is cleared exactly once in that frame, regardless of
how many draw commands target it. -/
theorem present_clears_requested_target_exactly_once (b : Build) (r : RendererOGL)
    (c : DrawCommand) (hc : c ∈ r.drawQueue) (hreach : reachesConstants b r c = true)
    (htv : targetValid r c = true) (hm : r.clearMaskOf c.renderTarget ≠ 0)
    (hne : r.stamp c.renderTarget ≠ r.currentFrame) (hok : (present b r).1 = true) :
    ((issued r (present b r).2).filter (GLCall.isClearOf c.renderTarget)).length = 1 :=
  present_clears b r c hc hreach htv hm hne hok

/-- C12, witness: two commands drawn to the render target held by texture 0. -/
theorem present_clears_requested_target_exactly_once_witness :
    (offscreenCommand ∈ (rendererWith [offscreenCommand, offscreenCommand] []).drawQueue ∧
      reachesConstants desktopBuild (rendererWith [offscreenCommand, offscreenCommand] [])
        offscreenCommand = true ∧
      targetValid (rendererWith [offscreenCommand, offscreenCommand] []) offscreenCommand
        = true ∧
      (rendererWith [offscreenCommand, offscreenCommand] []).clearMaskOf
        offscreenCommand.renderTarget ≠ 0 ∧
      (rendererWith [offscreenCommand, offscreenCommand] []).stamp
          offscreenCommand.renderTarget ≠
        (rendererWith [offscreenCommand, offscreenCommand] []).currentFrame ∧
      (present desktopBuild (rendererWith [offscreenCommand, offscreenCommand] [])).1
        = true) ∧
    ((issued (rendererWith [offscreenCommand, offscreenCommand] [])
      (present desktopBuild (rendererWith [offscreenCommand, offscreenCommand] [])).2).filter
        (GLCall.isClearOf offscreenCommand.renderTarget)).length = 1 :=
  ⟨by decide,
    present_clears_requested_target_exactly_once desktopBuild
      (rendererWith [offscreenCommand, offscreenCommand] []) offscreenCommand (by decide)
      (by decide) (by decide) (by decide) (by decide) (by decide)⟩


/-! ## Translations and uploads: results -/

/-- C26: `getFunction` translates each of the eight `CompareFunction` enumerators to the
backend token of the same meaning, the translation is injective on the enumerators, none of
them reaches the `GL_NEVER` fallback after the `switch`, and the constructor of
`OGLDepthStencilState` stores `getFunction(initCompareFunction)` as its compare function and
`GL_TRUE` as its depth mask exactly when depth write is requested (`GL_FALSE` otherwise). -/
theorem getFunction_translates_compare_functions :
    (getFunction .NEVER = GL_NEVER ∧ getFunction .LESS = GL_LESS ∧
      getFunction .EQUAL = GL_EQUAL ∧ getFunction .LESS_EQUAL = GL_LEQUAL ∧
      getFunction .GREATER = GL_GREATER ∧ getFunction .NOT_EQUAL = GL_NOTEQUAL ∧
      getFunction .GREATER_EQUAL = GL_GEQUAL ∧ getFunction .ALWAYS = GL_ALWAYS) ∧
    (∀ f g : DepthStencilState.CompareFunction, f.isEnumerator = true →
      g.isEnumerator = true → getFunction f = getFunction g → f = g) ∧
    (∀ f : DepthStencilState.CompareFunction, f.isEnumerator = true →
      getFunctionSwitch f = some (getFunction f)) ∧
    (∀ (depthTest depthWrite : Bool) (f : DepthStencilState.CompareFunction)
        (readMask writeMask : Nat),
      (OGLDepthStencilState.new depthTest depthWrite f readMask writeMask).compareFunction =
          getFunction f ∧
        ((OGLDepthStencilState.new depthTest depthWrite f readMask writeMask).depthMask =
          GL_TRUE ↔ depthWrite = true) ∧
        ((OGLDepthStencilState.new depthTest depthWrite f readMask writeMask).depthMask =
          GL_FALSE ↔ depthWrite = false) ∧
        (OGLDepthStencilState.new depthTest depthWrite f readMask writeMask).depthTest =
          depthTest) := by
  refine ⟨⟨rfl, rfl, rfl, rfl, rfl, rfl, rfl, rfl⟩, ?_, ?_, ?_⟩
  · intro f g hf hg h
    cases f <;> cases g <;>
      first
        | rfl
        | (cases hf; done)
        | (cases hg; done)
        | (exfalso; revert h; decide)
  · intro f hf
    cases f <;> first | rfl | (cases hf)
  · intro depthTest depthWrite f readMask writeMask
    cases depthWrite <;> simp [OGLDepthStencilState.new, GL_TRUE, GL_FALSE]


theorem uniformCall_supported (l : Location) (k : List GLfloat) (h : l.dataType ≠ .OTHER) :
    uniformCall l k = some (uploadCall (l, k)) := by
  unfold uniformCall uploadCall
  cases hdt : l.dataType <;> first | rfl | exact absurd hdt h

theorem uniformCall_unsupported (l : Location) (k : List GLfloat) (h : l.dataType = .OTHER) :
    uniformCall l k = none := by
  unfold uniformCall
  rw [h]

theorem uploadConstants_uploads (locs : List Location) (consts : List (List GLfloat)) :
    ∀ (n i : Nat) (r : RendererOGL), i + n ≤ locs.length → i + n ≤ consts.length →
      (uploadConstants locs consts n i r).1 ≠ .outOfBounds ∧
        (uploadConstants locs consts n i r).2.calls = r.calls ++
          (((((locs.drop i).zip (consts.drop i)).take n).takeWhile
            fun p => p.1.dataType ≠ .OTHER).map uploadCall) := by
  intro n
  induction n with
  | zero =>
    intro i r _ _
    simp [uploadConstants]
  | succ n ih =>
    intro i r hl hk
    have hi : i < locs.length := by omega
    have hj : i < consts.length := by omega
    unfold uploadConstants
    rw [List.get?_eq_getElem?, List.get?_eq_getElem?, List.getElem?_eq_getElem hi,
      List.getElem?_eq_getElem hj, List.drop_eq_getElem_cons hi, List.drop_eq_getElem_cons hj,
      List.zip_cons_cons, List.take_succ_cons]
    simp only []
    by_cases hs : locs[i].dataType = .OTHER
    · rw [uniformCall_unsupported _ _ hs]
      simp [List.takeWhile_cons, hs]
    · rw [uniformCall_supported _ _ hs]
      simp only []
      obtain ⟨h1, h2⟩ := ih (i + 1) (r.emit (uploadCall (locs[i], consts[i]))) (by omega)
        (by omega)
      refine ⟨h1, ?_⟩
      rw [h2]
      simp [List.takeWhile_cons, hs, RendererOGL.emit]

/-- Every indexed-draw call that the body of the loop issues for a draw command is
`glDrawElements` with the backend primitive of the command's draw mode, the command's index
count as converted by `static_cast<GLsizei>`, the index type of the mesh buffer and the byte
offset `startIndex * bytesPerIndex` as formed in `uint32_t`; these are the exact index count
and the exact product whenever the count is below 2^31 and the product below 2^32.  A command
that passes every validation step and whose body runs to its end gets exactly that call.  The
five draw modes map to `GL_POINTS`, `GL_LINES`, `GL_LINE_STRIP`, `GL_TRIANGLES`,
`GL_TRIANGLE_STRIP`, and the mapping is injective. -/
theorem drawOne_draw_call (b : Build) (c : DrawCommand)
    (q : RendererOGL) :
    (∀ e ∈ (issued q (drawOne b c q).2).filter GLCall.isDraw,
        ∃ mode meshBuffer, glDrawMode c.drawMode = some mode ∧
          c.meshBuffer = some meshBuffer ∧
          e = .glDrawElements mode (toGLsizei c.indexCount) meshBuffer.indexType
            ((c.startIndex * meshBuffer.bytesPerIndex) % 2 ^ 32)) ∧
      ((drawOne b c q).1 = .next → passesValidation b q c = true →
        ∃ e, (issued q (drawOne b c q).2).filter GLCall.isDraw = [e]) ∧
      (c.indexCount < 2 ^ 31 → toGLsizei c.indexCount = c.indexCount) ∧
      (∀ meshBuffer : MeshBufferOGL, c.startIndex * meshBuffer.bytesPerIndex < 2 ^ 32 →
        (c.startIndex * meshBuffer.bytesPerIndex) % 2 ^ 32 =
          c.startIndex * meshBuffer.bytesPerIndex) ∧
      (glDrawMode .POINT_LIST = some GL_POINTS ∧ glDrawMode .LINE_LIST = some GL_LINES ∧
        glDrawMode .LINE_STRIP = some GL_LINE_STRIP ∧
        glDrawMode .TRIANGLE_LIST = some GL_TRIANGLES ∧
        glDrawMode .TRIANGLE_STRIP = some GL_TRIANGLE_STRIP) ∧
      (∀ (m1 m2 : DrawMode) (mode : GLenum), glDrawMode m1 = some mode →
        glDrawMode m2 = some mode → m1 = m2) := by
  obtain ⟨evs, hrun, _, _, hdrawn⟩ := drawOne_summary b c q
  rw [hrun.issued]
  have hcall : ∀ e ∈ (drawCallOf c).toList, ∃ mode meshBuffer,
      glDrawMode c.drawMode = some mode ∧ c.meshBuffer = some meshBuffer ∧
        e = .glDrawElements mode (toGLsizei c.indexCount) meshBuffer.indexType
          ((c.startIndex * meshBuffer.bytesPerIndex) % 2 ^ 32) := by
    intro e he
    unfold drawCallOf at he
    cases hmb : c.meshBuffer with
    | none => simp [hmb] at he
    | some mb =>
      cases hg : glDrawMode c.drawMode with
      | none => simp [hmb, hg] at he
      | some mode =>
        simp only [hmb, hg, Option.toList_some, List.mem_singleton] at he
        exact ⟨mode, mb, rfl, rfl, by rw [he]; rfl⟩
  refine ⟨?_, ?_, ?_, ?_, ⟨rfl, rfl, rfl, rfl, rfl⟩, ?_⟩
  · intro e he
    rcases hdrawn.1 with a | ⟨_, a⟩
    · rw [a] at he
      cases he
    · rw [a] at he
      exact hcall e he
  · intro hnext hp
    have hd := hdrawn.2 hnext hp
    rw [hd]
    rw [passesValidation_iff] at hp
    obtain ⟨_, _, _, _, _, _, hm, hmode⟩ := hp
    have := drawCallOf_of_valid hm hmode
    obtain ⟨e, he⟩ := this
    exact ⟨e, by rw [he]; rfl⟩
  · intro h
    unfold toGLsizei
    have h1 : c.indexCount % 2 ^ 32 = c.indexCount := Nat.mod_eq_of_lt (by omega)
    rw [h1, if_pos h]
  · intro mb h
    exact Nat.mod_eq_of_lt h
  · intro m1 m2 mode h1 h2
    cases m1 <;> cases m2 <;> first | rfl | (exfalso; revert h1 h2; revert mode; decide)

/-- C22 (as stated, refuted): a draw command that passes every validation step, with index
count 2147483649 and start index 2147483649 on a mesh buffer of two bytes per index, is drawn
with the count -2147483647 that `static_cast<GLsizei>` gives and the byte offset 2 that the
`uint32_t` product gives, not with its index count and `startIndex * bytesPerIndex`. -/
theorem present_draws_with_wrapped_count_and_offset :
    passesValidation desktopBuild (rendererWith [wideCommand] []) wideCommand = true ∧
      wideCommand.indexCount = 2147483649 ∧
      wideCommand.startIndex * sampleMesh.bytesPerIndex = 4294967298 ∧
      (present desktopBuild (rendererWith [wideCommand] [])).1 = true ∧
      (issued (rendererWith [wideCommand] [])
        (present desktopBuild (rendererWith [wideCommand] [])).2).filter GLCall.isDraw =
        [.glDrawElements GL_TRIANGLES (-2147483647) 0x1403 2] := by
  decide

/-- C22 (amended): for a draw command whose index count is below 2^31 and whose product
`startIndex * bytesPerIndex` is below 2^32, every indexed-draw call that the body of the loop
of `present()` issues for the command is `glDrawElements` with the backend primitive of the
command's draw mode, the command's index count, the index type of the mesh buffer and the byte
offset `startIndex * bytesPerIndex`; a command that passes every validation step and whose body
runs to its end gets exactly one such call.  The five draw modes map to `GL_POINTS`,
`GL_LINES`, `GL_LINE_STRIP`, `GL_TRIANGLES`, `GL_TRIANGLE_STRIP`, and the mapping is
injective. -/
theorem present_draws_with_mode_count_and_offset (b : Build) (c : DrawCommand)
    (q : RendererOGL) (hcount : c.indexCount < 2 ^ 31)
    (hoffset : ∀ meshBuffer, c.meshBuffer = some meshBuffer →
      c.startIndex * meshBuffer.bytesPerIndex < 2 ^ 32) :
    (∀ e ∈ (issued q (drawOne b c q).2).filter GLCall.isDraw,
        ∃ mode meshBuffer, glDrawMode c.drawMode = some mode ∧
          c.meshBuffer = some meshBuffer ∧
          e = .glDrawElements mode (c.indexCount : Int) meshBuffer.indexType
            (c.startIndex * meshBuffer.bytesPerIndex)) ∧
      ((drawOne b c q).1 = .next → passesValidation b q c = true →
        ∃ mode meshBuffer, glDrawMode c.drawMode = some mode ∧
          c.meshBuffer = some meshBuffer ∧
          (issued q (drawOne b c q).2).filter GLCall.isDraw =
            [.glDrawElements mode (c.indexCount : Int) meshBuffer.indexType
              (c.startIndex * meshBuffer.bytesPerIndex)]) ∧
      (glDrawMode .POINT_LIST = some GL_POINTS ∧ glDrawMode .LINE_LIST = some GL_LINES ∧
        glDrawMode .LINE_STRIP = some GL_LINE_STRIP ∧
        glDrawMode .TRIANGLE_LIST = some GL_TRIANGLES ∧
        glDrawMode .TRIANGLE_STRIP = some GL_TRIANGLE_STRIP) ∧
      (∀ (m1 m2 : DrawMode) (mode : GLenum), glDrawMode m1 = some mode →
        glDrawMode m2 = some mode → m1 = m2) := by
  obtain ⟨hall, hone, hc, ho, htable, hinj⟩ := drawOne_draw_call b c q
  have hexact : ∀ e ∈ (issued q (drawOne b c q).2).filter GLCall.isDraw,
      ∃ mode meshBuffer, glDrawMode c.drawMode = some mode ∧
        c.meshBuffer = some meshBuffer ∧
        e = .glDrawElements mode (c.indexCount : Int) meshBuffer.indexType
          (c.startIndex * meshBuffer.bytesPerIndex) := by
    intro e he
    obtain ⟨mode, mb, hm, hmb, hcall⟩ := hall e he
    refine ⟨mode, mb, hm, hmb, ?_⟩
    rw [hcall, hc hcount, ho mb (hoffset mb hmb)]
  refine ⟨hexact, ?_, htable, hinj⟩
  intro hnext hp
  obtain ⟨e, he⟩ := hone hnext hp
  obtain ⟨mode, mb, hm, hmb, hcall⟩ := hexact e (by rw [he]; exact List.mem_singleton_self e)
  exact ⟨mode, mb, hm, hmb, by rw [he, hcall]⟩

/-- C22, witness: the sample command, six indices from index 3 with two bytes per index, is
drawn with count 6 and byte offset 6. -/
theorem present_draws_with_mode_count_and_offset_witness :
    (sampleCommand.indexCount < 2 ^ 31 ∧
      ∀ meshBuffer, sampleCommand.meshBuffer = some meshBuffer →
        sampleCommand.startIndex * meshBuffer.bytesPerIndex < 2 ^ 32) ∧
    ∃ mode meshBuffer, glDrawMode sampleCommand.drawMode = some mode ∧
      sampleCommand.meshBuffer = some meshBuffer ∧
      (issued (rendererWith [sampleCommand] [])
        (drawOne desktopBuild sampleCommand (rendererWith [sampleCommand] [])).2).filter
          GLCall.isDraw =
        [.glDrawElements mode (sampleCommand.indexCount : Int) meshBuffer.indexType
          (sampleCommand.startIndex * meshBuffer.bytesPerIndex)] :=
  ⟨⟨by decide, by
      intro meshBuffer h
      simp only [sampleCommand, Option.some.injEq] at h
      subst h
      decide⟩,
    (present_draws_with_mode_count_and_offset desktopBuild sampleCommand
      (rendererWith [sampleCommand] []) (by decide) (by
        intro meshBuffer h
        simp only [sampleCommand, Option.some.injEq] at h
        subst h
        decide)).2.1 (by decide) (by decide)⟩


/-- C23 (as stated, refuted): a shader declares one pixel constant location whose data type is
none of the six float types, and the command submits one pixel constant: the constant-count
check passes, the upload loop leaves through `return false` at index 0 without uploading the
constant, and `present()` returns failure without any constant upload. -/
theorem present_uploads_nothing_for_unsupported_type :
    untypedCommand.pixelShaderConstants.length ≤
        untypedShader.pixelShaderConstantLocations.length ∧
      (uploadConstants untypedShader.pixelShaderConstantLocations
        untypedCommand.pixelShaderConstants untypedCommand.pixelShaderConstants.length 0
        sampleRenderer).1 = .unsupported ∧
      issued sampleRenderer (uploadConstants untypedShader.pixelShaderConstantLocations
        untypedCommand.pixelShaderConstants untypedCommand.pixelShaderConstants.length 0
        sampleRenderer).2 = [] ∧
      (present desktopBuild (rendererWith [untypedCommand] [])).1 = false ∧
      (issued (rendererWith [untypedCommand] [])
        (present desktopBuild (rendererWith [untypedCommand] [])).2).filter
          GLCall.isUniform = [] := by
  decide

/-- The upload loop of one stage that passes the constant-count check: every lookup is within
bounds, the calls are the positional uploads up to the first location with an unsupported data
type, and the loop runs to its end exactly when every location used is supported. -/
theorem uploadConstants_stage (locations : List Location)
    (constants : List (List GLfloat)) (r : RendererOGL)
    (hfit : constants.length ≤ locations.length) :
    (uploadConstants locations constants constants.length 0 r).1 ≠ .outOfBounds ∧
      issued r (uploadConstants locations constants constants.length 0 r).2 =
        expectedUploads locations constants ∧
      ((uploadConstants locations constants constants.length 0 r).1 = .done ↔
        uniformsSupported locations constants.length = true) ∧
      (uniformsSupported locations constants.length = true →
        (issued r (uploadConstants locations constants constants.length 0 r).2).length =
            constants.length ∧
          ∀ (i : Nat) (hi : i < constants.length),
            (issued r (uploadConstants locations constants constants.length 0 r).2)[i]? =
              some (.glUniform (locations[i]).dataType (locations[i]).location
                constants[i])) := by
  obtain ⟨hb, hcalls⟩ := uploadConstants_uploads locations constants constants.length 0 r
    (by omega) (by omega)
  have htake : (locations.zip constants).take constants.length = locations.zip constants := by
    apply List.take_of_length_le
    rw [List.length_zip]
    omega
  simp only [List.drop_zero] at hcalls
  rw [htake] at hcalls
  have hissued : issued r (uploadConstants locations constants constants.length 0 r).2 =
      expectedUploads locations constants := by
    unfold issued
    rw [hcalls, List.drop_left]
    rfl
  have hdone : (uploadConstants locations constants constants.length 0 r).1 = .done ↔
      uniformsSupported locations constants.length = true := by
    constructor
    · intro h
      have := (uploadConstants_summary locations constants constants.length 0 r).2 h
      simpa [uniformsSupported] using this
    · intro h
      exact uploadConstants_done locations constants constants.length 0 r (by omega)
        (by omega) (by simpa [uniformsSupported] using h)
  refine ⟨hb, hissued, hdone, ?_⟩
  intro hs
  have hall : ∀ p ∈ locations.zip constants, (decide (p.1.dataType ≠ .OTHER)) = true := by
    intro p hp
    have hmem := (List.of_mem_zip hp).1
    have hidx : ∃ i, ∃ h : i < (locations.zip constants).length,
        (locations.zip constants)[i] = p := List.getElem_of_mem hp
    obtain ⟨i, hi, hpi⟩ := hidx
    rw [List.length_zip] at hi
    have hil : i < locations.length := by omega
    have hic : i < constants.length := by omega
    have hp1 : p.1 = locations[i] := by
      rw [← hpi, List.getElem_zip]
    unfold uniformsSupported at hs
    rw [List.all_eq_true] at hs
    have := hs locations[i] (by
      rw [List.mem_take_iff_getElem]
      exact ⟨i, by omega, rfl⟩)
    rw [hp1]
    exact this
  have hexp : expectedUploads locations constants =
      (locations.zip constants).map uploadCall := by
    unfold expectedUploads
    rw [List.takeWhile_eq_self_iff.2 hall]
  rw [hissued, hexp]
  refine ⟨by rw [List.length_map, List.length_zip]; omega, ?_⟩
  intro i hi
  have hil : i < locations.length := by omega
  rw [List.getElem?_map, List.getElem?_eq_getElem (by rw [List.length_zip]; omega)]
  simp [uploadCall, List.getElem_zip]

/-! ## Constant uploads of a draw command: lemmas -/

section UniformLemmas

theorem emit_uniforms (r : RendererOGL) (call : GLCall) (h : call.isUniform = false) :
    (r.emit call).uniforms = r.uniforms := by
  simp [RendererOGL.uniforms, RendererOGL.emit, List.filter_append, h]

theorem nextFault_uniforms (r : RendererOGL) : r.nextFault.2.uniforms = r.uniforms := by
  unfold RendererOGL.nextFault
  cases r.faults <;> rfl

theorem helperResult_uniforms (r : RendererOGL) : (helperResult r).2.uniforms = r.uniforms :=
  nextFault_uniforms r

theorem checkOpenGLError_uniforms (r : RendererOGL) :
    (checkOpenGLError r).2.uniforms = r.uniforms :=
  nextFault_uniforms r

theorem bindFrameBuffer_uniforms (id : GLuint) (r : RendererOGL) :
    (bindFrameBuffer id r).2.uniforms = r.uniforms := by
  unfold bindFrameBuffer
  rw [helperResult_uniforms]
  split
  · rfl
  · exact emit_uniforms r _ rfl

theorem useProgram_uniforms (id : GLuint) (r : RendererOGL) :
    (useProgram id r).uniforms = r.uniforms := by
  unfold useProgram
  split
  · rfl
  · exact emit_uniforms r _ rfl

theorem depthMask_uniforms (flag : Bool) (r : RendererOGL) :
    (depthMask flag r).uniforms = r.uniforms := by
  unfold depthMask
  split
  · rfl
  · exact emit_uniforms r _ rfl

theorem enableDepthTest_uniforms (flag : Bool) (r : RendererOGL) :
    (enableDepthTest flag r).uniforms = r.uniforms := by
  unfold enableDepthTest
  split
  · rfl
  · exact emit_uniforms r _ rfl

theorem setScissorTest_uniforms (enabled : Bool) (x y w h : Int) (r : RendererOGL) :
    (setScissorTest enabled x y w h r).uniforms = r.uniforms := by
  unfold setScissorTest
  split
  · rfl
  · exact emit_uniforms r _ rfl

theorem setViewport_uniforms (x y w h : Int) (r : RendererOGL) :
    (setViewport x y w h r).2.uniforms = r.uniforms := by
  unfold setViewport
  rw [helperResult_uniforms]
  exact emit_uniforms r _ rfl

theorem bindBuffers_uniforms (i v : GLuint) (r : RendererOGL) :
    (MeshBufferOGL.bindBuffers i v r).2.uniforms = r.uniforms := by
  unfold MeshBufferOGL.bindBuffers
  rw [helperResult_uniforms]
  exact emit_uniforms r _ rfl

theorem setDepthAndScissor_uniforms (c : DrawCommand) (r : RendererOGL) :
    (setDepthAndScissor c r).uniforms = r.uniforms := by
  unfold setDepthAndScissor
  simp only []
  rw [setScissorTest_uniforms, depthMask_uniforms,
    emit_uniforms _ (.glGetIntegerv GL_DEPTH_WRITEMASK) rfl]
  exact enableDepthTest_uniforms _ r

theorem clearTarget_uniforms (target : Option TextureRef) (mask : GLbitfield)
    (color : ClearColor) (r : RendererOGL) :
    (clearTarget target mask color r).2.uniforms = r.uniforms := by
  unfold clearTarget
  split
  · simp only []
    rw [checkOpenGLError_uniforms, emit_uniforms _ (.glClear target mask) rfl,
      emit_uniforms _ (.glClearColor color) rfl]
    split
    · exact depthMask_uniforms true r
    · rfl
  · rfl

theorem drawMesh_uniforms (c : DrawCommand) (r : RendererOGL) :
    (drawMesh c r).2.uniforms = r.uniforms := by
  unfold drawMesh
  cases c.meshBuffer with
  | none => rfl
  | some mb =>
    simp only []
    cases mb.indexBuffer with
    | none => rfl
    | some i =>
      cases mb.vertexBuffer with
      | none => rfl
      | some v =>
        simp only []
        split
        · rfl
        · cases glDrawMode c.drawMode with
          | none => rfl
          | some mode =>
            simp only []
            have h1 := bindBuffers_uniforms i.bufferId v.bufferId r
            generalize MeshBufferOGL.bindBuffers i.bufferId v.bufferId r = res at h1 ⊢
            obtain ⟨ok, r1⟩ := res
            cases ok
            · exact h1
            · simp only [Bool.not_true, Bool.false_eq_true, if_false]
              have h2 := checkOpenGLError_uniforms (r1.emit (drawElementsCall c mode mb))
              rw [emit_uniforms _ (drawElementsCall c mode mb) rfl] at h2
              generalize checkOpenGLError (r1.emit (drawElementsCall c mode mb)) = res2 at h2 ⊢
              obtain ⟨error, r3⟩ := res2
              cases error <;> exact h2.trans h1

theorem drawToTarget_uniforms (c : DrawCommand) (target : Option TextureRef) (fb : GLuint)
    (mask : GLbitfield) (color : ClearColor) (r : RendererOGL) :
    (drawToTarget c target fb mask color r).2.uniforms = r.uniforms := by
  unfold drawToTarget
  simp only []
  have h1 := bindFrameBuffer_uniforms fb r
  generalize bindFrameBuffer fb r = res1 at h1 ⊢
  obtain ⟨ok, r1⟩ := res1
  cases ok
  · exact h1
  · simp only [Bool.not_true, Bool.false_eq_true, if_false]
    have h2 := setViewport_uniforms c.viewport.x c.viewport.y c.viewport.width
      c.viewport.height r1
    have h3 := clearTarget_uniforms target mask color (setViewport c.viewport.x c.viewport.y
      c.viewport.width c.viewport.height r1).2
    generalize clearTarget target mask color (setViewport c.viewport.x c.viewport.y
      c.viewport.width c.viewport.height r1).2 = res3 at h3 ⊢
    obtain ⟨error, r3⟩ := res3
    cases error
    · simp only [Bool.false_eq_true, if_false]
      rw [drawMesh_uniforms, setDepthAndScissor_uniforms]
      exact (h3.trans h2).trans h1
    · exact (h3.trans h2).trans h1

theorem renderTarget_uniforms (c : DrawCommand) (r : RendererOGL) :
    (renderTarget c r).2.uniforms = r.uniforms := by
  unfold renderTarget
  cases c.renderTarget with
  | some target =>
    simp only []
    split
    · rfl
    · split
      · rw [drawToTarget_uniforms]
        rfl
      · exact drawToTarget_uniforms _ _ _ _ _ r
  | none =>
    simp only []
    split
    · rw [drawToTarget_uniforms]
      rfl
    · exact drawToTarget_uniforms _ _ _ _ _ r

theorem TextureStage.uniforms_stage {r q : RendererOGL} (h : TextureStage r q) :
    q.uniforms = r.uniforms := by
  obtain ⟨evs, hc, hs, _⟩ := h
  unfold RendererOGL.uniforms
  rw [hc, List.filter_append]
  have : evs.filter GLCall.isUniform = [] := by
    rw [List.filter_eq_nil_iff]
    intro e he
    have := hs e he
    cases e <;> simp_all [GLCall.isTextureStage, GLCall.isUniform]
  rw [this, List.append_nil]

theorem issued_uniforms {r q : RendererOGL} {evs uploads : List GLCall}
    (hc : q.calls = r.calls ++ evs) (hu : q.uniforms = r.uniforms ++ uploads) :
    (issued r q).filter GLCall.isUniform = uploads := by
  unfold RendererOGL.uniforms at hu
  rw [hc, List.filter_append] at hu
  have := List.append_cancel_left hu
  unfold issued
  rw [hc, List.drop_left]
  exact this

end UniformLemmas

/-! ## Constant uploads of a draw command: the shader step -/

theorem expectedUploads_filter (locs : List Location) (consts : List (List GLfloat)) :
    (expectedUploads locs consts).filter GLCall.isUniform = expectedUploads locs consts := by
  rw [List.filter_eq_self]
  intro e he
  unfold expectedUploads at he
  obtain ⟨p, _, rfl⟩ := List.mem_map.1 he
  rfl

theorem uploadConstants_uniforms (locs : List Location) (consts : List (List GLfloat))
    (r : RendererOGL) (hfit : consts.length ≤ locs.length) :
    (uploadConstants locs consts consts.length 0 r).2.uniforms =
      r.uniforms ++ expectedUploads locs consts := by
  obtain ⟨_, hissued, _, _⟩ := uploadConstants_stage locs consts r hfit
  obtain ⟨⟨evs, hrun, _⟩, _⟩ := uploadConstants_summary locs consts consts.length 0 r
  rw [hrun.issued] at hissued
  unfold RendererOGL.uniforms
  rw [hrun.calls, List.filter_append, hissued, expectedUploads_filter]

theorem useShader_uniforms (c : DrawCommand) (sh : ShaderOGL) (r : RendererOGL)
    (hs : c.shader = some sh) (hp : sh.programId ≠ 0) :
    (useShader c r).2.uniforms = r.uniforms ++ commandUploads c sh := by
  unfold useShader commandUploads
  simp only [hs, if_neg hp]
  have h1 := useProgram_uniforms sh.programId r
  generalize useProgram sh.programId r = r1 at h1 ⊢
  by_cases hfit : c.pixelShaderConstants.length ≤ sh.pixelShaderConstantLocations.length
  · rw [if_neg (by omega), if_pos hfit]
    obtain ⟨_, _, hdone, _⟩ := uploadConstants_stage sh.pixelShaderConstantLocations
      c.pixelShaderConstants r1 hfit
    have hu := uploadConstants_uniforms sh.pixelShaderConstantLocations
      c.pixelShaderConstants r1 hfit
    generalize uploadConstants sh.pixelShaderConstantLocations c.pixelShaderConstants
      c.pixelShaderConstants.length 0 r1 = res at hdone hu ⊢
    obtain ⟨f, r2⟩ := res
    simp only [] at hdone hu
    by_cases hsup : uniformsSupported sh.pixelShaderConstantLocations
        c.pixelShaderConstants.length = true
    · have hf := hdone.2 hsup
      subst hf
      simp only []
      by_cases hv : c.vertexShaderConstants.length ≤ sh.vertexShaderConstantLocations.length
      · rw [if_neg (by omega), if_pos ⟨hsup, hv⟩]
        have hu2 := uploadConstants_uniforms sh.vertexShaderConstantLocations
          c.vertexShaderConstants r2 hv
        generalize uploadConstants sh.vertexShaderConstantLocations c.vertexShaderConstants
          c.vertexShaderConstants.length 0 r2 = res2 at hu2 ⊢
        obtain ⟨f2, r3⟩ := res2
        simp only [] at hu2
        cases f2 <;> simp only [] <;> (try rw [renderTarget_uniforms]) <;>
          rw [hu2, hu, h1, List.append_assoc]
      · rw [if_pos (by omega), if_neg (fun h => hv h.2)]
        simp only []
        rw [hu, h1, List.append_nil]
    · rw [if_neg (fun h => hsup h.1), List.append_nil]
      cases f with
      | done => exact absurd (hdone.1 rfl) hsup
      | unsupported => simp only []; rw [hu, h1]
      | outOfBounds => simp only []; rw [hu, h1]
  · rw [if_pos (by omega), if_neg hfit, List.append_nil]
    exact h1

/-- The body of the loop either stops before the shader step, having issued calls of the
texture stage only, or continues with the shader step from a state that differs by calls of
the texture stage. -/
theorem drawOne_shader_step (b : Build) (c : DrawCommand) (q : RendererOGL) :
    TextureStage q (drawOne b c q).2 ∨
      ∃ r3, TextureStage q r3 ∧ drawOne b c q = useShader c r3 := by
  cases hw : passesWireframe b c with
  | false =>
    left
    unfold drawOne
    rw [if_pos (by
      have := (passesWireframe_iff b c).not.1 (by rw [hw]; simp)
      simpa using this)]
    exact TextureStage.refl_stage q
  | true =>
    cases hb : c.blendState with
    | none =>
      left
      unfold drawOne
      rw [if_neg ((passesWireframe_iff b c).1 hw)]
      simp only [hb]
      exact (TextureStage.polygon_stage b c q).1
    | some bs =>
      obtain ⟨r2, hts, _, _, hcase⟩ := drawOne_texture_stage b c q hw bs hb
      have hbt := TextureStage.bindTextures_stage c b.LAYERS 0 r2
      rcases hcase with ⟨hab, _⟩ | ⟨hf, hi, hv⟩
      · left
        rw [hab]
        exact hts
      · cases hflow : (bindTextures c b.LAYERS 0 r2).1 with
        | failed =>
          left
          rw [hf hflow]
          exact hts.trans_stage hbt
        | invalid =>
          left
          rw [hi hflow]
          exact hts.trans_stage hbt
        | valid => exact Or.inr ⟨_, hts.trans_stage hbt, hv hflow⟩

/-- A command that is not skipped before the constant checks reaches the shader step when
the driver reports no error. -/
theorem drawOne_reach_shader (b : Build) (c : DrawCommand) (q : RendererOGL)
    (hreach : reachesConstants b q c = true) (hh : q.healthy) :
    ∃ r3, TextureStage q r3 ∧ drawOne b c q = useShader c r3 := by
  simp only [reachesConstants, Bool.and_eq_true] at hreach
  obtain ⟨⟨⟨hw, hbs⟩, htv⟩, _⟩ := hreach
  cases hb : c.blendState with
  | none => simp [hb] at hbs
  | some bs =>
    obtain ⟨r2, hts, hq2, _, hcase⟩ := drawOne_texture_stage b c q hw bs hb
    have hbt := TextureStage.bindTextures_stage c b.LAYERS 0 r2
    rcases hcase with ⟨_, hnh⟩ | ⟨_, _, hv⟩
    · exact absurd hh hnh
    · have hnf := bindTextures_healthy c b.LAYERS 0 r2 (hq2.healthy_quiet hh)
      obtain ⟨_, _, hinv⟩ := bindTextures_summary c b.LAYERS 0 r2
      obtain ⟨_, hrun, _⟩ := hq2
      rw [← hrun.texturesValid, texturesValid_iff] at htv
      have hni := hinv htv
      cases hflow : (bindTextures c b.LAYERS 0 r2).1 with
      | failed => exact absurd hflow hnf
      | invalid => exact absurd hflow hni
      | valid => exact ⟨_, hts.trans_stage hbt, hv hflow⟩

theorem expectedUploads_cons (l : Location) (ls : List Location) (k : List GLfloat)
    (ks : List (List GLfloat)) :
    expectedUploads (l :: ls) (k :: ks) =
      if l.dataType ≠ .OTHER then .glUniform l.dataType l.location k :: expectedUploads ls ks
      else [] := by
  unfold expectedUploads
  rw [List.zip_cons_cons, List.takeWhile_cons]
  by_cases h : l.dataType = .OTHER
  · simp [h]
  · simp [h, uploadCall]

theorem expectedUploads_positional (locs : List Location) :
    ∀ consts : List (List GLfloat), consts.length ≤ locs.length →
      UploadsPositionally locs consts (expectedUploads locs consts) := by
  induction locs with
  | nil =>
    intro consts hfit
    have : consts = [] := List.length_eq_zero.1 (by simpa using hfit)
    subst this
    exact ⟨by simp [expectedUploads], by simp [expectedUploads], by simp [expectedUploads]⟩
  | cons l ls ih =>
    intro consts hfit
    cases consts with
    | nil => exact ⟨by simp [expectedUploads], by simp [expectedUploads],
        by simp [expectedUploads]⟩
    | cons k ks =>
      rw [expectedUploads_cons]
      by_cases h : l.dataType = .OTHER
      · rw [if_neg (by simp [h])]
        exact ⟨by simp, by simp, fun _ => ⟨l, by simp, h⟩⟩
      · rw [if_pos h]
        obtain ⟨h1, h2, h3⟩ := ih ks (by simpa using hfit)
        refine ⟨by simpa using h1, ?_, ?_⟩
        · intro i hi
          cases i with
          | zero => exact ⟨l, k, by simp, by simp, h, by simp⟩
          | succ i =>
            obtain ⟨l', k', e1, e2, e3, e4⟩ := h2 i (by simpa using hi)
            exact ⟨l', k', by simpa using e1, by simpa using e2, e3, by simpa using e4⟩
        · intro hlt
          obtain ⟨l', e1, e2⟩ := h3 (by simpa using hlt)
          exact ⟨l', by simpa using e1, e2⟩

theorem expectedUploads_length (locs : List Location) (consts : List (List GLfloat))
    (hfit : consts.length ≤ locs.length)
    (hs : uniformsSupported locs consts.length = true) :
    (expectedUploads locs consts).length = consts.length := by
  obtain ⟨h1, _, h3⟩ := expectedUploads_positional locs consts hfit
  by_contra hne
  obtain ⟨l, hl, hd⟩ := h3 (by omega)
  unfold uniformsSupported at hs
  rw [List.all_eq_true] at hs
  have hmem : l ∈ locs.take consts.length := by
    rw [List.mem_iff_getElem?]
    exact ⟨(expectedUploads locs consts).length, by
      rw [List.getElem?_take_of_lt (by omega)]
      exact hl⟩
  have := hs l hmem
  simp [hd] at this

/-! ## Constant uploads of a draw command: results -/

/-- C23 (amended): for every draw command of the draw queue whose shader is `shader` and that
passes the constant-count check of the pixel stage (the vertex stage is checked only after
it), the constant uploads that the body of the loop of `present()` issues for the command are
none (the body stopped before the shader step) or the uploads of the pixel stage followed,
when every pixel location used has a supported data type and the constant-count check of the
vertex stage passes, by those of the vertex stage; they are exactly these when the command is
not skipped before the shader step and the driver reports no error.  The uploads of a stage
that passes its check are positional: the i-th upload sends the i-th submitted constant to the
i-th declared location with that location's declared data type, the lookups are within
bounds (the upload loop never indexes outside the location list), and the uploads stop before
the first location whose data type is not one of the six supported float types; when every location used is supported there is one upload for every
submitted constant.  When a location used by either stage has an unsupported data type and
the command is not skipped before the shader step, `present()` returns failure. -/
theorem present_uploads_constants_positionally (b : Build) (r : RendererOGL)
    (pre : List DrawCommand) (c : DrawCommand) (post : List DrawCommand) (shader : ShaderOGL)
    (hq : r.drawQueue = pre ++ c :: post) (hs : c.shader = some shader)
    (hfit : c.pixelShaderConstants.length ≤ shader.pixelShaderConstantLocations.length) :
    (∀ q : RendererOGL,
        (issued q (drawOne b c q).2).filter GLCall.isUniform = [] ∨
          (issued q (drawOne b c q).2).filter GLCall.isUniform = commandUploads c shader) ∧
      (∀ q : RendererOGL, reachesConstants b q c = true → q.healthy →
        (issued q (drawOne b c q).2).filter GLCall.isUniform = commandUploads c shader) ∧
      commandUploads c shader =
        expectedUploads shader.pixelShaderConstantLocations c.pixelShaderConstants ++
          (if uniformsSupported shader.pixelShaderConstantLocations
                c.pixelShaderConstants.length = true ∧
              c.vertexShaderConstants.length ≤ shader.vertexShaderConstantLocations.length
            then expectedUploads shader.vertexShaderConstantLocations c.vertexShaderConstants
            else []) ∧
      UploadsPositionally shader.pixelShaderConstantLocations c.pixelShaderConstants
        (expectedUploads shader.pixelShaderConstantLocations c.pixelShaderConstants) ∧
      (∀ q : RendererOGL,
        (uploadConstants shader.pixelShaderConstantLocations c.pixelShaderConstants
          c.pixelShaderConstants.length 0 q).1 ≠ .outOfBounds) ∧
      (uniformsSupported shader.pixelShaderConstantLocations
          c.pixelShaderConstants.length = true →
        (expectedUploads shader.pixelShaderConstantLocations c.pixelShaderConstants).length =
          c.pixelShaderConstants.length) ∧
      (c.vertexShaderConstants.length ≤ shader.vertexShaderConstantLocations.length →
        UploadsPositionally shader.vertexShaderConstantLocations c.vertexShaderConstants
            (expectedUploads shader.vertexShaderConstantLocations c.vertexShaderConstants) ∧
          (∀ q : RendererOGL,
            (uploadConstants shader.vertexShaderConstantLocations c.vertexShaderConstants
              c.vertexShaderConstants.length 0 q).1 ≠ .outOfBounds) ∧
          (uniformsSupported shader.vertexShaderConstantLocations
              c.vertexShaderConstants.length = true →
            (expectedUploads shader.vertexShaderConstantLocations
              c.vertexShaderConstants).length = c.vertexShaderConstants.length)) ∧
      (reachesConstants b r c = true →
        (uniformsSupported shader.pixelShaderConstantLocations
            c.pixelShaderConstants.length = false ∨
          uniformsSupported shader.vertexShaderConstantLocations
            c.vertexShaderConstants.length = false) →
        (present b r).1 = false) := by
  have hstep : ∀ (q r3 : RendererOGL), TextureStage q r3 → drawOne b c q = useShader c r3 →
      shader.programId ≠ 0 →
      (issued q (drawOne b c q).2).filter GLCall.isUniform = commandUploads c shader := by
    intro q r3 hts heq hp
    obtain ⟨evs, hrun, _⟩ := drawOne_summary b c q
    refine issued_uniforms hrun.calls ?_
    rw [heq, useShader_uniforms c shader r3 hs hp, hts.uniforms_stage]
  refine ⟨?_, ?_, ?_, expectedUploads_positional _ _ hfit,
    fun q => (uploadConstants_stage _ _ q hfit).1, expectedUploads_length _ _ hfit,
    fun hv => ⟨expectedUploads_positional _ _ hv,
      fun q => (uploadConstants_stage _ _ q hv).1, expectedUploads_length _ _ hv⟩, ?_⟩
  · intro q
    obtain ⟨evs, hrun, _⟩ := drawOne_summary b c q
    rcases drawOne_shader_step b c q with hts | ⟨r3, hts, heq⟩
    · left
      exact issued_uniforms hrun.calls (by rw [hts.uniforms_stage, List.append_nil])
    · by_cases hp : shader.programId = 0
      · left
        refine issued_uniforms hrun.calls ?_
        rw [heq]
        unfold useShader
        simp only [hs, if_pos hp]
        rw [hts.uniforms_stage, List.append_nil]
      · exact Or.inr (hstep q r3 hts heq hp)
  · intro q hreach hh
    obtain ⟨r3, hts, heq⟩ := drawOne_reach_shader b c q hreach hh
    refine hstep q r3 hts heq ?_
    simp only [reachesConstants, Bool.and_eq_true, shaderValid, hs, ne_eq,
      decide_eq_true_eq] at hreach
    exact hreach.2
  · unfold commandUploads
    rw [if_pos hfit]
  · intro hreach hbad
    refine (present_fatal b r pre c post hq ?_).1
    simp only [failsValidation, Bool.and_eq_true, Bool.or_eq_true, Bool.not_eq_true']
    refine ⟨hreach, Or.inl ?_⟩
    unfold constantsValid
    rw [hs]
    rcases hbad with h | h <;> simp [h]

/-- C23, witness: the sample command alone in the queue uploads its pixel constant to the
location of type FLOAT_VECTOR4 and then its vertex constant to the location of type
FLOAT_MATRIX4. -/
theorem present_uploads_constants_positionally_witness :
    ((rendererWith [sampleCommand] []).drawQueue = [] ++ sampleCommand :: [] ∧
      sampleCommand.shader = some sampleShader ∧
      sampleCommand.pixelShaderConstants.length ≤
        sampleShader.pixelShaderConstantLocations.length) ∧
    (issued (rendererWith [sampleCommand] [])
        (drawOne desktopBuild sampleCommand (rendererWith [sampleCommand] [])).2).filter
          GLCall.isUniform =
      commandUploads sampleCommand sampleShader ∧
    commandUploads sampleCommand sampleShader =
      [.glUniform .FLOAT_VECTOR4 0 [1, 1, 1, 1],
        .glUniform .FLOAT_MATRIX4 1 [1, 0, 0, 0, 0, 1, 0, 0, 0, 0, 1, 0, 0, 0, 0, 1]] :=
  ⟨⟨rfl, rfl, by decide⟩,
    (present_uploads_constants_positionally desktopBuild (rendererWith [sampleCommand] [])
      [] sampleCommand [] sampleShader rfl rfl (by decide)).2.1
      (rendererWith [sampleCommand] []) (by decide) (by decide),
    by decide⟩


/-! ## The end of the frame: lemmas -/

section FinishLemmas

theorem swaps_of_state {evs : List GLCall} (h : ∀ e ∈ evs, e.isState = true) :
    evs.filter GLCall.isSwap = [] := by
  rw [List.filter_eq_nil_iff]
  intro e he
  have := ((state_calls h).2.2 e he).2
  simp [this]

theorem swaps_of_calm {evs : List GLCall} (h : Calm evs) : evs.filter GLCall.isSwap = [] := by
  rw [List.filter_eq_nil_iff]
  intro e he
  simp [(h e he).2]

theorem presentEmpty_swaps (r : RendererOGL) (hok : (presentEmpty r).1 = true) :
    ∃ evs, Run r (presentEmpty r).2 evs ∧ evs.filter GLCall.isSwap = [.swapBuffers] := by
  unfold presentEmpty at hok ⊢
  have hrun0 := Run.stampDefault r
  generalize ({ r with frameBufferClearedFrame := r.currentFrame } : RendererOGL) = r1
    at hrun0 hok ⊢
  simp only [] at hok ⊢
  split at hok
  · rename_i hm
    rw [if_pos hm]
    obtain ⟨e1, hrun1, hs1⟩ := Quiet.bindFrameBuffer_quiet r1.frameBufferId r1
    generalize bindFrameBuffer r1.frameBufferId r1 = res1 at hrun1 hok ⊢
    obtain ⟨ok1, r2⟩ := res1
    cases ok1 with
    | false => simp at hok
    | true =>
      simp only [Bool.not_true, Bool.false_eq_true, if_false] at hok ⊢
      obtain ⟨e2, hrun2, hs2⟩ := Quiet.setViewport_quiet 0 0 r2.frameBufferWidth
        r2.frameBufferHeight r2
      generalize setViewport 0 0 r2.frameBufferWidth r2.frameBufferHeight r2 = res2
        at hrun2 hok ⊢
      obtain ⟨ok2, r3⟩ := res2
      cases ok2 with
      | false => simp at hok
      | true =>
        simp only [Bool.not_true, Bool.false_eq_true, if_false] at hok ⊢
        obtain ⟨e4, hrun4, hs4⟩ := Quiet.checkOpenGLError_quiet
          ((r3.emit (.glClearColor r3.frameBufferClearColor)).emit (.glClear none r3.clearMask))
        generalize checkOpenGLError ((r3.emit (.glClearColor r3.frameBufferClearColor)).emit
          (.glClear none r3.clearMask)) = res4 at hrun4 hok ⊢
        obtain ⟨err, r5⟩ := res4
        cases err with
        | true => simp at hok
        | false =>
          simp only [Bool.false_eq_true, if_false]
          refine ⟨_, (((((hrun0.trans_run hrun1).trans_run hrun2).trans_run
            (Run.emit_run r3 _)).trans_run (Run.emit_run _ _)).trans_run hrun4).trans_run
            (Run.swapBuffers_run r5), ?_⟩
          simp [List.filter_append, swaps_of_state hs1, swaps_of_state hs2,
            swaps_of_state hs4, GLCall.isSwap]
  · rename_i hm
    rw [if_neg hm]
    exact ⟨_, hrun0.trans_run (Run.swapBuffers_run r1), by simp [GLCall.isSwap]⟩

theorem presentFinish_swaps (b : Build) (r : RendererOGL) (hok : (presentFinish b r).1 = true) :
    ∃ evs, Run r (presentFinish b r).2 evs ∧ evs.filter GLCall.isSwap = [.swapBuffers] := by
  obtain ⟨evs, hrun, _⟩ := presentFinish_summary b r
  refine ⟨evs, hrun, ?_⟩
  have hevs := hrun.issued
  unfold presentFinish at hok hevs
  rw [← hevs]
  by_cases hb : b.supportsOpenGL = true
  · rw [if_pos hb] at hok ⊢
    simp only [] at hok ⊢
    generalize hres2 : checkOpenGLError (((r.emit (.glBindFramebuffer GL_DRAW_FRAMEBUFFER
      r.systemFrameBufferId)).emit (.glBindFramebuffer GL_READ_FRAMEBUFFER
      r.frameBufferId)).emit (.glDrawBuffer GL_BACK)) = res2 at hok ⊢
    obtain ⟨err2, r2⟩ := res2
    have hc2 : r2.calls = r.calls ++ [.glBindFramebuffer GL_DRAW_FRAMEBUFFER
        r.systemFrameBufferId, .glBindFramebuffer GL_READ_FRAMEBUFFER r.frameBufferId,
        .glDrawBuffer GL_BACK] := by
      have := checkOpenGLError_calls (((r.emit (.glBindFramebuffer GL_DRAW_FRAMEBUFFER
        r.systemFrameBufferId)).emit (.glBindFramebuffer GL_READ_FRAMEBUFFER
        r.frameBufferId)).emit (.glDrawBuffer GL_BACK))
      rw [hres2] at this
      simpa [RendererOGL.emit] using this
    cases err2 with
    | true => simp at hok
    | false =>
      simp only [Bool.false_eq_true, if_false] at hok ⊢
      generalize hres4 : checkOpenGLError (r2.emit (.glBlitFramebuffer r2.frameBufferWidth
        r2.frameBufferHeight)) = res4 at hok ⊢
      obtain ⟨err4, r4⟩ := res4
      have hc4 : r4.calls = r2.calls ++ [.glBlitFramebuffer r2.frameBufferWidth
          r2.frameBufferHeight] := by
        have := checkOpenGLError_calls (r2.emit (.glBlitFramebuffer r2.frameBufferWidth
          r2.frameBufferHeight))
        rw [hres4] at this
        simpa [RendererOGL.emit] using this
      cases err4 with
      | true => simp at hok
      | false =>
        simp only [Bool.false_eq_true, if_false]
        simp [issued, swapBuffers, RendererOGL.emit, hc4, hc2, GLCall.isSwap]
  · rw [if_neg hb]
    simp [issued, swapBuffers, RendererOGL.emit, GLCall.isSwap]

theorem present_swaps (b : Build) (r : RendererOGL) (hok : (present b r).1 = true) :
    (issued r (present b r).2).filter GLCall.isSwap =
      if r.drawQueue = [] then [.swapBuffers, .swapBuffers] else [.swapBuffers] := by
  have hbase : (Renderer.present r).1 = true := by
    by_contra h
    rw [(present_base_failed b r (bool_false_of_not_true h)).1] at hok
    cases hok
  obtain ⟨hrun0, _⟩ := Renderer.present_base r
  obtain ⟨e0, hrun1, _, _, hall⟩ := deleteResources_run b (Renderer.present r).2
  have hrun01 := hrun0.trans_run hrun1
  obtain ⟨_, _, _, _, _, _, _, _, hdq⟩ := hrun01.fields
  have hs0 : e0.filter GLCall.isSwap = [] := by
    rw [List.filter_eq_nil_iff]
    intro c hc
    rcases hall c hc with a | a
    · cases c <;> simp_all [GLCall.isDelete, GLCall.isSwap]
    · subst a; simp [GLCall.isSwap]
  rw [present_eq, if_pos hbase] at hok ⊢
  by_cases hf : (presentFrame b (deleteResources b (Renderer.present r).2)).1 = true
  · rw [if_pos hf] at hok ⊢
    obtain ⟨e2, hrun3, hs2⟩ := presentFinish_swaps b _ hok
    by_cases hq : r.drawQueue = []
    · rw [if_pos hq]
      have hframe : presentFrame b (deleteResources b (Renderer.present r).2) =
          presentEmpty (deleteResources b (Renderer.present r).2) := by
        unfold presentFrame
        rw [hdq, hq]
        simp
      rw [hframe] at hf hrun3 ⊢
      obtain ⟨e1, hrun2, hs1⟩ := presentEmpty_swaps _ hf
      rw [((hrun01.trans_run hrun2).trans_run hrun3).issued]
      simp [List.filter_append, hs0, hs1, hs2]
    · rw [if_neg hq]
      rw [presentFrame_loop b r hq] at hf hrun3 ⊢
      obtain ⟨e1, hrun2, hcalm, _⟩ := drawLoop_summary b r.drawQueue
        (deleteResources b (Renderer.present r).2)
      rw [((hrun01.trans_run hrun2).trans_run hrun3).issued]
      simp [List.filter_append, hs0, swaps_of_calm hcalm, hs2]
  · rw [if_neg hf] at hok
    cases hok

end FinishLemmas

/-! ## The end of the frame: results -/

/-- C24 (failing input): with an empty draw queue and a driver that reports no error,
`present()` returns success and swaps the buffers twice, once in the empty-queue branch and
once at the end, on the desktop build and on the OpenGL ES build, with and without a requested
clear; with one draw command in the queue it swaps once. -/
theorem present_swaps_twice_on_empty_queue :
    sampleRenderer.drawQueue = [] ∧
      (present desktopBuild sampleRenderer).1 = true ∧
      (issued sampleRenderer (present desktopBuild sampleRenderer).2).filter GLCall.isSwap =
        [.swapBuffers, .swapBuffers] ∧
      (present eglBuild sampleRenderer).1 = true ∧
      (issued sampleRenderer (present eglBuild sampleRenderer).2).filter GLCall.isSwap =
        [.swapBuffers, .swapBuffers] ∧
      (present eglBuild { sampleRenderer with clearMask := 0 }).1 = true ∧
      (issued { sampleRenderer with clearMask := 0 }
        (present eglBuild { sampleRenderer with clearMask := 0 }).2).filter GLCall.isSwap =
        [.swapBuffers, .swapBuffers] ∧
      (present desktopBuild (rendererWith [sampleCommand] [])).1 = true ∧
      (issued (rendererWith [sampleCommand] [])
        (present desktopBuild (rendererWith [sampleCommand] [])).2).filter GLCall.isSwap =
        [.swapBuffers] := by
  decide


/-- C25 (failing input): on the desktop build, with an empty draw queue, no clear requested,
a state cache that mirrors the backend (frame buffer 0 bound) and a driver that reports an
error at the check that follows the frame buffer binds of the resolve, `present()` returns
failure with frame buffer 1 bound for reading in the backend, by the latest bind call, while
`stateCache.frameBufferId` is still 0.  When the same frame succeeds, the cache and both
backend bindings hold the system frame buffer. -/
theorem present_leaves_stale_frame_buffer_cache_on_failure :
    rendererWithFailingResolve.stateCache.frameBufferId = 0 ∧
      (present desktopBuild rendererWithFailingResolve).1 = false ∧
      (present desktopBuild rendererWithFailingResolve).2.stateCache.frameBufferId = 0 ∧
      boundFrameBuffers (0, 0)
        (issued rendererWithFailingResolve
          (present desktopBuild rendererWithFailingResolve).2) = (0, 1) ∧
      lastFrameBufferBound
        (issued rendererWithFailingResolve
          (present desktopBuild rendererWithFailingResolve).2) = some 1 ∧
      (present desktopBuild { rendererWithFailingResolve with faults := [] }).1 = true ∧
      (present desktopBuild
        { rendererWithFailingResolve with faults := [] }).2.stateCache.frameBufferId = 0 ∧
      boundFrameBuffers (0, 0)
        (issued { rendererWithFailingResolve with faults := [] }
          (present desktopBuild { rendererWithFailingResolve with faults := [] }).2) =
        (0, 0) := by
  decide


/-! ## Deferred deletion and the other cache slots -/

theorem deleteResourcesLoop_slot {α : Type} (b : Build) (slot : StateCache → α)
    (touches : GLuint × ResourceType → α → Prop)
    (hstep : ∀ (e : GLuint × ResourceType) (q : RendererOGL),
      ¬ touches e (slot q.stateCache) →
        slot (deleteOne b e q).stateCache = slot q.stateCache) :
    ∀ (fuel : Nat) (r : RendererOGL),
      (∀ e ∈ r.deleteQueue, ¬ touches e (slot r.stateCache)) →
        slot (deleteResourcesLoop b fuel r).stateCache = slot r.stateCache := by
  intro fuel
  induction fuel with
  | zero => intro r _; rfl
  | succ fuel ih =>
    intro r hall
    cases hq : r.deleteQueue with
    | nil => simp only [deleteResourcesLoop, hq]
    | cons e rest =>
      simp only [deleteResourcesLoop, hq]
      rw [hq] at hall
      have h1 : slot (deleteOne b e { r with deleteQueue := rest }).stateCache =
          slot r.stateCache :=
        hstep e { r with deleteQueue := rest } (hall e (List.mem_cons_self _ _))
      rw [ih, h1]
      intro e2 he2
      rw [deleteOne_deleteQueue] at he2
      rw [h1]
      exact hall e2 (List.mem_cons_of_mem _ he2)

theorem deleteOne_otherSlots (b : Build) (e : GLuint × ResourceType) (r : RendererOGL) :
    (deleteOne b e r).stateCache.polygonFillMode = r.stateCache.polygonFillMode ∧
      (deleteOne b e r).stateCache.depthMask = r.stateCache.depthMask ∧
      (deleteOne b e r).stateCache.depthTest = r.stateCache.depthTest ∧
      (deleteOne b e r).stateCache.scissorTest = r.stateCache.scissorTest := by
  obtain ⟨x, kind⟩ := e
  cases kind <;>
    simp only [deleteOne, emit_stateCache, deleteVertexArray_stateCache,
      releaseVertexArray_stateCache] <;>
    (repeat' split) <;> simp

/-- C27: on a build that is not Android, `deleteResources()` changes a slot of the state cache
only where it must: a slot (a cached buffer binding, the cached vertex array, frame buffer or
program, a cached texture layer) whose value is not the handle of a queued entry of the slot's
own kind is unchanged by the drain, whatever entries of other kinds are queued with the same
integer; the polygon mode, depth and scissor slots are never changed; and an entry of kind
RenderBuffer or Shader changes no slot at all. -/
theorem deleteResources_keeps_unrelated_cache_slots (b : Build) (r : RendererOGL)
    (hb : b.platformAndroid = false) :
    (∀ g, (∀ h, (h, ResourceType.Buffer) ∈ r.deleteQueue → r.stateCache.bufferId g ≠ h) →
        (deleteResources b r).stateCache.bufferId g = r.stateCache.bufferId g) ∧
      ((∀ h, (h, ResourceType.VertexArray) ∈ r.deleteQueue →
          r.stateCache.vertexArrayId ≠ h) →
        (deleteResources b r).stateCache.vertexArrayId = r.stateCache.vertexArrayId) ∧
      ((∀ h, (h, ResourceType.FrameBuffer) ∈ r.deleteQueue →
          r.stateCache.frameBufferId ≠ h) →
        (deleteResources b r).stateCache.frameBufferId = r.stateCache.frameBufferId) ∧
      ((∀ h, (h, ResourceType.Program) ∈ r.deleteQueue → r.stateCache.programId ≠ h) →
        (deleteResources b r).stateCache.programId = r.stateCache.programId) ∧
      (∀ k, (∀ h, (h, ResourceType.Texture) ∈ r.deleteQueue →
          r.stateCache.textureId k ≠ h) →
        (deleteResources b r).stateCache.textureId k = r.stateCache.textureId k) ∧
      ((deleteResources b r).stateCache.polygonFillMode = r.stateCache.polygonFillMode ∧
        (deleteResources b r).stateCache.depthMask = r.stateCache.depthMask ∧
        (deleteResources b r).stateCache.depthTest = r.stateCache.depthTest ∧
        (deleteResources b r).stateCache.scissorTest = r.stateCache.scissorTest) ∧
      (∀ (h : GLuint) (q : RendererOGL),
        (deleteOne b (h, .RenderBuffer) q).stateCache = q.stateCache ∧
          (deleteOne b (h, .Shader) q).stateCache = q.stateCache) := by
  unfold deleteResources
  refine ⟨?_, ?_, ?_, ?_, ?_, ⟨?_, ?_, ?_, ?_⟩, fun h q => ⟨rfl, rfl⟩⟩
  · intro g hg
    refine deleteResourcesLoop_slot b (fun c => c.bufferId g)
      (fun e v => e.2 = .Buffer ∧ v = e.1) ?_ _ r ?_
    · intro e q hn
      simp only []
      rw [deleteOne_bufferId, if_neg]
      exact fun h => hn ⟨h.1, h.2.2⟩
    · intro e he h
      exact hg e.1 (by rw [← h.1]; exact he) h.2
  · intro hv
    refine deleteResourcesLoop_slot b (fun c => c.vertexArrayId)
      (fun e v => e.2 = .VertexArray ∧ v = e.1) ?_ _ r ?_
    · intro e q hn
      simp only []
      rw [deleteOne_vertexArrayId, if_neg]
      rintro ⟨h1, h2 | h2⟩
      · rw [hb] at h2
        cases h2
      · exact hn ⟨h1, h2⟩
    · intro e he h
      exact hv e.1 (by rw [← h.1]; exact he) h.2
  · intro hv
    refine deleteResourcesLoop_slot b (fun c => c.frameBufferId)
      (fun e v => e.2 = .FrameBuffer ∧ v = e.1) ?_ _ r ?_
    · intro e q hn
      simp only []
      rw [deleteOne_frameBufferId, if_neg hn]
    · intro e he h
      exact hv e.1 (by rw [← h.1]; exact he) h.2
  · intro hv
    refine deleteResourcesLoop_slot b (fun c => c.programId)
      (fun e v => e.2 = .Program ∧ v = e.1) ?_ _ r ?_
    · intro e q hn
      simp only []
      rw [deleteOne_programId, if_neg hn]
    · intro e he h
      exact hv e.1 (by rw [← h.1]; exact he) h.2
  · intro k hv
    refine deleteResourcesLoop_slot b (fun c => c.textureId k)
      (fun e v => e.2 = .Texture ∧ v = e.1) ?_ _ r ?_
    · intro e q hn
      simp only []
      rw [deleteOne_textureId, if_neg]
      exact fun h => hn ⟨h.1, h.2.2⟩
    · intro e he h
      exact hv e.1 (by rw [← h.1]; exact he) h.2
  · exact deleteResourcesLoop_slot b (fun c => c.polygonFillMode) (fun _ _ => False)
      (fun e q _ => (deleteOne_otherSlots b e q).1) _ r (fun _ _ h => h)
  · exact deleteResourcesLoop_slot b (fun c => c.depthMask) (fun _ _ => False)
      (fun e q _ => (deleteOne_otherSlots b e q).2.1) _ r (fun _ _ h => h)
  · exact deleteResourcesLoop_slot b (fun c => c.depthTest) (fun _ _ => False)
      (fun e q _ => (deleteOne_otherSlots b e q).2.2.1) _ r (fun _ _ h => h)
  · exact deleteResourcesLoop_slot b (fun c => c.scissorTest) (fun _ _ => False)
      (fun e q _ => (deleteOne_otherSlots b e q).2.2.2) _ r (fun _ _ h => h)

/-- C27, witness: buffer 4 and texture 3 are deleted while texture 4 is bound to layer 1 and
buffer 3 is the bound array buffer; both slots keep their value. -/
theorem deleteResources_keeps_unrelated_cache_slots_witness :
    desktopBuild.platformAndroid = false ∧
      (deleteResources desktopBuild rendererWithCrossedHandles).stateCache.bufferId
        GL_ARRAY_BUFFER = 3 ∧
      (deleteResources desktopBuild rendererWithCrossedHandles).stateCache.textureId 1 = 4 :=
  ⟨rfl,
    (deleteResources_keeps_unrelated_cache_slots desktopBuild rendererWithCrossedHandles
      rfl).1 GL_ARRAY_BUFFER (by
        intro h hm
        simp [rendererWithCrossedHandles] at hm
        subst hm
        decide),
    (deleteResources_keeps_unrelated_cache_slots desktopBuild rendererWithCrossedHandles
      rfl).2.2.2.2.1 1 (by
        intro h hm
        simp [rendererWithCrossedHandles] at hm
        subst hm
        decide)⟩

/-! ## The row swap: lemmas -/

theorem GLsizei.checked_of_le {v bound : Int} (h0 : 0 ≤ v) (h1 : v ≤ bound)
    (hb : bound < 2147483648) : GLsizei.checked v = some v := by
  unfold GLsizei.checked
  rw [if_pos ⟨by omega, by omega⟩]

theorem forLoop_invariant {σ : Type} (n : Int) (hn : n < 2147483648)
    (body : Int → σ → Option σ) (P : Nat → σ → Prop) (s : σ) (h0 : P 0 s)
    (hstep : ∀ i s, i < n.toNat → P i s → ∃ s', body (i : Int) s = some s' ∧ P (i + 1) s') :
    ∃ s', forLoop n body s = some s' ∧ P n.toNat s' := by
  unfold forLoop
  have key : ∀ k, k ≤ n.toNat →
      ∃ s', (List.range k).foldlM
        (fun s (i : Nat) => (body (i : Int) s).bind fun s1 =>
          (GLsizei.checked ((i : Int) + 1)).bind fun _ => some s1) s = some s' ∧ P k s' := by
    intro k
    induction k with
    | zero => intro _; exact ⟨s, rfl, h0⟩
    | succ k ih =>
      intro hk
      obtain ⟨s1, h1, hp1⟩ := ih (by omega)
      obtain ⟨s2, h2, hp2⟩ := hstep k s1 (by omega) hp1
      refine ⟨s2, ?_, hp2⟩
      have hinc : GLsizei.checked ((k : Int) + 1) = some ((k : Int) + 1) :=
        GLsizei.checked_of_le (by omega) (show (k : Int) + 1 ≤ n by omega) hn
      rw [List.range_succ, List.foldlM_append, h1]
      simp [h2, hinc]
  exact key _ le_rfl

theorem rowOffset_unique {R a b c d : Nat} (hb : b < R) (hd : d < R)
    (h : a * R + b = c * R + d) : a = c ∧ b = d := by
  have hac : a = c := by
    rcases Nat.lt_trichotomy a c with hlt | heq | hgt
    · have : (a + 1) * R ≤ c * R := Nat.mul_le_mul_right R hlt
      rw [Nat.add_mul] at this
      omega
    · exact heq
    · have : (c + 1) * R ≤ a * R := Nat.mul_le_mul_right R hgt
      rw [Nat.add_mul] at this
      omega
  subst hac
  exact ⟨rfl, by omega⟩

theorem rowOffset_lt {H R row off : Nat} (hr : row < H) (ho : off < R) :
    row * R + off < H * R := by
  have : (row + 1) * R ≤ H * R := Nat.mul_le_mul_right R hr
  rw [Nat.add_mul] at this
  omega

theorem RowsSwapped.start_swapped (data : List Nat) (H R : Nat) :
    RowsSwapped data H R 0 data := by
  refine ⟨rfl, ?_⟩
  intro row off _ _
  simp

/-- One pass of the innermost loop body: the swap of byte `o` of row `r` with its mirror
image is defined and moves the swapped state on by one byte. -/
theorem RowsSwapped.swap_step {data : List Nat} {H R r o : Nat} {out : List Nat}
    (hlen : data.length = H * R) (hr : r < H / 2) (ho : o < R)
    (hinv : RowsSwapped data H R (r * R + o) out) :
    ∃ out', swapBytes out (((H - 1 - r) * R + o : Nat) : Int) ((r * R + o : Nat) : Int)
        = some out' ∧ RowsSwapped data H R (r * R + o + 1) out' := by
  obtain ⟨hl, hb⟩ := hinv
  have hrH : r < H := by omega
  have hmH : H - 1 - r < H := by omega
  have hmm : H - 1 - (H - 1 - r) = r := by omega
  have hle : r * R + o ≤ (H - 1 - r) * R + o := by
    have : r * R ≤ (H - 1 - r) * R := Nat.mul_le_mul_right R (by omega)
    omega
  have hne : (H - 1 - r) * R + o ≠ r * R + o := by
    intro h
    have := (rowOffset_unique ho ho h).1
    omega
  have hlo : r * R + o < data.length := hlen ▸ rowOffset_lt hrH ho
  have hhi : (H - 1 - r) * R + o < data.length := hlen ▸ rowOffset_lt hmH ho
  have olo : out[r * R + o]? = some data[r * R + o] := by
    rw [hb r o hrH ho, if_neg (by omega), List.getElem?_eq_getElem hlo]
  have ohi : out[(H - 1 - r) * R + o]? = some data[(H - 1 - r) * R + o] := by
    rw [hb (H - 1 - r) o hmH ho, hmm, if_neg (by omega), List.getElem?_eq_getElem hhi]
  refine ⟨(out.set ((H - 1 - r) * R + o) data[r * R + o]).set (r * R + o)
    data[(H - 1 - r) * R + o], ?_, ?_, ?_⟩
  · unfold swapBytes
    rw [if_pos ⟨Int.natCast_nonneg _, Int.natCast_nonneg _⟩]
    simp only [Int.toNat_natCast, olo, ohi]
  · simp [hl]
  · intro row off hrow hoff
    rw [List.getElem?_set, List.getElem?_set]
    by_cases h1 : r * R + o = row * R + off
    · obtain ⟨e1, e2⟩ := rowOffset_unique ho hoff h1
      subst e1 e2
      rw [if_pos rfl, if_pos (by simp [hl, hlo]), if_pos (Or.inl (by omega)),
        List.getElem?_eq_getElem hhi]
    · rw [if_neg h1]
      by_cases h2 : (H - 1 - r) * R + o = row * R + off
      · obtain ⟨e1, e2⟩ := rowOffset_unique ho hoff h2
        subst e1 e2
        rw [if_pos rfl, if_pos (by rw [hl]; exact hhi), hmm, if_pos (Or.inr (by omega)),
          List.getElem?_eq_getElem hlo]
      · rw [if_neg h2, hb row off hrow hoff]
        have h3 : (H - 1 - row) * R + off ≠ r * R + o := by
          intro h
          obtain ⟨e1, e2⟩ := rowOffset_unique hoff ho h
          subst e2
          have : row = H - 1 - r := by omega
          subst this
          exact h2 rfl
        have hc : (row * R + off < r * R + o + 1 ∨ (H - 1 - row) * R + off < r * R + o + 1) ↔
            (row * R + off < r * R + o ∨ (H - 1 - row) * R + off < r * R + o) := by
          constructor
          · rintro (h | h)
            · exact Or.inl (by omega)
            · exact Or.inr (by omega)
          · rintro (h | h)
            · exact Or.inl (by omega)
            · exact Or.inr (by omega)
        simp only [hc]

theorem RowsSwapped.final_swapped {data : List Nat} {H R : Nat} {out : List Nat}
    (hinv : RowsSwapped data H R (H / 2 * R) out) :
    ∀ row off, row < H → off < R → out[row * R + off]? = data[(H - 1 - row) * R + off]? := by
  intro row off hrow hoff
  rw [hinv.2 row off hrow hoff]
  by_cases h1 : row < H / 2
  · rw [if_pos (Or.inl (rowOffset_lt h1 hoff))]
  · by_cases h2 : H - 1 - row < H / 2
    · rw [if_pos (Or.inr (rowOffset_lt h2 hoff))]
    · have e : H - 1 - row = row := by omega
      rw [e, ite_self]

/-- The index expression of a byte of the picture does not overflow when the size of the
picture is a value of `GLsizei`. -/
theorem byteIndex_cast (W H k c z : Nat) (hk : k < H) (hc : c < W) (hz : z < 4)
    (hfit : H * (W * 4) < 2147483648) :
    byteIndex (W : Int) (k : Int) (c : Int) (z : Int) =
      some ((k * (W * 4) + (c * 4 + z) : Nat) : Int) := by
  have hlt : k * (W * 4) + (c * 4 + z) < H * (W * 4) := rowOffset_lt hk (by omega)
  have e : k * (W * 4) = k * W * 4 := by ring
  have hF : ((k * W + c) * 4 + z : Int) < 2147483648 := by
    have : (k * W + c) * 4 + z < 2147483648 := by omega
    exact_mod_cast this
  have h0 : (0 : Int) ≤ (k : Int) * W := by positivity
  have hc0 : (0 : Int) ≤ c := Int.natCast_nonneg c
  have hz0 : (0 : Int) ≤ z := Int.natCast_nonneg z
  unfold byteIndex screenshotDepth
  rw [GLsizei.checked_of_le h0 (show (k : Int) * W ≤ (k * W + c) * 4 + z by omega) hF,
    Option.some_bind,
    GLsizei.checked_of_le (by omega) (show (k : Int) * W + c ≤ (k * W + c) * 4 + z by omega) hF,
    Option.some_bind,
    GLsizei.checked_of_le (by omega)
      (show ((k : Int) * W + c) * 4 ≤ (k * W + c) * 4 + z by omega) hF,
    Option.some_bind, GLsizei.checked_of_le (by omega) le_rfl hF]
  congr 1
  push_cast
  ring

theorem mirrorRow_cast (H r : Nat) (hr : r < H) (hH : (H : Int) < 2147483648) :
    mirrorRow (H : Int) (r : Int) = some ((H - 1 - r : Nat) : Int) := by
  unfold mirrorRow
  rw [GLsizei.checked_of_le (by omega) (show (H : Int) - r ≤ H by omega) hH, Option.some_bind,
    GLsizei.checked_of_le (by omega) (show (H : Int) - r - 1 ≤ H by omega) hH]
  congr 1
  omega

/-- The three nested loops on natural sizes: the row swap is defined and leaves every row
swapped with its mirror image. -/
theorem generateScreenshotRowSwap_swapped (W H : Nat) (data : List Nat)
    (hlen : data.length = H * (W * 4)) (hW : (W : Int) < 2147483648)
    (hH : (H : Int) < 2147483648) (hfit : H * (W * 4) < 2147483648) :
    ∃ out, generateScreenshotRowSwap (W : Int) (H : Int) data = some out ∧
      RowsSwapped data H (W * 4) (H / 2 * (W * 4)) out := by
  have hdiv : (H : Int).tdiv 2 = ((H / 2 : Nat) : Int) := by
    rw [Int.tdiv_eq_ediv (Int.natCast_nonneg _) (by decide)]
    omega
  unfold generateScreenshotRowSwap
  rw [hdiv]
  have houter := forLoop_invariant ((H / 2 : Nat) : Int) (by omega)
    (fun row data =>
      forLoop (W : Int) (fun col data =>
        forLoop screenshotDepth (fun z data =>
          (mirrorRow (H : Int) row).bind fun above =>
            (byteIndex (W : Int) above col z).bind fun high =>
              (byteIndex (W : Int) row col z).bind fun low =>
                swapBytes data high low) data) data)
    (fun r out => RowsSwapped data H (W * 4) (r * (W * 4)) out) data
    (by simpa using RowsSwapped.start_swapped data H (W * 4))
    (by
      intro r s hr hs
      rw [Int.toNat_natCast] at hr
      have hmid := forLoop_invariant (W : Int) hW
        (fun col data =>
          forLoop screenshotDepth (fun z data =>
            (mirrorRow (H : Int) (r : Int)).bind fun above =>
              (byteIndex (W : Int) above col z).bind fun high =>
                (byteIndex (W : Int) (r : Int) col z).bind fun low =>
                  swapBytes data high low) data)
        (fun c out => RowsSwapped data H (W * 4) (r * (W * 4) + c * 4) out) s
        (by simpa using hs)
        (by
          intro c s hc hs
          rw [Int.toNat_natCast] at hc
          have hin := forLoop_invariant screenshotDepth (by decide)
            (fun z data =>
              (mirrorRow (H : Int) (r : Int)).bind fun above =>
                (byteIndex (W : Int) above (c : Int) z).bind fun high =>
                  (byteIndex (W : Int) (r : Int) (c : Int) z).bind fun low =>
                    swapBytes data high low)
            (fun z out => RowsSwapped data H (W * 4) (r * (W * 4) + (c * 4 + z)) out) s
            (by simpa using hs)
            (by
              intro z s hz hs
              have hz4 : z < 4 := hz
              have hrH : r < H := by omega
              simp only []
              rw [mirrorRow_cast H r hrH hH, Option.some_bind,
                byteIndex_cast W H (H - 1 - r) c z (by omega) hc hz4 hfit, Option.some_bind,
                byteIndex_cast W H r c z hrH hc hz4 hfit, Option.some_bind]
              exact RowsSwapped.swap_step hlen hr (by omega) hs)
          have e4 : screenshotDepth.toNat = 4 := rfl
          rw [e4] at hin
          have e : r * (W * 4) + (c + 1) * 4 = r * (W * 4) + (c * 4 + 4) := by omega
          simp only [e]
          exact hin)
      rw [Int.toNat_natCast] at hmid
      have e : (r + 1) * (W * 4) = r * (W * 4) + W * 4 := by rw [Nat.add_mul, Nat.one_mul]
      simp only [e]
      exact hmid)
  rw [Int.toNat_natCast] at houter
  exact houter

theorem forLoop_first_none {σ : Type} (n : Int) (body : Int → σ → Option σ) (s : σ)
    (hn : 0 < n) (h : body 0 s = none) : forLoop n body s = none := by
  unfold forLoop
  obtain ⟨k, hk⟩ : ∃ k, n.toNat = k + 1 := ⟨n.toNat - 1, by omega⟩
  rw [hk, List.range_succ_eq_map, List.foldlM_cons]
  simp [h]

/-! ## The row swap: results -/

/-- C29 (as stated, refuted): for a picture of 32768 columns and 16385 rows with a buffer of
32768 * 16385 * 4 = 2147614720 bytes, the first index the loop forms, for the byte at row
16385 - 0 - 1 = 16384, column 0, channel 0, is 16384 * 32768 * 4 = 2^31, which is not a value
of `GLsizei`: the index expression overflows and the loop has no defined result. -/
theorem generateScreenshot_row_swap_overflows :
    (wideImage.length : Int) = 32768 * 16385 * 4 ∧
      mirrorRow 16385 0 = some 16384 ∧
      GLsizei.checked (16384 * 32768) = some 536870912 ∧
      GLsizei.checked (536870912 * screenshotDepth) = none ∧
      byteIndex 32768 16384 0 0 = none ∧
      generateScreenshotRowSwap 32768 16385 wideImage = none := by
  have h1 : mirrorRow 16385 0 = some 16384 := by decide
  have h2 : byteIndex 32768 16384 0 0 = none := by decide
  refine ⟨?_, h1, by decide, by decide, h2, ?_⟩
  · rw [wideImage, List.length_replicate]
    rfl
  · unfold generateScreenshotRowSwap
    refine forLoop_first_none _ _ _ (by decide) ?_
    refine forLoop_first_none _ _ _ (by decide) ?_
    refine forLoop_first_none _ _ _ (by decide) ?_
    rw [h1, Option.some_bind, h2]
    rfl

/-- C29 (amended): the row-swap loop of `generateScreenshot` flips the picture vertically
whenever the size of the picture is a value of `GLsizei`. For every `width ≥ 0` and
`height ≥ 0` of type `GLsizei` with `width * height * 4 ≤ 2147483647` and every buffer of
`width * height * 4` bytes, the loop is defined, so no index expression overflows and every
index it touches lies in the buffer; it keeps the size of the buffer; the index of every
`(row, col, z)` lies in the buffer and the byte there is afterwards the original byte at
`(height - 1 - row, col, z)`; the middle row of an odd height is unchanged; and the loop
applied to its own result gives the original buffer back. -/
theorem generateScreenshot_row_swap_flips_vertically (width height : Int) (data : List Nat)
    (hw : 0 ≤ width) (hh : 0 ≤ height) (hwr : width ≤ 2147483647)
    (hhr : height ≤ 2147483647) (hfit : width * height * 4 ≤ 2147483647)
    (hlen : (data.length : Int) = width * height * 4) :
    ∃ out, generateScreenshotRowSwap width height data = some out ∧
      out.length = data.length ∧
      (∀ row col z : Int, 0 ≤ row → row < height → 0 ≤ col → col < width → 0 ≤ z → z < 4 →
        ∃ low high : Nat, byteIndex width row col z = some (low : Int) ∧
          byteIndex width (height - 1 - row) col z = some (high : Int) ∧
          low < data.length ∧ high < data.length ∧ out[low]? = data[high]?) ∧
      (∀ row col z : Int, height = 2 * row + 1 → 0 ≤ col → col < width → 0 ≤ z → z < 4 →
        ∃ low : Nat, byteIndex width row col z = some (low : Int) ∧
          low < data.length ∧ out[low]? = data[low]?) ∧
      generateScreenshotRowSwap width height out = some data := by
  lift width to Nat using hw
  lift height to Nat using hh
  have hlen' : data.length = height * (width * 4) := by
    zify
    rw [hlen]
    ring
  have hfit' : height * (width * 4) < 2147483648 := by
    have : ((height * (width * 4) : Nat) : Int) < 2147483648 := by
      push_cast
      have e : (height : Int) * ((width : Int) * 4) = (width : Int) * height * 4 := by ring
      rw [e]
      omega
    exact_mod_cast this
  have hW : (width : Int) < 2147483648 := by omega
  have hH : (height : Int) < 2147483648 := by omega
  obtain ⟨out, hrun, hinv⟩ :=
    generateScreenshotRowSwap_swapped width height data hlen' hW hH hfit'
  have hout : out.length = data.length := hinv.1
  have hfin := RowsSwapped.final_swapped hinv
  have hflip : ∀ row col z : Int, 0 ≤ row → row < height → 0 ≤ col → col < width → 0 ≤ z →
      z < 4 → ∃ low high : Nat, byteIndex width row col z = some (low : Int) ∧
        byteIndex width (height - 1 - row) col z = some (high : Int) ∧
        low < data.length ∧ high < data.length ∧ out[low]? = data[high]? := by
    intro row col z hr0 hr hc0 hc hz0 hz
    lift row to Nat using hr0
    lift col to Nat using hc0
    lift z to Nat using hz0
    have hr' : row < height := by exact_mod_cast hr
    have hc' : col < width := by exact_mod_cast hc
    have hz' : z < 4 := by exact_mod_cast hz
    have hk : ((height : Int) - 1 - (row : Int)) = ((height - 1 - row : Nat) : Int) := by omega
    have hm : height - 1 - row < height := by omega
    refine ⟨row * (width * 4) + (col * 4 + z), (height - 1 - row) * (width * 4) + (col * 4 + z),
      byteIndex_cast width height row col z hr' hc' hz' hfit', ?_, ?_, ?_,
      hfin row (col * 4 + z) hr' (by omega)⟩
    · rw [hk]
      exact byteIndex_cast width height (height - 1 - row) col z hm hc' hz' hfit'
    · rw [hlen']
      exact rowOffset_lt hr' (by omega)
    · rw [hlen']
      exact rowOffset_lt hm (by omega)
  refine ⟨out, hrun, hout, hflip, ?_, ?_⟩
  · intro row col z hrow hc0 hc hz0 hz
    have hr0 : 0 ≤ row := by omega
    have hr : row < height := by omega
    have e : (height : Int) - 1 - row = row := by omega
    obtain ⟨low, high, h1, h2, h3, _, h5⟩ := hflip row col z hr0 hr hc0 hc hz0 hz
    rw [e, h1] at h2
    have e2 : low = high := by
      have := Option.some.inj h2
      exact_mod_cast this
    subst e2
    exact ⟨low, h1, h3, h5⟩
  · obtain ⟨back, hrun2, hinv2⟩ :=
      generateScreenshotRowSwap_swapped width height out (hout.trans hlen') hW hH hfit'
    have hfin2 := RowsSwapped.final_swapped hinv2
    have hback : back.length = data.length := hinv2.1.trans hout
    rw [hrun2]
    congr 1
    apply List.ext_getElem?
    intro n
    by_cases hn : n < height * (width * 4)
    · have hR : 0 < width * 4 := by
        rcases Nat.eq_zero_or_pos (width * 4) with h0 | h0
        · rw [h0] at hn
          simp at hn
        · exact h0
      have hq : n / (width * 4) < height := (Nat.div_lt_iff_lt_mul hR).2 hn
      have hm : n % (width * 4) < width * 4 := Nat.mod_lt _ hR
      have hn' : n / (width * 4) * (width * 4) + n % (width * 4) = n := Nat.div_add_mod' n _
      have hsub : ∀ q, q < height →
          height - 1 - q < height ∧ height - 1 - (height - 1 - q) = q :=
        fun q h => by omega
      have hmm := (hsub _ hq).2
      have h1 := hfin2 (n / (width * 4)) (n % (width * 4)) hq hm
      have h2 := hfin (height - 1 - n / (width * 4)) (n % (width * 4)) (hsub _ hq).1 hm
      rw [hmm] at h2
      rw [hn'] at h1 h2
      rw [h1, h2]
    · rw [List.getElem?_eq_none (by omega), List.getElem?_eq_none (by omega)]

/-- C29, witness: a picture of two columns and three rows; the rows come out in the opposite
order. -/
theorem generateScreenshot_row_swap_flips_vertically_witness :
    generateScreenshotRowSwap 2 3 sampleImage =
        some [16, 17, 18, 19, 20, 21, 22, 23, 8, 9, 10, 11, 12, 13, 14, 15,
          0, 1, 2, 3, 4, 5, 6, 7] ∧
      ∃ out, generateScreenshotRowSwap 2 3 sampleImage = some out ∧
        out.length = sampleImage.length ∧
        (∀ row col z : Int, 0 ≤ row → row < 3 → 0 ≤ col → col < 2 → 0 ≤ z → z < 4 →
          ∃ low high : Nat, byteIndex 2 row col z = some (low : Int) ∧
            byteIndex 2 (3 - 1 - row) col z = some (high : Int) ∧
            low < sampleImage.length ∧ high < sampleImage.length ∧
            out[low]? = sampleImage[high]?) ∧
        (∀ row col z : Int, 3 = 2 * row + 1 → 0 ≤ col → col < 2 → 0 ≤ z → z < 4 →
          ∃ low : Nat, byteIndex 2 row col z = some (low : Int) ∧
            low < sampleImage.length ∧ out[low]? = sampleImage[low]?) ∧
        generateScreenshotRowSwap 2 3 out = some sampleImage :=
  ⟨by decide,
    generateScreenshot_row_swap_flips_vertically 2 3 sampleImage (by decide) (by decide)
      (by decide) (by decide) (by decide) (by decide)⟩

end graphics

namespace audio

/-! ## Object ids of the audio mixer: lemmas and results -/

theorem mem_setInsert (x y : Nat) (l : List Nat) : y ∈ setInsert x l ↔ y = x ∨ y ∈ l := by
  induction l with
  | nil => simp [setInsert]
  | cons z zs ih =>
    unfold setInsert
    split
    · simp
    · split
      · rename_i h
        subst h
        simp
      · simp [ih]
        tauto

theorem Mixer.Session.run_cons (bits : Nat) (s : Mixer.Session) (c : Mixer.Call)
    (calls : List Mixer.Call) : s.run bits (c :: calls) = (s.step bits c).run bits calls := rfl

theorem Mixer.Session.run_append (bits : Nat) (s : Mixer.Session) (pre post : List Mixer.Call) :
    s.run bits (pre ++ post) = (s.run bits pre).run bits post := by
  unfold Mixer.Session.run
  rw [List.foldl_append]

theorem Mixer.Session.run_gets (bits : Nat) (n : Nat) :
    (Mixer.Session.fresh.run bits (List.replicate n .getObjectId)).mixer =
        { lastObjectId := n % 2 ^ bits, deletedObjectIds := [] } ∧
      (Mixer.Session.fresh.run bits (List.replicate n .getObjectId)).returned =
        (List.range n).map fun i => (i + 1) % 2 ^ bits := by
  induction n with
  | zero =>
    refine ⟨?_, rfl⟩
    show Mixer.new = _
    simp [Mixer.new, Nat.zero_mod]
  | succ n ih =>
    rw [List.replicate_succ', Mixer.Session.run_append]
    obtain ⟨h1, h2⟩ := ih
    generalize Mixer.Session.fresh.run bits (List.replicate n .getObjectId) = s at h1 h2
    obtain ⟨m, returned, live⟩ := s
    simp only [] at h1 h2
    subst h1 h2
    simp [Mixer.Session.run, Mixer.Session.step, Mixer.getObjectId, List.range_succ]

theorem Mixer.Session.step_noZero {bits : Nat} {s : Mixer.Session} (c : Mixer.Call)
    (hc : c ≠ .deleteObjectId 0) (ho : Mixer.Session.noOverflow bits s [c] = true)
    (hs : 0 ∉ s.mixer.deletedObjectIds ∧ ∀ id ∈ s.returned, id ≠ 0) :
    0 ∉ (s.step bits c).mixer.deletedObjectIds ∧ ∀ id ∈ (s.step bits c).returned, id ≠ 0 := by
  obtain ⟨hdel, hret⟩ := hs
  cases c with
  | getObjectId =>
    simp only [Mixer.Session.noOverflow, Bool.and_true, Bool.decide_eq_true] at ho
    unfold Mixer.Session.step Mixer.getObjectId
    cases hq : s.mixer.deletedObjectIds with
    | nil =>
      have hlt : s.mixer.lastObjectId + 1 < 2 ^ bits := by simpa [hq] using ho
      have hmod : (s.mixer.lastObjectId + 1) % 2 ^ bits = s.mixer.lastObjectId + 1 :=
        Nat.mod_eq_of_lt hlt
      simp only [hmod]
      refine ⟨by simp [hq], ?_⟩
      intro id hid
      rcases List.mem_append.1 hid with h | h
      · exact hret id h
      · simp only [List.mem_singleton] at h
        omega
    | cons d rest =>
      rw [hq] at hdel
      simp only []
      refine ⟨fun h => hdel (List.mem_cons_of_mem _ h), ?_⟩
      intro id hid
      rcases List.mem_append.1 hid with h | h
      · exact hret id h
      · simp only [List.mem_singleton] at h
        intro h0
        exact hdel (by rw [← h0, h]; exact List.mem_cons_self _ _)
  | deleteObjectId objectId =>
    unfold Mixer.Session.step Mixer.deleteObjectId
    simp only []
    refine ⟨?_, hret⟩
    intro h
    rcases (mem_setInsert _ _ _).1 h with h | h
    · exact hc (by rw [h])
    · exact hdel h

theorem Mixer.Session.run_noZero (bits : Nat) (calls : List Mixer.Call) :
    ∀ s : Mixer.Session, (∀ c ∈ calls, c ≠ .deleteObjectId 0) →
      Mixer.Session.noOverflow bits s calls = true →
      (0 ∉ s.mixer.deletedObjectIds ∧ ∀ id ∈ s.returned, id ≠ 0) →
      ∀ id ∈ (s.run bits calls).returned, id ≠ 0 := by
  induction calls with
  | nil => intro s _ _ hs; exact hs.2
  | cons c rest ih =>
    intro s hz ho hs
    rw [Mixer.Session.run_cons]
    have hstep : Mixer.Session.noOverflow bits s [c] = true ∧
        Mixer.Session.noOverflow bits (s.step bits c) rest = true := by
      cases c with
      | getObjectId =>
        simp only [Mixer.Session.noOverflow, Bool.and_eq_true] at ho
        exact ⟨by simp only [Mixer.Session.noOverflow, Bool.and_true]; exact ho.1, ho.2⟩
      | deleteObjectId objectId =>
        simp only [Mixer.Session.noOverflow] at ho
        exact ⟨by simp [Mixer.Session.noOverflow], ho⟩
    exact ih _ (fun d hd => hz d (List.mem_cons_of_mem _ hd)) hstep.2
      (Mixer.Session.step_noZero c (hz c (List.mem_cons_self _ _)) hstep.1 hs)

/-- C21 (as stated, refuted): on a fresh mixer, `deleteObjectId(0)` followed by `getObjectId()`
returns 0; and among 2^64 consecutive `getObjectId()` calls with a 64-bit `uintptr_t` one
returns 0, when the counter wraps around. -/
theorem getObjectId_returns_zero_after_deleting_zero :
    (Mixer.Session.fresh.run 64 [.deleteObjectId 0, .getObjectId]).returned = [0] ∧
      0 ∈ (Mixer.Session.fresh.run 64 (List.replicate (2 ^ 64) .getObjectId)).returned := by
  refine ⟨by decide, ?_⟩
  rw [(Mixer.Session.run_gets 64 (2 ^ 64)).2]
  exact List.mem_map.2 ⟨2 ^ 64 - 1, List.mem_range.2 (by norm_num), by norm_num⟩

/-- C21 (amended): for every sequence of `getObjectId` and `deleteObjectId` calls on a fresh
mixer in which `deleteObjectId` is never called with 0 and the counter does not overflow,
`getObjectId` never returns 0. -/
theorem getObjectId_never_returns_zero (bits : Nat) (calls : List Mixer.Call)
    (hz : ∀ c ∈ calls, c ≠ .deleteObjectId 0)
    (ho : Mixer.Session.noOverflow bits Mixer.Session.fresh calls = true) :
    ∀ id ∈ (Mixer.Session.fresh.run bits calls).returned, id ≠ 0 :=
  Mixer.Session.run_noZero bits calls Mixer.Session.fresh hz ho
    ⟨by simp [Mixer.Session.fresh, Mixer.new], by simp [Mixer.Session.fresh]⟩

/-- C21, witness: two ids are handed out, the first is deleted and handed out again. -/
theorem getObjectId_never_returns_zero_witness :
    ((∀ c ∈ [Mixer.Call.getObjectId, .getObjectId, .deleteObjectId 1, .getObjectId],
        c ≠ .deleteObjectId 0) ∧
      Mixer.Session.noOverflow 64 Mixer.Session.fresh
        [.getObjectId, .getObjectId, .deleteObjectId 1, .getObjectId] = true) ∧
    ∀ id ∈ (Mixer.Session.fresh.run 64
      [.getObjectId, .getObjectId, .deleteObjectId 1, .getObjectId]).returned, id ≠ 0 :=
  ⟨by decide,
    getObjectId_never_returns_zero 64
      [.getObjectId, .getObjectId, .deleteObjectId 1, .getObjectId] (by decide) (by decide)⟩

end audio

end ouzel
